import Mathlib

/-!
# OpenIPMI entity registry: a shallow embedding of `lib/entity.c`

The development follows the C source function by function.  Entities are
heap objects in C; here the heap is a list of cells indexed by address,
and the registry collection is the list of the addresses of its members
in the order of the locked list.  Calls to the registered update handlers
and to the callback of `ipmi_entity_pointer_cb` are recorded in logs.
Results of allocation attempts and of `stop_timer` are read from oracles
stored in the state, so that failure paths can be exercised.  Locks are
not modelled: every function is taken as one atomic step.
-/

namespace OpenIPMI

/-! ## Constants and machine integers -/

/-- Value of errno ENOMEM. -/
def ENOMEM : Nat := 12

/-- Value of errno ENODEV. -/
def ENODEV : Nat := 19

/-- Value of errno EINVAL. -/
def EINVAL : Nat := 22

/-- Capacity of the textual id buffer, `ENTITY_ID_LEN`. -/
def ENTITY_ID_LEN : Nat := 32

/-- Conversion of a C `int` to `uint8_t` on assignment. -/
def u8 (x : Int) : Nat := (x % 256).toNat

/-- Decrement of an `unsigned int`. -/
def u32_dec (x : Nat) : Nat := (x + 4294967295) % 4294967296

/-- Increment of an `unsigned int`. -/
def u32_inc (x : Nat) : Nat := (x + 1) % 4294967296

/-! ## Data model -/

/-- The struct `ipmi_device_num_t`: two `unsigned char` fields. -/
structure ipmi_device_num_t where
  channel : Nat
  address : Nat
deriving DecidableEq, Repr

/-- The struct `dlr_ref_t`. -/
structure dlr_ref_t where
  device_num : ipmi_device_num_t
  entity_id : Nat
  entity_instance : Nat
deriving DecidableEq, Repr

/-- Modelled from the spec: the enum `ipmi_dlr_type_e` of the record
types (Unknown, MC, FRU, Generic, EntityAssociation,
DeviceRelativeEntityAssociation); its declaration is in a header, where
`IPMI_ENTITY_UNKNOWN` comes first, so it is the value a zeroed record
has. -/
inductive ipmi_dlr_type_e where
  | IPMI_ENTITY_UNKNOWN
  | IPMI_ENTITY_MC
  | IPMI_ENTITY_FRU
  | IPMI_ENTITY_GENERIC
  | IPMI_ENTITY_EAR
  | IPMI_ENTITY_DREAR
deriving DecidableEq, Repr

open ipmi_dlr_type_e

/-- Modelled from the spec: the enum `ipmi_update_e` passed to update
handlers (Added, Deleted, Changed); its declaration is in a header. -/
inductive ipmi_update_e where
  | IPMI_ADDED
  | IPMI_DELETED
  | IPMI_CHANGED
deriving DecidableEq, Repr

open ipmi_update_e

/-- Modelled from the spec: the value of `IPMI_ASCII_STR` in the enum
`ipmi_str_type_e` of the type tags of a textual id; its declaration is in
a header. -/
def IPMI_ASCII_STR : Nat := 0

/-- The struct `dlr_info_t`, field by field.  Function pointers are
numbers, 0 standing for NULL. -/
structure dlr_info_t where
  type : ipmi_dlr_type_e
  output_handler : Nat
  device_num : ipmi_device_num_t
  access_address : Nat
  fru_device_id : Nat
  is_logical_fru : Nat
  lun : Nat
  private_bus_id : Nat
  channel : Nat
  slave_address : Nat
  oem : Nat
  entity_id : Nat
  entity_instance : Nat
  device_type : Nat
  device_type_modifier : Nat
  id_len : Nat
  id_type : Nat
  id : List Nat
  ACPI_system_power_notify_required : Nat
  ACPI_device_power_notify_required : Nat
  controller_logs_init_agent_errors : Nat
  log_init_agent_errors_accessing : Nat
  global_init : Nat
  chassis_device : Nat
  bridge : Nat
  IPMB_event_generator : Nat
  IPMB_event_receiver : Nat
  FRU_inventory_device : Nat
  SEL_device : Nat
  SDR_repository_device : Nat
  sensor_device : Nat
  address_span : Nat
  is_list : Nat
  linked : Nat
  is_ranges : Nat
  linked_ear_exists : Nat
  presence_sensor_always_there : Nat
  contained_entities : List dlr_ref_t
deriving DecidableEq, Repr

/-- A zeroed `dlr_ref_t`. -/
def dlr_ref_zero : dlr_ref_t :=
  { device_num := { channel := 0, address := 0 }, entity_id := 0, entity_instance := 0 }

/-- The record `memset(info, 0, sizeof(dlr_info_t))` leaves behind. -/
def dlr_zero : dlr_info_t :=
  { type := IPMI_ENTITY_UNKNOWN, output_handler := 0,
    device_num := { channel := 0, address := 0 },
    access_address := 0, fru_device_id := 0, is_logical_fru := 0, lun := 0,
    private_bus_id := 0, channel := 0, slave_address := 0, oem := 0,
    entity_id := 0, entity_instance := 0, device_type := 0,
    device_type_modifier := 0, id_len := 0, id_type := 0,
    id := List.replicate 32 0,
    ACPI_system_power_notify_required := 0,
    ACPI_device_power_notify_required := 0,
    controller_logs_init_agent_errors := 0,
    log_init_agent_errors_accessing := 0, global_init := 0,
    chassis_device := 0, bridge := 0, IPMB_event_generator := 0,
    IPMB_event_receiver := 0, FRU_inventory_device := 0, SEL_device := 0,
    SDR_repository_device := 0, sensor_device := 0, address_span := 0,
    is_list := 0, linked := 0, is_ranges := 0, linked_ear_exists := 0,
    presence_sensor_always_there := 0,
    contained_entities := List.replicate 4 dlr_ref_zero }

/-- Modelled from the spec: the enum `ipmi_hot_swap_states` (NotPresent,
Inactive, ActivationRequested, ActivationInProgress, Active,
DeactivationRequested, DeactivationInProgress, OutOfCon); its declaration
is in a header.  NotPresent comes first: it is the state of a zeroed
entity. -/
inductive ipmi_hot_swap_states where
  | IPMI_HOT_SWAP_NOT_PRESENT
  | IPMI_HOT_SWAP_INACTIVE
  | IPMI_HOT_SWAP_ACTIVATION_REQUESTED
  | IPMI_HOT_SWAP_ACTIVATION_IN_PROGRESS
  | IPMI_HOT_SWAP_ACTIVE
  | IPMI_HOT_SWAP_DEACTIVATION_REQUESTED
  | IPMI_HOT_SWAP_DEACTIVATION_IN_PROGRESS
  | IPMI_HOT_SWAP_OUT_OF_CON
deriving DecidableEq, Repr

open ipmi_hot_swap_states

/-- Modelled from the spec: the struct `ipmi_entity_hot_swap_t`, the table
of hot-swap callbacks; its declaration is in a header, the fields are the
ones the source reads.  Function pointers are numbers, 0 standing for
NULL. -/
structure ipmi_entity_hot_swap_t where
  get_hot_swap_state : Nat := 0
  set_auto_activate : Nat := 0
  get_auto_activate : Nat := 0
  set_auto_deactivate : Nat := 0
  get_auto_deactivate : Nat := 0
  set_activation_requested : Nat := 0
  activate : Nat := 0
  deactivate : Nat := 0
  get_hot_swap_indicator : Nat := 0
  set_hot_swap_indicator : Nat := 0
  get_hot_swap_requester : Nat := 0
  check_hot_swap_state : Nat := 0
deriving DecidableEq, Repr

/-- Modelled from the spec: the value of `IPMI_TIMEOUT_FOREVER`, the
duration that stands for "never"; its declaration is in a header. -/
def IPMI_TIMEOUT_FOREVER : Int := -1

/-- Modelled from the spec: the value of `IPMI_TIMEOUT_NOW`, the zero
duration; its declaration is in a header. -/
def IPMI_TIMEOUT_NOW : Int := 0

/-- The part of the struct `ipmi_entity_s` the registry, the reference
counts, the reconciliation, the presence detection and the hot-swap
machine use.  The four sub-collections hold the addresses of their
members; pointers to sensors and controls are `none` for NULL.  The
fields after `sdr_gen_cb_data` have the value of zeroed memory unless
they are given. -/
structure ipmi_entity_t where
  domain_id : Nat
  seq : Nat
  usecount : Int
  destroyed : Bool
  info : dlr_info_t
  ref_count : Nat
  child_entities : List Nat
  parent_entities : List Nat
  sensors : List Nat
  controls : List Nat
  present : Bool
  presence_possibly_changed : Bool
  running_timer_count : Nat
  hot_swap_act_timer_running : Bool
  hot_swap_deact_timer_running : Bool
  waitq_in_progress : Bool
  frudev_present : Bool
  frudev_active : Bool
  frudev_mc : Nat
  sdr_gen_output : Nat
  sdr_gen_cb_data : Nat
  presence_sensor : Option Nat := none
  presence_bit_sensor : Option Nat := none
  presence_bit_offset : Int := 0
  presence_event_count : Nat := 0
  hot_swap_requester : Option Nat := none
  hot_swap_offset : Int := 0
  hot_swap_requesting_val : Int := 0
  hot_swap_state : ipmi_hot_swap_states := IPMI_HOT_SWAP_NOT_PRESENT
  hot_swap_power : Option Nat := none
  hot_swap_indicator : Option Nat := none
  hot_swap_ind_act : Int := 0
  hot_swap_ind_req_act : Int := 0
  hot_swap_ind_req_deact : Int := 0
  hot_swap_ind_inact : Int := 0
  hot_swap_act_timeout : Int := 0
  hot_swap_deact_timeout : Int := 0
  fru : Option Nat := none
  hot_swappable : Int := 0
  hs_cb : ipmi_entity_hot_swap_t := {}
deriving DecidableEq, Repr

/-- The struct `entity_found_t`; `cent` holds the `cent_next` used slots
of the child array and `cent_len` is its capacity. -/
structure entity_found_t where
  found : Bool
  ent : Option Nat
  cent : List Nat
  cent_len : Nat
deriving DecidableEq, Repr

/-- The struct `entity_sdr_info_t` restricted to its `next` used slots. -/
structure entity_sdr_info_t where
  found : List entity_found_t
  dlrs : List dlr_info_t
deriving DecidableEq, Repr

/-- What the environment answers when a management controller is looked
up and monitored during the commit of a scan. -/
structure mc_reply_t where
  find_or_create_rv : Nat
  mc : Nat
  add_active_handler_rv : Nat
  is_active : Bool
deriving DecidableEq, Repr

/-- An asynchronous request to the sensor or control layer. -/
inductive request_e where
  | states_get (sensor : Nat)
  | reading_get (sensor : Nat)
  | control_get_val (control : Nat)
  | control_set_val (control : Nat) (val : Int)
deriving DecidableEq, Repr

/-- The function of the source a request completes with.  `no_callback`
stands for a NULL completion function; the argument of the last five is
the function of the user that the callback data of the request names. -/
inductive callback_e where
  | states_read
  | states_bit_read
  | detect_reading_read
  | detect_states_read
  | check_power
  | check_requester
  | power_checked
  | requester_checked
  | indicator_change
  | no_callback
  | hot_swap_power_on
  | hot_swap_power_off
  | hot_swap_power_on_cb (handler : Nat)
  | hot_swap_power_off_cb (handler : Nat)
  | got_hot_swap_ind (handler : Nat)
  | set_hot_swap_ind (handler : Nat)
  | got_hot_swap_req (handler : Nat)
deriving DecidableEq, Repr

/-- A request that was accepted by the sensor or control layer, with its
completion function and the entity its callback data names. -/
structure request_t where
  req : request_e
  cb : callback_e
  ent : Nat
deriving DecidableEq, Repr

/-- The calls that leave the entity layer during presence detection and
hot-swap handling, in the order they are made: rounds of the presence
handlers of an entity (with the `present` argument), rounds of its
hot-swap handlers (last and current state), rounds of its FRU handlers,
FRU fetches, timers started (the flag is true for the activation timer),
accepted requests, and events handed to `ipmi_handle_unhandled_event`.
`external_calls` records calls through an entry of a hot-swap table
that is not a function of this file (the function pointer and the
entity).  `claims` and `request_rvs` are oracles: the next answer of
`claims` tells whether a handler of the next round of presence or
hot-swap handlers returns `IPMI_EVENT_HANDLED` (no handler does once the
oracle is exhausted), the next answer of `request_rvs` is the value the
sensor, control or FRU layer returns for the next request (0, accepted,
once the oracle is exhausted). -/
structure trace_t where
  presence_calls : List (Nat × Bool) := []
  hot_swap_calls : List (Nat × ipmi_hot_swap_states × ipmi_hot_swap_states) := []
  fru_calls : List (ipmi_update_e × Nat) := []
  fru_fetches : List Nat := []
  timer_starts : List (Nat × Bool) := []
  requests : List request_t := []
  unhandled_events : List Nat := []
  external_calls : List (Nat × Nat) := []
  claims : List Bool := []
  request_rvs : List Nat := []
deriving DecidableEq, Repr

/-- One domain.  `heap` holds the entity stored at each address (`none`
for an address that holds no live entity), `entities` is the collection
`ents->entities` of the registry, `events` and `handler_calls` are the
logs, `allocs` and `timer_stops` the oracles, `sdr_entities` the scan
state remembered per management controller, `trace` the log of presence
detection and hot-swap handling. -/
structure World where
  heap : List (Option ipmi_entity_t)
  entities : List Nat
  domain_id : Nat
  events : List (ipmi_update_e × Nat)
  handler_calls : List Nat
  next_seq : Nat
  allocs : List Bool
  timer_stops : List Nat
  sdr_entities : List (Nat × entity_sdr_info_t)
  mc_scans : List (Nat × Nat)
  trace : trace_t := {}
deriving DecidableEq, Repr

/-- A registry with no entity, as `ipmi_entity_info_alloc` returns it. -/
def World.empty (domain_id : Nat) : World :=
  { heap := [], entities := [], domain_id := domain_id, events := [],
    handler_calls := [], next_seq := 1, allocs := [], timer_stops := [],
    sdr_entities := [], mc_scans := [] }

/-! ## Heap -/

/-- The entity stored at address `p`, if any. -/
def deref (w : World) (p : Nat) : Option ipmi_entity_t :=
  match w.heap[p]? with
  | some c => c
  | none => none

/-- Write through the pointer `p`: the object at that address, if there
is one, is replaced by `f` of it. -/
def modify (w : World) (p : Nat) (f : ipmi_entity_t → ipmi_entity_t) : World :=
  match deref w p with
  | some e => { w with heap := w.heap.set p (some (f e)) }
  | none => w

/-- Release of the memory at address `p`. -/
def mem_free (w : World) (p : Nat) : World :=
  { w with heap := w.heap.set p none }

/-! ## Environment -/

/-- Modelled from the spec: one allocation attempt (`ipmi_mem_alloc`,
`locked_list_alloc`, `opq_alloc`, `ipmi_create_lock`, `alloc_timer`,
`locked_list_add`, `locked_list_alloc_entry`), which may fail with
OutOfMemory: the next answer of the oracle, success once the oracle is
exhausted. -/
def take_alloc (w : World) : Bool × World :=
  match w.allocs with
  | [] => (true, w)
  | b :: rest => (b, { w with allocs := rest })

/-- A run of `n` allocation attempts that stops at the first failure. -/
def take_allocs : Nat → World → Bool × World
  | 0, w => (true, w)
  | n + 1, w =>
    match take_alloc w with
    | (true, w1) => take_allocs n w1
    | (false, w1) => (false, w1)

/-- Modelled from the spec: the result of one `os_hnd->stop_timer` call of
the timer abstraction, a non-blocking stop that may fail; 0 once the
oracle is exhausted. -/
def stop_timer (w : World) : Nat × World :=
  match w.timer_stops with
  | [] => (0, w)
  | r :: rest => (r, { w with timer_stops := rest })

/-- Modelled from the spec: `ipmi_get_seq`, the source of the
monotonically increasing sequence number assigned at creation. -/
def ipmi_get_seq (w : World) : Nat × World :=
  (w.next_seq, { w with next_seq := w.next_seq + 1 })

/-! ## Locked collection -/

/-- Modelled from the spec: insertion into a locked collection, which the
spec describes as a set: a member is not inserted a second time, a new
member goes to the tail. -/
def locked_list_add (l : List Nat) (p : Nat) : List Nat :=
  if p ∈ l then l else l ++ [p]

/-- Modelled from the spec: removal of a member from a locked collection. -/
def locked_list_remove (l : List Nat) (p : Nat) : List Nat :=
  l.filter (fun q => q != p)

/-! ## Update handlers -/

/-- The function `call_entity_update_handlers`: one notification round to
the registered update handlers, recorded in the event log. -/
def call_entity_update_handlers (w : World) (p : Nat) (op : ipmi_update_e) : World :=
  { w with events := w.events ++ [(op, p)] }

/-! ## Allocation and destruction -/

/-- The function `entity_final_destroy`: frees the entity unless a timer
is running, an operation is queued or in flight, or an edge remains. -/
def entity_final_destroy (w : World) (p : Nat) : World :=
  match deref w p with
  | none => w
  | some ent =>
    if ent.running_timer_count != 0 || ent.waitq_in_progress
        || ent.child_entities.length != 0 || ent.parent_entities.length != 0 then
      w
    else mem_free w p

/-- One of the two timer blocks of `destroy_entity`. -/
def destroy_timer (w : World) (p : Nat) (running : Bool) : World :=
  if running then
    match stop_timer w with
    | (rv, w1) =>
      if rv = 0 then
        modify w1 p (fun e => { e with running_timer_count := u32_dec e.running_timer_count })
      else w1
  else w

/-- The function `destroy_entity`. -/
def destroy_entity (w : World) (p : Nat) : World :=
  match deref w p with
  | none => w
  | some ent =>
    let w0 := modify w p (fun e => { e with destroyed := true })
    let w1 := destroy_timer w0 p ent.hot_swap_act_timer_running
    let w2 := destroy_timer w1 p ent.hot_swap_deact_timer_running
    entity_final_destroy w2 p

/-- The readiness test at the head of `cleanup_entity`. -/
def cleanup_ready (ent : ipmi_entity_t) : Bool :=
  !(ent.ref_count != 0
    || ent.child_entities.length != 0
    || ent.parent_entities.length != 0
    || ent.sensors.length != 0
    || ent.controls.length != 0)

/-- The function `cleanup_entity`: returns true if the entity was really
deleted. -/
def cleanup_entity (w : World) (p : Nat) : Bool × World :=
  match deref w p with
  | none => (false, w)
  | some ent =>
    if cleanup_ready ent then
      let w0 := modify w p (fun e => { e with destroyed := true })
      let w1 := call_entity_update_handlers w0 p IPMI_DELETED
      let w2 := { w1 with entities := locked_list_remove w1.entities p }
      (true, destroy_entity w2 p)
    else (false, w)

/-! ## Adding, removing and searching entities -/

/-- The function `_ipmi_entity_get`. -/
def _ipmi_entity_get (w : World) (p : Nat) : World :=
  modify w p (fun e => { e with usecount := e.usecount + 1 })

/-- The function `_ipmi_entity_put`.  An address that holds no entity
leaves the state as it is. -/
def _ipmi_entity_put (w : World) (p : Nat) : World :=
  match deref w p with
  | none => w
  | some ent =>
    if ent.usecount = 1 then
      match cleanup_entity w p with
      | (true, w1) => w1
      | (false, w1) => modify w1 p (fun e => { e with usecount := e.usecount - 1 })
    else modify w p (fun e => { e with usecount := e.usecount - 1 })

/-- The struct `search_info_t` without its result field. -/
structure search_info_t where
  device_num : ipmi_device_num_t
  entity_id : Nat
  entity_instance : Nat
deriving DecidableEq, Repr

/-- The test `same` of `search_entity`. -/
def search_entity (ent : ipmi_entity_t) (info : search_info_t) : Bool :=
  ent.info.device_num.channel == info.device_num.channel
    && ent.info.device_num.address == info.device_num.address
    && ent.info.entity_id == info.entity_id
    && ent.info.entity_instance == info.entity_instance

/-- Whether the entity at address `p` passes the test of `search_entity`. -/
def search_at (w : World) (info : search_info_t) (p : Nat) : Bool :=
  match deref w p with
  | some e => search_entity e info
  | none => false

/-- The iteration of `search_entity` over the collection: it stops at the
first entity that is the same and yields its address. -/
def search_entities (w : World) (info : search_info_t) : Option Nat :=
  w.entities.find? (search_at w info)

/-- The initialiser of `search_info_t` in `entity_find`: the two `int`
arguments are stored in `uint8_t` fields. -/
def search_info_of (device_num : ipmi_device_num_t) (entity_id entity_instance : Int) :
    search_info_t :=
  { device_num := device_num, entity_id := u8 entity_id,
    entity_instance := u8 entity_instance }

/-- The function `entity_find`: return value, `*found_ent`, new state. -/
def entity_find (w : World) (device_num : ipmi_device_num_t)
    (entity_id entity_instance : Int) : Nat × Option Nat × World :=
  match search_entities w (search_info_of device_num entity_id entity_instance) with
  | none => (ENODEV, none, w)
  | some p => (0, some p, modify w p (fun e => { e with usecount := e.usecount + 1 }))

/-- The entity `entity_add` builds before inserting it: zeroed memory
plus the assignments of the source. -/
def new_entity (w : World) (seq : Nat) (device_num : ipmi_device_num_t)
    (entity_id entity_instance : Int) (sdr_gen_output sdr_gen_cb_data : Nat) :
    ipmi_entity_t :=
  { domain_id := w.domain_id, seq := seq, usecount := 1,
    destroyed := false,
    info := { dlr_zero with
      type := IPMI_ENTITY_UNKNOWN, device_num := device_num,
      entity_id := u8 entity_id, entity_instance := u8 entity_instance,
      id_type := IPMI_ASCII_STR },
    ref_count := 0, child_entities := [], parent_entities := [],
    sensors := [], controls := [], present := false,
    presence_possibly_changed := true, running_timer_count := 0,
    hot_swap_act_timer_running := false, hot_swap_deact_timer_running := false,
    waitq_in_progress := false, frudev_present := false, frudev_active := false,
    frudev_mc := 0, sdr_gen_output := sdr_gen_output,
    sdr_gen_cb_data := sdr_gen_cb_data,
    presence_sensor := none, presence_bit_sensor := none,
    hot_swap_act_timeout := IPMI_TIMEOUT_FOREVER,
    hot_swap_deact_timeout := IPMI_TIMEOUT_FOREVER }

/-- The function `entity_add`: return value, `*new_ent`, new state.  The
entity itself is the first allocation; fourteen more follow (six
collections, the operation queue, three handler lists, the timer lock,
two timers, the collection entry), each of which ends the call with
ENOMEM when it fails.  A new entity gets the first address past the
heap; being a fresh object it is not yet a member of the collection, so
`locked_list_add` puts it at the tail. -/
def entity_add (w : World) (device_num : ipmi_device_num_t)
    (entity_id entity_instance : Int) (sdr_gen_output sdr_gen_cb_data : Nat) :
    Nat × Option Nat × World :=
  match entity_find w device_num entity_id entity_instance with
  | (0, some p, w1) =>
    if sdr_gen_output != 0 then
      (0, some p, modify w1 p (fun e =>
        { e with sdr_gen_output := sdr_gen_output, sdr_gen_cb_data := sdr_gen_cb_data }))
    else (0, some p, w1)
  | (_, _, w1) =>
    match take_alloc w1 with
    | (false, w2) => (ENOMEM, none, w2)
    | (true, w2) =>
      match ipmi_get_seq w2 with
      | (seq, w3) =>
        match take_allocs 14 w3 with
        | (false, w4) => (ENOMEM, none, w4)
        | (true, w4) =>
          let p := w4.heap.length
          let ent := new_entity w4 seq device_num entity_id entity_instance
            sdr_gen_output sdr_gen_cb_data
          let w5 := { w4 with heap := w4.heap ++ [some ent],
                              entities := w4.entities ++ [p] }
          (0, some p, call_entity_update_handlers w5 p IPMI_ADDED)

/-- The function `ipmi_entity_set_id` (the derived display name is not
modelled). -/
def ipmi_entity_set_id (ent : ipmi_entity_t) (id : List Nat) (type length : Nat) :
    ipmi_entity_t :=
  let len := if length > ENTITY_ID_LEN then ENTITY_ID_LEN else length
  { ent with info := { ent.info with
      id := id.take len ++ ent.info.id.drop len, id_type := type, id_len := len } }

/-- The function `ipmi_entity_add`: return value, `*new_ent`, new state. -/
def ipmi_entity_add (w : World) (mc_channel mc_slave_addr : Nat)
    (entity_id entity_instance : Int) (id : List Nat) (id_type id_len : Nat)
    (sdr_gen_output sdr_gen_cb_data : Nat) : Nat × Option Nat × World :=
  let device_num : ipmi_device_num_t :=
    if entity_instance ≥ 0x60 then { channel := mc_channel, address := mc_slave_addr }
    else { channel := 0, address := 0 }
  match entity_add w device_num entity_id entity_instance sdr_gen_output sdr_gen_cb_data with
  | (0, some p, w1) =>
    (0, some p, modify w1 p (fun e =>
      if e.info.id_len = 0 then ipmi_entity_set_id e id id_type id_len else e))
  | (_, _, w1) => (0, none, w1)

/-! ## Entity handles -/

/-- Modelled from the spec: the struct `ipmi_entity_id_t`, the entity
handle (domain identifier, entity_id, entity_instance, channel, address,
sequence); its declaration is in a header. -/
structure ipmi_entity_id_t where
  domain_id : Nat
  entity_id : Nat
  entity_instance : Nat
  channel : Nat
  address : Nat
  seq : Nat
deriving DecidableEq, Repr

/-- The function `ipmi_entity_convert_to_id`. -/
def ipmi_entity_convert_to_id (ent : ipmi_entity_t) : ipmi_entity_id_t :=
  { domain_id := ent.domain_id, entity_id := ent.info.entity_id,
    entity_instance := ent.info.entity_instance,
    channel := ent.info.device_num.channel,
    address := ent.info.device_num.address, seq := ent.seq }

/-- The function `domain_cb`: the value left in `info->err` and the new
state; the call of `info->handler` is recorded in `handler_calls`. -/
def domain_cb (w : World) (id : ipmi_entity_id_t) (ignore_seq : Bool) : Nat × World :=
  match entity_find w { channel := id.channel, address := id.address }
      id.entity_id id.entity_instance with
  | (0, some p, w1) =>
    match deref w1 p with
    | none => (0, w1)
    | some ent =>
      if !ignore_seq && ent.seq != id.seq then
        (EINVAL, _ipmi_entity_put w1 p)
      else
        (0, _ipmi_entity_put { w1 with handler_calls := w1.handler_calls ++ [p] } p)
  | (err, _, w1) => (err, w1)

/-- Modelled from the spec: `ipmi_domain_pointer_cb`, which resolves a
domain identifier to the live domain and runs the callback on it; it
returns 0 after running the callback, and an error without running it
when the identifier names no live domain. -/
def ipmi_domain_pointer_cb (w : World) (domain_id : Nat)
    (cb : World → Nat × World) : Nat × Nat × World :=
  if domain_id = w.domain_id then
    match cb w with
    | (err, w1) => (0, err, w1)
  else (EINVAL, 0, w)

/-- The function `ipmi_entity_pointer_cb`. -/
def ipmi_entity_pointer_cb (w : World) (id : ipmi_entity_id_t) : Nat × World :=
  match ipmi_domain_pointer_cb w id.domain_id (fun w0 => domain_cb w0 id false) with
  | (rv, err, w1) => (if rv = 0 then err else rv, w1)

/-! ## Children and parents -/

/-- The function `add_child`. -/
def add_child (w : World) (ent child : Nat) : World :=
  let w1 := modify w ent (fun e =>
    { e with child_entities := locked_list_add e.child_entities child })
  let w2 := modify w1 child (fun c =>
    { c with parent_entities := locked_list_add c.parent_entities ent })
  modify w2 ent (fun e => { e with presence_possibly_changed := true })

/-- The function `ipmi_entity_add_child`: return value and new state.  The
two list entries are allocated first. -/
def ipmi_entity_add_child (w : World) (ent child : Nat) : Nat × World :=
  match take_alloc w with
  | (false, w1) => (ENOMEM, w1)
  | (true, w1) =>
    match take_alloc w1 with
    | (false, w2) => (ENOMEM, w2)
    | (true, w2) =>
      (0, call_entity_update_handlers
        (call_entity_update_handlers (add_child w2 ent child) ent IPMI_CHANGED)
        child IPMI_CHANGED)

/-- The function `ipmi_entity_remove_child`. -/
def ipmi_entity_remove_child (w : World) (ent child : Nat) : Nat × World :=
  let was_child : Bool :=
    match deref w ent with
    | some e => decide (child ∈ e.child_entities)
    | none => false
  let w1 := modify w ent (fun e =>
    { e with child_entities := locked_list_remove e.child_entities child })
  let w2 := modify w1 child (fun c =>
    { c with parent_entities := locked_list_remove c.parent_entities ent })
  let w3 := modify w2 ent (fun e => { e with presence_possibly_changed := true })
  if was_child then
    (0, call_entity_update_handlers (call_entity_update_handlers w3 ent IPMI_CHANGED)
      child IPMI_CHANGED)
  else (EINVAL, w3)

/-! ## Handling of sensor data records for entities -/

/-- A zeroed `entity_found_t`. -/
def found_zero : entity_found_t :=
  { found := false, ent := none, cent := [], cent_len := 0 }

/-- The test for an association record, `type == IPMI_ENTITY_EAR` or
`type == IPMI_ENTITY_DREAR`. -/
def is_ear (d : dlr_info_t) : Bool :=
  d.type == IPMI_ENTITY_EAR || d.type == IPMI_ENTITY_DREAR

/-- The function `add_child_ent_to_found`. -/
def add_child_ent_to_found (w : World) (found : entity_found_t) (ent : Nat) :
    Nat × entity_found_t × World :=
  if found.cent.length = found.cent_len then
    match take_alloc w with
    | (false, w1) => (ENOMEM, found, w1)
    | (true, w1) =>
      (0, { found with cent := found.cent ++ [ent], cent_len := found.cent_len + 4 }, w1)
  else (0, { found with cent := found.cent ++ [ent] }, w)

/-- The `while` loop of `fill_in_entities` that looks for a previous
unfound entry with the same entity, started with `j = i - 1`: the slot
the children go to and whether slot `i` is to be marked found. -/
def find_first_entry (founds : List entity_found_t) (ent : Option Nat) :
    Nat → Nat → Nat × Bool → Nat × Bool
  | 0, _, acc => acc
  | fuel + 1, j, acc =>
    if j > 0 && (founds.getD j found_zero).ent == ent then
      if (founds.getD (j - 1) found_zero).found then
        find_first_entry founds ent fuel (j - 1) acc
      else find_first_entry founds ent fuel (j - 1) (j - 1, true)
    else acc

/-- The arguments of the `entity_add` calls that `fill_in_entities` and
`ipmi_sdr_entity_destroy` make for the contained entities of a record, in
the order of the loops: for the range form every instance from the first
to the second member of each pair, for the list form the four members;
members with entity id 0 are skipped. -/
def contained_keys (d : dlr_info_t) : List (ipmi_device_num_t × Nat × Nat) :=
  let ce := fun j => d.contained_entities.getD j dlr_ref_zero
  if d.is_ranges != 0 then
    ([0, 2].map (fun j =>
      if (ce j).entity_id == 0 then []
      else (List.range' (ce j).entity_instance
              ((ce (j + 1)).entity_instance + 1 - (ce j).entity_instance)).map
            (fun k => ((ce j).device_num, (ce j).entity_id, k)))).flatten
  else
    ([0, 1, 2, 3].map (fun j =>
      if (ce j).entity_id == 0 then []
      else [((ce j).device_num, (ce j).entity_id, (ce j).entity_instance)])).flatten

/-- The inner loops of `fill_in_entities` over the contained entities of
an association record; `t` is the slot that receives the children. -/
def fill_in_children (t : Nat) :
    List (ipmi_device_num_t × Nat × Nat) → World → List entity_found_t →
      Nat × List entity_found_t × World
  | [], w, founds => (0, founds, w)
  | (dn, id, inst) :: ks, w, founds =>
    match entity_add w dn id inst 0 0 with
    | (0, some child, w1) =>
      match add_child_ent_to_found w1 (founds.getD t found_zero) child with
      | (0, f, w2) => fill_in_children t ks w2 (founds.set t f)
      | (rv, _, w2) => (rv, founds, _ipmi_entity_put w2 child)
    | (rv, _, w1) => (rv, founds, w1)

/-- The body of the outer loop of `fill_in_entities` for slot `i`. -/
def fill_in_entity (dlrs : List dlr_info_t) (i : Nat) (w : World)
    (founds : List entity_found_t) : Nat × List entity_found_t × World :=
  let d := dlrs.getD i dlr_zero
  let f := founds.getD i found_zero
  if f.found then (0, founds, w)
  else if d.entity_id != 0 then
    match entity_add w d.device_num d.entity_id d.entity_instance d.output_handler 0 with
    | (0, some p, w1) =>
      let founds1 := founds.set i { f with ent := some p }
      if !is_ear d then (0, founds1, w1)
      else
        match find_first_entry founds1 (some p) i (i - 1) (i, false) with
        | (t, hit) =>
          let founds2 :=
            if hit then founds1.set i { (founds1.getD i found_zero) with found := true }
            else founds1
          fill_in_children t (contained_keys d) w1 founds2
    | (rv, _, w1) => (rv, founds, w1)
  else (0, founds.set i { f with ent := none }, w)

/-- The outer loop of `fill_in_entities` over the given slots. -/
def fill_in_loop (dlrs : List dlr_info_t) :
    List Nat → World → List entity_found_t → Nat × List entity_found_t × World
  | [], w, founds => (0, founds, w)
  | i :: is, w, founds =>
    match fill_in_entity dlrs i w founds with
    | (0, founds1, w1) => fill_in_loop dlrs is w1 founds1
    | (rv, founds1, w1) => (rv, founds1, w1)

/-- The function `fill_in_entities`. -/
def fill_in_entities (w : World) (infos : entity_sdr_info_t) :
    Nat × entity_sdr_info_t × World :=
  match fill_in_loop infos.dlrs (List.range infos.dlrs.length) w infos.found with
  | (rv, founds, w1) => (rv, { infos with found := founds }, w1)

/-- The function `put_entities`. -/
def put_entities (w : World) : List entity_found_t → World
  | [] => w
  | f :: fs =>
    if f.found then put_entities w fs
    else
      let w1 := match f.ent with
        | some p => _ipmi_entity_put w p
        | none => w
      put_entities (f.cent.foldl _ipmi_entity_put w1) fs

/-- The matching loop of `ipmi_entity_scan_sdrs`.  `c i j` is the value
`cmp_dlr` returns for the addresses `infos.dlrs+i` and
`old_infos->dlrs+j`; the loop runs while both cursors are inside their
arrays, and `fuel` bounds the number of iterations. -/
def match_loop (c : Nat → Nat → Int) :
    Nat → Nat → Nat → List entity_found_t → List entity_found_t →
      List entity_found_t × List entity_found_t
  | 0, _, _, nf, of => (nf, of)
  | fuel + 1, i, j, nf, of =>
    if i < nf.length ∧ j < of.length then
      if c i j = 0 then
        match_loop c fuel (i + 1) (j + 1)
          (nf.set i { (nf.getD i found_zero) with found := true })
          (of.set j { (of.getD j found_zero) with found := true })
      else if c i j < 0 then match_loop c fuel (i + 1) j nf of
      else match_loop c fuel i (j + 1) nf of
    else (nf, of)

/-- Modelled from the spec: `_ipmi_get_sdr_entities`, the scan state the
domain remembers for a management controller between scans. -/
def _ipmi_get_sdr_entities (w : World) (mc : Nat) : Option entity_sdr_info_t :=
  (w.sdr_entities.find? (fun x => x.1 == mc)).map (fun x => x.2)

/-- Modelled from the spec: `_ipmi_set_sdr_entities`; also used for the
writes through the pointer it stored. -/
def _ipmi_set_sdr_entities (w : World) (mc : Nat) (infos : entity_sdr_info_t) : World :=
  { w with sdr_entities := (mc, infos) :: w.sdr_entities.filter (fun x => x.1 != mc) }

/-- The pre-allocation loop of `ipmi_entity_scan_sdrs`: two list entries
per resolved child of every slot that is not found; the result is the
number of entries in the pool, or `none` when an allocation fails. -/
def alloc_entries : List entity_found_t → World → Nat → Option Nat × World
  | [], w, n => (some n, w)
  | f :: fs, w, n =>
    if f.found then alloc_entries fs w n
    else
      match take_allocs (f.cent.length * 2) w with
      | (true, w1) => alloc_entries fs w1 (n + f.cent.length * 2)
      | (false, w1) => (none, w1)

/-- The commit loop of `ipmi_entity_scan_sdrs` over the old records. -/
def commit_old : List (dlr_info_t × entity_found_t) → World → World
  | [], w => w
  | (d, f) :: rest, w =>
    if f.found then commit_old rest w
    else
      match f.ent with
      | none => commit_old rest w
      | some p =>
        if !is_ear d then
          commit_old rest (modify w p (fun e =>
            { e with ref_count := u32_dec e.ref_count, info := dlr_zero }))
        else
          commit_old rest (f.cent.foldl (fun w0 c => (ipmi_entity_remove_child w0 p c).2) w)

/-- The part of the commit of a new locator record that registers the
entity with the management controller of its FRU device; the result
carries the new value of `rv`. -/
def commit_frudev (env : Nat → Nat → mc_reply_t) (d : dlr_info_t) (p : Nat)
    (channel : Option Nat) (ipmb : Nat) (rv : Nat) (w : World) : Nat × World :=
  if ipmb == 0 then (rv, w)
  else
    match channel with
    | none => (rv, w)
    | some ch =>
      if d.entity_id != 0 then
        let r := env ch ipmb
        if r.find_or_create_rv != 0 then (r.find_or_create_rv, w)
        else
          let present := match deref w p with
            | some e => e.frudev_present
            | none => false
          if present then (0, w)
          else if r.add_active_handler_rv != 0 then (r.add_active_handler_rv, w)
          else
            (0, modify w p (fun e =>
              { e with frudev_present := true, frudev_active := r.is_active,
                       frudev_mc := r.mc }))
      else (rv, w)

/-- The commit of one new locator record (not an association): the
reference count, the payload by record type, and the FRU device
monitor. -/
def commit_new_dlr (env : Nat → Nat → mc_reply_t) (d : dlr_info_t) (p : Nat)
    (rv : Nat) (w : World) : Nat × World :=
  let w1 := modify w p (fun e => { e with ref_count := u32_inc e.ref_count })
  if d.type == IPMI_ENTITY_FRU then
    commit_frudev env d p (some d.channel) d.slave_address rv
      (modify w1 p (fun e => { e with info := d }))
  else if d.type == IPMI_ENTITY_MC then
    if d.FRU_inventory_device != 0 then
      commit_frudev env d p (some d.channel) d.access_address rv
        (modify w1 p (fun e => { e with info := d }))
    else
      let w2 := modify w1 p (fun e =>
        if e.info.FRU_inventory_device == 0 then { e with info := d } else e)
      commit_frudev env d p none 0xff rv
        { w2 with mc_scans := w2.mc_scans ++ [(d.channel, d.access_address)] }
  else
    commit_frudev env d p none 0xff rv (modify w1 p (fun e => { e with info := d }))

/-- The loop that adds the children of one new association record: each
child takes two entries from the pool; `none` stands for the dereference
of a NULL entry. -/
def commit_new_children (p : Nat) : List Nat → Nat → World → Option (Nat × World)
  | [], entries, w => some (entries, w)
  | c :: cs, entries, w =>
    if entries < 2 then none
    else commit_new_children p cs (entries - 2) (add_child w p c)

/-- The commit loop of `ipmi_entity_scan_sdrs` over the new records; the
state carries `rv` and the size of the entry pool. -/
def commit_new (env : Nat → Nat → mc_reply_t) :
    List (dlr_info_t × entity_found_t) → Nat → Nat → World → Option (Nat × Nat × World)
  | [], rv, entries, w => some (rv, entries, w)
  | (d, f) :: rest, rv, entries, w =>
    if f.found then commit_new env rest rv entries w
    else
      match f.ent with
      | none => commit_new env rest rv entries w
      | some p =>
        if !is_ear d then
          match commit_new_dlr env d p rv w with
          | (rv1, w1) => commit_new env rest rv1 entries w1
        else
          match commit_new_children p f.cent entries w with
          | none => none
          | some (entries1, w1) => commit_new env rest rv entries1 w1

/-- The loop of `ipmi_entity_scan_sdrs` that calls the update handlers for
the new records; `none` stands for the dereference of a NULL entity. -/
def notify_new : List entity_found_t → World → Option World
  | [], w => some w
  | f :: fs, w =>
    if f.found then notify_new fs w
    else
      match f.ent with
      | none => none
      | some p =>
        notify_new fs
          (f.cent.foldl (fun w0 c => call_entity_update_handlers w0 c IPMI_CHANGED)
            (call_entity_update_handlers w p IPMI_CHANGED))

/-- The function `cleanup_sdr_info` on the found array. -/
def cleanup_sdr_info (founds : List entity_found_t) : List entity_found_t :=
  founds.map (fun f => { f with cent := [], cent_len := 0 })

/-- The exit `out_err_unlock` of `ipmi_entity_scan_sdrs`. -/
def scan_out_err (w : World) (mc : Nat) (rv : Nat) (infos old_infos : entity_sdr_info_t) :
    Nat × World :=
  let w1 := put_entities w infos.found
  let w2 := put_entities w1 old_infos.found
  (rv, _ipmi_set_sdr_entities w2 mc old_infos)

/-- The function `ipmi_entity_scan_sdrs` from the point where the records
are decoded.  `dlrs` is the array of decoded records in the order `qsort`
leaves it in, `c` gives the results of `cmp_dlr` in the matching loop,
`env` the answers of the management controller layer.  The result is the
return value and the new state, or `none` when the call dereferences a
NULL pointer. -/
def ipmi_entity_scan_sdrs (w : World) (mc : Nat) (c : Nat → Nat → Int)
    (env : Nat → Nat → mc_reply_t) (dlrs : List dlr_info_t) : Option (Nat × World) :=
  let got : Option (entity_sdr_info_t × World) :=
    match _ipmi_get_sdr_entities w mc with
    | some old => some (old, w)
    | none =>
      match take_alloc w with
      | (false, _) => none
      | (true, w1) =>
        some ({ found := [], dlrs := [] },
          _ipmi_set_sdr_entities w1 mc { found := [], dlrs := [] })
  match got with
  | none => some (ENOMEM, (take_alloc w).2)
  | some (old, w1) =>
    let old0 := List.replicate old.dlrs.length found_zero
    let new0 := List.replicate dlrs.length found_zero
    match match_loop c (dlrs.length + old.dlrs.length) 0 0 new0 old0 with
    | (nf, of) =>
      match fill_in_entities w1 { found := nf, dlrs := dlrs } with
      | (0, infos1, w2) =>
        match fill_in_entities w2 { found := of, dlrs := old.dlrs } with
        | (0, old1, w3) =>
          match alloc_entries infos1.found w3 0 with
          | (none, w4) => some (scan_out_err w4 mc ENOMEM infos1 old1)
          | (some entries, w4) =>
            let w5 := commit_old (old1.dlrs.zip old1.found) w4
            match commit_new env (infos1.dlrs.zip infos1.found) 0 entries w5 with
            | none => none
            | some (rv, _, w6) =>
              match notify_new infos1.found w6 with
              | none => none
              | some w7 =>
                let w8 := put_entities w7 infos1.found
                let w9 := put_entities w8 old1.found
                some (rv, _ipmi_set_sdr_entities w9 mc
                  { found := cleanup_sdr_info infos1.found, dlrs := dlrs })
        | (rv, old1, w3) => some (scan_out_err w3 mc rv infos1 old1)
      | (rv, infos1, w2) =>
        some (scan_out_err w2 mc rv infos1 { found := of, dlrs := old.dlrs })

/-- The loops of `ipmi_sdr_entity_destroy` over the contained entities of
one association record: a child that is found is removed from the
children of `p` and its pin is dropped, one that is not found is
skipped. -/
def destroy_children (p : Nat) :
    List (ipmi_device_num_t × Nat × Nat) → World → World
  | [], w => w
  | (dn, id, inst) :: ks, w =>
    match entity_find w dn id inst with
    | (0, some child, w1) =>
      destroy_children p ks (_ipmi_entity_put (ipmi_entity_remove_child w1 p child).2 child)
    | (_, _, w1) => destroy_children p ks w1

/-- The body of the loop of `ipmi_sdr_entity_destroy` for one remembered
record. -/
def destroy_record (w : World) (d : dlr_info_t) : World :=
  match entity_find w d.device_num d.entity_id d.entity_instance with
  | (0, some p, w1) =>
    let w2 :=
      if !is_ear d then
        let monitored := match deref w1 p with
          | some e => e.frudev_present
          | none => false
        let w1a :=
          if monitored then modify w1 p (fun e => { e with frudev_mc := 0, frudev_present := false })
          else w1
        modify w1a p (fun e => { e with ref_count := u32_dec e.ref_count })
      else destroy_children p (contained_keys d) w1
    _ipmi_entity_put w2 p
  | (_, _, w1) => w1

/-- The function `ipmi_sdr_entity_destroy` on a remembered scan state:
return value and new state.  The state itself is freed by the call; the
pointer the domain keeps to it is not touched. -/
def ipmi_sdr_entity_destroy (w : World) (infos : entity_sdr_info_t) : Nat × World :=
  (0, infos.dlrs.foldl destroy_record w)

/-! ## The sensor layer and the oracles of the trace -/

/-- Value of errno ENOSYS. -/
def ENOSYS : Nat := 38

/-- Modelled from the spec: the sensor type of an entity presence sensor
is the number the source compares with; the three types with a presence
bit and the constants of the event support and of the threshold reading
type are declared in a header. -/
def IPMI_SENSOR_TYPE_ENTITY_PRESENCE : Nat := 0x25

/-- Modelled from the spec: `IPMI_SENSOR_TYPE_POWER_SUPPLY`. -/
def IPMI_SENSOR_TYPE_POWER_SUPPLY : Nat := 0x08

/-- Modelled from the spec: `IPMI_SENSOR_TYPE_BATTERY`. -/
def IPMI_SENSOR_TYPE_BATTERY : Nat := 0x29

/-- Modelled from the spec: `IPMI_SENSOR_TYPE_SLOT_CONNECTOR`. -/
def IPMI_SENSOR_TYPE_SLOT_CONNECTOR : Nat := 0x21

/-- Modelled from the spec: `IPMI_EVENT_SUPPORT_GLOBAL_ENABLE`. -/
def IPMI_EVENT_SUPPORT_GLOBAL_ENABLE : Nat := 2

/-- Modelled from the spec: `IPMI_EVENT_SUPPORT_NONE`. -/
def IPMI_EVENT_SUPPORT_NONE : Nat := 3

/-- Modelled from the spec: `IPMI_EVENT_READING_TYPE_THRESHOLD`. -/
def IPMI_EVENT_READING_TYPE_THRESHOLD : Nat := 1

/-- Modelled from the spec: what the sensor layer answers about one
sensor: its type, its event reading type, its event support, the offsets
for which `ipmi_discrete_event_readable` succeeds with a true value, the
offset and requesting value `ipmi_sensor_is_hot_swap_requester` reports
(`none` when it returns false), whether the sensor can be visited by
`ipmi_entity_iterate_sensors` (its controller is there), and the value
`ipmi_sensor_add_discrete_event_handler` returns. -/
structure ipmi_sensor_t where
  sensor_type : Nat := 0
  event_reading_type : Nat := 0
  event_support : Nat := 0
  readable : List Int := []
  requester : Option (Int × Int) := none
  has_mc : Bool := true
  add_handler_rv : Nat := 0
deriving DecidableEq, Repr

/-- Modelled from the spec: the part of `ipmi_states_t` the source reads:
the scanning-enabled flag and the offsets whose state bit is set. -/
structure ipmi_states_t where
  scanning_enabled : Bool := false
  set : List Int := []
deriving DecidableEq, Repr

/-- Modelled from the spec: `ipmi_is_state_set`. -/
def ipmi_is_state_set (states : ipmi_states_t) (offset : Int) : Bool :=
  decide (offset ∈ states.set)

/-- The next answer of the oracle `claims`. -/
def take_claim (w : World) : Bool × World :=
  match w.trace.claims with
  | [] => (false, w)
  | b :: rest => (b, { w with trace := { w.trace with claims := rest } })

/-- One request to the sensor, control or FRU layer: the value the layer
returns, and the request recorded when that value is 0. -/
def send_request (w : World) (r : request_t) : Nat × World :=
  match w.trace.request_rvs with
  | [] => (0, { w with trace := { w.trace with requests := w.trace.requests ++ [r] } })
  | rv :: rest =>
    if rv = 0 then
      (0, { w with trace := { w.trace with requests := w.trace.requests ++ [r],
                                            request_rvs := rest } })
    else (rv, { w with trace := { w.trace with request_rvs := rest } })

/-- The function `is_presence_sensor`. -/
def is_presence_sensor (s : ipmi_sensor_t) : Bool :=
  if s.sensor_type != IPMI_SENSOR_TYPE_ENTITY_PRESENCE then false
  else if s.event_support == IPMI_EVENT_SUPPORT_NONE then false
  else
    let supports_present := decide ((0 : Int) ∈ s.readable)
    let supports_absent := decide ((1 : Int) ∈ s.readable)
    if !supports_present && !supports_absent then false else true

/-- The function `is_presence_bit_sensor`: the bit offset when the result
is true. -/
def is_presence_bit_sensor (s : ipmi_sensor_t) : Option Int :=
  let bit : Option Int :=
    if s.sensor_type == IPMI_SENSOR_TYPE_POWER_SUPPLY then some 0
    else if s.sensor_type == IPMI_SENSOR_TYPE_BATTERY then some 2
    else if s.sensor_type == IPMI_SENSOR_TYPE_SLOT_CONNECTOR then some 2
    else none
  match bit with
  | none => none
  | some b =>
    if s.event_support == IPMI_EVENT_SUPPORT_NONE then none
    else if decide (b ∈ s.readable) then some b
    else none

/-- The function `is_hot_swap_requester`. -/
def is_hot_swap_requester (s : ipmi_sensor_t) : Bool :=
  if s.event_reading_type == IPMI_EVENT_READING_TYPE_THRESHOLD then false
  else s.requester.isSome

/-! ## The hot-swap machine: the part presence detection calls -/

/-- The address of the static function `e_get_hot_swap_state`; the
functions of the built-in table have distinct addresses that are not
0. -/
def e_get_hot_swap_state_addr : Nat := 1

/-- The address of the static function `e_check_hot_swap_state`. -/
def e_check_hot_swap_state_addr : Nat := 11

/-- The address of the static function `e_set_auto_activate`. -/
def e_set_auto_activate_addr : Nat := 2

/-- The address of the static function `e_get_auto_activate`. -/
def e_get_auto_activate_addr : Nat := 3

/-- The address of the static function `e_set_auto_deactivate`. -/
def e_set_auto_deactivate_addr : Nat := 4

/-- The address of the static function `e_get_auto_deactivate`. -/
def e_get_auto_deactivate_addr : Nat := 5

/-- The address of the static function `e_activate`. -/
def e_activate_addr : Nat := 6

/-- The address of the static function `e_deactivate`. -/
def e_deactivate_addr : Nat := 7

/-- The address of the static function `e_get_hot_swap_indicator`. -/
def e_get_hot_swap_indicator_addr : Nat := 8

/-- The address of the static function `e_set_hot_swap_indicator`. -/
def e_set_hot_swap_indicator_addr : Nat := 9

/-- The address of the static function `e_get_hot_swap_requester`. -/
def e_get_hot_swap_requester_addr : Nat := 10

/-- The table `internal_hs_cb`; its initialiser names no function for
`set_activation_requested`. -/
def internal_hs_cb : ipmi_entity_hot_swap_t :=
  { get_hot_swap_state := e_get_hot_swap_state_addr,
    set_auto_activate := e_set_auto_activate_addr,
    get_auto_activate := e_get_auto_activate_addr,
    set_auto_deactivate := e_set_auto_deactivate_addr,
    get_auto_deactivate := e_get_auto_deactivate_addr,
    set_activation_requested := 0,
    activate := e_activate_addr, deactivate := e_deactivate_addr,
    get_hot_swap_indicator := e_get_hot_swap_indicator_addr,
    set_hot_swap_indicator := e_set_hot_swap_indicator_addr,
    get_hot_swap_requester := e_get_hot_swap_requester_addr,
    check_hot_swap_state := e_check_hot_swap_state_addr }

/-- The address of the static function `hot_swap_act_timeout`, the
handler of the activation timer.  The test of `handle_hot_swap_presence`
compares this address, not the field of the same name, with
`IPMI_TIMEOUT_NOW`. -/
def hot_swap_act_timeout_addr : Int := 12

/-- The function `ipmi_entity_call_hot_swap_handlers`: the round is
recorded; the result is whether a handler claimed the event. -/
def ipmi_entity_call_hot_swap_handlers (w : World) (p : Nat)
    (last_state curr_state : ipmi_hot_swap_states) : Bool × World :=
  take_claim { w with trace := { w.trace with
    hot_swap_calls := w.trace.hot_swap_calls ++ [(p, last_state, curr_state)] } }

/-- The start of one of the two timers in `set_hot_swap_state`, unless it
is running. -/
def start_hot_swap_timer (w : World) (p : Nat) (act : Bool) : World :=
  match deref w p with
  | none => w
  | some ent =>
    if act then
      if !ent.hot_swap_act_timer_running then
        modify { w with trace := { w.trace with
                  timer_starts := w.trace.timer_starts ++ [(p, true)] } } p
          (fun e => { e with hot_swap_act_timer_running := true,
                             running_timer_count := u32_inc e.running_timer_count })
      else w
    else
      if !ent.hot_swap_deact_timer_running then
        modify { w with trace := { w.trace with
                  timer_starts := w.trace.timer_starts ++ [(p, false)] } } p
          (fun e => { e with hot_swap_deact_timer_running := true,
                             running_timer_count := u32_inc e.running_timer_count })
      else w

/-- The function `set_hot_swap_state`: whether a hot-swap handler claimed
the event, and the new state. -/
def set_hot_swap_state (w : World) (p : Nat) (state : ipmi_hot_swap_states) :
    Bool × World :=
  match deref w p with
  | none => (false, w)
  | some ent =>
    let old_state := ent.hot_swap_state
    let sel : Option Int × World :=
      match state with
      | IPMI_HOT_SWAP_INACTIVE => (some ent.hot_swap_ind_inact, w)
      | IPMI_HOT_SWAP_ACTIVATION_REQUESTED =>
        (some ent.hot_swap_ind_req_act,
          if ent.hot_swap_act_timeout != IPMI_TIMEOUT_FOREVER then start_hot_swap_timer w p true
          else w)
      | IPMI_HOT_SWAP_ACTIVE => (some ent.hot_swap_ind_act, w)
      | IPMI_HOT_SWAP_DEACTIVATION_REQUESTED =>
        (some ent.hot_swap_ind_req_deact,
          if ent.hot_swap_deact_timeout != IPMI_TIMEOUT_FOREVER then
            start_hot_swap_timer w p false
          else w)
      | _ => (none, w)
    let w2 :=
      match sel.1, ent.hot_swap_indicator with
      | some val, some ind =>
        (send_request sel.2
          { req := .control_set_val ind val, cb := .indicator_change, ent := p }).2
      | _, _ => sel.2
    if old_state != state then
      ipmi_entity_call_hot_swap_handlers
        (modify w2 p (fun e => { e with hot_swap_state := state })) p old_state state
    else (false, w2)

/-- The function `handle_hot_swap_presence`. -/
def handle_hot_swap_presence (w : World) (p : Nat) (present : Bool) : Bool × World :=
  match deref w p with
  | none => (false, w)
  | some ent =>
    if present then
      match ent.hot_swap_power with
      | none => set_hot_swap_state w p IPMI_HOT_SWAP_ACTIVE
      | some power =>
        if hot_swap_act_timeout_addr == IPMI_TIMEOUT_NOW then
          set_hot_swap_state w p IPMI_HOT_SWAP_ACTIVE
        else
          (false, (send_request w
            { req := .control_get_val power, cb := .power_checked, ent := p }).2)
    else set_hot_swap_state w p IPMI_HOT_SWAP_NOT_PRESENT

/-- The function `e_check_hot_swap_state`. -/
def e_check_hot_swap_state (w : World) (p : Nat) : Nat × World :=
  match deref w p with
  | none => (0, w)
  | some ent =>
    match take_alloc w with
    | (false, w1) => (ENOMEM, w1)
    | (true, w1) =>
      match ent.hot_swap_power, ent.hot_swap_requester with
      | some power, _ =>
        (0, (send_request w1
          { req := .control_get_val power, cb := .check_power, ent := p }).2)
      | none, some sensor =>
        (0, (send_request w1
          { req := .states_get sensor, cb := .check_requester, ent := p }).2)
      | none, none => (0, w1)

/-- The function `ipmi_entity_check_hot_swap_state`. -/
def ipmi_entity_check_hot_swap_state (w : World) (p : Nat) : Nat × World :=
  match deref w p with
  | none => (ENOSYS, w)
  | some ent =>
    if ent.hot_swappable == 0 then (ENOSYS, w)
    else if ent.hs_cb.check_hot_swap_state == 0 then (ENOSYS, w)
    else if ent.hs_cb.check_hot_swap_state == e_check_hot_swap_state_addr then
      e_check_hot_swap_state w p
    else
      (0, { w with trace := { w.trace with
        external_calls := w.trace.external_calls ++ [(ent.hs_cb.check_hot_swap_state, p)] } })

/-- The function `ipmi_entity_set_hot_swappable`. -/
def ipmi_entity_set_hot_swappable (w : World) (p : Nat) (val : Int) : World :=
  call_entity_update_handlers (modify w p (fun e => { e with hot_swappable := val }))
    p IPMI_CHANGED

/-- The end of `handle_new_presence_sensor` and of
`handle_new_presence_bit_sensor`, from the label `out`. -/
def install_internal_hs (w : World) (p : Nat) : World :=
  let w1 := modify w p (fun e => { e with presence_possibly_changed := true })
  match deref w1 p with
  | none => w1
  | some ent =>
    if ent.hs_cb.get_hot_swap_state == 0 then
      modify (ipmi_entity_set_hot_swappable w1 p 1) p
        (fun e => { e with hs_cb := internal_hs_cb })
    else w1

/-- The function `handle_new_presence_sensor`.  The event handler it
registers with the sensor and the event enables it sends are outside the
entity and are not modelled. -/
def handle_new_presence_sensor (w : World) (p : Nat) : World :=
  install_internal_hs (modify w p (fun e => { e with presence_bit_sensor := none })) p

/-- The function `handle_new_presence_bit_sensor`, with the same
omissions. -/
def handle_new_presence_bit_sensor (w : World) (p : Nat) : World :=
  install_internal_hs w p

/-- The function `handle_new_hot_swap_requester`; the event enables are
not modelled. -/
def handle_new_hot_swap_requester (sens : Nat → ipmi_sensor_t) (w : World)
    (p sensor : Nat) : World :=
  let w1 := modify w p (fun e =>
    match (sens sensor).requester with
    | some (offset, val) => { e with hot_swap_offset := offset, hot_swap_requesting_val := val }
    | none => e)
  if (sens sensor).add_handler_rv != 0 then w1
  else
    let w2 := modify w1 p (fun e => { e with hot_swap_requester := some sensor })
    if (sens sensor).event_support == IPMI_EVENT_SUPPORT_GLOBAL_ENABLE then w2
    else
      match deref w2 p with
      | none => w2
      | some ent =>
        if ent.hot_swappable != 0 then
          (send_request w2
            { req := .states_get sensor, cb := .requester_checked, ent := p }).2
        else w2

/-! ## Addition and removal of sensors -/

/-- The first statement of `ipmi_entity_add_sensor`: the sensor becomes
the presence sensor or the presence-bit sensor of the entity if it
qualifies and the role is free.  `ent` is the entity before the call. -/
def add_sensor_presence (sens : Nat → ipmi_sensor_t) (w : World) (p sensor : Nat)
    (ent : ipmi_entity_t) : World :=
  if is_presence_sensor (sens sensor) && ent.presence_sensor.isNone then
    handle_new_presence_sensor
      (modify w p (fun e => { e with presence_sensor := some sensor })) p
  else
    match is_presence_bit_sensor (sens sensor) with
    | some bit =>
      if ent.presence_sensor.isNone && ent.presence_bit_sensor.isNone then
        handle_new_presence_bit_sensor
          (modify w p (fun e =>
            { e with presence_bit_sensor := some sensor, presence_bit_offset := bit })) p
      else w
    | none => w

/-- The second statement of `ipmi_entity_add_sensor`: the sensor becomes
the hot-swap requester if it qualifies and the role is free. -/
def add_sensor_requester (sens : Nat → ipmi_sensor_t) (w : World) (p sensor : Nat) : World :=
  let free_requester := match deref w p with
    | some e => e.hot_swap_requester.isNone
    | none => false
  if is_hot_swap_requester (sens sensor) && free_requester then
    handle_new_hot_swap_requester sens w p sensor
  else w

/-- The function `ipmi_entity_add_sensor`.  In its first branch the source
frees the list entry `link` and then inserts the sensor with it; the
model inserts the sensor in both cases. -/
def ipmi_entity_add_sensor (sens : Nat → ipmi_sensor_t) (w : World) (p sensor : Nat) :
    World :=
  match deref w p with
  | none => w
  | some ent =>
    modify (add_sensor_requester sens (add_sensor_presence sens w p sensor ent) p sensor) p
      (fun e =>
        { e with sensors := locked_list_add e.sensors sensor,
                 presence_possibly_changed := true })

/-- The sensors `ipmi_entity_iterate_sensors` calls its handler on: the
members of the collection whose controller is there. -/
def iterated_sensors (sens : Nat → ipmi_sensor_t) (ent : ipmi_entity_t) : List Nat :=
  ent.sensors.filter (fun s => (sens s).has_mc)

/-- The iteration of `sens_cmp_if_presence_bit`: the first sensor, other
than `ignore`, that is a presence-bit sensor is installed. -/
def find_presence_bit (sens : Nat → ipmi_sensor_t) (w : World) (p : Nat)
    (ignore : Option Nat) : Bool × World :=
  match deref w p with
  | none => (false, w)
  | some ent =>
    match (iterated_sensors sens ent).find? (fun s =>
        some s != ignore && (is_presence_bit_sensor (sens s)).isSome) with
    | none => (false, w)
    | some s =>
      (true, handle_new_presence_bit_sensor
        (modify w p (fun e =>
          { e with presence_bit_sensor := some s,
                   presence_bit_offset := (is_presence_bit_sensor (sens s)).getD 0 })) p)

/-- The iteration of `sens_cmp_if_presence`. -/
def find_presence (sens : Nat → ipmi_sensor_t) (w : World) (p : Nat)
    (ignore : Option Nat) : Bool × World :=
  match deref w p with
  | none => (false, w)
  | some ent =>
    match (iterated_sensors sens ent).find? (fun s =>
        some s != ignore && is_presence_sensor (sens s)) with
    | none => (false, w)
    | some s =>
      (true, handle_new_presence_sensor
        (modify w p (fun e => { e with presence_sensor := some s })) p)

/-- The first statement of `ipmi_entity_remove_sensor`: when the sensor
has one of the two presence roles, another sensor of the entity is looked
for to take a role.  `ent` is the entity before the call. -/
def remove_sensor_presence (sens : Nat → ipmi_sensor_t) (w : World) (p sensor : Nat)
    (ent : ipmi_entity_t) : World :=
  if ent.presence_sensor == some sensor then
    match find_presence sens w p (some sensor) with
    | (true, wa) => modify wa p (fun e => { e with presence_possibly_changed := true })
    | (false, wa) =>
      (find_presence_bit sens
        (modify wa p (fun e =>
          { e with presence_possibly_changed := true, presence_sensor := none }))
        p none).2
  else if ent.presence_bit_sensor == some sensor then
    match find_presence_bit sens w p (some sensor) with
    | (true, wa) => wa
    | (false, wa) => modify wa p (fun e => { e with presence_bit_sensor := none })
  else w

/-- The function `ipmi_entity_remove_sensor`. -/
def ipmi_entity_remove_sensor (sens : Nat → ipmi_sensor_t) (w : World) (p sensor : Nat) :
    World :=
  match deref w p with
  | none => w
  | some ent =>
    let w2 := modify (remove_sensor_presence sens w p sensor ent) p (fun e =>
      if e.hot_swap_requester == some sensor then { e with hot_swap_requester := none } else e)
    modify w2 p (fun e => { e with sensors := locked_list_remove e.sensors sensor })

/-! ## Presence detection -/

/-- The function `ipmi_entity_get_is_fru`. -/
def ipmi_entity_get_is_fru (ent : ipmi_entity_t) : Bool :=
  if ent.info.type == IPMI_ENTITY_FRU then true
  else if ent.info.type == IPMI_ENTITY_MC && ent.info.FRU_inventory_device != 0 then true
  else false

/-- The function `call_fru_handlers`: the round is recorded. -/
def call_fru_handlers (w : World) (p : Nat) (op : ipmi_update_e) : World :=
  { w with trace := { w.trace with fru_calls := w.trace.fru_calls ++ [(op, p)] } }

/-- The function `ipmi_entity_fetch_frus`: return value and new state; a
fetch the FRU layer accepted is recorded. -/
def ipmi_entity_fetch_frus (w : World) (p : Nat) : Nat × World :=
  match take_alloc w with
  | (false, w1) => (ENOMEM, w1)
  | (true, w1) =>
    match w1.trace.request_rvs with
    | [] => (0, { w1 with trace := { w1.trace with fru_fetches := w1.trace.fru_fetches ++ [p] } })
    | rv :: rest =>
      if rv = 0 then
        (0, { w1 with trace := { w1.trace with fru_fetches := w1.trace.fru_fetches ++ [p],
                                                request_rvs := rest } })
      else (rv, { w1 with trace := { w1.trace with request_rvs := rest } })

/-- The function `ipmi_handle_unhandled_event` of the domain: the event is
recorded. -/
def ipmi_handle_unhandled_event (w : World) (event : Nat) : World :=
  { w with trace := { w.trace with unhandled_events := w.trace.unhandled_events ++ [event] } }

/-- The iteration of `presence_child_handler` over the children of an
entity by `ipmi_entity_iterate_children`: each child is pinned, tested and
released; the result is whether a child is present. -/
def children_present : List Nat → World → Bool → Bool × World
  | [], w, acc => (acc, w)
  | c :: cs, w, acc =>
    let w1 := _ipmi_entity_get w c
    let present := match deref w1 c with
      | some e => e.present
      | none => false
    children_present cs (_ipmi_entity_put w1 c) (acc || present)

/-- The function `presence_parent_handler`, given the function it calls
at its end (`presence_changed` with the rest of the recursion budget).
`ent` is its first argument and `start` its `cb_data`, `none` standing
for NULL; the result is `none` when the call dereferences a NULL pointer
or the budget runs out. -/
def presence_parent_with (changed : World → Nat → Bool → Option Nat → Option World)
    (w : World) (ent : Option Nat) (parent : Nat) (start : Option Nat) : Option World :=
  match deref w parent with
  | none => some w
  | some par =>
    if par.sensors.length != 0 then some w
    else
      match children_present par.child_entities w false with
      | (present, w1) =>
        if !present && start.isSome then
          match ent with
          | none => none
          | some e =>
            let count := match deref w1 e with
              | some x => x.presence_event_count
              | none => 0
            if start != some count then some w1
            else changed w1 parent present none
        else changed w1 parent present none

/-- The iteration of `presence_parent_handler` over the parents of `p` by
`ipmi_entity_iterate_parents`: each parent is pinned, handled with
`cb_data` NULL, and released. -/
def parents_rescan (changed : World → Nat → Bool → Option Nat → Option World) (p : Nat) :
    List Nat → World → Option World
  | [], w => some w
  | q :: qs, w =>
    match presence_parent_with changed (_ipmi_entity_get w q) (some p) q none with
    | none => none
    | some w1 => parents_rescan changed p qs (_ipmi_entity_put w1 q)

/-- The part of `presence_changed` that follows the assignment of the new
presence flag and precedes the rescan of the parents: the built-in
hot-swap machine, the FRU data and the round of the presence handlers.
`ent` is the entity before the call; the result says whether the
hot-swap machine handled the event, whether a presence handler claimed
it, and gives the new state. -/
def presence_update (w : World) (p : Nat) (ent : ipmi_entity_t) (present : Bool) :
    Bool × Bool × World :=
  let hs : Bool × World :=
    if ent.hot_swappable != 0
        && ent.hs_cb.get_hot_swap_state == e_get_hot_swap_state_addr then
      handle_hot_swap_presence w p present
    else (false, w)
  let w4 :=
    if ipmi_entity_get_is_fru ent then
      if present then (ipmi_entity_fetch_frus hs.2 p).2
      else if ent.fru.isSome then
        call_fru_handlers (modify hs.2 p (fun e => { e with fru := none })) p IPMI_DELETED
      else hs.2
    else hs.2
  match take_claim { w4 with trace := { w4.trace with
      presence_calls := w4.trace.presence_calls ++ [(p, present)] } } with
  | (claimed, w5) => (hs.1, claimed, w5)

/-- The last statement of `presence_changed`: an event that nobody handled
goes to the domain. -/
def presence_finish (w : World) (event : Option Nat) (handled : Bool) : World :=
  match event with
  | some ev => if !handled then ipmi_handle_unhandled_event w ev else w
  | none => w

/-- The function `presence_changed`.  The first argument bounds the depth
of the recursion through the parents; the result is `none` when it runs
out. -/
def presence_changed : Nat → World → Nat → Bool → Option Nat → Option World
  | 0, _, _, _, _ => none
  | fuel + 1, w, p, present, event =>
    match deref w p with
    | none => some w
    | some ent =>
      let w1 := modify w p (fun e =>
        { e with presence_event_count := u32_inc e.presence_event_count })
      if present != ent.present then
        match presence_update (modify w1 p (fun e => { e with present := present }))
            p ent present with
        | (hs_handled, claimed, w5) =>
          let parents := match deref w5 p with
            | some e => e.parent_entities
            | none => []
          match parents_rescan (presence_changed fuel) p parents w5 with
          | none => none
          | some w6 =>
            some (presence_finish w6 (if claimed then none else event)
              (hs_handled || claimed))
      else some (presence_finish w1 event false)

/-- The function `presence_parent_handler`. -/
def presence_parent_handler (fuel : Nat) (w : World) (ent : Option Nat) (parent : Nat)
    (start : Option Nat) : Option World :=
  presence_parent_with (presence_changed fuel) w ent parent start

/-- The function `states_read`, the completion of the query of the
presence sensor. -/
def states_read (sens : Nat → ipmi_sensor_t) (fuel : Nat) (w : World) (p sensor : Nat)
    (err : Nat) (states : ipmi_states_t) : Option World :=
  if err != 0 then some w
  else
    let present :=
      if !decide ((0 : Int) ∈ (sens sensor).readable) then !ipmi_is_state_set states 1
      else ipmi_is_state_set states 0
    presence_changed fuel w p present none

/-- The function `states_bit_read`, the completion of the query of the
presence-bit sensor. -/
def states_bit_read (fuel : Nat) (w : World) (p : Nat) (err : Nat)
    (states : ipmi_states_t) : Option World :=
  if err != 0 then some w
  else
    match deref w p with
    | none => some w
    | some ent =>
      presence_changed fuel w p (ipmi_is_state_set states ent.presence_bit_offset) none

/-- The struct `ent_active_detect_t`. -/
structure ent_active_detect_t where
  ent_id : ipmi_entity_id_t
  sensor_try_count : Int
  present : Bool
  start_presence_event_count : Nat
deriving DecidableEq, Repr

/-- The function `sensor_read_handler`. -/
def sensor_read_handler (fuel : Nat) (info : ent_active_detect_t) (w : World) (p : Nat) :
    Option World :=
  if !info.present then
    presence_parent_handler fuel w none p (some info.start_presence_event_count)
  else presence_changed fuel w p info.present none

/-- The function `domain_cb` for a handler of the model: the value left in
`info->err` and the new state, `none` when the handler has no result. -/
def domain_cb_run (w : World) (id : ipmi_entity_id_t)
    (handler : World → Nat → Option World) : Option (Nat × World) :=
  match entity_find w { channel := id.channel, address := id.address }
      id.entity_id id.entity_instance with
  | (0, some p, w1) =>
    match deref w1 p with
    | none => some (0, w1)
    | some ent =>
      if ent.seq != id.seq then some (EINVAL, _ipmi_entity_put w1 p)
      else (handler w1 p).map (fun w2 => (0, _ipmi_entity_put w2 p))
  | (err, _, w1) => some (err, w1)

/-- The function `ipmi_entity_pointer_cb` for a handler of the model. -/
def ipmi_entity_pointer_cb_run (w : World) (id : ipmi_entity_id_t)
    (handler : World → Nat → Option World) : Option (Nat × World) :=
  if id.domain_id = w.domain_id then domain_cb_run w id handler
  else some (EINVAL, w)

/-- The common body of `detect_states_read` and `detect_reading_read`, the
completions of the queries that detection sends to the attached sensors:
the detection record that is still waiting (`none` once it is freed) and
the new state. -/
def detect_read (fuel : Nat) (w : World) (info : ent_active_detect_t) (err : Nat)
    (states : ipmi_states_t) : Option (Option ent_active_detect_t × World) :=
  let info1 : ent_active_detect_t :=
    if err == 0 && states.scanning_enabled then { info with present := true } else info
  let info2 := { info1 with sensor_try_count := info1.sensor_try_count - 1 }
  if info2.sensor_try_count == 0 then
    (ipmi_entity_pointer_cb_run w info2.ent_id (sensor_read_handler fuel info2)).map
      (fun r => (none, r.2))
  else some (some info2, w)

/-- The function `detect_states_read`. -/
def detect_states_read (fuel : Nat) (w : World) (info : ent_active_detect_t) (err : Nat)
    (states : ipmi_states_t) : Option (Option ent_active_detect_t × World) :=
  detect_read fuel w info err states

/-- The function `detect_reading_read`. -/
def detect_reading_read (fuel : Nat) (w : World) (info : ent_active_detect_t) (err : Nat)
    (states : ipmi_states_t) : Option (Option ent_active_detect_t × World) :=
  detect_read fuel w info err states

/-- The function `sensor_detect_send` on one sensor: the new try count and
state. -/
def sensor_detect_send (w : World) (p sensor : Nat) (count : Int) : Int × World :=
  match send_request w { req := .reading_get sensor, cb := .detect_reading_read, ent := p } with
  | (0, w1) => (count + 1, w1)
  | (_, w1) =>
    match send_request w1 { req := .states_get sensor, cb := .detect_states_read, ent := p } with
    | (0, w2) => (count + 1, w2)
    | (_, w2) => (count, w2)

/-- The function `ent_detect_presence`: the detection record left waiting
for the completions of the sensor queries, if any, and the new state;
`none` as for `presence_changed`. -/
def ent_detect_presence (sens : Nat → ipmi_sensor_t) (fuel : Nat) (w : World) (p : Nat)
    (force : Bool) : Option (Option ent_active_detect_t × World) :=
  match deref w p with
  | none => some (none, w)
  | some ent =>
    if !force && !ent.presence_possibly_changed then some (none, w)
    else
      let w1 := modify w p (fun e => { e with presence_possibly_changed := false })
      let w2 := if ent.hot_swappable != 0 then (ipmi_entity_check_hot_swap_state w1 p).2 else w1
      match ent.presence_sensor, ent.presence_bit_sensor with
      | some s, _ =>
        some (none, (send_request w2 { req := .states_get s, cb := .states_read, ent := p }).2)
      | none, some s =>
        some (none,
          (send_request w2 { req := .states_get s, cb := .states_bit_read, ent := p }).2)
      | none, none =>
        if ent.frudev_present && ent.frudev_active then
          (presence_changed fuel w2 p ent.frudev_active none).map (fun w3 => (none, w3))
        else if ent.sensors.length != 0 then
          match take_alloc w2 with
          | (false, w3) => some (none, w3)
          | (true, w3) =>
            let sent := (iterated_sensors sens ent).foldl
              (fun (acc : Int × World) s => sensor_detect_send acc.2 p s acc.1) (0, w3)
            if sent.1 == 0 then
              (presence_parent_handler fuel sent.2 none p none).map (fun w4 => (none, w4))
            else
              some (some { ent_id := ipmi_entity_convert_to_id ent,
                           sensor_try_count := sent.1, present := false,
                           start_presence_event_count := ent.presence_event_count },
                    sent.2)
        else (presence_parent_handler fuel w2 none p none).map (fun w3 => (none, w3))

/-! ## Sequences of registry operations -/

/-- The operations a user of the registry performs on entities. -/
inductive lifecycle_op where
  | add (dn : ipmi_device_num_t) (id inst : Int) (out data : Nat)
  | find (dn : ipmi_device_num_t) (id inst : Int)
  | pin (p : Nat)
  | unpin (p : Nat)
deriving DecidableEq, Repr

/-- Effect of one operation on the state. -/
def lifecycle_step (w : World) : lifecycle_op → World
  | .add dn id inst out data => (entity_add w dn id inst out data).2.2
  | .find dn id inst => (entity_find w dn id inst).2.2
  | .pin p => _ipmi_entity_get w p
  | .unpin p => _ipmi_entity_put w p

/-- Effect of a sequence of operations. -/
def lifecycle_run (w : World) : List lifecycle_op → World
  | [] => w
  | op :: ops => lifecycle_run (lifecycle_step w op) ops

/-- The entity at `p` is live and pinned. -/
def pinned (w : World) (p : Nat) : Bool :=
  match deref w p with
  | some e => decide (1 ≤ e.usecount)
  | none => false

/-- Pin and unpin are for callers that hold a pin on the entity. -/
def op_allowed (w : World) : lifecycle_op → Bool
  | .pin p => pinned w p
  | .unpin p => pinned w p
  | _ => true

/-- Every operation of the sequence is allowed in the state it runs in. -/
def ops_allowed (w : World) : List lifecycle_op → Bool
  | [] => true
  | op :: ops => op_allowed w op && ops_allowed (lifecycle_step w op) ops

/-- The removal predicate: the test of `cleanup_entity` together with a
zero usecount. -/
def removable (e : ipmi_entity_t) : Bool :=
  cleanup_ready e && e.usecount == 0

/-- The member at `p` is live, has a usecount that is not negative and is
not removable. -/
def member_ok (w : World) (p : Nat) : Bool :=
  match deref w p with
  | some e => decide (0 ≤ e.usecount) && !removable e
  | none => false

/-- Every member of the collection is live and not removable. -/
def registry_inv (w : World) : Prop :=
  ∀ p ∈ w.entities, member_ok w p = true

instance (w : World) : Decidable (registry_inv w) := by
  unfold registry_inv; infer_instance

/-! ## The comparison function at the level of memory -/

/-- Offsets of the two `uint8_t` fields `cmp_dlr` reads, the size of
`dlr_info_t` and the size of a pointer: the facts of the memory layout
the comparison depends on. -/
structure dlr_layout where
  off_entity_id : Nat
  off_entity_instance : Nat
  size : Nat
  ptr_size : Nat
deriving DecidableEq, Repr

/-- Layout facts for an LP64 target: the two fields at offsets 26 and 27,
a record of 96 bytes, pointers of 8 bytes.  The general facts below hold
for every layout whose pointers are not larger than the record. -/
def lp64 : dlr_layout :=
  { off_entity_id := 26, off_entity_instance := 27, size := 96, ptr_size := 8 }

/-- The library function `memcmp` on the first `n` bytes from offset `k`
of two objects, each given by its byte at every offset; the result is the
sign of the first difference. -/
def memcmp (a b : Nat → Nat) : Nat → Nat → Int
  | _, 0 => 0
  | k, n + 1 =>
    if a k < b k then -1
    else if a k > b k then 1
    else memcmp a b (k + 1) n

/-- The function `cmp_dlr` on the objects its two arguments point at. -/
def cmp_dlr (L : dlr_layout) (a b : Nat → Nat) : Int :=
  if a L.off_entity_id < b L.off_entity_id then -1
  else if a L.off_entity_id > b L.off_entity_id then 1
  else if a L.off_entity_instance < b L.off_entity_instance then -1
  else if a L.off_entity_instance > b L.off_entity_instance then 1
  else memcmp a b 0 L.size

/-- Byte `m` of a pointer value stored in memory (least significant byte
first). -/
def ptr_byte (p m : Nat) : Nat := p / 256 ^ m % 256

/-- The memory at the address `dlrs + i` of an array of pointers: the
bytes of the pointers from slot `i` on, then whatever follows the array. -/
def slot_bytes (L : dlr_layout) (ptrs : List Nat) (after : Nat → Nat) (i : Nat) :
    Nat → Nat :=
  fun k =>
    let pos := i * L.ptr_size + k
    if pos / L.ptr_size < ptrs.length then
      ptr_byte (ptrs.getD (pos / L.ptr_size) 0) (pos % L.ptr_size)
    else after (pos - ptrs.length * L.ptr_size)

/-- The call `cmp_dlr(infos.dlrs+i, old_infos->dlrs+j)` of the matching
loop: both arguments are addresses of slots of the pointer arrays. -/
def slot_cmp (L : dlr_layout) (new_ptrs old_ptrs : List Nat)
    (after_new after_old : Nat → Nat) (i j : Nat) : Int :=
  cmp_dlr L (slot_bytes L new_ptrs after_new i) (slot_bytes L old_ptrs after_old j)

/-! ## Example states -/

/-- A generic device locator record for entity `id`.`inst`. -/
def generic_dlr (id inst : Nat) : dlr_info_t :=
  { dlr_zero with type := IPMI_ENTITY_GENERIC, output_handler := 1,
                  entity_id := id, entity_instance := inst }

/-- A management controller layer that finds every controller. -/
def mc_env_ok : Nat → Nat → mc_reply_t :=
  fun _ _ => { find_or_create_rv := 0, mc := 1, add_active_handler_rv := 0,
               is_active := true }

/-- A registry whose user has added entities 1.1 and 2.1 with
`ipmi_entity_add` and holds the two pins. -/
def two_pinned : World :=
  (ipmi_entity_add (ipmi_entity_add (World.empty 1) 0 0 1 1 [] 0 0 0 0).2.2
    0 0 2 1 [] 0 0 0 0).2.2

/-- The state `two_pinned` after controller 5 reported a directory with
one generic locator record for each of the two entities. -/
def two_scanned : Option (Nat × World) :=
  ipmi_entity_scan_sdrs two_pinned 5 (fun _ _ => 1) mc_env_ok
    [generic_dlr 1 1, generic_dlr 2 1]

/-- The state `two_scanned` after controller 5 reported an empty
directory. -/
def two_dropped : Option (Nat × World) :=
  two_scanned.bind (fun r => ipmi_entity_scan_sdrs r.2 5 (fun _ _ => 1) mc_env_ok [])

/-- The first scan of a directory with two generic locator records by an
empty registry. -/
def first_pass : Option (Nat × World) :=
  ipmi_entity_scan_sdrs (World.empty 1) 5 (fun _ _ => 1) mc_env_ok
    [generic_dlr 1 1, generic_dlr 2 1]

/-- The second scan of the same directory: the new records are stored at
addresses 12288 and 12544, the remembered ones at 4096 and 4352. -/
def second_pass : Option (Nat × World) :=
  first_pass.bind (fun r =>
    ipmi_entity_scan_sdrs r.2 5
      (slot_cmp lp64 [12288, 12544] [4096, 4352] (fun _ => 0) (fun _ => 0))
      mc_env_ok [generic_dlr 1 1, generic_dlr 2 1])

/-- A registry with one pinned entity 1.1 whose auto-activate timer is
running and cannot be stopped. -/
def timer_state : World :=
  { (modify (lifecycle_run (World.empty 1) [.add ⟨0, 0⟩ 1 1 0 0]) 0
      (fun e => { e with running_timer_count := 1, hot_swap_act_timer_running := true }))
    with timer_stops := [1] }

/-- The identity key of the entity at an address: channel, address,
entity id, entity instance. -/
def key_at (w : World) (p : Nat) : Option (List Nat) :=
  (deref w p).map (fun e =>
    [e.info.device_num.channel, e.info.device_num.address, e.info.entity_id,
      e.info.entity_instance])

/-- The round trip of a handle for the entity at address `p`: the value
`ipmi_entity_pointer_cb` returns for the handle `ipmi_entity_convert_to_id`
makes of it, and the log of handler calls afterwards. -/
def handle_round_trip (w : World) (p : Nat) : Option (Nat × List Nat) :=
  (deref w p).map (fun e =>
    ((ipmi_entity_pointer_cb w (ipmi_entity_convert_to_id e)).1,
      (ipmi_entity_pointer_cb w (ipmi_entity_convert_to_id e)).2.handler_calls))

/-- A registry with the single pinned entity 1.1. -/
def one_pinned : World :=
  lifecycle_run (World.empty 1) [.add ⟨0, 0⟩ 1 1 0 0]

/-- The entity 1.1 as `entity_add` creates it in the empty registry. -/
def entity_1_1 : ipmi_entity_t :=
  new_entity (World.empty 1) 1 ⟨0, 0⟩ 1 1 0 0

/-- The reference count of the entity at an address. -/
def ref_count_at (w : World) (p : Nat) : Option Nat :=
  (deref w p).map (fun e => e.ref_count)

/-- The children of the entity at an address. -/
def children_at (w : World) (p : Nat) : Option (List Nat) :=
  (deref w p).map (fun e => e.child_entities)

/-- The parents of the entity at an address. -/
def parents_at (w : World) (p : Nat) : Option (List Nat) :=
  (deref w p).map (fun e => e.parent_entities)

/-- The textual id in the payload of the entity at an address: length and
first byte. -/
def id_at (w : World) (p : Nat) : Option (Nat × Nat) :=
  (deref w p).map (fun e => (e.info.id_len, e.info.id.getD 0 0))

/-- An entity association record for entity `id`.`inst` in the range form,
with the single range `cid`.`lo` to `cid`.`hi`. -/
def range_ear (id inst cid lo hi : Nat) : dlr_info_t :=
  { dlr_zero with type := IPMI_ENTITY_EAR, entity_id := id, entity_instance := inst,
                  is_ranges := 1,
                  contained_entities :=
                    [⟨⟨0, 0⟩, cid, lo⟩, ⟨⟨0, 0⟩, cid, hi⟩, dlr_ref_zero, dlr_ref_zero] }

/-- An entity association record for entity `id`.`inst` in the list form,
with the single contained entity `cid`.`cinst`. -/
def list_ear (id inst cid cinst : Nat) : dlr_info_t :=
  { dlr_zero with type := IPMI_ENTITY_EAR, entity_id := id, entity_instance := inst,
                  contained_entities :=
                    [⟨⟨0, 0⟩, cid, cinst⟩, dlr_ref_zero, dlr_ref_zero, dlr_ref_zero] }

/-- The state after `first_pass` in which a user has then given entity 1.1
the textual id "x" through `ipmi_entity_add` and dropped the pin. -/
def named_state : Option World :=
  first_pass.map (fun r =>
    _ipmi_entity_put (ipmi_entity_add r.2 0 0 1 1 [120] 0 1 0 0).2.2 0)

/-- The scan of `named_state` with a directory that has lost the record of
entity 2.1; the comparison is the one of the source on the array slots,
the new record being stored at address 12288 and the remembered ones at
4096 and 4352. -/
def drop_pass : Option (Nat × World) :=
  named_state.bind (fun w =>
    ipmi_entity_scan_sdrs w 5
      (slot_cmp lp64 [12288] [4096, 4352] (fun _ => 0) (fun _ => 0))
      mc_env_ok [generic_dlr 1 1])

/-- The same scan with a comparison that reports the two copies of the
record of entity 1.1 equal. -/
def drop_pass_matched : Option (Nat × World) :=
  named_state.bind (fun w =>
    ipmi_entity_scan_sdrs w 5 (fun i j => if i = j then 0 else if i < j then -1 else 1)
      mc_env_ok [generic_dlr 1 1])

/-- The first scan, by an empty registry, of a directory with locator
records for the entities 1.1 and 7.1. -/
def base_pass : Option (Nat × World) :=
  ipmi_entity_scan_sdrs (World.empty 1) 5 (fun _ _ => 1) mc_env_ok
    [generic_dlr 1 1, generic_dlr 7 1]

/-- The next scan, whose directory has one more record: a range-form
association of entity 7.1 with the entities 5.2 to 5.4.  The comparison is
the one of the source on the array slots. -/
def range_pass : Option (Nat × World) :=
  base_pass.bind (fun r =>
    ipmi_entity_scan_sdrs r.2 5
      (slot_cmp lp64 [12288, 12544, 12800] [4096, 4352] (fun _ => 0) (fun _ => 0))
      mc_env_ok [generic_dlr 1 1, generic_dlr 7 1, range_ear 7 1 5 2 4])

/-- The scan, by an empty registry, of a directory that holds the
range-form association alone, and the scan of the same directory again. -/
def lone_range_pass : Option (Nat × World) :=
  ipmi_entity_scan_sdrs (World.empty 1) 5 (fun _ _ => 1) mc_env_ok [range_ear 7 1 5 2 4]

/-- The second scan of the directory of `lone_range_pass`. -/
def lone_range_again : Option (Nat × World) :=
  lone_range_pass.bind (fun r =>
    ipmi_entity_scan_sdrs r.2 5
      (slot_cmp lp64 [12288] [4096] (fun _ => 0) (fun _ => 0))
      mc_env_ok [range_ear 7 1 5 2 4])

/-- A sensor layer in which every sensor is an ordinary sensor: not a
presence sensor, not a presence-bit sensor, not a hot-swap requester. -/
def plain_sensors : Nat → ipmi_sensor_t := fun _ => {}

/-- The presence flag of the entity at an address. -/
def present_at (w : World) (p : Nat) : Option Bool :=
  (deref w p).map (fun e => e.present)

/-- The presence event count of the entity at an address. -/
def count_at (w : World) (p : Nat) : Option Nat :=
  (deref w p).map (fun e => e.presence_event_count)

/-- The sensors of the entity at an address. -/
def sensors_at (w : World) (p : Nat) : Option (List Nat) :=
  (deref w p).map (fun e => e.sensors)

/-- A registry with the pinned entities 7.1, 5.1 and 5.2 at the addresses
0, 1 and 2, where 5.1 and 5.2 have been made children of 7.1 with
`ipmi_entity_add_child`; no entity has a sensor and none is present. -/
def family : World :=
  let w0 := (entity_add (World.empty 1) ⟨0, 0⟩ 7 1 0 0).2.2
  let w1 := (entity_add w0 ⟨0, 0⟩ 5 1 0 0).2.2
  let w2 := (entity_add w1 ⟨0, 0⟩ 5 2 0 0).2.2
  (ipmi_entity_add_child (ipmi_entity_add_child w2 0 1).2 0 2).2

/-- The state `family` after child 5.1 was reported present. -/
def family_present : Option World :=
  presence_changed 2 family 1 true none

/-- The state `family_present` after child 5.1 and then child 5.2 were
reported absent. -/
def family_absent : Option World :=
  (family_present.bind (fun w => presence_changed 2 w 1 false none)).bind
    (fun w => presence_changed 2 w 2 false none)

/-- The state `family` after the ordinary sensor 50 was attached to the
parent 7.1 and child 5.1 was then reported present. -/
def guarded_family : Option World :=
  presence_changed 2 (ipmi_entity_add_sensor plain_sensors family 0 50) 1 true none

/-- The forced detection of the presence of the parent in
`guarded_family`: the detection record that waits for the answer of
sensor 50, and the state. -/
def guarded_detect : Option (Option ent_active_detect_t × World) :=
  guarded_family.bind (fun w => ent_detect_presence plain_sensors 2 w 0 true)

/-- The completion of the query of `guarded_detect` without error by a
sensor that does not report itself scanning. -/
def guarded_done : Option (Option ent_active_detect_t × World) :=
  guarded_detect.bind (fun r =>
    match r.1 with
    | some info => detect_reading_read 2 r.2 info 0 {}
    | none => none)

/-- A registry with the pinned entity 7.1, which has the ordinary sensor
50 and no child. -/
def lone_sensor : World :=
  ipmi_entity_add_sensor plain_sensors (entity_add (World.empty 1) ⟨0, 0⟩ 7 1 0 0).2.2 0 50

/-- The forced detection of the presence of 7.1 in `lone_sensor`, after
which sensor 50 is removed from the entity while its query is
outstanding. -/
def orphan_detect : Option (Option ent_active_detect_t × World) :=
  (ent_detect_presence plain_sensors 2 lone_sensor 0 true).map
    (fun r => (r.1, ipmi_entity_remove_sensor plain_sensors r.2 0 50))

/-- The completion of the query of `orphan_detect` without error by a
sensor that does not report itself scanning, with recursion budget
`fuel`. -/
def orphan_done (fuel : Nat) : Option (Option ent_active_detect_t × World) :=
  orphan_detect.bind (fun r =>
    match r.1 with
    | some info => detect_reading_read fuel r.2 info 0 {}
    | none => none)

/-- An operation on the sensors of an entity. -/
inductive sensor_op where
  | add (sensor : Nat)
  | remove (sensor : Nat)
deriving DecidableEq, Repr

/-- Effect of one sensor operation on the entity at `p`. -/
def sensor_step (sens : Nat → ipmi_sensor_t) (p : Nat) (w : World) : sensor_op → World
  | .add s => ipmi_entity_add_sensor sens w p s
  | .remove s => ipmi_entity_remove_sensor sens w p s

/-- Effect of a sequence of sensor operations on the entity at `p`. -/
def sensor_run (sens : Nat → ipmi_sensor_t) (p : Nat) (w : World) : List sensor_op → World
  | [] => w
  | op :: ops => sensor_run sens p (sensor_step sens p w op) ops

/-- The two presence roles of the entity at an address: the installed
presence sensor and the installed presence-bit sensor. -/
def roles (w : World) (p : Nat) : Option (Option Nat × Option Nat) :=
  (deref w p).map (fun e => (e.presence_sensor, e.presence_bit_sensor))

/-- The entity at `p` has both a presence sensor and a presence-bit
sensor installed. -/
def both_installed (w : World) (p : Nat) : Bool :=
  match roles w p with
  | some (some _, some _) => true
  | _ => false

/-- A sensor layer with the presence sensor 60, the presence-bit sensor 61
(a power supply whose bit 0 is readable) and ordinary sensors
otherwise. -/
def mixed_sensors : Nat → ipmi_sensor_t := fun s =>
  if s = 60 then { sensor_type := IPMI_SENSOR_TYPE_ENTITY_PRESENCE, readable := [0, 1] }
  else if s = 61 then { sensor_type := IPMI_SENSOR_TYPE_POWER_SUPPLY, readable := [0] }
  else {}

/-- The payload of the entity at an address. -/
def payload_at (w : World) (p : Nat) : Option dlr_info_t :=
  (deref w p).map (fun e => e.info)

/-- An MC locator record for entity 1.1 with the FRU inventory device
capability, and one without it. -/
def mc_dlr (fru_inventory : Nat) : dlr_info_t :=
  { dlr_zero with type := IPMI_ENTITY_MC, entity_id := 1, entity_instance := 1,
                  access_address := 32, FRU_inventory_device := fru_inventory }

/-- An unmatched slot of the found array whose entity is at address 0. -/
def slot_0 : entity_found_t :=
  { found := false, ent := some 0, cent := [], cent_len := 0 }

/-- The commit loop on `one_pinned` for the two MC records of entity 1.1,
the one with the capability first when `fru_first` is true. -/
def mc_pair_commit (fru_first : Bool) : Option (Nat × Nat × World) :=
  if fru_first then
    commit_new mc_env_ok ([] ++ (mc_dlr 1, slot_0) :: ([] ++ (mc_dlr 0, slot_0) :: [])) 0 0
      one_pinned
  else
    commit_new mc_env_ok ([] ++ (mc_dlr 0, slot_0) :: ([] ++ (mc_dlr 1, slot_0) :: [])) 0 0
      one_pinned

/-- The state `family` after the parent 7.1 got the presence-bit sensor
61, the presence sensor 60 and the ordinary sensor 50. -/
def watched : World :=
  sensor_run mixed_sensors 0 family [.add 61, .add 60, .add 50]

/-- The entity 7.1 in the state `watched`. -/
def watched_ent : ipmi_entity_t :=
  (deref watched 0).getD entity_1_1

/-- The fields of an entity that the presence cascade reads but does not
write: children, parents and sensors. -/
def shape (e : ipmi_entity_t) : List Nat × List Nat × List Nat :=
  (e.child_entities, e.parent_entities, e.sensors)

/-- The shape of the entity at an address. -/
def shape_at (w : World) (q : Nat) : Option (List Nat × List Nat × List Nat) :=
  (deref w q).map shape

/-- The second state has the same entities as the first as far as the
shape goes. -/
def same_shape (w w1 : World) : Prop :=
  ∀ q, shape_at w1 q = shape_at w q

/-- The presence flag and the presence event count of the entity at an
address. -/
def dyn_at (w : World) (q : Nat) : Option (Bool × Nat) :=
  (deref w q).map (fun e => (e.present, e.presence_event_count))

/-- The second state has the same entities as the first as far as shape,
presence flag and presence event count go. -/
def quiet (w w1 : World) : Prop :=
  ∀ q, shape_at w1 q = shape_at w q ∧ dyn_at w1 q = dyn_at w q

/-- The logical OR of the presence flags of the entities of a list. -/
def any_present (w : World) (cs : List Nat) : Bool :=
  cs.any (fun c => match deref w c with
    | some e => e.present
    | none => false)

/-- The entity at `q`, if it has no sensor, has the presence flag that
child aggregation gives: the logical OR of the flags of its children. -/
def aggregated (w : World) (q : Nat) : Prop :=
  ∀ e, deref w q = some e → e.sensors = [] → e.present = any_present w e.child_entities

/-- The edges join live entities and are recorded on both sides. -/
def edges_ok (w : World) : Prop :=
  ∀ a e, deref w a = some e →
    (∀ c ∈ e.child_entities, ∃ x, deref w c = some x ∧ a ∈ x.parent_entities)
    ∧ (∀ q ∈ e.parent_entities, ∃ x, deref w q = some x ∧ a ∈ x.child_entities)

/-- The function `h` is a height: every parent of an entity is lower than
the entity, so the containment graph has no cycle. -/
def ranked (w : World) (h : Nat → Nat) : Prop :=
  ∀ a e, deref w a = some e → ∀ q ∈ e.parent_entities, h q < h a

/-- What `presence_changed` on the entity at `x` with the value `v` leaves
behind, `h` being a height: the shapes are as before; no entity other
than `x` that is at least as high as `x` has changed its presence flag or
count, nor has any other entity that has a sensor; `x` has the flag `v`;
every other entity that was aggregated still is; and if the flag of `x`
has changed, every parent of `x` is aggregated. -/
def cascade_post (h : Nat → Nat) (w : World) (x : Nat) (v : Bool) (w1 : World) : Prop :=
  same_shape w w1
  ∧ (∀ q, q ≠ x → h x ≤ h q → dyn_at w1 q = dyn_at w q)
  ∧ (∀ q e, q ≠ x → deref w q = some e → e.sensors ≠ [] → dyn_at w1 q = dyn_at w q)
  ∧ present_at w1 x = (deref w x).map (fun _ => v)
  ∧ (∀ q, q ≠ x → aggregated w q → aggregated w1 q)
  ∧ (∀ e, deref w x = some e → v ≠ e.present → ∀ q ∈ e.parent_entities, aggregated w1 q)

/-- What the rescan of the parents `qs` of the entity at `x` leaves
behind. -/
def rescan_post (h : Nat → Nat) (w : World) (x : Nat) (qs : List Nat) (w1 : World) : Prop :=
  same_shape w w1
  ∧ (∀ q, h x ≤ h q → dyn_at w1 q = dyn_at w q)
  ∧ (∀ q e, deref w q = some e → e.sensors ≠ [] → dyn_at w1 q = dyn_at w q)
  ∧ (∀ q, aggregated w q → aggregated w1 q)
  ∧ (∀ q ∈ qs, aggregated w1 q)

/-- The test of `edges_ok` on the addresses of the heap. -/
def edges_check (w : World) : Bool :=
  (List.range w.heap.length).all (fun a =>
    match deref w a with
    | none => true
    | some e =>
      e.child_entities.all (fun c =>
        match deref w c with
        | some x => decide (a ∈ x.parent_entities)
        | none => false)
      && e.parent_entities.all (fun q =>
        match deref w q with
        | some x => decide (a ∈ x.child_entities)
        | none => false))

/-- The test of `ranked` on the addresses of the heap. -/
def ranked_check (w : World) (h : Nat → Nat) : Bool :=
  (List.range w.heap.length).all (fun a =>
    match deref w a with
    | none => true
    | some e => e.parent_entities.all (fun q => decide (h q < h a)))

/-- A height for the states of the example `family`: the parent at
address 0 is lower than the children. -/
def family_height : Nat → Nat := fun q => if q = 0 then 0 else 1

/-- The child 5.1 in the state `family`. -/
def family_child : ipmi_entity_t :=
  (deref family 1).getD entity_1_1

/-- The parent 7.1 in the state `family`. -/
def family_parent : ipmi_entity_t :=
  (deref family 0).getD entity_1_1

/-- The fields of an entity that a scan which fails before the commit has
to leave alone: reference count, payload, children and parents, and with
them the sensors and controls, which the removal test reads too. -/
def kept (e : ipmi_entity_t) :
    Nat × dlr_info_t × List Nat × List Nat × List Nat × List Nat :=
  (e.ref_count, e.info, e.child_entities, e.parent_entities, e.sensors, e.controls)

/-- The pins a slot of a found array stands for: its entity and its
resolved children, unless the slot is marked found. -/
def slot_pins (f : entity_found_t) : List Nat :=
  if f.found then [] else f.ent.toList ++ f.cent

/-- The pins a found array stands for, in the order `put_entities` drops
them. -/
def pins (fs : List entity_found_t) : List Nat :=
  (fs.map slot_pins).flatten

/-- The state `w` stands to the state `w0` as a state of the resolution
phase of a scan that started in `w0`, `n q` being a number of pins taken
on `q` and not yet dropped: every member of the collection of `w0` is
live with the fields of `kept` as before and a pin count that has grown
by at least `n`; every other live entity of `w0` is as before; pins are
held, and members of the collection are, only at addresses that were
members or held no entity. -/
structure held (w0 w : World) (n : Nat → Nat) : Prop where
  members : ∀ p ∈ w0.entities, ∀ e0, deref w0 p = some e0 →
    ∃ e, deref w p = some e ∧ kept e = kept e0 ∧ e0.usecount + n p ≤ e.usecount
  others : ∀ q e0, q ∉ w0.entities → deref w0 q = some e0 → deref w q = some e0
  credit : ∀ p, 0 < n p → p ∈ w0.entities ∨ deref w0 p = none
  registry : ∀ p ∈ w.entities, p ∈ w0.entities ∨ deref w0 p = none

/-- The records of the scan state remembered for a controller. -/
def records_of (w : World) (mc : Nat) : List dlr_info_t :=
  ((_ipmi_get_sdr_entities w mc).map (fun i => i.dlrs)).getD []

/-- The resolution and pre-allocation phases of `ipmi_entity_scan_sdrs`:
when one of them fails, what the call returns through `out_err_unlock`;
when both succeed, the size of the entry pool, the two scan states and
the state in which the commit starts. -/
def scan_prepare (w : World) (mc : Nat) (c : Nat → Nat → Int) (dlrs : List dlr_info_t) :
    Except (Nat × World) (Nat × entity_sdr_info_t × entity_sdr_info_t × World) :=
  let got : Option (entity_sdr_info_t × World) :=
    match _ipmi_get_sdr_entities w mc with
    | some old => some (old, w)
    | none =>
      match take_alloc w with
      | (false, _) => none
      | (true, w1) =>
        some ({ found := [], dlrs := [] },
          _ipmi_set_sdr_entities w1 mc { found := [], dlrs := [] })
  match got with
  | none => .error (ENOMEM, (take_alloc w).2)
  | some (old, w1) =>
    let old0 := List.replicate old.dlrs.length found_zero
    let new0 := List.replicate dlrs.length found_zero
    match match_loop c (dlrs.length + old.dlrs.length) 0 0 new0 old0 with
    | (nf, of) =>
      match fill_in_entities w1 { found := nf, dlrs := dlrs } with
      | (0, infos1, w2) =>
        match fill_in_entities w2 { found := of, dlrs := old.dlrs } with
        | (0, old1, w3) =>
          match alloc_entries infos1.found w3 0 with
          | (none, w4) => .error (scan_out_err w4 mc ENOMEM infos1 old1)
          | (some entries, w4) => .ok (entries, infos1, old1, w4)
        | (rv, old1, w3) => .error (scan_out_err w3 mc rv infos1 old1)
      | (rv, infos1, w2) =>
        .error (scan_out_err w2 mc rv infos1 { found := of, dlrs := old.dlrs })

/-- The registry `two_pinned` in a moment where the first allocation of
the next scan succeeds and the second one fails. -/
def starved : World :=
  { two_pinned with allocs := [true, false] }

/-- The directory the controller reports to the registry `starved`: the
known entity 1.1 and the unknown entity 3.1. -/
def starved_dlrs : List dlr_info_t :=
  [generic_dlr 1 1, generic_dlr 3 1]

/-- What the failed scan of `starved_dlrs` by the registry `starved`
returns through `out_err_unlock`. -/
def starved_out : Nat × World :=
  match scan_prepare starved 5 (fun _ _ => 1) starved_dlrs with
  | .error r => r
  | .ok _ => (0, starved)

/-! ## Auxiliary notions of the scan proofs -/

/-- The four key fields of an entity are those of the search record. -/
def has_key (e : ipmi_entity_t) (info : search_info_t) : Prop :=
  e.info.device_num = info.device_num ∧ e.info.entity_id = info.entity_id
    ∧ e.info.entity_instance = info.entity_instance

/-- The state `w1` differs from `w` at most in the object at `p` and in
the oracles. -/
structure frame (p : Nat) (w w1 : World) : Prop where
  events : w1.events = w.events
  entities : w1.entities = w.entities
  calls : w1.handler_calls = w.handler_calls
  other : ∀ q, q ≠ p → deref w1 q = deref w q

/-- The payload the commit of one new locator record leaves in its
entity, given the payload `x` the entity has. -/
def next_payload (x d : dlr_info_t) : dlr_info_t :=
  if d.type == IPMI_ENTITY_MC && d.FRU_inventory_device == 0
      && x.FRU_inventory_device != 0 then x
  else d

/-- A slot of the new array whose commit does not write the payload of the
entity at `p`: it is marked found, or its entity is another one, or its
record is an association. -/
def foreign_slot (p : Nat) (x : dlr_info_t × entity_found_t) : Prop :=
  x.2.found = true ∨ x.2.ent ≠ some p ∨ is_ear x.1 = true

/-- The state in which `ent_detect_presence` chooses the source of
presence: the flag is cleared and, for a hot-swappable entity, the
hot-swap state has been checked. -/
def detect_base (w : World) (p : Nat) (ent : ipmi_entity_t) : World :=
  if ent.hot_swappable != 0 then
    (ipmi_entity_check_hot_swap_state
      (modify w p (fun e => { e with presence_possibly_changed := false })) p).2
  else modify w p (fun e => { e with presence_possibly_changed := false })

/-- Every slot of the found array has no entity and no resolved child. -/
def blank (fs : List entity_found_t) : Prop :=
  ∀ f ∈ fs, f.ent = none ∧ f.cent = []

/-! ## The containment graph as the scan sees it -/

/-- The part of an entity that the scan of a directory and its reversal
read and write: the reference count, the identity key, the children and
the parents. -/
structure node_t where
  rc : Nat
  key : search_info_t
  children : List Nat
  parents : List Nat
deriving DecidableEq, Repr

/-- The collection of a registry together with that part of every entity
of its heap. -/
structure graph_t where
  members : List Nat
  size : Nat
  node : Nat → Option node_t

/-- The identity key of an entity, as `search_entity` compares it. -/
def key_of (e : ipmi_entity_t) : search_info_t :=
  { device_num := e.info.device_num, entity_id := e.info.entity_id,
    entity_instance := e.info.entity_instance }

/-- The node of an entity. -/
def node_of (e : ipmi_entity_t) : node_t :=
  { rc := e.ref_count, key := key_of e, children := e.child_entities,
    parents := e.parent_entities }

/-- The graph of a state. -/
def graph_of (w : World) : graph_t :=
  { members := w.entities, size := w.heap.length,
    node := fun p => (deref w p).map node_of }

/-- The graph in which every node `n` at an address `q` is replaced by
`F q n`. -/
def graph_t.map (G : graph_t) (F : Nat → node_t → node_t) : graph_t :=
  { G with node := fun q => (G.node q).map (F q) }

/-- The graph with one more member, stored at the first free address. -/
def graph_t.append (G : graph_t) (x : node_t) : graph_t :=
  { members := G.members ++ [G.size], size := G.size + 1,
    node := fun q => if q = G.size then some x else G.node q }

/-- The graph without the member `p`, whose address holds `o` afterwards. -/
def graph_t.drop (G : graph_t) (p : Nat) (o : Option node_t) : graph_t :=
  { members := locked_list_remove G.members p, size := G.size,
    node := fun q => if q = p then o else G.node q }

/-- The address `a` holds an entity with the key `k`. -/
def keyed (G : graph_t) (a : Nat) (k : search_info_t) : Prop :=
  ∃ x, G.node a = some x ∧ x.key = k

/-- A graph whose members are live and have different keys, and whose
edges join members and are recorded on both sides. -/
structure sound (G : graph_t) : Prop where
  live : ∀ p ∈ G.members, ∃ n, G.node p = some n
  bound : ∀ p, G.size ≤ p → G.node p = none
  unique : ∀ p ∈ G.members, ∀ q ∈ G.members, ∀ k, keyed G p k → keyed G q k → p = q
  down : ∀ p ∈ G.members, ∀ n, G.node p = some n → ∀ c ∈ n.children,
    c ∈ G.members ∧ ∃ x, G.node c = some x ∧ p ∈ x.parents
  up : ∀ p ∈ G.members, ∀ n, G.node p = some n → ∀ q ∈ n.parents,
    q ∈ G.members ∧ ∃ x, G.node q = some x ∧ p ∈ x.children

/-- The node `n` is what the node `n0` has become when the locator
records with the keys `Ks` hold a reference and the edges `E`, given by
the keys of parent and child, may have been added: the key is the same,
the reference count is higher by the number of records for this key, and
the children and parents are the old ones followed by ends of edges of
`E`. -/
def follows (G : graph_t) (n0 n : node_t) (Ks : List search_info_t)
    (E : List (search_info_t × search_info_t)) : Prop :=
  n.key = n0.key ∧ n.rc = (n0.rc + Ks.count n0.key) % 4294967296
  ∧ (∃ A, n.children = n0.children ++ A
      ∧ ∀ a ∈ A, ∃ sk ∈ E, sk.1 = n0.key ∧ keyed G a sk.2)
  ∧ (∃ B, n.parents = n0.parents ++ B
      ∧ ∀ b ∈ B, ∃ sk ∈ E, keyed G b sk.1 ∧ sk.2 = n0.key)

/-- Every entity that is a member in `G0` and in `G` follows in `G` from
what it was in `G0`. -/
def tracked (G0 G : graph_t) (Ks : List search_info_t)
    (E : List (search_info_t × search_info_t)) : Prop :=
  ∀ p ∈ G.members, p ∈ G0.members → ∀ n0, G0.node p = some n0 →
    ∃ n, G.node p = some n ∧ follows G n0 n Ks E

/-- No edge of the graph joins a member with the first key to a child
with the second key. -/
def fresh (G : graph_t) (sk : search_info_t × search_info_t) : Prop :=
  ∀ p ∈ G.members, ∀ n, G.node p = some n → n.key = sk.1 →
    ∀ c ∈ n.children, ∀ x, G.node c = some x → x.key ≠ sk.2

/-- The address `p` is the only one a member with the key `s` can have. -/
def subject (G : graph_t) (s : search_info_t) (p : Nat) : Prop :=
  (∀ q ∈ G.members, keyed G q s → q = p) ∧ (p ∈ G.members → keyed G p s)

/-- The change `add_child` makes to the nodes. -/
def link (p c : Nat) (q : Nat) (n : node_t) : node_t :=
  { n with children := if q = p then locked_list_add n.children c else n.children,
           parents := if q = c then locked_list_add n.parents p else n.parents }

/-- The change `ipmi_entity_remove_child` makes to the nodes. -/
def unlink (p c : Nat) (q : Nat) (n : node_t) : node_t :=
  { n with children := if q = p then locked_list_remove n.children c else n.children,
           parents := if q = c then locked_list_remove n.parents p else n.parents }

/-- The change the commit of a locator record makes to the nodes. -/
def bump (p : Nat) (q : Nat) (n : node_t) : node_t :=
  if q = p then { n with rc := u32_inc n.rc } else n

/-- The change the reversal of a locator record makes to the nodes. -/
def unbump (p : Nat) (q : Nat) (n : node_t) : node_t :=
  if q = p then { n with rc := u32_dec n.rc } else n

/-- An edge one of whose keys no member has. -/
def dead (G : graph_t) (sk : search_info_t × search_info_t) : Prop :=
  (∀ q ∈ G.members, ¬ keyed G q sk.1) ∨ (∀ q ∈ G.members, ¬ keyed G q sk.2)

/-- A node without children and parents. -/
def isolated (G : graph_t) (x : Nat) : Prop :=
  ∃ n, G.node x = some n ∧ n.children = [] ∧ n.parents = []

/-- The key of the entity a record is about, as the record stores it. -/
def dlr_key (d : dlr_info_t) : search_info_t :=
  { device_num := d.device_num, entity_id := d.entity_id,
    entity_instance := d.entity_instance }

/-- The graph `G1` is sound, not smaller than `G`, and whatever was
tracked in `G` is tracked in it. -/
structure steps (G G1 : graph_t) : Prop where
  ok : sound G1
  size : G.size ≤ G1.size
  track : ∀ G0 Ks E, sound G0 → G0.size ≤ G.size → tracked G0 G Ks E → tracked G0 G1 Ks E

/-- The graph `G1` comes from `G` by steps that keep the members and
their keys. -/
structure grows (G G1 : graph_t) : Prop where
  all : steps G G1
  members : ∀ a ∈ G.members, a ∈ G1.members
  keys : ∀ a k, keyed G a k → keyed G1 a k

/-- The key under which `fill_in_entities` and `ipmi_sdr_entity_destroy`
look for a contained entity of a record. -/
def contained_key (k : ipmi_device_num_t × Nat × Nat) : search_info_t :=
  search_info_of k.1 k.2.1 k.2.2

/-- The key under which `fill_in_entities` and `ipmi_sdr_entity_destroy`
look for the entity of a record. -/
def subject_key (d : dlr_info_t) : search_info_t :=
  search_info_of d.device_num d.entity_id d.entity_instance

/-- The address `c` is a member with the key of the contained entity `k`. -/
def resolves (G : graph_t) (k : ipmi_device_num_t × Nat × Nat) (c : Nat) : Prop :=
  c ∈ G.members ∧ keyed G c (contained_key k)

/-- What `fill_in_entities` leaves in the slot of the record `d` when it
does not lodge the children of an association elsewhere: the slot is not
marked found; a record without entity id has no entity and no children;
otherwise the entity is the member with the key of the record and the
children are the members with the keys of the contained entities. -/
def resolved (G : graph_t) (d : dlr_info_t) (f : entity_found_t) : Prop :=
  f.found = false
  ∧ ((d.entity_id = 0 ∧ f.ent = none ∧ f.cent = [])
    ∨ (d.entity_id ≠ 0 ∧ ∃ p, f.ent = some p ∧ p ∈ G.members ∧ keyed G p (subject_key d)
        ∧ List.Forall₂ (resolves G) (if is_ear d then contained_keys d else []) f.cent))

/-- No association record from the third record on has the key of the
record before it, so the search loop of `fill_in_entities` never leaves
the slot of the record. -/
def no_redirect (D : List dlr_info_t) : Prop :=
  ∀ i < D.length, 2 ≤ i → is_ear (D.getD i dlr_zero) = true →
    subject_key (D.getD (i - 1) dlr_zero) ≠ subject_key (D.getD i dlr_zero)

/-- The keys of the locator records of a directory, one for every
reference the commit of the directory makes. -/
def pending_keys (D : List dlr_info_t) : List search_info_t :=
  (D.filter (fun d => !is_ear d)).map subject_key

/-- The edges the association records of a directory list, by the keys of
parent and child. -/
def listed_edges (D : List dlr_info_t) : List (search_info_t × search_info_t) :=
  (D.map (fun d =>
    if is_ear d then (contained_keys d).map (fun k => (subject_key d, contained_key k))
    else [])).flatten

/-- The graphs have the same members with the same keys. -/
def same_keys (G G1 : graph_t) : Prop :=
  G1.members = G.members ∧ G1.size = G.size ∧ ∀ a k, keyed G1 a k ↔ keyed G a k

/-- The state of the graph `G` while the records `D` of a scan hold their
references and edges, `G0` being the graph before the scan. -/
structure ledger (G0 G : graph_t) (D : List dlr_info_t) : Prop where
  ok : sound G
  size : G0.size ≤ G.size
  track : tracked G0 G (pending_keys D) (listed_edges D)

/-- The member at `p` is live, its reference count is an `unsigned int`,
no other member has its key, and its edges join members and are recorded
on both sides. -/
def node_ok (w : World) (p : Nat) : Bool :=
  match deref w p with
  | none => false
  | some e =>
    decide (e.ref_count < 4294967296)
    && w.entities.all (fun q => q == p || match deref w q with
        | some x => key_of x != key_of e
        | none => true)
    && e.child_entities.all (fun c => decide (c ∈ w.entities) && match deref w c with
        | some x => decide (p ∈ x.parent_entities)
        | none => false)
    && e.parent_entities.all (fun q => decide (q ∈ w.entities) && match deref w q with
        | some x => decide (p ∈ x.child_entities)
        | none => false)

/-- Every member of the collection is live, with a reference count in the
range of `unsigned int`; no two members have the same key; and every edge
joins two members and is recorded on both sides. -/
def graph_ok (w : World) : Prop :=
  ∀ p ∈ w.entities, node_ok w p = true

instance (w : World) : Decidable (graph_ok w) := by
  unfold graph_ok; infer_instance

/-- Some member with the first key has a child with the second key. -/
def edge_known (w : World) (sk : search_info_t × search_info_t) : Bool :=
  w.entities.any (fun p => match deref w p with
    | some e => key_of e == sk.1 && e.child_entities.any (fun c => match deref w c with
        | some x => key_of x == sk.2
        | none => false)
    | none => false)

/-- None of the edges the association records of the directory list is
an edge of the state. -/
def fresh_edges (w : World) (D : List dlr_info_t) : Prop :=
  ∀ sk ∈ listed_edges D, edge_known w sk = false

instance (w : World) (D : List dlr_info_t) : Decidable (fresh_edges w D) := by
  unfold fresh_edges; infer_instance

instance (D : List dlr_info_t) : Decidable (no_redirect D) := by
  unfold no_redirect; infer_instance

/-- A registry with the entities 7.1 and 5.1, added with `ipmi_entity_add`,
in which 5.1 has been made a child of 7.1 with `ipmi_entity_add_child`. -/
def housed : World :=
  (ipmi_entity_add_child
    (ipmi_entity_add (ipmi_entity_add (World.empty 1) 0 0 7 1 [] 0 0 0 0).2.2
      0 0 5 1 [] 0 0 0 0).2.2 0 1).2

/-- The first scan of controller 5 by the registry `housed`, whose
directory is one association record that lists 5.1 under 7.1. -/
def housed_scan : Option (Nat × World) :=
  ipmi_entity_scan_sdrs housed 5 (fun _ _ => 1) mc_env_ok [list_ear 7 1 5 1]

/-- The state after `ipmi_sdr_entity_destroy` on the scan state that
`housed_scan` has left for controller 5. -/
def housed_destroy : Option (Nat × World) :=
  housed_scan.bind (fun r =>
    (_ipmi_get_sdr_entities r.2 5).map (fun infos => ipmi_sdr_entity_destroy r.2 infos))

/-- A registry with the entities 1.1, 7.1 and 5.1, added with
`ipmi_entity_add`, in which 5.1 has been made a child of 1.1 with
`ipmi_entity_add_child`. -/
def annexed : World :=
  (ipmi_entity_add_child
    (ipmi_entity_add (ipmi_entity_add (ipmi_entity_add (World.empty 1)
      0 0 1 1 [] 0 0 0 0).2.2 0 0 7 1 [] 0 0 0 0).2.2 0 0 5 1 [] 0 0 0 0).2.2 0 2).2

/-- The directory controller 5 reports to the registry `annexed`: a
locator record for 7.1, an association record that lists 5.1 under 7.1
and one that lists the unknown entity 6.1 under 1.1. -/
def annexed_dlrs : List dlr_info_t :=
  [generic_dlr 7 1, list_ear 7 1 5 1, list_ear 1 1 6 1]

/-- What the first scan of `annexed_dlrs` by the registry `annexed`
returns. -/
def annexed_scan : Nat × World :=
  (ipmi_entity_scan_sdrs annexed 5 (fun _ _ => 1) mc_env_ok annexed_dlrs).getD (0, annexed)

/-- The scan state that `annexed_scan` has left for controller 5. -/
def annexed_infos : entity_sdr_info_t :=
  (_ipmi_get_sdr_entities annexed_scan.2 5).getD { found := [], dlrs := [] }

/-! ## The control layer -/

/-- Value of errno EAGAIN. -/
def EAGAIN : Nat := 11

/-- Modelled from the spec: `IPMI_CONTROL_LIGHT`, the type of a light;
the control types are declared in a header. -/
def IPMI_CONTROL_LIGHT : Nat := 1

/-- Modelled from the spec: `IPMI_CONTROL_POWER`. -/
def IPMI_CONTROL_POWER : Nat := 6

/-- Modelled from the spec: what the control layer answers about one
control: its type, its number of values, what
`ipmi_control_is_hot_swap_power` returns, the four values
`ipmi_control_is_hot_swap_indicator` reports in the order of its
arguments (request-activate, active, request-deactivate, inactive; `none`
when it returns false), and the value
`ipmi_control_add_val_event_handler` returns. -/
structure ipmi_control_t where
  control_type : Nat := 0
  num_vals : Nat := 0
  hot_swap_power : Bool := false
  hot_swap_indicator : Option (Int × Int × Int × Int) := none
  add_handler_rv : Nat := 0
deriving DecidableEq, Repr

/-- Modelled from the spec: the enum `ipmi_event_dir_e` of the direction
of a discrete event; its declaration is in a header. -/
inductive ipmi_event_dir_e where
  | IPMI_ASSERTION
  | IPMI_DEASSERTION
deriving DecidableEq, Repr

open ipmi_event_dir_e

/-- The function `is_hot_swap_power`. -/
def is_hot_swap_power (c : ipmi_control_t) : Bool :=
  if c.control_type != IPMI_CONTROL_POWER then false
  else if c.num_vals != 1 then false
  else c.hot_swap_power

/-- The function `is_hot_swap_indicator`. -/
def is_hot_swap_indicator (c : ipmi_control_t) : Bool :=
  if c.control_type != IPMI_CONTROL_LIGHT then false
  else if c.num_vals != 1 then false
  else c.hot_swap_indicator.isSome

/-! ## The hot-swap machine: events, user requests and completions -/

/-- A call of a completion function the user passed, unless it is NULL:
the call is recorded with the entity it is made for. -/
def call_user_handler (w : World) (handler p : Nat) : World :=
  if handler == 0 then w
  else { w with trace := { w.trace with
    external_calls := w.trace.external_calls ++ [(handler, p)] } }

/-- The function `hot_swap_power_on`, the completion of the power write
of an activation without user handler. -/
def hot_swap_power_on (w : World) (p : Nat) (err : Nat) : World :=
  if err != 0 then w
  else (set_hot_swap_state w p IPMI_HOT_SWAP_ACTIVE).2

/-- The function `hot_swap_power_off`. -/
def hot_swap_power_off (w : World) (p : Nat) (err : Nat) : World :=
  if err != 0 then w
  else (set_hot_swap_state w p IPMI_HOT_SWAP_INACTIVE).2

/-- The function `hot_swap_power_on_cb`, the completion of the power
write of an activation with the user handler `handler`. -/
def hot_swap_power_on_cb (w : World) (p handler : Nat) (err : Nat) : World :=
  let w1 := if err != 0 then w else (set_hot_swap_state w p IPMI_HOT_SWAP_ACTIVE).2
  call_user_handler w1 handler p

/-- The function `hot_swap_power_off_cb`. -/
def hot_swap_power_off_cb (w : World) (p handler : Nat) (err : Nat) : World :=
  let w1 := if err != 0 then w else (set_hot_swap_state w p IPMI_HOT_SWAP_INACTIVE).2
  call_user_handler w1 handler p

/-- The end of `hot_swap_act` and of `hot_swap_deact`: the value `val` is
written to the power control, with the completion function `cb`; if the
control layer accepts the write the hot-swap state becomes `next`. -/
def power_write (w : World) (p power : Nat) (val : Int) (cb : callback_e)
    (next : ipmi_hot_swap_states) : Nat × World :=
  match send_request w { req := .control_set_val power val, cb := cb, ent := p } with
  | (rv, w1) =>
    if rv == 0 then (rv, (set_hot_swap_state w1 p next).2)
    else (rv, w1)

/-- The function `hot_swap_act`: return value and new state.  `handler`
is the completion function of the user, 0 for NULL; with a handler the
callback record `info` is allocated first. -/
def hot_swap_act (w : World) (p handler : Nat) : Nat × World :=
  match deref w p with
  | none => (ENOSYS, w)
  | some ent =>
    if ent.hot_swap_state == IPMI_HOT_SWAP_ACTIVATION_REQUESTED then
      match ent.hot_swap_power with
      | none => (ENOSYS, w)
      | some power =>
        if handler == 0 then
          power_write w p power 1 .hot_swap_power_on IPMI_HOT_SWAP_ACTIVATION_IN_PROGRESS
        else
          match take_alloc w with
          | (false, w1) => (ENOMEM, w1)
          | (true, w1) =>
            power_write w1 p power 1 (.hot_swap_power_on_cb handler)
              IPMI_HOT_SWAP_ACTIVATION_IN_PROGRESS
    else (EAGAIN, w)

/-- The function `hot_swap_deact`: return value and new state. -/
def hot_swap_deact (w : World) (p handler : Nat) : Nat × World :=
  match deref w p with
  | none => (ENOSYS, w)
  | some ent =>
    if ent.hot_swap_state == IPMI_HOT_SWAP_DEACTIVATION_REQUESTED then
      match ent.hot_swap_power with
      | none => (ENOSYS, w)
      | some power =>
        if handler == 0 then
          power_write w p power 0 .hot_swap_power_off
            IPMI_HOT_SWAP_DEACTIVATION_IN_PROGRESS
        else
          match take_alloc w with
          | (false, w1) => (ENOMEM, w1)
          | (true, w1) =>
            power_write w1 p power 0 (.hot_swap_power_off_cb handler)
              IPMI_HOT_SWAP_DEACTIVATION_IN_PROGRESS
    else (EAGAIN, w)

/-- The function `hot_swap_requester_changed`, the handler of the events
of the requester sensor: return value and new state. -/
def hot_swap_requester_changed (w : World) (p : Nat) (dir : ipmi_event_dir_e)
    (offset : Int) : Nat × World :=
  match deref w p with
  | none => (0, w)
  | some ent =>
    if offset != ent.hot_swap_offset then (0, w)
    else if ent.hot_swap_requesting_val != 0 && dir == IPMI_ASSERTION then
      match ent.hot_swap_state with
      | IPMI_HOT_SWAP_ACTIVE =>
        (0, (set_hot_swap_state w p IPMI_HOT_SWAP_DEACTIVATION_REQUESTED).2)
      | IPMI_HOT_SWAP_ACTIVATION_REQUESTED =>
        (0, (set_hot_swap_state w p IPMI_HOT_SWAP_INACTIVE).2)
      | IPMI_HOT_SWAP_ACTIVATION_IN_PROGRESS =>
        (0, (set_hot_swap_state w p IPMI_HOT_SWAP_DEACTIVATION_IN_PROGRESS).2)
      | _ => (0, w)
    else
      match ent.hot_swap_state with
      | IPMI_HOT_SWAP_DEACTIVATION_REQUESTED =>
        (0, (set_hot_swap_state w p IPMI_HOT_SWAP_ACTIVE).2)
      | IPMI_HOT_SWAP_INACTIVE =>
        (0, (set_hot_swap_state w p IPMI_HOT_SWAP_ACTIVATION_REQUESTED).2)
      | _ => (0, w)

/-- The value of the C expression
`ipmi_is_state_set(states, offset) == val`. -/
def state_is (states : ipmi_states_t) (offset val : Int) : Bool :=
  (if ipmi_is_state_set states offset then (1 : Int) else 0) == val

/-- The function `requester_checked`, the completion of a query of the
requester sensor. -/
def requester_checked (w : World) (p : Nat) (err : Nat) (states : ipmi_states_t) : World :=
  match deref w p with
  | none => w
  | some ent =>
    if err != 0 then w
    else if state_is states ent.hot_swap_offset ent.hot_swap_requesting_val then
      if ent.hot_swap_state == IPMI_HOT_SWAP_ACTIVE then
        (set_hot_swap_state w p IPMI_HOT_SWAP_DEACTIVATION_REQUESTED).2
      else w
    else
      if ent.hot_swap_state == IPMI_HOT_SWAP_INACTIVE then
        (set_hot_swap_state w p IPMI_HOT_SWAP_ACTIVATION_REQUESTED).2
      else w

/-- The function `power_checked`, the completion of a query of the power
control; `val` is `val[0]`. -/
def power_checked (w : World) (p : Nat) (err : Nat) (val : Int) : World :=
  if err != 0 then w
  else
    let w1 :=
      if val != 0 then (set_hot_swap_state w p IPMI_HOT_SWAP_ACTIVE).2
      else (set_hot_swap_state w p IPMI_HOT_SWAP_INACTIVE).2
    match deref w1 p with
    | none => w1
    | some ent =>
      match ent.hot_swap_requester with
      | some sensor =>
        (send_request w1
          { req := .states_get sensor, cb := .requester_checked, ent := p }).2
      | none => w1

/-- The function `hot_swap_power_changed`, the handler of the value
events of the power control; `valid_val` and `val` are the first slots
of the two arrays. -/
def hot_swap_power_changed (w : World) (p : Nat) (valid_val val : Int) : Nat × World :=
  match deref w p with
  | none => (0, w)
  | some ent =>
    if valid_val == 0 then (0, w)
    else if ent.present then (0, power_checked w p 0 val)
    else (0, w)

/-- The value `handle_new_hot_swap_indicator` writes to a new indicator,
by the hot-swap state of the entity. -/
def new_indicator_val (ent : ipmi_entity_t) : Int :=
  match ent.hot_swap_state with
  | IPMI_HOT_SWAP_INACTIVE => ent.hot_swap_ind_inact
  | IPMI_HOT_SWAP_ACTIVATION_REQUESTED => ent.hot_swap_ind_req_act
  | IPMI_HOT_SWAP_ACTIVATION_IN_PROGRESS => ent.hot_swap_ind_act
  | IPMI_HOT_SWAP_ACTIVE => ent.hot_swap_ind_act
  | IPMI_HOT_SWAP_DEACTIVATION_REQUESTED => ent.hot_swap_ind_req_deact
  | IPMI_HOT_SWAP_DEACTIVATION_IN_PROGRESS => ent.hot_swap_ind_req_deact
  | _ => ent.hot_swap_ind_inact

/-- The function `handle_new_hot_swap_indicator`. -/
def handle_new_hot_swap_indicator (ctl : Nat → ipmi_control_t) (w : World)
    (p control : Nat) : World :=
  let w1 := modify w p (fun e =>
    match (ctl control).hot_swap_indicator with
    | some (req_act, act, req_deact, inact) =>
      { e with hot_swap_ind_req_act := req_act, hot_swap_ind_act := act,
               hot_swap_ind_req_deact := req_deact, hot_swap_ind_inact := inact }
    | none => e)
  let w2 := modify w1 p (fun e => { e with hot_swap_indicator := some control })
  match deref w2 p with
  | none => w2
  | some ent =>
    (send_request w2
      { req := .control_set_val control (new_indicator_val ent), cb := .no_callback,
        ent := p }).2

/-- The function `handle_new_hot_swap_power`. -/
def handle_new_hot_swap_power (ctl : Nat → ipmi_control_t) (w : World)
    (p control : Nat) : World :=
  if (ctl control).add_handler_rv != 0 then w
  else
    let w1 := modify w p (fun e => { e with hot_swap_power := some control })
    match deref w1 p with
    | none => w1
    | some ent =>
      if ent.hot_swappable != 0 then
        (send_request w1
          { req := .control_get_val control, cb := .power_checked, ent := p }).2
      else w1

/-- The function `ipmi_entity_add_control`. -/
def ipmi_entity_add_control (ctl : Nat → ipmi_control_t) (w : World) (p control : Nat) :
    World :=
  let w1 := if is_hot_swap_power (ctl control) then handle_new_hot_swap_power ctl w p control
            else w
  let w2 := if is_hot_swap_indicator (ctl control) then
              handle_new_hot_swap_indicator ctl w1 p control
            else w1
  modify w2 p (fun e => { e with controls := locked_list_add e.controls control })

/-- The function `ipmi_entity_remove_control`. -/
def ipmi_entity_remove_control (w : World) (p control : Nat) : World :=
  let w1 := modify w p (fun e =>
    if e.hot_swap_power == some control then { e with hot_swap_power := none } else e)
  let w2 := modify w1 p (fun e =>
    if e.hot_swap_indicator == some control then { e with hot_swap_indicator := none }
    else e)
  modify w2 p (fun e => { e with controls := locked_list_remove e.controls control })

/-! ## The functions of the built-in hot-swap table -/

/-- The function `e_get_hot_swap_state`. -/
def e_get_hot_swap_state (w : World) (p handler : Nat) : Nat × World :=
  (0, call_user_handler w handler p)

/-- The function `e_set_auto_activate`. -/
def e_set_auto_activate (w : World) (p : Nat) (auto_act : Int) (done : Nat) : Nat × World :=
  match deref w p with
  | none => (ENOSYS, w)
  | some ent =>
    if ent.hot_swap_power.isNone then (ENOSYS, w)
    else
      (0, call_user_handler
        (modify w p (fun e => { e with hot_swap_act_timeout := auto_act })) done p)

/-- The function `e_get_auto_activate`. -/
def e_get_auto_activate (w : World) (p handler : Nat) : Nat × World :=
  match deref w p with
  | none => (ENOSYS, w)
  | some ent =>
    if ent.hot_swap_power.isNone then (ENOSYS, w)
    else (0, call_user_handler w handler p)

/-- The function `e_set_auto_deactivate`. -/
def e_set_auto_deactivate (w : World) (p : Nat) (auto_act : Int) (done : Nat) :
    Nat × World :=
  match deref w p with
  | none => (ENOSYS, w)
  | some ent =>
    if ent.hot_swap_power.isNone then (ENOSYS, w)
    else
      (0, call_user_handler
        (modify w p (fun e => { e with hot_swap_deact_timeout := auto_act })) done p)

/-- The function `e_get_auto_deactivate`. -/
def e_get_auto_deactivate (w : World) (p handler : Nat) : Nat × World :=
  match deref w p with
  | none => (ENOSYS, w)
  | some ent =>
    if ent.hot_swap_power.isNone then (ENOSYS, w)
    else (0, call_user_handler w handler p)

/-- The function `e_activate`. -/
def e_activate (w : World) (p done : Nat) : Nat × World :=
  hot_swap_act w p done

/-- The function `e_deactivate`. -/
def e_deactivate (w : World) (p done : Nat) : Nat × World :=
  hot_swap_deact w p done

/-- The common shape of `e_get_hot_swap_indicator`,
`e_set_hot_swap_indicator` and `e_get_hot_swap_requester` once the device
is known to be there: the callback record is allocated, the request is
sent, and its return value is returned. -/
def request_with_info (w : World) (r : request_t) : Nat × World :=
  match take_alloc w with
  | (false, w1) => (ENOMEM, w1)
  | (true, w1) => send_request w1 r

/-- The function `e_get_hot_swap_indicator`. -/
def e_get_hot_swap_indicator (w : World) (p handler : Nat) : Nat × World :=
  match deref w p with
  | none => (ENOSYS, w)
  | some ent =>
    match ent.hot_swap_indicator with
    | none => (ENOSYS, w)
    | some ind =>
      request_with_info w
        { req := .control_get_val ind, cb := .got_hot_swap_ind handler, ent := p }

/-- The function `e_set_hot_swap_indicator`. -/
def e_set_hot_swap_indicator (w : World) (p : Nat) (val : Int) (done : Nat) : Nat × World :=
  match deref w p with
  | none => (ENOSYS, w)
  | some ent =>
    match ent.hot_swap_indicator with
    | none => (ENOSYS, w)
    | some ind =>
      request_with_info w
        { req := .control_set_val ind val, cb := .set_hot_swap_ind done, ent := p }

/-- The function `e_get_hot_swap_requester`. -/
def e_get_hot_swap_requester (w : World) (p handler : Nat) : Nat × World :=
  match deref w p with
  | none => (ENOSYS, w)
  | some ent =>
    match ent.hot_swap_requester with
    | none => (ENOSYS, w)
    | some sensor =>
      request_with_info w
        { req := .states_get sensor, cb := .got_hot_swap_req handler, ent := p }

/-! ## The public hot-swap calls -/

/-- A call through the function pointer `f` of a function that is not in
this file.  There is no result for a NULL pointer; otherwise the call is
recorded and its return value is taken to be 0. -/
def call_external (w : World) (p f : Nat) : Option (Nat × World) :=
  if f == 0 then none
  else
    some (0, { w with trace := { w.trace with
      external_calls := w.trace.external_calls ++ [(f, p)] } })

/-- A call through the entry `f` of a hot-swap table.  `addr` is the
address of the function of the built-in table for the operation and
`body` what that function does; any other function is outside this
file. -/
def call_entry (w : World) (p f addr : Nat) (body : Nat × World) : Option (Nat × World) :=
  if f == addr then some body
  else call_external w p f

/-- The function `ipmi_entity_get_hot_swap_state`. -/
def ipmi_entity_get_hot_swap_state (w : World) (p handler : Nat) : Option (Nat × World) :=
  match deref w p with
  | none => none
  | some ent =>
    if ent.hot_swappable == 0 then some (ENOSYS, w)
    else if ent.hs_cb.get_hot_swap_state == 0 then some (ENOSYS, w)
    else call_entry w p ent.hs_cb.get_hot_swap_state e_get_hot_swap_state_addr
      (e_get_hot_swap_state w p handler)

/-- The function `ipmi_entity_set_auto_activate_time`. -/
def ipmi_entity_set_auto_activate_time (w : World) (p : Nat) (auto_act : Int)
    (done : Nat) : Option (Nat × World) :=
  match deref w p with
  | none => none
  | some ent =>
    if ent.hot_swappable == 0 then some (ENOSYS, w)
    else if ent.hs_cb.set_auto_activate == 0 then some (ENOSYS, w)
    else call_entry w p ent.hs_cb.set_auto_activate e_set_auto_activate_addr
      (e_set_auto_activate w p auto_act done)

/-- The function `ipmi_entity_get_auto_activate_time`. -/
def ipmi_entity_get_auto_activate_time (w : World) (p handler : Nat) :
    Option (Nat × World) :=
  match deref w p with
  | none => none
  | some ent =>
    if ent.hot_swappable == 0 then some (ENOSYS, w)
    else if ent.hs_cb.get_auto_activate == 0 then some (ENOSYS, w)
    else call_entry w p ent.hs_cb.get_auto_activate e_get_auto_activate_addr
      (e_get_auto_activate w p handler)

/-- The function `ipmi_entity_set_auto_deactivate_time`. -/
def ipmi_entity_set_auto_deactivate_time (w : World) (p : Nat) (auto_deact : Int)
    (done : Nat) : Option (Nat × World) :=
  match deref w p with
  | none => none
  | some ent =>
    if ent.hot_swappable == 0 then some (ENOSYS, w)
    else if ent.hs_cb.set_auto_deactivate == 0 then some (ENOSYS, w)
    else call_entry w p ent.hs_cb.set_auto_deactivate e_set_auto_deactivate_addr
      (e_set_auto_deactivate w p auto_deact done)

/-- The function `ipmi_entity_get_auto_deactivate_time`. -/
def ipmi_entity_get_auto_deactivate_time (w : World) (p handler : Nat) :
    Option (Nat × World) :=
  match deref w p with
  | none => none
  | some ent =>
    if ent.hot_swappable == 0 then some (ENOSYS, w)
    else if ent.hs_cb.get_auto_deactivate == 0 then some (ENOSYS, w)
    else call_entry w p ent.hs_cb.get_auto_deactivate e_get_auto_deactivate_addr
      (e_get_auto_deactivate w p handler)

/-- The function `ipmi_entity_set_activation_requested`: the entry it
tests is `activate`, the entry it calls is `set_activation_requested`,
for which the built-in table has no function. -/
def ipmi_entity_set_activation_requested (w : World) (p : Nat) : Option (Nat × World) :=
  match deref w p with
  | none => none
  | some ent =>
    if ent.hot_swappable == 0 then some (ENOSYS, w)
    else if ent.hs_cb.activate == 0 then some (ENOSYS, w)
    else call_external w p ent.hs_cb.set_activation_requested

/-- The function `ipmi_entity_activate`. -/
def ipmi_entity_activate (w : World) (p done : Nat) : Option (Nat × World) :=
  match deref w p with
  | none => none
  | some ent =>
    if ent.hot_swappable == 0 then some (ENOSYS, w)
    else if ent.hs_cb.activate == 0 then some (ENOSYS, w)
    else call_entry w p ent.hs_cb.activate e_activate_addr (e_activate w p done)

/-- The function `ipmi_entity_deactivate`. -/
def ipmi_entity_deactivate (w : World) (p done : Nat) : Option (Nat × World) :=
  match deref w p with
  | none => none
  | some ent =>
    if ent.hot_swappable == 0 then some (ENOSYS, w)
    else if ent.hs_cb.deactivate == 0 then some (ENOSYS, w)
    else call_entry w p ent.hs_cb.deactivate e_deactivate_addr (e_deactivate w p done)

/-- The function `ipmi_entity_get_hot_swap_indicator`. -/
def ipmi_entity_get_hot_swap_indicator (w : World) (p handler : Nat) :
    Option (Nat × World) :=
  match deref w p with
  | none => none
  | some ent =>
    if ent.hot_swappable == 0 then some (ENOSYS, w)
    else if ent.hs_cb.get_hot_swap_indicator == 0 then some (ENOSYS, w)
    else call_entry w p ent.hs_cb.get_hot_swap_indicator e_get_hot_swap_indicator_addr
      (e_get_hot_swap_indicator w p handler)

/-- The function `ipmi_entity_set_hot_swap_indicator`. -/
def ipmi_entity_set_hot_swap_indicator (w : World) (p : Nat) (val : Int) (done : Nat) :
    Option (Nat × World) :=
  match deref w p with
  | none => none
  | some ent =>
    if ent.hot_swappable == 0 then some (ENOSYS, w)
    else if ent.hs_cb.set_hot_swap_indicator == 0 then some (ENOSYS, w)
    else call_entry w p ent.hs_cb.set_hot_swap_indicator e_set_hot_swap_indicator_addr
      (e_set_hot_swap_indicator w p val done)

/-- The function `ipmi_entity_get_hot_swap_requester`. -/
def ipmi_entity_get_hot_swap_requester (w : World) (p handler : Nat) :
    Option (Nat × World) :=
  match deref w p with
  | none => none
  | some ent =>
    if ent.hot_swappable == 0 then some (ENOSYS, w)
    else if ent.hs_cb.get_hot_swap_requester == 0 then some (ENOSYS, w)
    else call_entry w p ent.hs_cb.get_hot_swap_requester e_get_hot_swap_requester_addr
      (e_get_hot_swap_requester w p handler)

/-- The function `ipmi_entity_set_hot_swap_control`. -/
def ipmi_entity_set_hot_swap_control (w : World) (p : Nat) (cbs : ipmi_entity_hot_swap_t) :
    World :=
  modify w p (fun e => { e with hs_cb := cbs })

/-! ## Decoding and encoding of the records of a directory -/

/-- Modelled from the spec: the struct `ipmi_sdr_t` of a raw record of a
directory (its declaration is in a header): the version of the record,
its type, the number of bytes of the body, and the body. -/
structure ipmi_sdr_t where
  major_version : Nat
  minor_version : Nat
  type : Nat
  length : Nat
  data : List Nat
deriving DecidableEq, Repr

/-- The major version the encoders write, `IPMI_MAJOR_NUM_SDR`. -/
def IPMI_MAJOR_NUM_SDR : Nat := 1

/-- The minor version the encoders write, `IPMI_MINOR_NUM_SDR`. -/
def IPMI_MINOR_NUM_SDR : Nat := 5

/-- Modelled from the spec: the record type of a generic device locator
record; the record types are declared in a header. -/
def IPMI_SDR_GENERIC_DEVICE_LOCATOR_RECORD : Nat := 0x10

/-- Modelled from the spec: the record type of a FRU device locator
record. -/
def IPMI_SDR_FRU_DEVICE_LOCATOR_RECORD : Nat := 0x11

/-- Modelled from the spec: the record type of a management controller
device locator record. -/
def IPMI_SDR_MC_DEVICE_LOCATOR_RECORD : Nat := 0x12

/-- Modelled from the spec: the two functions of the string layer that
the decoders and encoders call for the textual id.
`ipmi_get_device_string` is given the bytes of the record from offset 10
and their number and leaves the characters, the type tag and the length
of the id; `ipmi_set_device_string` is given the characters, the type tag
and the length and leaves the bytes it has written (16 at most). -/
structure device_string_t where
  get : List Nat → Nat → List Nat × Nat × Nat
  set : List Nat → Nat → Nat → List Nat

/-- Conversion of a non-negative `int` to `uint8_t` on assignment. -/
def byte (x : Nat) : Nat := x % 256

/-- The byte `sdr->data[i]`. -/
def sdr_data (sdr : ipmi_sdr_t) (i : Nat) : Nat :=
  byte (sdr.data.getD i 0)

/-- The value of a C comparison as an `int`. -/
def c_bool (b : Bool) : Nat := if b then 1 else 0

/-- The value of the C expression `a || b` on two `int` values. -/
def c_or (a b : Nat) : Nat := c_bool (a != 0 || b != 0)

/-- The address of the static function `gdlr_output`. -/
def gdlr_output_addr : Nat := 1

/-- The address of the static function `frudlr_output`. -/
def frudlr_output_addr : Nat := 2

/-- The address of the static function `mcdlr_output`. -/
def mcdlr_output_addr : Nat := 3

/-- The textual id the decoders store: the id buffer is zeroed and
`ipmi_get_device_string` writes at most `ENTITY_ID_LEN` characters into
it. -/
def decoded_id (str : device_string_t) (sdr : ipmi_sdr_t) : List Nat × Nat × Nat :=
  let r := str.get (sdr.data.drop 10) (sdr.length - 10)
  ((r.1.take ENTITY_ID_LEN) ++ List.replicate (ENTITY_ID_LEN - r.1.length) 0, r.2.1, r.2.2)

/-- The function `decode_ear`. -/
def decode_ear (sdr : ipmi_sdr_t) : dlr_info_t :=
  { dlr_zero with
    type := IPMI_ENTITY_EAR,
    output_handler := 0,
    device_num := { channel := 0, address := 0 },
    entity_id := sdr_data sdr 0,
    entity_instance := sdr_data sdr 1,
    linked_ear_exists := c_bool (sdr_data sdr 2 &&& 0x40 == 0x40),
    presence_sensor_always_there := c_bool (sdr_data sdr 2 &&& 0x20 == 0x20),
    is_ranges := c_bool (sdr_data sdr 2 &&& 0x80 == 0x80),
    contained_entities := (List.range 4).map (fun i =>
      { dlr_ref_zero with
        entity_id := sdr_data sdr (3 + 2 * i),
        entity_instance := sdr_data sdr (3 + 2 * i + 1) }) }

/-- The function `decode_drear`. -/
def decode_drear (sdr : ipmi_sdr_t) : dlr_info_t :=
  { dlr_zero with
    type := IPMI_ENTITY_DREAR,
    output_handler := 0,
    entity_id := sdr_data sdr 0,
    entity_instance := sdr_data sdr 1,
    device_num :=
      (if sdr_data sdr 1 ≥ 0x60 then
        { channel := byte (sdr_data sdr 3 >>> 4), address := byte (sdr_data sdr 2 &&& 0xfe) }
       else { channel := 0, address := 0 }),
    linked_ear_exists := c_bool (sdr_data sdr 4 &&& 0x40 == 0x40),
    presence_sensor_always_there := c_bool (sdr_data sdr 4 &&& 0x20 == 0x20),
    is_ranges := c_bool (sdr_data sdr 4 &&& 0x80 == 0x80),
    contained_entities := (List.range 4).map (fun i =>
      let pos := 5 + 4 * i
      { device_num :=
          (if sdr_data sdr (pos + 3) ≥ 0x60 then
            { channel := sdr_data sdr (pos + 1), address := sdr_data sdr pos }
           else { channel := 0, address := 0 }),
        entity_id := sdr_data sdr (pos + 2),
        entity_instance := sdr_data sdr (pos + 3) }) }

/-- The record `gdlr_output` builds from the payload `info` of the entity
and hands to `ipmi_sdr_add`. -/
def gdlr_output (str : device_string_t) (info : dlr_info_t) : ipmi_sdr_t :=
  let s := str.set info.id info.id_type info.id_len
  { major_version := IPMI_MAJOR_NUM_SDR,
    minor_version := IPMI_MINOR_NUM_SDR,
    type := IPMI_SDR_GENERIC_DEVICE_LOCATOR_RECORD,
    length := 10 + s.length,
    data :=
      [ byte info.access_address,
        byte (info.slave_address ||| (info.channel >>> 3)),
        byte ((info.channel <<< 5) ||| (info.lun <<< 3) ||| info.private_bus_id),
        byte (info.address_span &&& 0x7),
        0,
        byte info.device_type,
        byte info.device_type_modifier,
        byte info.entity_id,
        byte info.entity_instance,
        byte info.oem ] ++ s }

/-- The function `decode_gdlr`. -/
def decode_gdlr (str : device_string_t) (sdr : ipmi_sdr_t) : dlr_info_t :=
  { dlr_zero with
    type := IPMI_ENTITY_GENERIC,
    output_handler := gdlr_output_addr,
    device_num :=
      (if sdr_data sdr 8 ≥ 0x60 then
        { channel := byte ((sdr_data sdr 2 >>> 5) ||| ((sdr_data sdr 1 <<< 3) &&& 0x08)),
          address := byte (sdr_data sdr 0 &&& 0xfe) }
       else { channel := 0, address := 0 }),
    access_address := byte (sdr_data sdr 0 &&& 0xfe),
    slave_address := byte (sdr_data sdr 1 &&& 0xfe),
    channel := byte ((sdr_data sdr 2 >>> 5) ||| ((sdr_data sdr 1 <<< 3) &&& 0x08)),
    lun := byte ((sdr_data sdr 2 >>> 3) &&& 0x3),
    private_bus_id := byte (sdr_data sdr 2 &&& 0x7),
    address_span := byte (sdr_data sdr 3 &&& 0x7),
    device_type := sdr_data sdr 5,
    device_type_modifier := sdr_data sdr 6,
    entity_id := sdr_data sdr 7,
    entity_instance := sdr_data sdr 8,
    oem := sdr_data sdr 9,
    id := (decoded_id str sdr).1,
    id_type := (decoded_id str sdr).2.1,
    id_len := (decoded_id str sdr).2.2 }

/-- The record `frudlr_output` builds from the payload `info` of the
entity and hands to `ipmi_sdr_add`. -/
def frudlr_output (str : device_string_t) (info : dlr_info_t) : ipmi_sdr_t :=
  let s := str.set info.id info.id_type info.id_len
  { major_version := IPMI_MAJOR_NUM_SDR,
    minor_version := IPMI_MINOR_NUM_SDR,
    type := IPMI_SDR_FRU_DEVICE_LOCATOR_RECORD,
    length := 10 + s.length,
    data :=
      [ byte info.access_address,
        byte info.fru_device_id,
        byte ((info.is_logical_fru <<< 7) ||| (info.lun <<< 3) ||| info.private_bus_id),
        byte (info.channel <<< 4),
        0,
        byte info.device_type,
        byte info.device_type_modifier,
        byte info.entity_id,
        byte info.entity_instance,
        byte info.oem ] ++ s }

/-- The function `decode_frudlr`. -/
def decode_frudlr (str : device_string_t) (sdr : ipmi_sdr_t) : dlr_info_t :=
  { dlr_zero with
    type := IPMI_ENTITY_FRU,
    output_handler := frudlr_output_addr,
    device_num :=
      (if sdr_data sdr 8 ≥ 0x60 then
        { channel := byte (sdr_data sdr 3 >>> 4),
          address := byte (sdr_data sdr 0 &&& 0xfe) }
       else { channel := 0, address := 0 }),
    access_address := byte (sdr_data sdr 0 &&& 0xfe),
    fru_device_id := sdr_data sdr 1,
    channel := byte (sdr_data sdr 3 >>> 4),
    is_logical_fru := c_bool (sdr_data sdr 2 &&& 0x80 == 0x80),
    lun := byte ((sdr_data sdr 2 >>> 3) &&& 0x3),
    private_bus_id := byte (sdr_data sdr 2 &&& 0x7),
    device_type := sdr_data sdr 5,
    device_type_modifier := sdr_data sdr 6,
    oem := sdr_data sdr 9,
    entity_id := sdr_data sdr 7,
    entity_instance := sdr_data sdr 8,
    id := (decoded_id str sdr).1,
    id_type := (decoded_id str sdr).2.1,
    id_len := (decoded_id str sdr).2.2 }

/-- The record `mcdlr_output` builds from the payload `info` of the
entity and hands to `ipmi_sdr_add`.  The bytes 2 and 3 are the value of
a chain of the logical operator `||`. -/
def mcdlr_output (str : device_string_t) (info : dlr_info_t) : ipmi_sdr_t :=
  let s := str.set info.id info.id_type info.id_len
  { major_version := IPMI_MAJOR_NUM_SDR,
    minor_version := IPMI_MINOR_NUM_SDR,
    type := IPMI_SDR_MC_DEVICE_LOCATOR_RECORD,
    length := 10 + s.length,
    data :=
      [ byte info.slave_address,
        byte (info.channel &&& 0xf),
        byte (c_or (c_or (c_or (c_or
          (info.ACPI_system_power_notify_required <<< 7)
          (info.ACPI_device_power_notify_required <<< 6))
          (info.controller_logs_init_agent_errors <<< 3))
          (info.log_init_agent_errors_accessing <<< 2))
          info.global_init),
        byte (c_or (c_or (c_or (c_or (c_or (c_or (c_or
          (info.chassis_device <<< 7)
          (info.bridge <<< 6))
          (info.IPMB_event_generator <<< 5))
          (info.IPMB_event_receiver <<< 4))
          (info.FRU_inventory_device <<< 3))
          (info.SEL_device <<< 2))
          (info.SDR_repository_device <<< 1))
          info.sensor_device),
        0,
        0,
        0,
        byte info.entity_id,
        byte info.entity_instance,
        byte info.oem ] ++ s }

/-- The function `decode_mcdlr`.  `base` is the offset the pointer `data`
has after the channel was read: 1 for a record of version 1.0, which has
no channel byte, and 2 otherwise. -/
def decode_mcdlr (str : device_string_t) (sdr : ipmi_sdr_t) : dlr_info_t :=
  let v10 := sdr.major_version == 1 && sdr.minor_version == 0
  let base := if v10 then 1 else 2
  let slave_address := byte (sdr_data sdr 0 &&& 0xfe)
  { dlr_zero with
    type := IPMI_ENTITY_MC,
    output_handler := mcdlr_output_addr,
    device_num :=
      (if sdr_data sdr 8 ≥ 0x60 then
        { channel := byte (sdr_data sdr 1 &&& 0xf),
          address := byte (sdr_data sdr 0 &&& 0xfe) }
       else { channel := 0, address := 0 }),
    slave_address := slave_address,
    channel := if v10 then 0 else byte (sdr_data sdr 1 &&& 0xf),
    ACPI_system_power_notify_required := (sdr_data sdr base >>> 7) &&& 1,
    ACPI_device_power_notify_required := (sdr_data sdr base >>> 6) &&& 1,
    controller_logs_init_agent_errors := (sdr_data sdr base >>> 3) &&& 1,
    log_init_agent_errors_accessing := (sdr_data sdr base >>> 2) &&& 1,
    global_init := (sdr_data sdr base >>> 0) &&& 3,
    chassis_device := (sdr_data sdr (base + 1) >>> 7) &&& 1,
    bridge := (sdr_data sdr (base + 1) >>> 6) &&& 1,
    IPMB_event_generator := (sdr_data sdr (base + 1) >>> 5) &&& 1,
    IPMB_event_receiver := (sdr_data sdr (base + 1) >>> 4) &&& 1,
    FRU_inventory_device := (sdr_data sdr (base + 1) >>> 3) &&& 1,
    SEL_device := (sdr_data sdr (base + 1) >>> 2) &&& 1,
    SDR_repository_device := (sdr_data sdr (base + 1) >>> 1) &&& 1,
    sensor_device := (sdr_data sdr (base + 1) >>> 0) &&& 1,
    entity_id := sdr_data sdr 7,
    entity_instance := sdr_data sdr 8,
    oem := sdr_data sdr 9,
    id := (decoded_id str sdr).1,
    id_type := (decoded_id str sdr).2.1,
    id_len := (decoded_id str sdr).2.2,
    access_address := slave_address,
    fru_device_id := 0,
    is_logical_fru := 1,
    private_bus_id := 0 }

/-- The function `ipmi_entity_find`: return value, `*found_ent`, new
state.  `mc` holds the channel and the address of the management
controller, `none` for a NULL controller. -/
def ipmi_entity_find (w : World) (mc : Option (Nat × Nat))
    (entity_id entity_instance : Int) : Nat × Option Nat × World :=
  let device_num : ipmi_device_num_t :=
    match mc with
    | some (channel, address) =>
      if entity_instance ≥ 0x60 then { channel := byte channel, address := byte address }
      else { channel := 0, address := 0 }
    | none => { channel := 0, address := 0 }
  entity_find w device_num entity_id entity_instance

/-! ## Example states of the hot-swap machine and of the decoders -/

/-- The value the sensor or control layer returns for the next request. -/
def next_rv (w : World) : Nat := w.trace.request_rvs.headD 0

/-- Between the states `w` and `w1` the request `r` was made of the sensor
or control layer, and no other: it was recorded if the layer accepted
it. -/
def issued (w w1 : World) (r : request_t) : Prop :=
  w1.trace.request_rvs = w.trace.request_rvs.tail
    ∧ w1.trace.requests = if next_rv w = 0 then w.trace.requests ++ [r] else w.trace.requests

/-- Between the states `w` and `w1` no request was made of the sensor or
control layer. -/
def silent (w w1 : World) : Prop :=
  w1.trace.request_rvs = w.trace.request_rvs ∧ w1.trace.requests = w.trace.requests

/-- The hot-swap state of the entity at an address. -/
def hs_state_at (w : World) (p : Nat) : Option ipmi_hot_swap_states :=
  (deref w p).map (fun e => e.hot_swap_state)

/-- The hot-swappable flag and the hot-swap table of the entity at an
address. -/
def table_at (w : World) (p : Nat) : Option (Int × ipmi_entity_hot_swap_t) :=
  (deref w p).map (fun e => (e.hot_swappable, e.hs_cb))

/-- The hot-swap devices of the entity at an address: power control,
requester sensor and indicator control. -/
def devices_at (w : World) (p : Nat) : Option (Option Nat × Option Nat × Option Nat) :=
  (deref w p).map (fun e => (e.hot_swap_power, e.hot_swap_requester, e.hot_swap_indicator))

/-- A sensor layer with the presence sensor 60, the presence-bit sensor 61
(a power supply whose bit 0 is readable), the hot-swap requester 62,
which requests when its state bit 3 is set, and the hot-swap requester
63, which requests when its state bit 3 is clear. -/
def swap_sensors : Nat → ipmi_sensor_t := fun s =>
  if s = 60 then { sensor_type := IPMI_SENSOR_TYPE_ENTITY_PRESENCE, readable := [0, 1] }
  else if s = 61 then { sensor_type := IPMI_SENSOR_TYPE_POWER_SUPPLY, readable := [0] }
  else if s = 62 then { requester := some (3, 1) }
  else if s = 63 then { requester := some (3, 0) }
  else {}

/-- A control layer with the hot-swap power control 30 and the hot-swap
indicator 31, whose values are 1 for request-activate, 2 for active, 3
for request-deactivate and 4 for inactive. -/
def swap_controls : Nat → ipmi_control_t := fun c =>
  if c = 30 then { control_type := IPMI_CONTROL_POWER, num_vals := 1, hot_swap_power := true }
  else if c = 31 then
    { control_type := IPMI_CONTROL_LIGHT, num_vals := 1, hot_swap_indicator := some (1, 2, 3, 4) }
  else {}

/-- The pinned entity 1.1 with the presence sensor 60; attaching the
sensor has installed the built-in table. -/
def swap_base : World :=
  ipmi_entity_add_sensor swap_sensors one_pinned 0 60

/-- The state `swap_base` after the power control 30 was attached and the
auto-activation delay was set to `IPMI_TIMEOUT_NOW` with
`ipmi_entity_set_auto_activate_time`. -/
def powered_now : World :=
  ((ipmi_entity_set_auto_activate_time (ipmi_entity_add_control swap_controls swap_base 0 30)
    0 IPMI_TIMEOUT_NOW 0).getD (0, swap_base)).2

/-- The state `swap_base` after the requester 63 was attached and the
entity was reported present: without a power control the entity is
active. -/
def polar_active : World :=
  (presence_changed 1 (ipmi_entity_add_sensor swap_sensors swap_base 0 63) 0 true none).getD
    swap_base

/-- The state `polar_active` after a query of the requester was answered
with no state bit set. -/
def polar_requested : World :=
  requester_checked polar_active 0 0 {}

/-- The state `swap_base` after the indicator 31 was attached. -/
def lit : World :=
  ipmi_entity_add_control swap_controls swap_base 0 31

/-- A hot-swap table of a user with a function for every operation but
`activate`. -/
def no_activate_cb : ipmi_entity_hot_swap_t :=
  { get_hot_swap_state := 101, set_auto_activate := 102, get_auto_activate := 103,
    set_auto_deactivate := 104, get_auto_deactivate := 105,
    set_activation_requested := 106, activate := 0, deactivate := 107,
    get_hot_swap_indicator := 108, set_hot_swap_indicator := 109,
    get_hot_swap_requester := 110, check_hot_swap_state := 111 }

/-- The state `swap_base` after the user installed the table
`no_activate_cb`. -/
def user_table : World :=
  ipmi_entity_set_hot_swap_control swap_base 0 no_activate_cb

/-- The pinned entity 1.1 with the power control 30 and the requester 62,
not present, with the built-in table. -/
def bay : World :=
  ipmi_entity_add_sensor swap_sensors (ipmi_entity_add_control swap_controls swap_base 0 30)
    0 62

/-- The entity 1.1 in the state `bay`. -/
def bay_ent : ipmi_entity_t :=
  (deref bay 0).getD entity_1_1

/-- A string layer that reads and writes no textual id. -/
def no_strings : device_string_t :=
  { get := fun _ _ => ([], 0, 0), set := fun _ _ _ => [] }

/-- A management controller locator record of version 1.5 for entity
7.1: slave address 0x20, channel 0, the system power notification flag,
and every device capability but the bridge. -/
def mc_record : ipmi_sdr_t :=
  { major_version := 1, minor_version := 5, type := IPMI_SDR_MC_DEVICE_LOCATOR_RECORD,
    length := 10, data := [0x20, 0x00, 0x80, 0xbf, 0, 0, 0, 0x07, 0x01, 0x00] }

/-- The power notification and initialisation fields and the capability
flags of a payload, in the order of the record. -/
def mc_flags (i : dlr_info_t) : List Nat :=
  [i.ACPI_system_power_notify_required, i.ACPI_device_power_notify_required,
    i.controller_logs_init_agent_errors, i.log_init_agent_errors_accessing, i.global_init,
    i.chassis_device, i.bridge, i.IPMB_event_generator, i.IPMB_event_receiver,
    i.FRU_inventory_device, i.SEL_device, i.SDR_repository_device, i.sensor_device]

/-- A management controller locator record of version 1.0 for the
device-relative entity 7.96: slave address 0x20, no channel byte, the
system power notification flag and global initialisation 3 in byte 1. -/
def mc_record_v10 : ipmi_sdr_t :=
  { major_version := 1, minor_version := 0, type := IPMI_SDR_MC_DEVICE_LOCATOR_RECORD,
    length := 10, data := [0x20, 0x83, 0xbf, 0, 0, 0, 0, 0x07, 0x60, 0x00] }

/-- The entity at `p` is `ent` up to the fields of the two timers. -/
def timed (w : World) (p : Nat) (ent : ipmi_entity_t) : Prop :=
  ∃ b1 b2 n, deref w p = some { ent with hot_swap_act_timer_running := b1,
                                         hot_swap_deact_timer_running := b2,
                                         running_timer_count := n }

/-- The state in which `set_hot_swap_state` writes the indicator and
changes the hot-swap state: the timer the new state asks for has been
started. -/
def timers_started (w : World) (p : Nat) (s : ipmi_hot_swap_states) (ent : ipmi_entity_t) :
    World :=
  match s with
  | IPMI_HOT_SWAP_ACTIVATION_REQUESTED =>
    if ent.hot_swap_act_timeout != IPMI_TIMEOUT_FOREVER then start_hot_swap_timer w p true
    else w
  | IPMI_HOT_SWAP_DEACTIVATION_REQUESTED =>
    if ent.hot_swap_deact_timeout != IPMI_TIMEOUT_FOREVER then start_hot_swap_timer w p false
    else w
  | _ => w

/-- The value `set_hot_swap_state` writes to the indicator for a new
state, `none` for the states for which it writes nothing. -/
def state_indicator_val (ent : ipmi_entity_t) (s : ipmi_hot_swap_states) : Option Int :=
  match s with
  | IPMI_HOT_SWAP_INACTIVE => some ent.hot_swap_ind_inact
  | IPMI_HOT_SWAP_ACTIVATION_REQUESTED => some ent.hot_swap_ind_req_act
  | IPMI_HOT_SWAP_ACTIVE => some ent.hot_swap_ind_act
  | IPMI_HOT_SWAP_DEACTIVATION_REQUESTED => some ent.hot_swap_ind_req_deact
  | _ => none

/-- The entity 1.1 in the state `lit`. -/
def lit_ent : ipmi_entity_t :=
  (deref lit 0).getD entity_1_1

/-- The entity 1.1 in the state `one_pinned`. -/
def pinned_ent : ipmi_entity_t :=
  (deref one_pinned 0).getD entity_1_1

/-- A stage of a scenario that started in the state `w0`: the entity at
`p` is `ent` in the hot-swap state `s`, up to the fields of the two
timers; every request is accepted and every allocation succeeds; and the
rounds of the hot-swap handlers since `w0` are `log`. -/
def stage (w0 w : World) (p : Nat) (ent : ipmi_entity_t) (s : ipmi_hot_swap_states)
    (log : List (Nat × ipmi_hot_swap_states × ipmi_hot_swap_states)) : Prop :=
  timed w p { ent with hot_swap_state := s }
    ∧ w.trace.request_rvs = [] ∧ w.allocs = []
    ∧ w.trace.hot_swap_calls = w0.trace.hot_swap_calls ++ log

/-- The state `bay` after the entity was reported present, the power
control answered that the power is off, and the requester was
deasserted: the entity waits for its activation. -/
def bay_requested : World :=
  (hot_swap_requester_changed (power_checked (handle_hot_swap_presence bay 0 true).2 0 0 0) 0
    .IPMI_DEASSERTION 3).2

/-- The entity 1.1 in the state `bay_requested`. -/
def bay_requested_ent : ipmi_entity_t :=
  (deref bay_requested 0).getD entity_1_1

/-! ## The timer handlers and the checks of the hot-swap state -/

/-- The function `hot_swap_act_cb`, which the handler of the activation
timer runs on the entity: the result of `hot_swap_act` is only logged. -/
def hot_swap_act_cb (w : World) (p : Nat) : World :=
  (hot_swap_act w p 0).2

/-- The function `hot_swap_deact_cb`. -/
def hot_swap_deact_cb (w : World) (p : Nat) : World :=
  (hot_swap_deact w p 0).2

/-- The function `hot_swap_act_timeout`, the handler of the activation
timer: the count of running timers is decremented and the flag of the
timer is cleared; a destroyed entity is handed to `entity_final_destroy`,
for any other the handle of the entity is resolved with
`ipmi_entity_pointer_cb` and `hot_swap_act_cb` runs on the result. -/
def hot_swap_act_timeout (w : World) (p : Nat) : Option World :=
  let w1 := modify w p (fun e =>
    { e with running_timer_count := u32_dec e.running_timer_count,
             hot_swap_act_timer_running := false })
  match deref w1 p with
  | none => some w1
  | some ent =>
    if ent.destroyed then some (entity_final_destroy w1 p)
    else
      (ipmi_entity_pointer_cb_run w1 (ipmi_entity_convert_to_id ent)
        (fun w0 q => some (hot_swap_act_cb w0 q))).map (fun r => r.2)

/-- The function `hot_swap_deact_timeout`, the handler of the
deactivation timer. -/
def hot_swap_deact_timeout (w : World) (p : Nat) : Option World :=
  let w1 := modify w p (fun e =>
    { e with running_timer_count := u32_dec e.running_timer_count,
             hot_swap_deact_timer_running := false })
  match deref w1 p with
  | none => some w1
  | some ent =>
    if ent.destroyed then some (entity_final_destroy w1 p)
    else
      (ipmi_entity_pointer_cb_run w1 (ipmi_entity_convert_to_id ent)
        (fun w0 q => some (hot_swap_deact_cb w0 q))).map (fun r => r.2)

/-- The timers of an entity that `destroy_entity` leaves armed, activation
timer first: a timer that is running and whose stop fails (the stop
answers with a value that is not 0).  The answers are those of the oracle
of the state, read in the order of the two blocks of `destroy_entity`. -/
def armed_after_destroy (w : World) (ent : ipmi_entity_t) : List Bool :=
  let a := if ent.hot_swap_act_timer_running then stop_timer w else (0, w)
  let d := if ent.hot_swap_deact_timer_running then stop_timer a.2 else (0, a.2)
  (if ent.hot_swap_act_timer_running && a.1 != 0 then [true] else [])
    ++ (if ent.hot_swap_deact_timer_running && d.1 != 0 then [false] else [])

/-- The handlers of the timers of a list fire one after the other on the
entity at `p`; `true` names the activation timer, `false` the
deactivation timer. -/
def fire_timers (p : Nat) : List Bool → World → Option World
  | [], w => some w
  | act :: rest, w =>
    (if act then hot_swap_act_timeout w p else hot_swap_deact_timeout w p).bind
      (fire_timers p rest)

/-- The number of hot-swap timers of an entity whose flag says
running. -/
def timers_running (ent : ipmi_entity_t) : Nat :=
  (if ent.hot_swap_act_timer_running then 1 else 0)
    + (if ent.hot_swap_deact_timer_running then 1 else 0)

/-- The function `check_requester`, the completion of the query of the
requester that `e_check_hot_swap_state` or `check_power` sent; `power` is
`info->power`: 1 when there is no power control, the value the power
control answered otherwise. -/
def check_requester (w : World) (p : Nat) (err : Nat) (power : Int)
    (states : ipmi_states_t) : World :=
  match deref w p with
  | none => w
  | some ent =>
    if err != 0 then w
    else if state_is states ent.hot_swap_offset ent.hot_swap_requesting_val then
      if power != 0 then (set_hot_swap_state w p IPMI_HOT_SWAP_DEACTIVATION_REQUESTED).2
      else (set_hot_swap_state w p IPMI_HOT_SWAP_INACTIVE).2
    else
      if power != 0 then (set_hot_swap_state w p IPMI_HOT_SWAP_ACTIVE).2
      else (set_hot_swap_state w p IPMI_HOT_SWAP_ACTIVATION_REQUESTED).2

/-- The function `check_power`, the completion of the query of the power
control that `e_check_hot_swap_state` sent; `val` is `val[0]`. -/
def check_power (w : World) (p : Nat) (err : Nat) (val : Int) : World :=
  if err != 0 then w
  else
    match deref w p with
    | none => w
    | some ent =>
      match ent.hot_swap_requester with
      | some sensor =>
        (send_request w { req := .states_get sensor, cb := .check_requester, ent := p }).2
      | none =>
        if val != 0 then (set_hot_swap_state w p IPMI_HOT_SWAP_ACTIVE).2
        else (set_hot_swap_state w p IPMI_HOT_SWAP_INACTIVE).2

/-- The test of `hot_swap_requester_changed` that takes an event at the
hot-swap offset for a request:
`ent->hot_swap_requesting_val && (dir == IPMI_ASSERTION)`. -/
def event_is_request (ent : ipmi_entity_t) (dir : ipmi_event_dir_e) : Bool :=
  ent.hot_swap_requesting_val != 0 && dir == IPMI_ASSERTION

/-- The test of `requester_checked` that takes polled states for a
request:
`ipmi_is_state_set(states, ent->hot_swap_offset) == ent->hot_swap_requesting_val`. -/
def poll_is_request (ent : ipmi_entity_t) (states : ipmi_states_t) : Bool :=
  state_is states ent.hot_swap_offset ent.hot_swap_requesting_val

/-- The states of a sensor after an event at `offset`, as far as that
offset goes: the bit is set after an assertion and clear after a
deassertion. -/
def states_after (offset : Int) (dir : ipmi_event_dir_e) : ipmi_states_t :=
  if dir == IPMI_ASSERTION then { set := [offset] } else {}

/-! ## The textual id -/

/-- Conversion of a C `int` to `unsigned int`. -/
def u32_of_int (x : Int) : Nat := (x % 4294967296).toNat

/-- Conversion of an `unsigned int` to `int`. -/
def int_of_u32 (x : Nat) : Int :=
  if x % 4294967296 < 2147483648 then (x % 4294967296 : Nat)
  else ((x % 4294967296 : Nat) : Int) - 4294967296

/-- The function `ipmi_entity_get_id`: the value returned and the writes
the call makes through the pointer `id`, each with its index from the
start of the buffer and the byte stored, in the order they are made.
`length` is the length of the buffer as the caller states it.  The
comparison of the `unsigned int` field `id_len` with the `int` argument is
made in `unsigned int`; `memcpy` copies `clen` bytes. -/
def ipmi_entity_get_id (ent : ipmi_entity_t) (length : Int) : Int × List (Int × Nat) :=
  let clen : Int :=
    if ent.info.id_len % 4294967296 > u32_of_int length then length
    else int_of_u32 ent.info.id_len
  let copied := (List.range clen.toNat).map (fun (i : Nat) => ((i : Int), ent.info.id.getD i 0))
  if ent.info.id_type == IPMI_ASCII_STR then
    let clen1 := if clen == length then clen - 1 else clen
    (clen1, copied ++ [(clen1, 0)])
  else (clen, copied)

/-! ## Example states of the timers, the checks and the later scans -/

/-- The usecount of the entity at an address. -/
def usecount_at (w : World) (p : Nat) : Option Int :=
  (deref w p).map (fun e => e.usecount)

/-- The directory of a controller with an association record that lists
4.1 under 3.1, a locator record for 7.1 and, after it, an association
record that lists 5.1 under 7.1. -/
def misfiled_dlrs : List dlr_info_t :=
  [list_ear 3 1 4 1, generic_dlr 7 1, list_ear 7 1 5 1]

/-- The first scan of controller 5 by the empty registry with the
directory `misfiled_dlrs`. -/
def misfiled_scan : Option (Nat × World) :=
  ipmi_entity_scan_sdrs (World.empty 1) 5 (fun _ _ => 1) mc_env_ok misfiled_dlrs

/-- The first scan of controller 5 by the empty registry with a directory
that holds the locator record of 7.1 and after it two association records
of 7.1, which list 5.1 and 5.2. -/
def crowded_scan : Option (Nat × World) :=
  ipmi_entity_scan_sdrs (World.empty 1) 5 (fun _ _ => 1) mc_env_ok
    [generic_dlr 7 1, list_ear 7 1 5 1, list_ear 7 1 5 2]

/-- The first scan of controller 5 by the empty registry with a directory
that holds the locator record of 7.1 and after it one association record
of 7.1, which lists 5.1. -/
def paired_scan : Option (Nat × World) :=
  ipmi_entity_scan_sdrs (World.empty 1) 5 (fun _ _ => 1) mc_env_ok
    [generic_dlr 7 1, list_ear 7 1 5 1]

/-- A registry whose user has added entity 7.1 with `ipmi_entity_add` and
holds the pin. -/
def keeper : World :=
  (ipmi_entity_add (World.empty 1) 0 0 7 1 [] 0 0 0 0).2.2

/-- A directory with three association records of 7.1, which list 5.1,
5.2 and 5.3. -/
def tripled_dlrs : List dlr_info_t :=
  [list_ear 7 1 5 1, list_ear 7 1 5 2, list_ear 7 1 5 3]

/-- The first scan of controller 5 by the registry `keeper` with the
directory `tripled_dlrs`. -/
def tripled_scan : Option (Nat × World) :=
  ipmi_entity_scan_sdrs keeper 5 (fun _ _ => 1) mc_env_ok tripled_dlrs

/-- The same scan in a moment where the allocation of the entity 5.3
fails: the scan state, the entities 5.1 and 5.2 and the arrays of the
first two slots take 33 allocations. -/
def tripled_starved : Option (Nat × World) :=
  ipmi_entity_scan_sdrs { keeper with allocs := List.replicate 33 true ++ [false] } 5
    (fun _ _ => 1) mc_env_ok tripled_dlrs

/-- The first scan of controller 5 by the registry `keeper` with a
directory that holds one association record of 7.1. -/
def single_scan : Option (Nat × World) :=
  ipmi_entity_scan_sdrs keeper 5 (fun _ _ => 1) mc_env_ok [list_ear 7 1 5 1]

/-- The found array `fill_in_entities` leaves for a directory of two
locator records of which the first has entity id 0. -/
def anonymous_found : List entity_found_t :=
  (fill_in_entities (World.empty 1)
    { found := [found_zero, found_zero], dlrs := [generic_dlr 0 1, generic_dlr 7 1] }).2.1.found

/-- The state `bay` after `ipmi_entity_check_hot_swap_state`: the power
control has been asked for its value. -/
def bay_checked : World :=
  (ipmi_entity_check_hot_swap_state bay 0).2

/-- The pinned entity 1.1 with the presence sensor 60 and the requester
62, not present, with the built-in table and no power control. -/
def socket : World :=
  ipmi_entity_add_sensor swap_sensors swap_base 0 62

/-- The state `bay` after the entity was reported present and the power
control answered that the power is off: the entity is inactive. -/
def bay_inactive : World :=
  power_checked (handle_hot_swap_presence bay 0 true).2 0 0 0

/-- The pinned entity 1.1 with the power control 30 and the requester 63,
which requests when its state bit 3 is clear, after the entity was
reported present and the power control answered that the power is off:
the entity is inactive. -/
def polar_inactive : World :=
  power_checked (handle_hot_swap_presence
    (ipmi_entity_add_sensor swap_sensors (ipmi_entity_add_control swap_controls swap_base 0 30)
      0 63) 0 true).2 0 0 0

/-- The entity 1.1 with the textual id "ab" of type ASCII. -/
def named_ent : ipmi_entity_t :=
  ipmi_entity_set_id entity_1_1 [97, 98] IPMI_ASCII_STR 2

/-- The number of `add_child` calls the commit loop over the new records
makes: one for every resolved child of every association slot that is not
found and has an entity. -/
def commit_adds : List (dlr_info_t × entity_found_t) → Nat
  | [] => 0
  | (d, f) :: rest =>
    (if f.found then 0
      else
        match f.ent with
        | none => 0
        | some _ => if !is_ear d then 0 else f.cent.length)
      + commit_adds rest

/-- What `scan_prepare` hands to the commit for the first scan of a
directory with an association record that lists 5.1 under 8.1, one that
lists 5.2 under 8.1 and the locator record of 7.1, by the empty
registry. -/
def stocked : Nat × entity_sdr_info_t × entity_sdr_info_t × World :=
  match scan_prepare (World.empty 1) 5 (fun _ _ => 1)
      [list_ear 8 1 5 1, list_ear 8 1 5 2, generic_dlr 7 1] with
  | .ok x => x
  | .error r => (0, { found := [], dlrs := [] }, { found := [], dlrs := [] }, r.2)

/-- The entity the lookup by the key of `ent` yields in the state `w`, if
there is one, is not removable, and if it bears the sequence number of
`ent` it is the entity at `p`. -/
def lookup_safe (w : World) (p : Nat) (ent : ipmi_entity_t) : Bool :=
  match search_entities w (search_info_of ent.info.device_num
      (ent.info.entity_id : Int) (ent.info.entity_instance : Int)) with
  | none => true
  | some q =>
    match deref w q with
    | none => true
    | some e => (!cleanup_ready e || e.usecount != 0) && (e.seq != ent.seq || q == p)

/-- The state `bay` after both delays were set to 1000, the entity was
reported present, the power control answered that the power is off, the
requester was deasserted (the activation timer starts), the user
activated the entity and the power write completed: the entity is active,
and the activation timer has not fired. -/
def stale : World :=
  let w0 := ((ipmi_entity_set_auto_deactivate_time
    ((ipmi_entity_set_auto_activate_time bay 0 1000 0).getD (0, bay)).2 0 1000 0).getD
      (0, bay)).2
  let w1 := (hot_swap_requester_changed
    (power_checked (handle_hot_swap_presence w0 0 true).2 0 0 0) 0 .IPMI_DEASSERTION 3).2
  hot_swap_power_on (hot_swap_act w1 0 0).2 0 0

/-- The entity 1.1 in the state `stale`. -/
def stale_ent : ipmi_entity_t :=
  (deref stale 0).getD entity_1_1

/-- The state `stale` after the requester was asserted (the deactivation
timer starts), in a moment where no timer can be stopped: both timers are
running. -/
def twice_armed : World :=
  { (hot_swap_requester_changed stale 0 .IPMI_ASSERTION 3).2 with timer_stops := [1, 1] }

/-- The entity 1.1 in the state `twice_armed`. -/
def twice_armed_ent : ipmi_entity_t :=
  (deref twice_armed 0).getD entity_1_1

/-! ## The parent and child sets in sequences of operations -/

/-- The child set of the entity at an address, empty for an address that
holds no entity. -/
def child_list (w : World) (p : Nat) : List Nat :=
  match deref w p with
  | some e => e.child_entities
  | none => []

/-- The parent set of the entity at an address, empty for an address that
holds no entity. -/
def parent_list (w : World) (p : Nat) : List Nat :=
  match deref w p with
  | some e => e.parent_entities
  | none => []

/-- The parent and child sets are symmetric: `c` occurs in the child set
of `p` as many times as `p` occurs in the parent set of `c`. -/
def symmetric (w : World) : Prop :=
  ∀ p c, (child_list w p).count c = (parent_list w c).count p

/-- The states `w` and `w1` hold entities at the same addresses, with the
same child and parent sets. -/
def calm (w w1 : World) : Prop :=
  ∀ q, (deref w1 q).map (fun e => (e.child_entities, e.parent_entities))
    = (deref w q).map (fun e => (e.child_entities, e.parent_entities))

/-- Every address has the same child set and the same parent set in the
states `w` and `w1`. -/
def same_lists (w w1 : World) : Prop :=
  ∀ q, child_list w1 q = child_list w q ∧ parent_list w1 q = parent_list w q

/-- From `w` to `w1` the symmetry of the sets is kept and no entity is
released. -/
def tame (w w1 : World) : Prop :=
  (symmetric w → symmetric w1) ∧ ∀ q, deref w q ≠ none → deref w1 q ≠ none

/-- Every entity and every resolved child of a found array is
allocated. -/
def slots_live (w : World) (fs : List entity_found_t) : Prop :=
  ∀ f ∈ fs, (∀ p, f.ent = some p → deref w p ≠ none) ∧ ∀ c ∈ f.cent, deref w c ≠ none

/-- The operations that create entities, pin and unpin them and change
the edges: `entity_add`, `_ipmi_entity_get`, `_ipmi_entity_put`,
`ipmi_entity_add_child`, `ipmi_entity_remove_child`,
`ipmi_entity_scan_sdrs` for a controller, and `ipmi_sdr_entity_destroy`
on the scan state remembered for a controller. -/
inductive family_op where
  | add (dn : ipmi_device_num_t) (id inst : Int) (out data : Nat)
  | pin (p : Nat)
  | unpin (p : Nat)
  | add_child (p c : Nat)
  | remove_child (p c : Nat)
  | scan (mc : Nat) (c : Nat → Nat → Int) (env : Nat → Nat → mc_reply_t)
      (dlrs : List dlr_info_t)
  | destroy (mc : Nat)

/-- Effect of one operation on the state; `none` when
`ipmi_entity_add_child` is given an address that holds no entity, or when
the scan has no result. -/
def family_step (w : World) : family_op → Option World
  | .add dn id inst out data => some (entity_add w dn id inst out data).2.2
  | .pin p => some (_ipmi_entity_get w p)
  | .unpin p => some (_ipmi_entity_put w p)
  | .add_child p c =>
    if (deref w p).isSome && (deref w c).isSome then some (ipmi_entity_add_child w p c).2
    else none
  | .remove_child p c => some (ipmi_entity_remove_child w p c).2
  | .scan mc c env dlrs => (ipmi_entity_scan_sdrs w mc c env dlrs).map (fun r => r.2)
  | .destroy mc =>
    match _ipmi_get_sdr_entities w mc with
    | some infos => some (ipmi_sdr_entity_destroy w infos).2
    | none => some w

/-- Effect of a sequence of operations. -/
def family_run (w : World) : List family_op → Option World
  | [] => some w
  | op :: ops => (family_step w op).bind (fun w1 => family_run w1 ops)

/-- The entity at `p` is destroyed, and nothing but `n` armed timers holds
back its release. -/
def pending (w : World) (p : Nat) (n : Nat) : Prop :=
  ∃ e, deref w p = some e ∧ e.destroyed = true ∧ e.waitq_in_progress = false
    ∧ e.child_entities = [] ∧ e.parent_entities = [] ∧ e.running_timer_count = n

/-- A sequence of operations on the empty registry: 7.1 and 5.1 are
added, 5.1 is made a child of 7.1, controller 5 reports an association
record that lists 5.2 under 7.1, the edge from 7.1 to 5.1 is removed,
controller 5 reports an association record that lists 7.1 under 5.1, and
the scan state of controller 5 is destroyed. -/
def kin_ops : List family_op :=
  [.add ⟨0, 0⟩ 7 1 0 0, .add ⟨0, 0⟩ 5 1 0 0, .add_child 0 1,
    .scan 5 (fun _ _ => 1) mc_env_ok [list_ear 7 1 5 2],
    .remove_child 0 1,
    .scan 5 (fun _ _ => 1) mc_env_ok [list_ear 5 1 7 1],
    .destroy 5]

/-- The state after the first four operations of `kin_ops`. -/
def kin_mid : World :=
  (family_run (World.empty 1) (kin_ops.take 4)).getD (World.empty 1)

/-- The state after the first six operations of `kin_ops`. -/
def kin_late : World :=
  (family_run (World.empty 1) (kin_ops.take 6)).getD (World.empty 1)

/-- The state after the operations `kin_ops`. -/
def kin_end : World :=
  (family_run (World.empty 1) kin_ops).getD (World.empty 1)

/-- The state `family` in which the parent 7.1 has a registered, active
FRU device monitor. -/
def monitored_family : World :=
  modify family 0 (fun e => { e with frudev_present := true, frudev_active := true })

/-- The state `family` after the parent 7.1 got the ordinary sensor 50. -/
def sensed_family : World :=
  ipmi_entity_add_sensor plain_sensors family 0 50

/-- Every request on record in `w1` that is not on record in `w` is a
request of the hot-swap machine: its completion is `power_checked` or
`indicator_change`, so it is no query of a presence source. -/
def hot_swap_only (w w1 : World) : Prop :=
  ∀ x ∈ w1.trace.requests,
    x ∈ w.trace.requests ∨ x.cb = .power_checked ∨ x.cb = .indicator_change

/-- No two members of the collection hold entities with the same
identity key. -/
def keys_unique (w : World) : Prop :=
  ∀ p q e1 e2, p ∈ w.entities → q ∈ w.entities →
    deref w p = some e1 → deref w q = some e2 →
    e1.info.device_num = e2.info.device_num → e1.info.entity_id = e2.info.entity_id →
    e1.info.entity_instance = e2.info.entity_instance → p = q

/-! ## Basic facts about the heap -/

theorem modify_eq_set (w : World) (p : Nat) (f : ipmi_entity_t → ipmi_entity_t)
    (e : ipmi_entity_t) (h : deref w p = some e) :
    modify w p f = { w with heap := w.heap.set p (some (f e)) } := by
  simp [modify, h]

theorem deref_lt (w : World) (p : Nat) (e : ipmi_entity_t) (h : deref w p = some e) :
    p < w.heap.length := by
  by_contra hge
  have : w.heap[p]? = none := List.getElem?_eq_none (by omega)
  simp [deref, this] at h

theorem deref_modify_same (w : World) (p : Nat) (f : ipmi_entity_t → ipmi_entity_t)
    (e : ipmi_entity_t) (h : deref w p = some e) :
    deref (modify w p f) p = some (f e) := by
  have hlt := deref_lt w p e h
  rw [modify_eq_set w p f e h]
  simp [deref, List.getElem?_set, hlt]

theorem deref_modify_ne (w : World) (p q : Nat) (f : ipmi_entity_t → ipmi_entity_t)
    (h : q ≠ p) : deref (modify w p f) q = deref w q := by
  unfold modify
  cases hd : deref w p with
  | none => rfl
  | some e =>
    have : p ≠ q := fun h2 => h h2.symm
    simp [deref, List.getElem?_set, this]

theorem modify_none (w : World) (p : Nat) (f : ipmi_entity_t → ipmi_entity_t)
    (h : deref w p = none) : modify w p f = w := by
  simp [modify, h]

@[simp] theorem modify_entities (w : World) (p : Nat) (f : ipmi_entity_t → ipmi_entity_t) :
    (modify w p f).entities = w.entities := by
  unfold modify; cases deref w p <;> rfl

@[simp] theorem modify_events (w : World) (p : Nat) (f : ipmi_entity_t → ipmi_entity_t) :
    (modify w p f).events = w.events := by
  unfold modify; cases deref w p <;> rfl

@[simp] theorem modify_handler_calls (w : World) (p : Nat) (f : ipmi_entity_t → ipmi_entity_t) :
    (modify w p f).handler_calls = w.handler_calls := by
  unfold modify; cases deref w p <;> rfl

theorem search_entity_iff (e : ipmi_entity_t) (info : search_info_t) :
    search_entity e info = true ↔ has_key e info := by
  unfold search_entity has_key
  rcases e with ⟨_, _, _, _, ⟨_, _, ⟨c, a⟩⟩, _⟩
  rcases info with ⟨⟨c2, a2⟩, i2, n2⟩
  simp [and_assoc]

theorem search_at_iff (w : World) (info : search_info_t) (p : Nat) :
    search_at w info p = true ↔ ∃ e, deref w p = some e ∧ has_key e info := by
  unfold search_at
  cases h : deref w p with
  | none => simp
  | some e => simp [search_entity_iff]

theorem take_alloc_ok (w : World) (h : ∀ b ∈ w.allocs.take 1, b = true) :
    take_alloc w = (true, { w with allocs := w.allocs.drop 1 }) := by
  obtain ⟨_, _, _, _, _, _, allocs, _, _, _, _⟩ := w
  cases allocs with
  | nil => simp [take_alloc]
  | cons b rest =>
    have hb : b = true := h b (by simp)
    simp [take_alloc, hb]

theorem take_allocs_ok (n : Nat) (w : World) (h : ∀ b ∈ w.allocs.take n, b = true) :
    take_allocs n w = (true, { w with allocs := w.allocs.drop n }) := by
  induction n generalizing w with
  | zero => simp [take_allocs]
  | succ n ih =>
    have h1 : ∀ b ∈ w.allocs.take 1, b = true := by
      intro b hb
      apply h b
      exact (List.take_sublist_take_left (l := w.allocs) (by omega : 1 ≤ n + 1)).subset hb
    unfold take_allocs
    rw [take_alloc_ok w h1]
    simp only
    rw [ih]
    · simp [Nat.add_comm]
    · intro b hb
      apply h b
      simp only at hb
      cases hw : w.allocs with
      | nil => simp [hw] at hb
      | cons c rest =>
        simp [hw] at hb ⊢
        exact Or.inr hb

/-! ## Facts about `entity_find` and `entity_add` -/

/-- The function `entity_find` either finds no member of the collection with the
requested key, returns ENODEV and leaves the state as it is; or returns
success and the address of a member whose four key fields are the
requested ones (the two `int` arguments as stored in `uint8_t`), and the
state differs only in that this entity's usecount is one higher. -/
theorem entity_find_cases (w : World) (dn : ipmi_device_num_t) (id inst : Int) :
    ((¬ ∃ p ∈ w.entities, ∃ e, deref w p = some e ∧ has_key e (search_info_of dn id inst))
        ∧ entity_find w dn id inst = (ENODEV, none, w))
    ∨ (∃ p e, p ∈ w.entities ∧ deref w p = some e
        ∧ e.info.device_num = dn ∧ e.info.entity_id = u8 id
        ∧ e.info.entity_instance = u8 inst
        ∧ entity_find w dn id inst =
            (0, some p,
              { w with heap := w.heap.set p (some { e with usecount := e.usecount + 1 }) })) := by
  unfold entity_find search_entities
  cases hf : w.entities.find? (search_at w (search_info_of dn id inst)) with
  | none =>
    left
    refine ⟨?_, rfl⟩
    rintro ⟨p, hp, e, he, hk⟩
    have := List.find?_eq_none.mp hf p hp
    exact this ((search_at_iff w _ p).mpr ⟨e, he, hk⟩)
  | some p =>
    right
    have hmem : p ∈ w.entities := List.mem_of_find?_eq_some hf
    have hs : search_at w (search_info_of dn id inst) p = true := List.find?_some hf
    obtain ⟨e, he, hk⟩ := (search_at_iff w _ p).mp hs
    refine ⟨p, e, hmem, he, hk.1, hk.2.1, hk.2.2, ?_⟩
    simp [modify_eq_set w p _ e he]

theorem entity_find_miss (w : World) (dn : ipmi_device_num_t) (id inst : Int)
    (h : ¬ ∃ p ∈ w.entities, ∃ e, deref w p = some e ∧ has_key e (search_info_of dn id inst)) :
    entity_find w dn id inst = (ENODEV, none, w) := by
  rcases entity_find_cases w dn id inst with ⟨_, h2⟩ | ⟨p, e, hp, he, h1, h2, h3, _⟩
  · exact h2
  · exact absurd ⟨p, hp, e, he, h1, h2, h3⟩ h

theorem entity_add_hit (w : World) (dn : ipmi_device_num_t) (id inst : Int)
    (out data p : Nat) (e : ipmi_entity_t) (he : deref w p = some e)
    (hf : entity_find w dn id inst =
      (0, some p, { w with heap := w.heap.set p (some { e with usecount := e.usecount + 1 }) })) :
    entity_add w dn id inst out data =
      (0, some p, { w with heap := w.heap.set p (some
        { e with usecount := e.usecount + 1,
                 sdr_gen_output := if out != 0 then out else e.sdr_gen_output,
                 sdr_gen_cb_data := if out != 0 then data else e.sdr_gen_cb_data }) }) := by
  have hlt := deref_lt w p e he
  unfold entity_add
  rw [hf]
  by_cases ho : out = 0
  · simp [ho]
  · have hd : deref { w with heap := w.heap.set p (some { e with usecount := e.usecount + 1 }) } p
        = some { e with usecount := e.usecount + 1 } := by
      simp [deref, List.getElem?_set, hlt]
    simp [ho, modify_eq_set _ p _ _ hd]

theorem entity_add_miss (w : World) (dn : ipmi_device_num_t) (id inst : Int)
    (out data : Nat)
    (hm : entity_find w dn id inst = (ENODEV, none, w))
    (ha : ∀ b ∈ w.allocs.take 15, b = true) :
    entity_add w dn id inst out data =
      (0, some w.heap.length,
        { w with heap := w.heap ++ [some (new_entity w w.next_seq dn id inst out data)],
                 entities := w.entities ++ [w.heap.length],
                 events := w.events ++ [(IPMI_ADDED, w.heap.length)],
                 next_seq := w.next_seq + 1,
                 allocs := w.allocs.drop 15 }) := by
  have h1 : ∀ b ∈ w.allocs.take 1, b = true := fun b hb =>
    ha b ((List.take_sublist_take_left (l := w.allocs) (by omega : 1 ≤ 15)).subset hb)
  have h14 : ∀ b ∈ (w.allocs.drop 1).take 14, b = true := by
    intro b hb
    apply ha b
    obtain ⟨_, _, _, _, _, _, allocs, _, _, _, _⟩ := w
    cases allocs with
    | nil => simp at hb
    | cons c rest => simp at hb ⊢; exact Or.inr hb
  unfold entity_add
  rw [hm]
  simp only [ENODEV]
  rw [take_alloc_ok w h1]
  simp only [ipmi_get_seq]
  rw [take_allocs_ok 14 _ h14]
  simp [call_entity_update_handlers, new_entity, List.drop_drop]

theorem take_alloc_same (w : World) :
    (take_alloc w).2.heap = w.heap ∧ (take_alloc w).2.entities = w.entities
    ∧ (take_alloc w).2.events = w.events := by
  unfold take_alloc
  cases w.allocs <;> exact ⟨rfl, rfl, rfl⟩

theorem take_allocs_same (n : Nat) (w : World) :
    (take_allocs n w).2.heap = w.heap ∧ (take_allocs n w).2.entities = w.entities
    ∧ (take_allocs n w).2.events = w.events := by
  induction n generalizing w with
  | zero => exact ⟨rfl, rfl, rfl⟩
  | succ n ih =>
    unfold take_allocs
    have h1 := take_alloc_same w
    rcases hta : take_alloc w with ⟨b, w1⟩
    rw [hta] at h1
    simp only at h1
    cases b with
    | true =>
      have h2 := ih w1
      exact ⟨h2.1.trans h1.1, h2.2.1.trans h1.2.1, h2.2.2.trans h1.2.2⟩
    | false => exact h1

theorem take_allocs_true (n : Nat) (w : World) (h : (take_allocs n w).1 = true) :
    ∀ b ∈ w.allocs.take n, b = true := by
  induction n generalizing w with
  | zero => simp
  | succ n ih =>
    obtain ⟨hp, en, d, ev, hc, ns, allocs, ts, se, ms, tr⟩ := w
    cases allocs with
    | nil => simp
    | cons c rest =>
      cases c with
      | false => simp [take_allocs, take_alloc] at h
      | true =>
        simp only [take_allocs, take_alloc] at h
        have := ih _ h
        intro b hb
        simp only [List.take_succ_cons, List.mem_cons] at hb
        rcases hb with hb | hb
        · exact hb
        · exact this b hb

/-- On a key no member has, `entity_add` fails with ENOMEM as soon as one
of its fifteen allocations fails, and then neither the heap, the
collection nor the event log has changed. -/
theorem entity_add_miss_fail (w : World) (dn : ipmi_device_num_t) (id inst : Int)
    (out data : Nat)
    (hm : entity_find w dn id inst = (ENODEV, none, w))
    (ha : ∃ b ∈ w.allocs.take 15, b = false) :
    (entity_add w dn id inst out data).1 = ENOMEM
    ∧ (entity_add w dn id inst out data).2.1 = none
    ∧ (entity_add w dn id inst out data).2.2.heap = w.heap
    ∧ (entity_add w dn id inst out data).2.2.entities = w.entities
    ∧ (entity_add w dn id inst out data).2.2.events = w.events := by
  unfold entity_add
  rw [hm]
  simp only [ENODEV]
  have h1 := take_alloc_same w
  rcases hta : take_alloc w with ⟨b, w2⟩
  rw [hta] at h1
  simp only at h1
  cases b with
  | false => exact ⟨rfl, rfl, h1⟩
  | true =>
    simp only [ipmi_get_seq]
    have h2 := take_allocs_same 14 { w2 with next_seq := w2.next_seq + 1 }
    rcases htb : take_allocs 14 { w2 with next_seq := w2.next_seq + 1 } with ⟨b2, w4⟩
    rw [htb] at h2
    simp only at h2
    cases b2 with
    | false => exact ⟨rfl, rfl, h2.1.trans h1.1, h2.2.1.trans h1.2.1, h2.2.2.trans h1.2.2⟩
    | true =>
      exfalso
      have h14 := take_allocs_true 14 { w2 with next_seq := w2.next_seq + 1 } (by rw [htb])
      simp only at h14
      obtain ⟨b, hb, hbf⟩ := ha
      obtain ⟨hp, en, d, ev, hc, ns, allocs, ts, se, ms, tr⟩ := w
      cases allocs with
      | nil => simp at hb
      | cons c rest =>
        cases c with
        | false => simp [take_alloc] at hta
        | true =>
          simp only [take_alloc, Prod.mk.injEq, true_and] at hta
          subst hta
          simp only [List.take_succ_cons, List.mem_cons] at hb
          rcases hb with hb | hb
          · rw [hb] at hbf; cases hbf
          · have := h14 b hb
            rw [this] at hbf; cases hbf

/-! ## Frame facts of destruction -/

theorem frame_refl (p : Nat) (w : World) : frame p w w :=
  ⟨rfl, rfl, rfl, fun _ _ => rfl⟩

theorem frame_trans {p : Nat} {w w1 w2 : World} (h1 : frame p w w1) (h2 : frame p w1 w2) :
    frame p w w2 :=
  ⟨h2.events.trans h1.events, h2.entities.trans h1.entities, h2.calls.trans h1.calls,
    fun q hq => (h2.other q hq).trans (h1.other q hq)⟩

theorem frame_modify (p : Nat) (w : World) (f : ipmi_entity_t → ipmi_entity_t) :
    frame p w (modify w p f) :=
  ⟨by simp, by simp, by simp, fun q hq => deref_modify_ne w p q f hq⟩

theorem frame_mem_free (p : Nat) (w : World) : frame p w (mem_free w p) := by
  refine ⟨rfl, rfl, rfl, fun q hq => ?_⟩
  have : p ≠ q := fun h => hq h.symm
  simp [mem_free, deref, List.getElem?_set, this]

theorem frame_stop_timer (p : Nat) (w : World) : frame p w (stop_timer w).2 := by
  unfold stop_timer
  cases w.timer_stops <;> exact ⟨rfl, rfl, rfl, fun _ _ => rfl⟩

theorem frame_destroy_timer (p : Nat) (w : World) (running : Bool) :
    frame p w (destroy_timer w p running) := by
  unfold destroy_timer
  cases running with
  | false => exact frame_refl p w
  | true =>
    have h := frame_stop_timer p w
    simp only [if_true]
    split
    · exact frame_trans h (frame_modify p _ _)
    · exact h

theorem frame_entity_final_destroy (p : Nat) (w : World) :
    frame p w (entity_final_destroy w p) := by
  unfold entity_final_destroy
  split
  · exact frame_refl p w
  · split
    · exact frame_refl p w
    · exact frame_mem_free p w

theorem frame_destroy_entity (p : Nat) (w : World) : frame p w (destroy_entity w p) := by
  unfold destroy_entity
  split
  · exact frame_refl p w
  · exact frame_trans (frame_trans (frame_trans (frame_modify p w _)
      (frame_destroy_timer p _ _)) (frame_destroy_timer p _ _))
      (frame_entity_final_destroy p _)

theorem put_not_last (w : World) (p : Nat) (ent : ipmi_entity_t)
    (hd : deref w p = some ent) (h : ent.usecount ≠ 1) :
    _ipmi_entity_put w p
      = { w with heap := w.heap.set p (some { ent with usecount := ent.usecount - 1 }) } := by
  unfold _ipmi_entity_put
  simp [hd, h, modify_eq_set w p _ ent hd]

theorem put_last_not_ready (w : World) (p : Nat) (ent : ipmi_entity_t)
    (hd : deref w p = some ent) (h : ent.usecount = 1) (hr : cleanup_ready ent = false) :
    _ipmi_entity_put w p
      = { w with heap := w.heap.set p (some { ent with usecount := 0 }) } := by
  unfold _ipmi_entity_put cleanup_entity
  simp [hd, h, hr, modify_eq_set w p _ ent hd]

theorem put_last_ready (w : World) (p : Nat) (ent : ipmi_entity_t)
    (hd : deref w p = some ent) (h : ent.usecount = 1) (hr : cleanup_ready ent = true) :
    (_ipmi_entity_put w p).events = w.events ++ [(IPMI_DELETED, p)]
    ∧ (_ipmi_entity_put w p).entities = locked_list_remove w.entities p
    ∧ (_ipmi_entity_put w p).handler_calls = w.handler_calls
    ∧ (∀ q, q ≠ p → deref (_ipmi_entity_put w p) q = deref w q) := by
  have hput : _ipmi_entity_put w p = destroy_entity
      { (call_entity_update_handlers (modify w p (fun e => { e with destroyed := true }))
          p IPMI_DELETED) with
        entities := locked_list_remove w.entities p } p := by
    unfold _ipmi_entity_put cleanup_entity
    simp [hd, h, hr, call_entity_update_handlers]
  have hf := frame_destroy_entity p
      { (call_entity_update_handlers (modify w p (fun e => { e with destroyed := true }))
          p IPMI_DELETED) with
        entities := locked_list_remove w.entities p }
  rw [hput]
  refine ⟨?_, ?_, ?_, ?_⟩
  · rw [hf.events]; simp [call_entity_update_handlers]
  · rw [hf.entities]
  · rw [hf.calls]; simp [call_entity_update_handlers]
  · intro q hq
    rw [hf.other q hq]
    have := deref_modify_ne w p q (fun e => { e with destroyed := true }) hq
    simpa [deref, call_entity_update_handlers] using this

theorem mem_locked_list_remove (l : List Nat) (p q : Nat) :
    q ∈ locked_list_remove l p ↔ q ∈ l ∧ q ≠ p := by
  simp [locked_list_remove]

/-! ## The registry invariant along operations -/

theorem member_ok_iff (w : World) (p : Nat) :
    member_ok w p = true ↔
      ∃ e, deref w p = some e ∧ 0 ≤ e.usecount ∧ removable e = false := by
  unfold member_ok
  cases deref w p with
  | none => simp
  | some e => simp

theorem inv_modify (w : World) (p : Nat) (f : ipmi_entity_t → ipmi_entity_t)
    (h : registry_inv w)
    (hf : ∀ e, deref w p = some e → 0 ≤ (f e).usecount ∧ removable (f e) = false) :
    registry_inv (modify w p f) := by
  intro q hq
  rw [modify_entities] at hq
  obtain ⟨e, he, h1, h2⟩ := (member_ok_iff w q).mp (h q hq)
  by_cases hqp : q = p
  · subst hqp
    exact (member_ok_iff _ q).mpr ⟨f e, deref_modify_same w q f e he, hf e he⟩
  · exact (member_ok_iff _ q).mpr ⟨e, by rw [deref_modify_ne w p q f hqp]; exact he, h1, h2⟩

theorem removable_pinned (e : ipmi_entity_t) (h : 1 ≤ e.usecount) : removable e = false := by
  unfold removable
  have : (e.usecount == 0) = false := by
    simp only [beq_eq_false_iff_ne, ne_eq]; omega
  simp [this]

theorem inv_pin (w : World) (p : Nat) (h : registry_inv w)
    (hp : ∀ e, deref w p = some e → 0 ≤ e.usecount) :
    registry_inv (modify w p (fun e => { e with usecount := e.usecount + 1 })) := by
  apply inv_modify w p _ h
  intro e he
  have := hp e he
  exact ⟨by simp only; omega, removable_pinned _ (by simp only; omega)⟩

theorem inv_of_eq (w w1 : World) (hh : w1.heap = w.heap) (he : w1.entities = w.entities)
    (h : registry_inv w) : registry_inv w1 := by
  intro q hq
  rw [he] at hq
  have := h q hq
  simpa [member_ok, deref, hh] using this

theorem inv_member_usecount (w : World) (p : Nat) (h : registry_inv w) (hp : p ∈ w.entities) :
    ∀ e, deref w p = some e → 0 ≤ e.usecount := by
  intro e he
  obtain ⟨e1, he1, h1, _⟩ := (member_ok_iff w p).mp (h p hp)
  rw [he] at he1
  cases he1
  exact h1

theorem inv_entity_find (w : World) (dn : ipmi_device_num_t) (id inst : Int)
    (h : registry_inv w) : registry_inv (entity_find w dn id inst).2.2 := by
  rcases entity_find_cases w dn id inst with ⟨_, h2⟩ | ⟨p, e, hp, he, _, _, _, hf⟩
  · rw [h2]; exact h
  · rw [hf]
    simp only
    rw [← modify_eq_set w p (fun e => { e with usecount := e.usecount + 1 }) e he]
    exact inv_pin w p h (inv_member_usecount w p h hp)

theorem inv_take_alloc (w : World) (h : registry_inv w) : registry_inv (take_alloc w).2 := by
  unfold take_alloc
  cases w.allocs <;> exact inv_of_eq w _ rfl rfl h

theorem take_alloc_heap (w : World) :
    (take_alloc w).2.heap = w.heap ∧ (take_alloc w).2.entities = w.entities := by
  unfold take_alloc
  cases w.allocs <;> exact ⟨rfl, rfl⟩

theorem take_allocs_heap (n : Nat) (w : World) :
    (take_allocs n w).2.heap = w.heap ∧ (take_allocs n w).2.entities = w.entities := by
  induction n generalizing w with
  | zero => exact ⟨rfl, rfl⟩
  | succ n ih =>
    unfold take_allocs
    have h1 := take_alloc_heap w
    rcases hta : take_alloc w with ⟨b, w1⟩
    rw [hta] at h1
    cases b with
    | true =>
      have h2 := ih w1
      exact ⟨h2.1.trans h1.1, h2.2.trans h1.2⟩
    | false => exact h1

theorem inv_append (w w1 : World) (ent : ipmi_entity_t)
    (hh : w1.heap = w.heap ++ [some ent]) (he : w1.entities = w.entities ++ [w.heap.length])
    (hu : 1 ≤ ent.usecount) (h : registry_inv w) : registry_inv w1 := by
  intro q hq
  rw [he, List.mem_append] at hq
  rcases hq with hq | hq
  · obtain ⟨e, hde, h1, h2⟩ := (member_ok_iff w q).mp (h q hq)
    have hlt := deref_lt w q e hde
    refine (member_ok_iff _ q).mpr ⟨e, ?_, h1, h2⟩
    simp only [deref, hh, List.getElem?_append_left hlt]
    exact hde
  · simp only [List.mem_singleton] at hq
    subst hq
    refine (member_ok_iff _ _).mpr ⟨ent, ?_, by omega, removable_pinned ent hu⟩
    simp [deref, hh]

theorem inv_entity_add (w : World) (dn : ipmi_device_num_t) (id inst : Int)
    (out data : Nat) (h : registry_inv w) :
    registry_inv (entity_add w dn id inst out data).2.2 := by
  rcases entity_find_cases w dn id inst with ⟨_, hm⟩ | ⟨p, e, hp, he, _, _, _, hf⟩
  · unfold entity_add
    rw [hm]
    simp only [ENODEV]
    have ha := take_alloc_heap w
    rcases hta : take_alloc w with ⟨b, w2⟩
    rw [hta] at ha
    simp only at ha
    cases b with
    | false => exact inv_of_eq w w2 ha.1 ha.2 h
    | true =>
      simp only [ipmi_get_seq]
      have hb := take_allocs_heap 14 { w2 with next_seq := w2.next_seq + 1 }
      rcases htb : take_allocs 14 { w2 with next_seq := w2.next_seq + 1 } with ⟨b2, w4⟩
      rw [htb] at hb
      simp only at hb
      cases b2 with
      | false => exact inv_of_eq w w4 (hb.1.trans ha.1) (hb.2.trans ha.2) h
      | true =>
        simp only
        refine inv_append w _ (new_entity w4 w2.next_seq dn id inst out data) ?_ ?_
          (by simp [new_entity]) h
        · simp [call_entity_update_handlers, hb.1, ha.1]
        · simp [call_entity_update_handlers, hb.1, hb.2, ha.1, ha.2]
  · rw [entity_add_hit w dn id inst out data p e he hf]
    simp only
    have hu := inv_member_usecount w p h hp e he
    have := inv_modify w p (fun e => { e with usecount := e.usecount + 1,
                                              sdr_gen_output :=
                                                if out != 0 then out else e.sdr_gen_output,
                                              sdr_gen_cb_data :=
                                                if out != 0 then data else e.sdr_gen_cb_data }) h
      (fun e1 he1 => by
        rw [he] at he1; cases he1
        exact ⟨by simp only; omega, removable_pinned _ (by simp only; omega)⟩)
    rw [modify_eq_set w p _ e he] at this
    exact this

theorem pinned_iff (w : World) (p : Nat) :
    pinned w p = true ↔ ∃ e, deref w p = some e ∧ 1 ≤ e.usecount := by
  unfold pinned
  cases deref w p with
  | none => simp
  | some e => simp

theorem inv_entity_put (w : World) (p : Nat) (h : registry_inv w) (hp : pinned w p = true) :
    registry_inv (_ipmi_entity_put w p) := by
  obtain ⟨e, he, hu⟩ := (pinned_iff w p).mp hp
  by_cases h1 : e.usecount = 1
  · cases hr : cleanup_ready e with
    | true =>
      obtain ⟨_, h2, _, h4⟩ := put_last_ready w p e he h1 hr
      intro q hq
      rw [h2, mem_locked_list_remove] at hq
      have := h q hq.1
      simpa [member_ok, h4 q hq.2] using this
    | false =>
      rw [put_last_not_ready w p e he h1 hr]
      have := inv_modify w p (fun e => { e with usecount := e.usecount - 1 }) h
        (fun e1 he1 => by
          rw [he] at he1; cases he1
          refine ⟨by simp only; omega, ?_⟩
          have hc : cleanup_ready { e with usecount := e.usecount - 1 } = cleanup_ready e := rfl
          simp [removable, hc, hr])
      rw [modify_eq_set w p _ e he] at this
      simpa [h1] using this
  · rw [put_not_last w p e he h1]
    have := inv_modify w p (fun e => { e with usecount := e.usecount - 1 }) h
      (fun e1 he1 => by
        rw [he] at he1; cases he1
        exact ⟨by simp only; omega, removable_pinned _ (by simp only; omega)⟩)
    rw [modify_eq_set w p _ e he] at this
    exact this

theorem inv_lifecycle_step (w : World) (op : lifecycle_op) (h : registry_inv w)
    (ha : op_allowed w op = true) : registry_inv (lifecycle_step w op) := by
  cases op with
  | add dn id inst out data => exact inv_entity_add w dn id inst out data h
  | find dn id inst => exact inv_entity_find w dn id inst h
  | pin p =>
    obtain ⟨e, he, hu⟩ := (pinned_iff w p).mp ha
    exact inv_pin w p h (fun e1 he1 => by rw [he] at he1; cases he1; omega)
  | unpin p => exact inv_entity_put w p h ha

theorem inv_lifecycle_run (w : World) (ops : List lifecycle_op) (h : registry_inv w)
    (ha : ops_allowed w ops = true) : registry_inv (lifecycle_run w ops) := by
  induction ops generalizing w with
  | nil => exact h
  | cons op ops ih =>
    simp only [ops_allowed, Bool.and_eq_true] at ha
    exact ih (lifecycle_step w op) (inv_lifecycle_step w op h ha.1) ha.2

theorem entity_find_entities (w : World) (dn : ipmi_device_num_t) (id inst : Int) :
    (entity_find w dn id inst).2.2.entities = w.entities := by
  unfold entity_find
  cases search_entities w (search_info_of dn id inst) <;> simp

theorem entity_add_keeps_members (w : World) (dn : ipmi_device_num_t) (id inst : Int)
    (out data q : Nat) (hq : q ∈ w.entities) :
    q ∈ (entity_add w dn id inst out data).2.2.entities := by
  rcases entity_find_cases w dn id inst with ⟨_, hm⟩ | ⟨p, e, hp, he, _, _, _, hf⟩
  · by_cases ha : ∀ b ∈ w.allocs.take 15, b = true
    · rw [entity_add_miss w dn id inst out data hm ha]
      exact List.mem_append_left _ hq
    · rw [(entity_add_miss_fail w dn id inst out data hm (by simpa using ha)).2.2.2.1]
      exact hq
  · rw [entity_add_hit w dn id inst out data p e he hf]
    exact hq

/-- A member of the collection stays a member under every operation but
the unpin that drops its last pin while the cleanup test passes. -/
theorem member_step (w : World) (op : lifecycle_op) (q : Nat) (hq : q ∈ w.entities) :
    q ∈ (lifecycle_step w op).entities
    ∨ (op = .unpin q
        ∧ ∃ e, deref w q = some e ∧ e.usecount = 1 ∧ cleanup_ready e = true) := by
  cases op with
  | add dn id inst out data => exact Or.inl (entity_add_keeps_members w dn id inst out data q hq)
  | find dn id inst =>
    left
    simp only [lifecycle_step, entity_find_entities]
    exact hq
  | pin p =>
    left
    simp only [lifecycle_step, _ipmi_entity_get, modify_entities]
    exact hq
  | unpin p =>
    simp only [lifecycle_step]
    cases hd : deref w p with
    | none => left; simp [_ipmi_entity_put, hd]; exact hq
    | some e =>
      by_cases h1 : e.usecount = 1
      · cases hr : cleanup_ready e with
        | true =>
          by_cases hqp : q = p
          · subst hqp
            exact Or.inr ⟨rfl, e, hd, h1, hr⟩
          · left
            rw [(put_last_ready w p e hd h1 hr).2.1, mem_locked_list_remove]
            exact ⟨hq, hqp⟩
        | false =>
          left
          rw [put_last_not_ready w p e hd h1 hr]
          exact hq
      · left
        rw [put_not_last w p e hd h1]
        exact hq

/-! ## Key uniqueness along the registry operations -/

theorem keys_unique_modify (w : World) (p : Nat) (f : ipmi_entity_t → ipmi_entity_t)
    (hf : ∀ e, deref w p = some e → (f e).info = e.info) (h : keys_unique w) :
    keys_unique (modify w p f) := by
  have key : ∀ a e1, deref (modify w p f) a = some e1 →
      ∃ x, deref w a = some x ∧ e1.info = x.info := by
    intro a e1 h1
    by_cases ha : a = p
    · subst ha
      cases hd : deref w a with
      | none => rw [modify_none w a f hd, hd] at h1; cases h1
      | some e =>
        rw [deref_modify_same w a f e hd] at h1
        cases h1
        exact ⟨e, rfl, hf e hd⟩
    · rw [deref_modify_ne w p a f ha] at h1
      exact ⟨e1, h1, rfl⟩
  intro a b e1 e2 ha hb h1 h2 k1 k2 k3
  rw [modify_entities] at ha hb
  obtain ⟨x1, hx1, i1⟩ := key a e1 h1
  obtain ⟨x2, hx2, i2⟩ := key b e2 h2
  rw [i1, i2] at k1 k2 k3
  exact h a b x1 x2 ha hb hx1 hx2 k1 k2 k3

theorem keys_unique_set (w : World) (p : Nat) (e e1 : ipmi_entity_t)
    (hd : deref w p = some e) (hi : e1.info = e.info) (h : keys_unique w) :
    keys_unique { w with heap := w.heap.set p (some e1) } := by
  have := keys_unique_modify w p (fun _ => e1)
    (fun x hx => by rw [hd] at hx; cases hx; exact hi) h
  rwa [modify_eq_set w p _ e hd] at this

theorem keys_unique_of_eq (w w1 : World) (hh : w1.heap = w.heap)
    (he : w1.entities = w.entities) (h : keys_unique w) : keys_unique w1 := by
  intro a b e1 e2 ha hb h1 h2
  rw [he] at ha hb
  have d1 : deref w a = some e1 := by simpa [deref, hh] using h1
  have d2 : deref w b = some e2 := by simpa [deref, hh] using h2
  exact h a b e1 e2 ha hb d1 d2

theorem keys_unique_entity_find (w : World) (dn : ipmi_device_num_t) (id inst : Int)
    (h : keys_unique w) : keys_unique (entity_find w dn id inst).2.2 := by
  unfold entity_find
  cases search_entities w (search_info_of dn id inst) with
  | none => exact h
  | some p => exact keys_unique_modify w p _ (fun _ _ => rfl) h

theorem keys_unique_entity_put (w : World) (p : Nat) (h : keys_unique w) :
    keys_unique (_ipmi_entity_put w p) := by
  cases hd : deref w p with
  | none => simpa [_ipmi_entity_put, hd] using h
  | some e =>
    by_cases h1 : e.usecount = 1
    · cases hr : cleanup_ready e with
      | true =>
        obtain ⟨_, hm, _, ho⟩ := put_last_ready w p e hd h1 hr
        intro a b e1 e2 ha hb d1 d2
        rw [hm, mem_locked_list_remove] at ha hb
        rw [ho a ha.2] at d1
        rw [ho b hb.2] at d2
        exact h a b e1 e2 ha.1 hb.1 d1 d2
      | false =>
        rw [put_last_not_ready w p e hd h1 hr]
        exact keys_unique_set w p e _ hd rfl h
    · rw [put_not_last w p e hd h1]
      exact keys_unique_set w p e _ hd rfl h

theorem keys_unique_entity_add (w : World) (dn : ipmi_device_num_t) (id inst : Int)
    (out data : Nat) (h : keys_unique w) :
    keys_unique (entity_add w dn id inst out data).2.2 := by
  rcases entity_find_cases w dn id inst with ⟨hno, hm⟩ | ⟨p, e, hp, he, _, _, _, hf⟩
  · by_cases ha : ∀ b ∈ w.allocs.take 15, b = true
    · rw [entity_add_miss w dn id inst out data hm ha]
      have hnew : ∀ a e1, a ∈ w.entities ++ [w.heap.length] →
          deref { w with heap := w.heap ++ [some (new_entity w w.next_seq dn id inst out data)],
                         entities := w.entities ++ [w.heap.length],
                         events := w.events ++ [(IPMI_ADDED, w.heap.length)],
                         next_seq := w.next_seq + 1,
                         allocs := w.allocs.drop 15 } a = some e1 →
          (a ∈ w.entities ∧ deref w a = some e1)
          ∨ (a = w.heap.length ∧ e1 = new_entity w w.next_seq dn id inst out data) := by
        intro a e1 ha1 hd1
        by_cases hlt : a < w.heap.length
        · left
          have hd2 : deref w a = some e1 := by
            simpa [deref, List.getElem?_append_left hlt] using hd1
          rcases List.mem_append.mp ha1 with hmem | hmem
          · exact ⟨hmem, hd2⟩
          · simp only [List.mem_singleton] at hmem; omega
        · right
          by_cases heq : a = w.heap.length
          · subst heq
            refine ⟨rfl, ?_⟩
            simp [deref] at hd1
            exact hd1.symm
          · exfalso
            have : (w.heap ++ [some (new_entity w w.next_seq dn id inst out data)])[a]? = none :=
              List.getElem?_eq_none (by simp; omega)
            simp [deref, this] at hd1
      intro a b e1 e2 ha1 hb1 d1 d2 k1 k2 k3
      rcases hnew a e1 ha1 d1 with ⟨ma, da⟩ | ⟨ea, ne1⟩
      · rcases hnew b e2 hb1 d2 with ⟨mb, db⟩ | ⟨eb, ne2⟩
        · exact h a b e1 e2 ma mb da db k1 k2 k3
        · exfalso
          apply hno
          refine ⟨a, ma, e1, da, ?_⟩
          rw [ne2] at k1 k2 k3
          exact ⟨k1, k2, k3⟩
      · rcases hnew b e2 hb1 d2 with ⟨mb, db⟩ | ⟨eb, ne2⟩
        · exfalso
          apply hno
          refine ⟨b, mb, e2, db, ?_⟩
          rw [ne1] at k1 k2 k3
          exact ⟨k1.symm, k2.symm, k3.symm⟩
        · rw [ea, eb]
    · obtain ⟨_, _, h3, h4, _⟩ :=
        entity_add_miss_fail w dn id inst out data hm (by simpa using ha)
      exact keys_unique_of_eq w _ h3 h4 h
  · rw [entity_add_hit w dn id inst out data p e he hf]
    exact keys_unique_set w p e _ he rfl h

/-- The operations add, find, pin and unpin keep identity keys unique. -/
theorem keys_unique_lifecycle_run (w : World) (ops : List lifecycle_op) (h : keys_unique w) :
    keys_unique (lifecycle_run w ops) := by
  induction ops generalizing w with
  | nil => exact h
  | cons op ops ih =>
    apply ih
    cases op with
    | add dn id inst out data => exact keys_unique_entity_add w dn id inst out data h
    | find dn id inst => exact keys_unique_entity_find w dn id inst h
    | pin p => exact keys_unique_modify w p _ (fun _ _ => rfl) h
    | unpin p => exact keys_unique_entity_put w p h

/-! ## Facts about handles -/

theorem entity_find_of_search (w : World) (dn : ipmi_device_num_t) (id inst : Int) (p : Nat)
    (hs : search_entities w (search_info_of dn id inst) = some p) :
    entity_find w dn id inst
      = (0, some p, modify w p (fun e => { e with usecount := e.usecount + 1 })) := by
  simp [entity_find, hs]

theorem search_entities_none (w : World) (info : search_info_t)
    (h : ¬ ∃ p ∈ w.entities, ∃ e, deref w p = some e ∧ has_key e info) :
    search_entities w info = none := by
  unfold search_entities
  apply List.find?_eq_none.mpr
  intro p hp hs
  obtain ⟨e, he, hk⟩ := (search_at_iff w info p).mp hs
  exact h ⟨p, hp, e, he, hk⟩

theorem put_calls (w : World) (p : Nat) :
    (_ipmi_entity_put w p).handler_calls = w.handler_calls := by
  cases hd : deref w p with
  | none => simp [_ipmi_entity_put, hd]
  | some e =>
    by_cases h1 : e.usecount = 1
    · cases hr : cleanup_ready e with
      | true => exact (put_last_ready w p e hd h1 hr).2.2.1
      | false => rw [put_last_not_ready w p e hd h1 hr]
    · rw [put_not_last w p e hd h1]

theorem put_other (w : World) (p q : Nat) (hq : q ≠ p) :
    deref (_ipmi_entity_put w p) q = deref w q := by
  have hne : p ≠ q := fun h => hq h.symm
  cases hd : deref w p with
  | none => simp [_ipmi_entity_put, hd]
  | some e =>
    by_cases h1 : e.usecount = 1
    · cases hr : cleanup_ready e with
      | true => exact (put_last_ready w p e hd h1 hr).2.2.2 q hq
      | false =>
        rw [put_last_not_ready w p e hd h1 hr]
        simp [deref, List.getElem?_set, hne]
    · rw [put_not_last w p e hd h1]
      simp [deref, List.getElem?_set, hne]

/-- A pin taken by `entity_find` and dropped again by `_ipmi_entity_put`
leaves every pinned entity as it was and calls no handler. -/
theorem find_then_put (w : World) (p : Nat) (e : ipmi_entity_t) (hd : deref w p = some e) :
    (_ipmi_entity_put (modify w p (fun e => { e with usecount := e.usecount + 1 })) p).handler_calls
        = w.handler_calls
    ∧ ∀ q x, deref w q = some x → 1 ≤ x.usecount →
        deref (_ipmi_entity_put (modify w p (fun e => { e with usecount := e.usecount + 1 })) p) q
          = some x := by
  refine ⟨by rw [put_calls]; simp, ?_⟩
  intro q x hx hu
  by_cases hq : q = p
  · subst hq
    rw [hd] at hx
    cases hx
    have hd1 := deref_modify_same w q (fun e => { e with usecount := e.usecount + 1 }) e hd
    have hlt := deref_lt _ q _ hd1
    rw [put_not_last _ q _ hd1 (by simp only; omega)]
    simp [deref, List.getElem?_set, hlt]
  · rw [put_other _ p q hq, deref_modify_ne w p q _ hq]
    exact hx

theorem u8_of_lt (n : Nat) (h : n < 256) : u8 (n : Int) = n := by
  unfold u8
  omega

theorem heap_set_self (w : World) (p : Nat) (e : ipmi_entity_t) (hd : deref w p = some e) :
    w.heap.set p (some e) = w.heap := by
  have hlt := deref_lt w p e hd
  have h1 : w.heap[p]? = some (some e) := by
    unfold deref at hd
    cases h : w.heap[p]? with
    | none => simp [h] at hd
    | some c => simp [h] at hd; rw [hd]
  apply List.ext_getElem?
  intro i
  by_cases hi : i = p
  · subst hi; simp [List.getElem?_set, hlt, h1]
  · have : p ≠ i := fun h => hi h.symm
    simp [List.getElem?_set, this]

/-- When the lookup by the key of a pinned entity yields that very
entity, resolving its handle returns 0, calls the handler once on it and
leaves the rest of the state as it was. -/
theorem pointer_cb_round_trip (w : World) (p : Nat) (e : ipmi_entity_t)
    (hd : deref w p = some e)
    (hs : search_entities w
      { device_num := e.info.device_num, entity_id := e.info.entity_id,
        entity_instance := e.info.entity_instance } = some p)
    (hdom : e.domain_id = w.domain_id) (hpin : 1 ≤ e.usecount)
    (hid : e.info.entity_id < 256) (hinst : e.info.entity_instance < 256) :
    ipmi_entity_pointer_cb w (ipmi_entity_convert_to_id e)
      = (0, { w with handler_calls := w.handler_calls ++ [p] }) := by
  have hk : search_info_of ⟨e.info.device_num.channel, e.info.device_num.address⟩
      (e.info.entity_id : Int) (e.info.entity_instance : Int)
      = { device_num := e.info.device_num, entity_id := e.info.entity_id,
          entity_instance := e.info.entity_instance } := by
    simp [search_info_of, u8_of_lt _ hid, u8_of_lt _ hinst]
  have hf := entity_find_of_search w ⟨e.info.device_num.channel, e.info.device_num.address⟩
    (e.info.entity_id : Int) (e.info.entity_instance : Int) p (by rw [hk]; exact hs)
  have hd1 := deref_modify_same w p (fun e => { e with usecount := e.usecount + 1 }) e hd
  have hlt := deref_lt w p e hd
  have hd2 : deref { (modify w p (fun e => { e with usecount := e.usecount + 1 })) with
      handler_calls := w.handler_calls ++ [p] } p
      = some { e with usecount := e.usecount + 1 } := by
    simpa [deref] using hd1
  unfold ipmi_entity_pointer_cb ipmi_domain_pointer_cb domain_cb
  simp only [ipmi_entity_convert_to_id, hdom, if_true, hf, hd1]
  simp only [bne_self_eq_false, Bool.and_false, Bool.false_eq_true, if_false, modify_handler_calls]
  rw [put_not_last _ p _ hd2 (by simp only; omega)]
  simp only [modify_eq_set w p _ e hd, List.set_set, add_sub_cancel_right]
  rw [heap_set_self w p e hd]

/-! ## Facts about the comparison of array slots -/

theorem memcmp_eq_zero (a b : Nat → Nat) (n k : Nat) (h : memcmp a b k n = 0) :
    ∀ m, k ≤ m → m < k + n → a m = b m := by
  induction n generalizing k with
  | zero => intro m h1 h2; omega
  | succ n ih =>
    unfold memcmp at h
    split at h
    · simp at h
    · split at h
      · simp at h
      · intro m h1 h2
        by_cases hm : m = k
        · subst hm; omega
        · exact ih (k + 1) h m (by omega) (by omega)

theorem cmp_dlr_eq_zero (L : dlr_layout) (a b : Nat → Nat) (h : cmp_dlr L a b = 0) :
    ∀ m, m < L.size → a m = b m := by
  unfold cmp_dlr at h
  split at h
  · simp at h
  · split at h
    · simp at h
    · split at h
      · simp at h
      · split at h
        · simp at h
        · intro m hm
          exact memcmp_eq_zero a b L.size 0 h m (by omega) (by omega)

theorem eq_mod_of_ptr_bytes (n p q : Nat) (h : ∀ m, m < n → ptr_byte p m = ptr_byte q m) :
    p % 256 ^ n = q % 256 ^ n := by
  induction n with
  | zero => simp [Nat.mod_one]
  | succ n ih =>
    rw [Nat.mod_pow_succ, Nat.mod_pow_succ, ih (fun m hm => h m (by omega))]
    have := h n (by omega)
    unfold ptr_byte at this
    rw [this]

theorem slot_bytes_ptr (L : dlr_layout) (ptrs : List Nat) (after : Nat → Nat) (i k : Nat)
    (hi : i < ptrs.length) (hk : k < L.ptr_size) :
    slot_bytes L ptrs after i k = ptr_byte (ptrs.getD i 0) k := by
  have hps : 0 < L.ptr_size := by omega
  have h1 : (i * L.ptr_size + k) / L.ptr_size = i := by
    rw [Nat.mul_comm, Nat.mul_add_div hps, Nat.div_eq_of_lt hk]; rfl
  have h2 : (i * L.ptr_size + k) % L.ptr_size = k := by
    rw [Nat.mul_comm, Nat.mul_add_mod, Nat.mod_eq_of_lt hk]
  simp [slot_bytes, h1, h2, hi]

/-- Applied to the addresses of two slots that hold different pointers,
`cmp_dlr` does not return 0: the first bytes `memcmp` compares are the
bytes of the two pointers. -/
theorem slot_cmp_ne_zero (L : dlr_layout) (new_ptrs old_ptrs : List Nat)
    (after_new after_old : Nat → Nat) (i j : Nat)
    (hps : L.ptr_size ≤ L.size)
    (hi : i < new_ptrs.length) (hj : j < old_ptrs.length)
    (hp : new_ptrs.getD i 0 < 256 ^ L.ptr_size) (hq : old_ptrs.getD j 0 < 256 ^ L.ptr_size)
    (hne : new_ptrs.getD i 0 ≠ old_ptrs.getD j 0) :
    slot_cmp L new_ptrs old_ptrs after_new after_old i j ≠ 0 := by
  intro h
  have hb := cmp_dlr_eq_zero L _ _ h
  have := eq_mod_of_ptr_bytes L.ptr_size (new_ptrs.getD i 0) (old_ptrs.getD j 0)
    (fun m hm => by
      have := hb m (by omega)
      rwa [slot_bytes_ptr L new_ptrs after_new i m hi hm,
        slot_bytes_ptr L old_ptrs after_old j m hj hm] at this)
  rw [Nat.mod_eq_of_lt hp, Nat.mod_eq_of_lt hq] at this
  exact hne this

/-- With a comparison that never returns 0 inside the arrays the matching
loop marks nothing. -/
theorem match_loop_marks_nothing (c : Nat → Nat → Int) (fuel i j : Nat)
    (nf of : List entity_found_t)
    (h : ∀ i j, i < nf.length → j < of.length → c i j ≠ 0) :
    match_loop c fuel i j nf of = (nf, of) := by
  induction fuel generalizing i j with
  | zero => rfl
  | succ fuel ih =>
    unfold match_loop
    split
    next hij =>
      rw [if_neg (h i j hij.1 hij.2)]
      split
      · exact ih (i + 1) j
      · exact ih i (j + 1)
    · rfl

/-- The matching loop on arrays of pointers to distinct objects marks
nothing, whatever the records are. -/
theorem match_loop_slots (L : dlr_layout) (new_ptrs old_ptrs : List Nat)
    (after_new after_old : Nat → Nat)
    (hps : L.ptr_size ≤ L.size)
    (hp : ∀ p ∈ new_ptrs, p < 256 ^ L.ptr_size) (hq : ∀ q ∈ old_ptrs, q < 256 ^ L.ptr_size)
    (hne : ∀ p ∈ new_ptrs, p ∉ old_ptrs) :
    match_loop (slot_cmp L new_ptrs old_ptrs after_new after_old)
        (new_ptrs.length + old_ptrs.length) 0 0
        (List.replicate new_ptrs.length found_zero)
        (List.replicate old_ptrs.length found_zero)
      = (List.replicate new_ptrs.length found_zero,
          List.replicate old_ptrs.length found_zero) := by
  apply match_loop_marks_nothing
  intro i j hi hj
  simp only [List.length_replicate] at hi hj
  have hi1 : new_ptrs.getD i 0 ∈ new_ptrs := by
    rw [List.getD_eq_getElem _ _ hi]; exact List.getElem_mem hi
  have hj1 : old_ptrs.getD j 0 ∈ old_ptrs := by
    rw [List.getD_eq_getElem _ _ hj]; exact List.getElem_mem hj
  exact slot_cmp_ne_zero L new_ptrs old_ptrs after_new after_old i j hps hi hj
    (hp _ hi1) (hq _ hj1) (fun heq => hne _ hi1 (heq ▸ hj1))

/-! ## Facts about the presence roles -/

theorem roles_modify (w : World) (p : Nat) (f : ipmi_entity_t → ipmi_entity_t) :
    roles (modify w p f) p
      = (deref w p).map (fun e => ((f e).presence_sensor, (f e).presence_bit_sensor)) := by
  unfold roles
  cases h : deref w p with
  | none => rw [modify_none w p f h, h]; rfl
  | some e => rw [deref_modify_same w p f e h]; rfl

theorem roles_modify_keep (w : World) (p : Nat) (f : ipmi_entity_t → ipmi_entity_t)
    (hf : ∀ e, (f e).presence_sensor = e.presence_sensor
      ∧ (f e).presence_bit_sensor = e.presence_bit_sensor) :
    roles (modify w p f) p = roles w p := by
  rw [roles_modify]
  unfold roles
  cases deref w p with
  | none => rfl
  | some e => simp [(hf e).1, (hf e).2]

theorem deref_send_request (w : World) (r : request_t) (q : Nat) :
    deref (send_request w r).2 q = deref w q := by
  unfold send_request
  split
  · rfl
  · split <;> rfl

theorem deref_take_alloc (w : World) (q : Nat) : deref (take_alloc w).2 q = deref w q := by
  unfold take_alloc
  split <;> rfl

theorem deref_take_claim (w : World) (q : Nat) : deref (take_claim w).2 q = deref w q := by
  unfold take_claim
  split <;> rfl

theorem roles_set_hot_swappable (w : World) (p : Nat) (val : Int) :
    roles (ipmi_entity_set_hot_swappable w p val) p = roles w p := by
  unfold ipmi_entity_set_hot_swappable
  exact roles_modify_keep w p _ (fun e => ⟨rfl, rfl⟩)

theorem roles_install_internal_hs (w : World) (p : Nat) :
    roles (install_internal_hs w p) p = roles w p := by
  unfold install_internal_hs
  simp only
  have h1 : roles (modify w p (fun e => { e with presence_possibly_changed := true })) p
      = roles w p := roles_modify_keep w p _ (fun e => ⟨rfl, rfl⟩)
  split
  · exact h1
  · split
    · rw [roles_modify_keep, roles_set_hot_swappable, h1]
      intro e
      exact ⟨rfl, rfl⟩
    · exact h1

theorem roles_handle_new_presence_sensor (w : World) (p : Nat) :
    roles (handle_new_presence_sensor w p) p = (roles w p).map (fun r => (r.1, none)) := by
  unfold handle_new_presence_sensor
  rw [roles_install_internal_hs, roles_modify]
  unfold roles
  cases deref w p <;> rfl

theorem roles_handle_new_presence_bit_sensor (w : World) (p : Nat) :
    roles (handle_new_presence_bit_sensor w p) p = roles w p :=
  roles_install_internal_hs w p

theorem roles_handle_new_hot_swap_requester (sens : Nat → ipmi_sensor_t) (w : World)
    (p sensor : Nat) :
    roles (handle_new_hot_swap_requester sens w p sensor) p = roles w p := by
  unfold handle_new_hot_swap_requester
  simp only
  have h1 : roles (modify w p (fun e =>
      match (sens sensor).requester with
      | some (offset, val) =>
        { e with hot_swap_offset := offset, hot_swap_requesting_val := val }
      | none => e)) p = roles w p := by
    apply roles_modify_keep
    intro e
    cases (sens sensor).requester with
    | none => exact ⟨rfl, rfl⟩
    | some x => exact ⟨rfl, rfl⟩
  split
  · exact h1
  · have h2 := roles_modify_keep (modify w p (fun e =>
      match (sens sensor).requester with
      | some (offset, val) =>
        { e with hot_swap_offset := offset, hot_swap_requesting_val := val }
      | none => e)) p (fun e => { e with hot_swap_requester := some sensor })
      (fun e => ⟨rfl, rfl⟩)
    split
    · rw [h2, h1]
    · split
      · rw [h2, h1]
      · split
        · unfold roles
          rw [deref_send_request]
          exact h2.trans h1
        · rw [h2, h1]

theorem both_of_roles (w w1 : World) (p : Nat) (h : roles w1 p = roles w p) :
    both_installed w1 p = both_installed w p := by
  unfold both_installed
  rw [h]

theorem roles_of_deref (w : World) (p : Nat) (e : ipmi_entity_t) (h : deref w p = some e) :
    roles w p = some (e.presence_sensor, e.presence_bit_sensor) := by
  unfold roles
  rw [h]
  rfl

theorem add_sensor_presence_not_both (sens : Nat → ipmi_sensor_t) (w : World)
    (p sensor : Nat) (ent : ipmi_entity_t) (hd : deref w p = some ent)
    (h : both_installed w p = false) :
    both_installed (add_sensor_presence sens w p sensor ent) p = false := by
  unfold add_sensor_presence
  split
  · unfold both_installed
    rw [roles_handle_new_presence_sensor, roles_modify, hd]
    rfl
  · split
    · split
      · rename_i hn
        simp only [Bool.and_eq_true, Option.isNone_iff_eq_none] at hn
        unfold both_installed
        rw [roles_handle_new_presence_bit_sensor, roles_modify, hd]
        simp [hn.1]
      · exact h
    · exact h

theorem add_sensor_requester_roles (sens : Nat → ipmi_sensor_t) (w : World)
    (p sensor : Nat) :
    roles (add_sensor_requester sens w p sensor) p = roles w p := by
  unfold add_sensor_requester
  simp only
  split
  · exact roles_handle_new_hot_swap_requester sens w p sensor
  · rfl

theorem both_modify_keep (w : World) (p : Nat) (f : ipmi_entity_t → ipmi_entity_t)
    (hf : ∀ e, (f e).presence_sensor = e.presence_sensor
      ∧ (f e).presence_bit_sensor = e.presence_bit_sensor) :
    both_installed (modify w p f) p = both_installed w p :=
  both_of_roles _ _ p (roles_modify_keep w p f hf)

theorem both_add_sensor_requester (sens : Nat → ipmi_sensor_t) (w : World)
    (p sensor : Nat) :
    both_installed (add_sensor_requester sens w p sensor) p = both_installed w p :=
  both_of_roles _ _ p (add_sensor_requester_roles sens w p sensor)

theorem add_sensor_not_both (sens : Nat → ipmi_sensor_t) (w : World) (p sensor : Nat)
    (h : both_installed w p = false) :
    both_installed (ipmi_entity_add_sensor sens w p sensor) p = false := by
  unfold ipmi_entity_add_sensor
  cases hd : deref w p with
  | none => exact h
  | some ent =>
    simp only
    rw [both_modify_keep, both_add_sensor_requester]
    · exact add_sensor_presence_not_both sens w p sensor ent hd h
    · intro e
      exact ⟨rfl, rfl⟩

theorem find_presence_roles (sens : Nat → ipmi_sensor_t) (w : World) (p : Nat)
    (ignore : Option Nat) :
    ((find_presence sens w p ignore).1 = true →
        ∃ s, roles (find_presence sens w p ignore).2 p = some (some s, none))
    ∧ ((find_presence sens w p ignore).1 = false → (find_presence sens w p ignore).2 = w) := by
  unfold find_presence
  cases hd : deref w p with
  | none => simp
  | some ent =>
    simp only
    split
    · simp
    · rename_i s hs
      refine ⟨fun _ => ⟨s, ?_⟩, fun h => by simp at h⟩
      simp only
      rw [roles_handle_new_presence_sensor, roles_modify, hd]
      rfl

theorem find_presence_bit_roles (sens : Nat → ipmi_sensor_t) (w : World) (p : Nat)
    (ignore : Option Nat) :
    ((find_presence_bit sens w p ignore).1 = true →
        ∃ s, roles (find_presence_bit sens w p ignore).2 p
          = (roles w p).map (fun r => (r.1, some s)))
    ∧ ((find_presence_bit sens w p ignore).1 = false
        → (find_presence_bit sens w p ignore).2 = w) := by
  unfold find_presence_bit
  cases hd : deref w p with
  | none => simp
  | some ent =>
    simp only
    split
    · simp
    · rename_i s hs
      refine ⟨fun _ => ⟨s, ?_⟩, fun h => by simp at h⟩
      simp only
      rw [roles_handle_new_presence_bit_sensor, roles_modify, hd, roles_of_deref w p ent hd]
      rfl

theorem both_false_of_left_none (w : World) (p : Nat) (b : Option Nat)
    (h : roles w p = some (none, b)) : both_installed w p = false := by
  unfold both_installed
  rw [h]

theorem both_false_of_right_none (w : World) (p : Nat) (a : Option Nat)
    (h : roles w p = some (a, none)) : both_installed w p = false := by
  unfold both_installed
  rw [h]
  cases a <;> rfl

theorem remove_sensor_presence_not_both (sens : Nat → ipmi_sensor_t) (w : World)
    (p sensor : Nat) (ent : ipmi_entity_t) (hd : deref w p = some ent)
    (h : both_installed w p = false) :
    both_installed (remove_sensor_presence sens w p sensor ent) p = false := by
  unfold remove_sensor_presence
  split
  · -- the sensor is the presence sensor
    have hf := find_presence_roles sens w p (some sensor)
    cases hr : find_presence sens w p (some sensor) with
    | mk found wa =>
      rw [hr] at hf
      cases found with
      | true =>
        obtain ⟨s, hs⟩ := hf.1 rfl
        simp only
        rw [both_modify_keep]
        · exact both_false_of_right_none _ p _ hs
        · intro e
          exact ⟨rfl, rfl⟩
      | false =>
        have hwa : wa = w := hf.2 rfl
        subst hwa
        simp only
        have hm : roles (modify wa p (fun e =>
            { e with presence_possibly_changed := true, presence_sensor := none })) p
            = some (none, ent.presence_bit_sensor) := by
          rw [roles_modify, hd]; rfl
        have hb := find_presence_bit_roles sens (modify wa p (fun e =>
            { e with presence_possibly_changed := true, presence_sensor := none })) p none
        cases hc : (find_presence_bit sens (modify wa p (fun e =>
            { e with presence_possibly_changed := true, presence_sensor := none })) p none).1 with
        | true =>
          obtain ⟨s, hs⟩ := hb.1 hc
          rw [hm] at hs
          exact both_false_of_left_none _ p _ hs
        | false =>
          rw [hb.2 hc]
          exact both_false_of_left_none _ p _ hm
  · split
    · -- the sensor is the presence-bit sensor
      rename_i hne hbit
      have hps : ent.presence_sensor = none := by
        have hr := roles_of_deref w p ent hd
        unfold both_installed at h
        rw [hr] at h
        have hb2 : ent.presence_bit_sensor = some sensor := by simpa using hbit
        rw [hb2] at h
        cases hp : ent.presence_sensor with
        | none => rfl
        | some a => rw [hp] at h; simp at h
      have hb := find_presence_bit_roles sens w p (some sensor)
      cases hr : find_presence_bit sens w p (some sensor) with
      | mk found wa =>
        rw [hr] at hb
        cases found with
        | true =>
          obtain ⟨s, hs⟩ := hb.1 rfl
          simp only
          rw [roles_of_deref w p ent hd, hps] at hs
          exact both_false_of_left_none _ p _ hs
        | false =>
          have hwa : wa = w := hb.2 rfl
          subst hwa
          simp only
          apply both_false_of_right_none _ p ent.presence_sensor
          rw [roles_modify, hd]
          rfl
    · exact h

theorem remove_sensor_not_both (sens : Nat → ipmi_sensor_t) (w : World) (p sensor : Nat)
    (h : both_installed w p = false) :
    both_installed (ipmi_entity_remove_sensor sens w p sensor) p = false := by
  unfold ipmi_entity_remove_sensor
  cases hd : deref w p with
  | none => exact h
  | some ent =>
    simp only
    rw [both_modify_keep, both_modify_keep]
    · exact remove_sensor_presence_not_both sens w p sensor ent hd h
    · intro e
      split <;> exact ⟨rfl, rfl⟩
    · intro e
      exact ⟨rfl, rfl⟩

theorem sensor_run_not_both (sens : Nat → ipmi_sensor_t) (p : Nat) (ops : List sensor_op)
    (w : World) (h : both_installed w p = false) :
    both_installed (sensor_run sens p w ops) p = false := by
  induction ops generalizing w with
  | nil => exact h
  | cons op ops ih =>
    apply ih
    cases op with
    | add s => exact add_sensor_not_both sens w p s h
    | remove s => exact remove_sensor_not_both sens w p s h

/-! ## Facts about the payload during the commit -/

theorem payload_modify_keep (w : World) (p q : Nat) (f : ipmi_entity_t → ipmi_entity_t)
    (hf : ∀ e, (f e).info = e.info) : payload_at (modify w q f) p = payload_at w p := by
  unfold payload_at
  by_cases h : p = q
  · subst h
    cases hd : deref w p with
    | none => rw [modify_none w p f hd, hd]
    | some e => rw [deref_modify_same w p f e hd]; simp [hf e]
  · rw [deref_modify_ne w q p f h]

theorem payload_modify_ne (w : World) (p q : Nat) (f : ipmi_entity_t → ipmi_entity_t)
    (h : p ≠ q) : payload_at (modify w q f) p = payload_at w p := by
  unfold payload_at
  rw [deref_modify_ne w q p f h]

theorem payload_modify_same (w : World) (p : Nat) (f : ipmi_entity_t → ipmi_entity_t) :
    payload_at (modify w p f) p = (deref w p).map (fun e => (f e).info) := by
  unfold payload_at
  cases hd : deref w p with
  | none => rw [modify_none w p f hd, hd]; rfl
  | some e => rw [deref_modify_same w p f e hd]; rfl

theorem payload_commit_frudev (env : Nat → Nat → mc_reply_t) (d : dlr_info_t) (q : Nat)
    (channel : Option Nat) (ipmb rv : Nat) (w : World) (p : Nat) :
    payload_at (commit_frudev env d q channel ipmb rv w).2 p = payload_at w p := by
  unfold commit_frudev
  split
  · rfl
  · split
    · rfl
    · split
      · simp only
        split
        · rfl
        · split
          · rfl
          · split
            · rfl
            · exact payload_modify_keep w p q _ (fun e => rfl)
      · rfl

theorem mc_scans_commit_frudev (env : Nat → Nat → mc_reply_t) (d : dlr_info_t) (q : Nat)
    (channel : Option Nat) (ipmb rv : Nat) (w : World) :
    (commit_frudev env d q channel ipmb rv w).2.mc_scans = w.mc_scans := by
  unfold commit_frudev
  split
  · rfl
  · split
    · rfl
    · split
      · simp only
        split
        · rfl
        · split
          · rfl
          · split
            · rfl
            · unfold modify
              cases deref w q <;> rfl
      · rfl

theorem payload_add_child (w : World) (a c p : Nat) :
    payload_at (add_child w a c) p = payload_at w p := by
  unfold add_child
  simp only
  rw [payload_modify_keep, payload_modify_keep, payload_modify_keep]
  all_goals exact fun e => rfl

theorem payload_commit_new_children (a p : Nat) (cs : List Nat) (n : Nat) (w : World)
    (r : Nat × World) (h : commit_new_children a cs n w = some r) :
    payload_at r.2 p = payload_at w p := by
  induction cs generalizing n w with
  | nil =>
    simp only [commit_new_children, Option.some.injEq] at h
    rw [← h]
  | cons c cs ih =>
    unfold commit_new_children at h
    split at h
    · exact absurd h (by simp)
    · rw [ih _ _ h, payload_add_child]

theorem payload_commit_new_dlr_ne (env : Nat → Nat → mc_reply_t) (d : dlr_info_t)
    (q rv : Nat) (w : World) (p : Nat) (h : p ≠ q) :
    payload_at (commit_new_dlr env d q rv w).2 p = payload_at w p := by
  unfold commit_new_dlr
  simp only
  split
  · rw [payload_commit_frudev, payload_modify_ne _ p q _ h, payload_modify_ne _ p q _ h]
  · split
    · split
      · rw [payload_commit_frudev, payload_modify_ne _ p q _ h, payload_modify_ne _ p q _ h]
      · rw [payload_commit_frudev]
        show payload_at (modify _ q _) p = _
        rw [payload_modify_ne _ p q _ h, payload_modify_ne _ p q _ h]
    · rw [payload_commit_frudev, payload_modify_ne _ p q _ h, payload_modify_ne _ p q _ h]

theorem payload_commit_new_dlr_same (env : Nat → Nat → mc_reply_t) (d : dlr_info_t)
    (p rv : Nat) (w : World) (x : dlr_info_t) (h : payload_at w p = some x) :
    payload_at (commit_new_dlr env d p rv w).2 p = some (next_payload x d) := by
  unfold payload_at at h
  cases hd : deref w p with
  | none => rw [hd] at h; simp at h
  | some e =>
    rw [hd] at h
    simp only [Option.map_some', Option.some.injEq] at h
    have h1 : deref (modify w p (fun e => { e with ref_count := u32_inc e.ref_count })) p
        = some { e with ref_count := u32_inc e.ref_count } := deref_modify_same w p _ e hd
    unfold commit_new_dlr next_payload
    simp only
    split
    · rename_i ht
      rw [payload_commit_frudev, payload_modify_same, h1]
      have : d.type = IPMI_ENTITY_FRU := by simpa using ht
      simp [this]
    · split
      · rename_i ht
        have hmc : d.type = IPMI_ENTITY_MC := by simpa using ht
        split
        · rename_i hf
          rw [payload_commit_frudev, payload_modify_same, h1]
          have : ¬ d.FRU_inventory_device = 0 := by simpa using hf
          simp [this]
        · rename_i hf
          have hz : d.FRU_inventory_device = 0 := by simpa using hf
          rw [payload_commit_frudev]
          show payload_at (modify _ p _) p = _
          rw [payload_modify_same, h1]
          simp only [Option.map_some', hmc, hz, ← h]
          by_cases hx : e.info.FRU_inventory_device = 0
          · simp [hx]
          · simp [hx]
      · rename_i ht1 ht2
        rw [payload_commit_frudev, payload_modify_same, h1]
        have : ¬ d.type = IPMI_ENTITY_MC := by simpa using ht2
        simp [this]

theorem mc_scans_commit_new_dlr (env : Nat → Nat → mc_reply_t) (d : dlr_info_t)
    (p rv : Nat) (w : World) (hmc : d.type = IPMI_ENTITY_MC)
    (hz : d.FRU_inventory_device = 0) :
    (commit_new_dlr env d p rv w).2.mc_scans
      = w.mc_scans ++ [(d.channel, d.access_address)] := by
  unfold commit_new_dlr
  simp only [hmc, hz]
  rw [if_neg (by decide), if_pos (by decide), if_neg (by decide), mc_scans_commit_frudev]
  show (modify _ p _).mc_scans ++ _ = _
  have hm : ∀ (v : World) (f : ipmi_entity_t → ipmi_entity_t), (modify v p f).mc_scans
      = v.mc_scans := by
    intro v f
    unfold modify
    cases deref v p <;> rfl
  rw [hm, hm]

theorem commit_new_append (env : Nat → Nat → mc_reply_t)
    (l1 l2 : List (dlr_info_t × entity_found_t)) (rv n : Nat) (w : World) :
    commit_new env (l1 ++ l2) rv n w
      = (commit_new env l1 rv n w).bind (fun r => commit_new env l2 r.1 r.2.1 r.2.2) := by
  induction l1 generalizing rv n w with
  | nil => rfl
  | cons x l1 ih =>
    obtain ⟨d, f⟩ := x
    simp only [List.cons_append, commit_new]
    split
    · exact ih rv n w
    · split
      · exact ih rv n w
      · split
        · exact ih _ _ _
        · split
          · rfl
          · exact ih _ _ _

theorem payload_commit_new_foreign (env : Nat → Nat → mc_reply_t) (p : Nat)
    (l : List (dlr_info_t × entity_found_t)) (rv n : Nat) (w : World)
    (r : Nat × Nat × World) (hl : ∀ x ∈ l, foreign_slot p x)
    (h : commit_new env l rv n w = some r) : payload_at r.2.2 p = payload_at w p := by
  induction l generalizing rv n w with
  | nil =>
    simp only [commit_new, Option.some.injEq] at h
    rw [← h]
  | cons x l ih =>
    obtain ⟨d, f⟩ := x
    have hx : foreign_slot p (d, f) := hl _ (List.mem_cons_self _ _)
    have hl2 : ∀ y ∈ l, foreign_slot p y := fun y hy => hl y (List.mem_cons_of_mem _ hy)
    simp only [commit_new] at h
    split at h
    · exact ih rv n w hl2 h
    · rename_i hnf
      split at h
      · exact ih rv n w hl2 h
      · rename_i q hq
        split at h
        · rename_i hne
          have hpq : p ≠ q := by
            rcases hx with h1 | h1 | h1
            · exact absurd h1 hnf
            · intro hpq
              apply h1
              simp only [hq, hpq]
            · simp only at h1
              rw [h1] at hne
              simp at hne
          rw [ih _ _ _ hl2 h, payload_commit_new_dlr_ne env d q rv w p hpq]
        · split at h
          · exact absurd h (by simp)
          · rename_i e1 w1 hc
            rw [ih _ _ _ hl2 h]
            exact payload_commit_new_children q p f.cent n w (e1, w1) hc

theorem commit_new_locator (env : Nat → Nat → mc_reply_t) (d : dlr_info_t)
    (f : entity_found_t) (p : Nat) (l : List (dlr_info_t × entity_found_t)) (rv n : Nat)
    (w : World) (hf : f.found = false) (he : f.ent = some p) (hd : is_ear d = false) :
    commit_new env ((d, f) :: l) rv n w
      = commit_new env l (commit_new_dlr env d p rv w).1 n (commit_new_dlr env d p rv w).2 := by
  simp only [commit_new, hf, he, hd]
  rfl

theorem commit_new_split (env : Nat → Nat → mc_reply_t) (p : Nat)
    (l1 l2 : List (dlr_info_t × entity_found_t)) (d : dlr_info_t) (f : entity_found_t)
    (rv n : Nat) (w : World) (x : dlr_info_t) (r : Nat × Nat × World)
    (hf : f.found = false) (he : f.ent = some p) (hd : is_ear d = false)
    (hl : ∀ y ∈ l1, foreign_slot p y) (hx : payload_at w p = some x)
    (h : commit_new env (l1 ++ (d, f) :: l2) rv n w = some r) :
    ∃ rv1 n1 w1, payload_at w1 p = some (next_payload x d)
      ∧ commit_new env l2 rv1 n1 w1 = some r := by
  rw [commit_new_append] at h
  cases h1 : commit_new env l1 rv n w with
  | none => rw [h1] at h; simp at h
  | some r1 =>
    rw [h1] at h
    simp only [Option.some_bind] at h
    rw [commit_new_locator env d f p l2 _ _ _ hf he hd] at h
    have hp1 : payload_at r1.2.2 p = some x :=
      (payload_commit_new_foreign env p l1 rv n w r1 hl h1).trans hx
    exact ⟨_, _, _, payload_commit_new_dlr_same env d p r1.1 r1.2.2 x hp1, h⟩

theorem next_payload_fru (x d : dlr_info_t) (h : d.FRU_inventory_device ≠ 0) :
    next_payload x d = d := by
  unfold next_payload
  simp [h]

theorem next_payload_keep (x d : dlr_info_t) (ht : d.type = IPMI_ENTITY_MC)
    (hz : d.FRU_inventory_device = 0) (hx : x.FRU_inventory_device ≠ 0) :
    next_payload x d = x := by
  unfold next_payload
  simp [ht, hz, hx]

theorem is_ear_of_mc (d : dlr_info_t) (h : d.type = IPMI_ENTITY_MC) : is_ear d = false := by
  unfold is_ear
  simp [h]

/-! ## Facts about the detection of presence -/

@[simp] theorem modify_trace (w : World) (p : Nat) (f : ipmi_entity_t → ipmi_entity_t) :
    (modify w p f).trace = w.trace := by
  unfold modify; cases deref w p <;> rfl

theorem take_alloc_trace (w : World) : (take_alloc w).2.trace = w.trace := by
  unfold take_alloc
  split <;> rfl

theorem send_request_requests (w : World) (r x : request_t)
    (h : x ∈ (send_request w r).2.trace.requests) : x ∈ w.trace.requests ∨ x = r := by
  unfold send_request at h
  split at h
  · simpa using h
  · split at h
    · simpa using h
    · exact Or.inl h

theorem deref_e_check_hot_swap_state (w : World) (p q : Nat) :
    deref (e_check_hot_swap_state w p).2 q = deref w q := by
  unfold e_check_hot_swap_state
  split
  · rfl
  · split
    · exact deref_take_alloc w q ▸ (by rename_i h; rw [h])
    · rename_i w1 h
      have h1 : deref w1 q = deref w q := by
        have := deref_take_alloc w q
        rw [h] at this
        exact this
      split
      · rw [deref_send_request]; exact h1
      · rw [deref_send_request]; exact h1
      · exact h1

theorem requests_e_check_hot_swap_state (w : World) (p : Nat) (x : request_t)
    (h : x ∈ (e_check_hot_swap_state w p).2.trace.requests) :
    x ∈ w.trace.requests ∨ x.cb = .check_power ∨ x.cb = .check_requester := by
  unfold e_check_hot_swap_state at h
  split at h
  · exact Or.inl h
  · split at h
    · rename_i w1 h1
      have := take_alloc_trace w
      rw [h1] at this
      simp only at this h
      rw [this] at h
      exact Or.inl h
    · rename_i w1 h1
      have ht : w1.trace = w.trace := by
        have := take_alloc_trace w
        rw [h1] at this
        exact this
      split at h
      · rcases send_request_requests _ _ _ h with h2 | h2
        · rw [ht] at h2; exact Or.inl h2
        · rw [h2]; exact Or.inr (Or.inl rfl)
      · rcases send_request_requests _ _ _ h with h2 | h2
        · rw [ht] at h2; exact Or.inl h2
        · rw [h2]; exact Or.inr (Or.inr rfl)
      · simp only at h
        rw [ht] at h
        exact Or.inl h

theorem deref_check_hot_swap_state (w : World) (p q : Nat) :
    deref (ipmi_entity_check_hot_swap_state w p).2 q = deref w q := by
  unfold ipmi_entity_check_hot_swap_state
  split
  · rfl
  · split
    · rfl
    · split
      · rfl
      · split
        · exact deref_e_check_hot_swap_state w p q
        · rfl

theorem requests_check_hot_swap_state (w : World) (p : Nat) (x : request_t)
    (h : x ∈ (ipmi_entity_check_hot_swap_state w p).2.trace.requests) :
    x ∈ w.trace.requests ∨ x.cb = .check_power ∨ x.cb = .check_requester := by
  unfold ipmi_entity_check_hot_swap_state at h
  split at h
  · exact Or.inl h
  · split at h
    · exact Or.inl h
    · split at h
      · exact Or.inl h
      · split at h
        · exact requests_e_check_hot_swap_state w p x h
        · exact Or.inl h

theorem detect_base_facts (w : World) (p : Nat) (ent : ipmi_entity_t)
    (hd : deref w p = some ent) :
    deref (detect_base w p ent) p = some { ent with presence_possibly_changed := false }
    ∧ (∀ q, q ≠ p → deref (detect_base w p ent) q = deref w q)
    ∧ (∀ x ∈ (detect_base w p ent).trace.requests,
        x ∈ w.trace.requests ∨ x.cb = .check_power ∨ x.cb = .check_requester) := by
  have h1 := deref_modify_same w p
    (fun e => { e with presence_possibly_changed := false }) ent hd
  unfold detect_base
  split
  · refine ⟨?_, ?_, ?_⟩
    · rw [deref_check_hot_swap_state]; exact h1
    · intro q hq
      rw [deref_check_hot_swap_state]
      exact deref_modify_ne w p q _ hq
    · intro x hx
      have := requests_check_hot_swap_state _ p x hx
      simpa using this
  · refine ⟨h1, fun q hq => deref_modify_ne w p q _ hq, ?_⟩
    intro x hx
    simp only [modify_trace] at hx
    exact Or.inl hx

/-! ## Facts about the presence cascade -/

theorem map_deref_modify {α : Type} (g : ipmi_entity_t → α) (w : World) (p q : Nat)
    (f : ipmi_entity_t → ipmi_entity_t) (hf : ∀ e, g (f e) = g e) :
    (deref (modify w p f) q).map g = (deref w q).map g := by
  by_cases h : q = p
  · subst h
    cases hd : deref w q with
    | none => rw [modify_none w q f hd, hd]
    | some e => rw [deref_modify_same w q f e hd]; simp [hf e]
  · rw [deref_modify_ne w p q f h]

theorem quiet_refl (w : World) : quiet w w := fun _ => ⟨rfl, rfl⟩

theorem quiet_trans (w1 w2 w3 : World) (h1 : quiet w1 w2) (h2 : quiet w2 w3) :
    quiet w1 w3 :=
  fun q => ⟨(h2 q).1.trans (h1 q).1, (h2 q).2.trans (h1 q).2⟩

theorem quiet_of_deref (w w1 : World) (h : ∀ q, deref w1 q = deref w q) : quiet w w1 := by
  intro q
  unfold shape_at dyn_at
  rw [h q]
  exact ⟨rfl, rfl⟩

theorem quiet_modify (w : World) (p : Nat) (f : ipmi_entity_t → ipmi_entity_t)
    (hf : ∀ e, shape (f e) = shape e ∧ (f e).present = e.present
      ∧ (f e).presence_event_count = e.presence_event_count) :
    quiet w (modify w p f) := by
  intro q
  constructor
  · exact map_deref_modify shape w p q f (fun e => (hf e).1)
  · exact map_deref_modify (fun e => (e.present, e.presence_event_count)) w p q f
      (fun e => by simp [(hf e).2.1, (hf e).2.2])

theorem quiet_send_request (w : World) (r : request_t) : quiet w (send_request w r).2 :=
  quiet_of_deref _ _ (deref_send_request w r)

theorem quiet_take_alloc (w : World) : quiet w (take_alloc w).2 :=
  quiet_of_deref _ _ (deref_take_alloc w)

theorem quiet_take_claim (w : World) : quiet w (take_claim w).2 :=
  quiet_of_deref _ _ (deref_take_claim w)

theorem quiet_start_hot_swap_timer (w : World) (p : Nat) (act : Bool) :
    quiet w (start_hot_swap_timer w p act) := by
  unfold start_hot_swap_timer
  split
  · exact quiet_refl w
  · split
    · split
      · exact quiet_trans w { w with trace := _ } _ (quiet_of_deref _ _ (fun _ => rfl))
          (quiet_modify _ p _ (fun e => ⟨rfl, rfl, rfl⟩))
      · exact quiet_refl w
    · split
      · exact quiet_trans w { w with trace := _ } _ (quiet_of_deref _ _ (fun _ => rfl))
          (quiet_modify _ p _ (fun e => ⟨rfl, rfl, rfl⟩))
      · exact quiet_refl w

theorem quiet_call_hot_swap_handlers (w : World) (p : Nat)
    (a b : ipmi_hot_swap_states) : quiet w (ipmi_entity_call_hot_swap_handlers w p a b).2 := by
  unfold ipmi_entity_call_hot_swap_handlers
  exact quiet_trans w { w with trace := _ } _ (quiet_of_deref _ _ (fun _ => rfl))
    (quiet_take_claim _)

theorem quiet_set_hot_swap_state (w : World) (p : Nat) (state : ipmi_hot_swap_states) :
    quiet w (set_hot_swap_state w p state).2 := by
  unfold set_hot_swap_state
  split
  · exact quiet_refl w
  · rename_i ent hd
    simp only
    have hsel : ∀ (sel : Option Int × World), quiet w sel.2 →
        quiet w (match sel.1, ent.hot_swap_indicator with
          | some val, some ind =>
            (send_request sel.2
              { req := .control_set_val ind val, cb := .indicator_change, ent := p }).2
          | _, _ => sel.2) := by
      intro sel hq
      split
      · exact quiet_trans _ _ _ hq (quiet_send_request _ _)
      · exact hq
    have hq1 : quiet w (match state with
        | IPMI_HOT_SWAP_INACTIVE => (some ent.hot_swap_ind_inact, w)
        | IPMI_HOT_SWAP_ACTIVATION_REQUESTED =>
          (some ent.hot_swap_ind_req_act,
            if ent.hot_swap_act_timeout != IPMI_TIMEOUT_FOREVER then
              start_hot_swap_timer w p true
            else w)
        | IPMI_HOT_SWAP_ACTIVE => (some ent.hot_swap_ind_act, w)
        | IPMI_HOT_SWAP_DEACTIVATION_REQUESTED =>
          (some ent.hot_swap_ind_req_deact,
            if ent.hot_swap_deact_timeout != IPMI_TIMEOUT_FOREVER then
              start_hot_swap_timer w p false
            else w)
        | _ => ((none : Option Int), w)).2 := by
      cases state <;> simp only
      · exact quiet_refl w
      · exact quiet_refl w
      · split
        · exact quiet_start_hot_swap_timer w p true
        · exact quiet_refl w
      · exact quiet_refl w
      · exact quiet_refl w
      · split
        · exact quiet_start_hot_swap_timer w p false
        · exact quiet_refl w
      · exact quiet_refl w
      · exact quiet_refl w
    have hq2 := hsel _ hq1
    split
    · refine quiet_trans _ _ _ ?_ (quiet_call_hot_swap_handlers _ p _ _)
      refine quiet_trans _ _ _ hq2 ?_
      apply quiet_modify
      intro e
      exact ⟨rfl, rfl, rfl⟩
    · exact hq2

theorem quiet_handle_hot_swap_presence (w : World) (p : Nat) (present : Bool) :
    quiet w (handle_hot_swap_presence w p present).2 := by
  unfold handle_hot_swap_presence
  split
  · exact quiet_refl w
  · split
    · split
      · exact quiet_set_hot_swap_state w p _
      · split
        · exact quiet_set_hot_swap_state w p _
        · exact quiet_send_request w _
    · exact quiet_set_hot_swap_state w p _

theorem quiet_fetch_frus (w : World) (p : Nat) : quiet w (ipmi_entity_fetch_frus w p).2 := by
  unfold ipmi_entity_fetch_frus
  split
  · rename_i w1 h
    have := quiet_take_alloc w
    rw [h] at this
    exact this
  · rename_i w1 h
    have h1 := quiet_take_alloc w
    rw [h] at h1
    simp only at h1
    split
    · exact quiet_trans _ _ _ h1 (quiet_of_deref _ _ (fun _ => rfl))
    · split
      · exact quiet_trans _ _ _ h1 (quiet_of_deref _ _ (fun _ => rfl))
      · exact quiet_trans _ _ _ h1 (quiet_of_deref _ _ (fun _ => rfl))

theorem shape_at_some (w : World) (q : Nat) (e : ipmi_entity_t) (h : deref w q = some e) :
    shape_at w q = some (e.child_entities, e.parent_entities, e.sensors) := by
  unfold shape_at
  rw [h]
  rfl

theorem same_shape_deref (w w1 : World) (h : same_shape w w1) (q : Nat) (e : ipmi_entity_t)
    (hd : deref w q = some e) :
    ∃ e1, deref w1 q = some e1 ∧ e1.child_entities = e.child_entities
      ∧ e1.parent_entities = e.parent_entities ∧ e1.sensors = e.sensors := by
  have hq := h q
  rw [shape_at_some w q e hd] at hq
  unfold shape_at at hq
  cases h1 : deref w1 q with
  | none => rw [h1] at hq; simp at hq
  | some e1 =>
    rw [h1] at hq
    simp only [Option.map_some', shape, Option.some.injEq, Prod.mk.injEq] at hq
    exact ⟨e1, rfl, hq.1, hq.2.1, hq.2.2⟩

theorem same_shape_refl (w : World) : same_shape w w := fun _ => rfl

theorem same_shape_symm (w w1 : World) (h : same_shape w w1) : same_shape w1 w :=
  fun q => (h q).symm

theorem same_shape_trans (w1 w2 w3 : World) (h1 : same_shape w1 w2) (h2 : same_shape w2 w3) :
    same_shape w1 w3 :=
  fun q => (h2 q).trans (h1 q)

theorem same_shape_of_quiet (w w1 : World) (h : quiet w w1) : same_shape w w1 :=
  fun q => (h q).1

theorem edges_ok_of_same_shape (w w1 : World) (h : same_shape w w1) (he : edges_ok w) :
    edges_ok w1 := by
  intro a e1 hd1
  obtain ⟨e, hd, hc, hp, _⟩ := same_shape_deref w1 w (same_shape_symm w w1 h) a e1 hd1
  have hea := he a e hd
  constructor
  · intro c hcm
    rw [← hc] at hcm
    obtain ⟨x, hx, hax⟩ := hea.1 c hcm
    obtain ⟨x1, hx1, _, hxp, _⟩ := same_shape_deref w w1 h c x hx
    exact ⟨x1, hx1, by rw [hxp]; exact hax⟩
  · intro q hqm
    rw [← hp] at hqm
    obtain ⟨x, hx, hax⟩ := hea.2 q hqm
    obtain ⟨x1, hx1, hxc, _, _⟩ := same_shape_deref w w1 h q x hx
    exact ⟨x1, hx1, by rw [hxc]; exact hax⟩

theorem ranked_of_same_shape (w w1 : World) (h : Nat → Nat) (hs : same_shape w w1)
    (hr : ranked w h) : ranked w1 h := by
  intro a e1 hd1 q hq
  obtain ⟨e, hd, _, hp, _⟩ := same_shape_deref w1 w (same_shape_symm w w1 hs) a e1 hd1
  rw [← hp] at hq
  exact hr a e hd q hq

theorem present_of_dyn (w w1 : World) (q : Nat) (h : dyn_at w1 q = dyn_at w q) :
    present_at w1 q = present_at w q := by
  unfold dyn_at at h
  unfold present_at
  cases h1 : deref w1 q with
  | none =>
    rw [h1] at h
    cases h2 : deref w q with
    | none => rfl
    | some e => rw [h2] at h; simp at h
  | some e1 =>
    rw [h1] at h
    cases h2 : deref w q with
    | none => rw [h2] at h; simp at h
    | some e =>
      rw [h2] at h
      simp only [Option.map_some', Option.some.injEq, Prod.mk.injEq] at h
      simp [h.1]

theorem any_present_congr (w w1 : World) (cs : List Nat)
    (h : ∀ c ∈ cs, present_at w1 c = present_at w c) :
    any_present w1 cs = any_present w cs := by
  unfold any_present
  induction cs with
  | nil => rfl
  | cons c cs ih =>
    simp only [List.any_cons]
    rw [ih (fun c1 hc1 => h c1 (List.mem_cons_of_mem _ hc1))]
    have hc := h c (List.mem_cons_self _ _)
    unfold present_at at hc
    cases h1 : deref w1 c with
    | none =>
      rw [h1] at hc
      cases h2 : deref w c with
      | none => rfl
      | some e => rw [h2] at hc; simp at hc
    | some e1 =>
      rw [h1] at hc
      cases h2 : deref w c with
      | none => rw [h2] at hc; simp at hc
      | some e =>
        rw [h2] at hc
        simp only [Option.map_some', Option.some.injEq] at hc
        simp [hc]

theorem aggregated_congr (w w1 : World) (q : Nat) (hs : shape_at w1 q = shape_at w q)
    (hq : present_at w1 q = present_at w q)
    (hc : ∀ e, deref w q = some e → ∀ c ∈ e.child_entities, present_at w1 c = present_at w c)
    (h : aggregated w q) : aggregated w1 q := by
  intro e1 hd1 hs1
  unfold shape_at at hs
  rw [hd1] at hs
  cases hd : deref w q with
  | none => rw [hd] at hs; simp at hs
  | some e =>
    rw [hd] at hs
    simp only [Option.map_some', shape, Option.some.injEq, Prod.mk.injEq] at hs
    unfold present_at at hq
    rw [hd1, hd] at hq
    simp only [Option.map_some', Option.some.injEq] at hq
    rw [hq, hs.1, any_present_congr w w1 e.child_entities (hc e hd)]
    exact h e hd (by rw [← hs.2.2]; exact hs1)

theorem cleanup_ready_of_child (e : ipmi_entity_t) (c : Nat) (h : c ∈ e.child_entities) :
    cleanup_ready e = false := by
  unfold cleanup_ready
  cases hl : e.child_entities with
  | nil => rw [hl] at h; simp at h
  | cons a l => simp

theorem cleanup_ready_of_parent (e : ipmi_entity_t) (c : Nat) (h : c ∈ e.parent_entities) :
    cleanup_ready e = false := by
  unfold cleanup_ready
  cases hl : e.parent_entities with
  | nil => rw [hl] at h; simp at h
  | cons a l => simp

theorem put_dec (w : World) (p : Nat) (e : ipmi_entity_t) (hd : deref w p = some e)
    (hr : cleanup_ready e = false) :
    _ipmi_entity_put w p = modify w p (fun e => { e with usecount := e.usecount - 1 }) := by
  unfold _ipmi_entity_put cleanup_entity
  simp [hd, hr]

theorem get_put_id (w : World) (p : Nat) (e : ipmi_entity_t) (hd : deref w p = some e)
    (hr : cleanup_ready e = false) : _ipmi_entity_put (_ipmi_entity_get w p) p = w := by
  unfold _ipmi_entity_get
  have h1 := deref_modify_same w p (fun e => { e with usecount := e.usecount + 1 }) e hd
  rw [put_dec _ p _ h1 (by exact hr), modify_eq_set _ p _ _ h1, modify_eq_set w p _ e hd]
  simp only [List.set_set]
  have : ({ e with usecount := e.usecount + 1 - 1 } : ipmi_entity_t) = e := by
    simp
  rw [this, heap_set_self w p e hd]

theorem quiet_get (w : World) (p : Nat) : quiet w (_ipmi_entity_get w p) := by
  unfold _ipmi_entity_get
  exact quiet_modify w p _ (fun e => ⟨rfl, rfl, rfl⟩)

theorem quiet_put_dec (w : World) (p : Nat) (e : ipmi_entity_t) (hd : deref w p = some e)
    (hr : cleanup_ready e = false) : quiet w (_ipmi_entity_put w p) := by
  rw [put_dec w p e hd hr]
  exact quiet_modify w p _ (fun e => ⟨rfl, rfl, rfl⟩)

theorem children_present_eq (w : World) (a : Nat) (cs : List Nat)
    (hcs : ∀ c ∈ cs, ∃ x, deref w c = some x ∧ a ∈ x.parent_entities) (acc : Bool) :
    children_present cs w acc = (acc || any_present w cs, w) := by
  induction cs generalizing acc with
  | nil => simp [children_present, any_present]
  | cons c cs ih =>
    obtain ⟨x, hx, hax⟩ := hcs c (List.mem_cons_self _ _)
    have hr := cleanup_ready_of_parent x a hax
    unfold children_present
    simp only
    rw [get_put_id w c x hx hr, ih (fun c1 hc1 => hcs c1 (List.mem_cons_of_mem _ hc1))]
    have h1 : deref (_ipmi_entity_get w c) c
        = some { x with usecount := x.usecount + 1 } :=
      deref_modify_same w c _ x hx
    rw [h1]
    simp only [any_present, List.any_cons, hx, Bool.or_assoc]

theorem aggregated_of_quiet (w w1 : World) (h : quiet w w1) (q : Nat)
    (ha : aggregated w q) : aggregated w1 q :=
  aggregated_congr w w1 q (h q).1 (present_of_dyn w w1 q (h q).2)
    (fun _ _ c _ => present_of_dyn w w1 c (h c).2) ha

theorem ne_of_height_lt (h : Nat → Nat) (a b : Nat) (hlt : h a < h b) : b ≠ a := by
  intro heq
  subst heq
  exact Nat.lt_irrefl _ hlt

theorem rescan_ok (fuel : Nat) (h : Nat → Nat)
    (ih : ∀ w x v ev, edges_ok w → ranked w h → h x < fuel →
      ∃ w1, presence_changed fuel w x v ev = some w1 ∧ cascade_post h w x v w1)
    (x : Nat) (hx : h x ≤ fuel) (qs : List Nat) (u : World) (he : edges_ok u)
    (hr : ranked u h) (ex : ipmi_entity_t) (hdx : deref u x = some ex)
    (hqs : ∀ q ∈ qs, q ∈ ex.parent_entities) :
    ∃ u1, parents_rescan (presence_changed fuel) x qs u = some u1
      ∧ rescan_post h u x qs u1 := by
  induction qs generalizing u ex with
  | nil =>
    exact ⟨u, rfl, same_shape_refl u, fun _ _ => rfl, fun _ _ _ _ => rfl, fun _ ha => ha,
      fun q hq => absurd hq (List.not_mem_nil q)⟩
  | cons P qs ihq =>
    have hP : P ∈ ex.parent_entities := hqs P (List.mem_cons_self _ _)
    obtain ⟨eP, hdP, hxc⟩ := (he x ex hdx).2 P hP
    have hlt : h P < h x := hr x ex hdx P hP
    have hq1 : quiet u (_ipmi_entity_get u P) := quiet_get u P
    have hd1 : deref (_ipmi_entity_get u P) P = some { eP with usecount := eP.usecount + 1 } :=
      deref_modify_same u P _ eP hdP
    have hqs2 : ∀ q ∈ qs, q ∈ ex.parent_entities :=
      fun q hq => hqs q (List.mem_cons_of_mem _ hq)
    unfold parents_rescan
    by_cases hs : eP.sensors = []
    · -- the parent has no sensor: child aggregation
      have he1 : edges_ok (_ipmi_entity_get u P) :=
        edges_ok_of_same_shape u _ (same_shape_of_quiet u _ hq1) he
      have hr1 : ranked (_ipmi_entity_get u P) h :=
        ranked_of_same_shape u _ h (same_shape_of_quiet u _ hq1) hr
      have hcp := children_present_eq (_ipmi_entity_get u P) P eP.child_entities
        (fun c hc => (he1 P _ hd1).1 c hc) false
      obtain ⟨w1, hpc, hpost⟩ := ih (_ipmi_entity_get u P) P
        (any_present (_ipmi_entity_get u P) eP.child_entities) none he1 hr1
        (Nat.lt_of_lt_of_le hlt hx)
      have hpw : presence_parent_with (presence_changed fuel) (_ipmi_entity_get u P) (some x) P
          none = some w1 := by
        unfold presence_parent_with
        rw [hd1]
        simp only [hs, List.length_nil, bne_self_eq_false, Bool.false_eq_true, if_false]
        rw [hcp]
        simpa using hpc
      rw [hpw]
      simp only
      obtain ⟨hsh, hdyn, hsen, hpres, hagg, _⟩ := hpost
      -- the parent after its own cascade
      obtain ⟨eP1, hdP1, hc1, _, hs1⟩ := same_shape_deref _ w1 hsh P _ hd1
      have hxc1 : x ∈ eP1.child_entities := by rw [hc1]; exact hxc
      have hq2 : quiet w1 (_ipmi_entity_put w1 P) :=
        quiet_put_dec w1 P eP1 hdP1 (cleanup_ready_of_child eP1 x hxc1)
      have hsh2 : same_shape u (_ipmi_entity_put w1 P) :=
        same_shape_trans _ _ _ (same_shape_of_quiet u _ hq1)
          (same_shape_trans _ _ _ hsh (same_shape_of_quiet _ _ hq2))
      obtain ⟨ex2, hdx2, _, hp2, _⟩ := same_shape_deref u _ hsh2 x ex hdx
      obtain ⟨u3, hres, hD1, hD2, hD3, hD4, hD5⟩ := ihq (_ipmi_entity_put w1 P)
        (edges_ok_of_same_shape u _ hsh2 he) (ranked_of_same_shape u _ h hsh2 hr) ex2 hdx2
        (fun q hq => by rw [hp2]; exact hqs2 q hq)
      -- the parent is aggregated after its own cascade
      have hPagg : aggregated w1 P := by
        intro e1 hde1 _
        rw [hdP1] at hde1
        cases hde1
        have hpv : present_at w1 P
            = some (any_present (_ipmi_entity_get u P) eP.child_entities) := by
          rw [hpres, hd1]
          rfl
        unfold present_at at hpv
        rw [hdP1] at hpv
        simp only [Option.map_some', Option.some.injEq] at hpv
        rw [hpv, hc1]
        symm
        apply any_present_congr
        intro c hc
        obtain ⟨xc, hxcd, hPc⟩ := (he P eP hdP).1 c hc
        have hlc : h P < h c := hr c xc hxcd P hPc
        exact present_of_dyn _ _ c (hdyn c (ne_of_height_lt h P c hlc) (by omega))
      refine ⟨u3, hres, same_shape_trans _ _ _ hsh2 hD1, ?_, ?_, ?_, ?_⟩
      · intro q hq
        rw [hD2 q hq, (hq2 q).2,
          hdyn q (ne_of_height_lt h P q (Nat.lt_of_lt_of_le hlt hq)) (by omega), (hq1 q).2]
      · intro q e hdq hsq
        have hne : q ≠ P := by
          intro hqP
          subst hqP
          rw [hdP] at hdq
          cases hdq
          exact hsq hs
        obtain ⟨e2, hd2, _, _, hs2⟩ := same_shape_deref u _ hsh2 q e hdq
        obtain ⟨e1, hde1, _, _, hse1⟩ := same_shape_deref u _ (same_shape_of_quiet u _ hq1) q e hdq
        rw [hD3 q e2 hd2 (by rw [hs2]; exact hsq), (hq2 q).2,
          hsen q e1 hne hde1 (by rw [hse1]; exact hsq), (hq1 q).2]
      · intro q ha
        apply hD4
        apply aggregated_of_quiet _ _ hq2
        by_cases hqP : q = P
        · subst hqP
          exact hPagg
        · exact hagg q hqP (aggregated_of_quiet _ _ hq1 q ha)
      · intro q hq
        rcases List.mem_cons.mp hq with hq | hq
        · subst hq
          exact hD4 _ (aggregated_of_quiet _ _ hq2 _ hPagg)
        · exact hD5 q hq
    · -- the parent has a sensor: it is left alone
      have hpw : presence_parent_with (presence_changed fuel) (_ipmi_entity_get u P) (some x) P
          none = some (_ipmi_entity_get u P) := by
        unfold presence_parent_with
        rw [hd1]
        have : (eP.sensors.length != 0) = true := by
          cases hl : eP.sensors with
          | nil => exact absurd hl hs
          | cons a l => rfl
        simp [this]
      rw [hpw]
      simp only
      rw [get_put_id u P eP hdP (cleanup_ready_of_child eP x hxc)]
      obtain ⟨u3, hres, hD1, hD2, hD3, hD4, hD5⟩ := ihq u he hr ex hdx hqs2
      refine ⟨u3, hres, hD1, hD2, hD3, hD4, ?_⟩
      intro q hq
      rcases List.mem_cons.mp hq with hq | hq
      · subst hq
        intro e3 hd3 hs3
        obtain ⟨e4, hd4, _, _, hs4⟩ := same_shape_deref u u3 hD1 q eP hdP
        rw [hd4] at hd3
        cases hd3
        rw [hs4] at hs3
        exact absurd hs3 hs
      · exact hD5 q hq

theorem quiet_presence_update (w : World) (p : Nat) (ent : ipmi_entity_t) (v : Bool) :
    quiet w (presence_update w p ent v).2.2 := by
  unfold presence_update
  simp only
  have hhs : quiet w (if ent.hot_swappable != 0
        && ent.hs_cb.get_hot_swap_state == e_get_hot_swap_state_addr then
      handle_hot_swap_presence w p v
    else (false, w)).2 := by
    split
    · exact quiet_handle_hot_swap_presence w p v
    · exact quiet_refl w
  generalize (if ent.hot_swappable != 0
        && ent.hs_cb.get_hot_swap_state == e_get_hot_swap_state_addr then
      handle_hot_swap_presence w p v
    else (false, w)) = hs at hhs
  have h4 : quiet w (if ipmi_entity_get_is_fru ent then
      if v then (ipmi_entity_fetch_frus hs.2 p).2
      else if ent.fru.isSome then
        call_fru_handlers (modify hs.2 p (fun e => { e with fru := none })) p IPMI_DELETED
      else hs.2
    else hs.2) := by
    split
    · split
      · exact quiet_trans _ _ _ hhs (quiet_fetch_frus _ p)
      · split
        · refine quiet_trans _ _ _ hhs ?_
          refine quiet_trans _ (modify hs.2 p (fun e => { e with fru := none })) _ ?_
            (quiet_of_deref _ _ (fun _ => rfl))
          apply quiet_modify
          intro e
          exact ⟨rfl, rfl, rfl⟩
        · exact hhs
    · exact hhs
  generalize (if ipmi_entity_get_is_fru ent then
      if v then (ipmi_entity_fetch_frus hs.2 p).2
      else if ent.fru.isSome then
        call_fru_handlers (modify hs.2 p (fun e => { e with fru := none })) p IPMI_DELETED
      else hs.2
    else hs.2) = w4 at h4
  have h5 := quiet_take_claim { w4 with trace := { w4.trace with
      presence_calls := w4.trace.presence_calls ++ [(p, v)] } }
  cases hc : take_claim { w4 with trace := { w4.trace with
      presence_calls := w4.trace.presence_calls ++ [(p, v)] } } with
  | mk claimed w5 =>
    rw [hc] at h5
    simp only
    exact quiet_trans _ _ _ h4 (quiet_trans _ { w4 with trace := _ } _
      (quiet_of_deref _ _ (fun _ => rfl)) h5)

theorem deref_presence_finish (w : World) (event : Option Nat) (handled : Bool) (q : Nat) :
    deref (presence_finish w event handled) q = deref w q := by
  unfold presence_finish
  split
  · split <;> rfl
  · rfl

theorem quiet_presence_finish (w : World) (event : Option Nat) (handled : Bool) :
    quiet w (presence_finish w event handled) :=
  quiet_of_deref _ _ (deref_presence_finish w event handled)

theorem same_shape_modify (w : World) (p : Nat) (f : ipmi_entity_t → ipmi_entity_t)
    (hf : ∀ e, shape (f e) = shape e) : same_shape w (modify w p f) :=
  fun q => map_deref_modify shape w p q f hf

theorem present_at_modify_keep (w : World) (p q : Nat) (f : ipmi_entity_t → ipmi_entity_t)
    (hf : ∀ e, (f e).present = e.present) :
    present_at (modify w p f) q = present_at w q :=
  map_deref_modify (fun e => e.present) w p q f hf

theorem dyn_at_modify_ne (w : World) (p q : Nat) (f : ipmi_entity_t → ipmi_entity_t)
    (h : q ≠ p) : dyn_at (modify w p f) q = dyn_at w q := by
  unfold dyn_at
  rw [deref_modify_ne w p q f h]

theorem cascade_ok (h : Nat → Nat) :
    ∀ fuel w x v ev, edges_ok w → ranked w h → h x < fuel →
      ∃ w1, presence_changed fuel w x v ev = some w1 ∧ cascade_post h w x v w1 := by
  intro fuel
  induction fuel with
  | zero =>
    intro w x v ev _ _ hx
    exact absurd hx (Nat.not_lt_zero _)
  | succ fuel ih =>
    intro w x v ev he hr hx
    unfold presence_changed
    cases hd : deref w x with
    | none =>
      refine ⟨w, rfl, same_shape_refl w, fun _ _ _ => rfl, fun _ _ _ _ _ => rfl, ?_,
        fun _ _ ha => ha, ?_⟩
      · unfold present_at
        rw [hd]
        rfl
      · intro e hde
        rw [hd] at hde
        exact absurd hde (by simp)
    | some ent =>
      simp only
      have hdA := deref_modify_same w x
        (fun e => { e with presence_event_count := u32_inc e.presence_event_count }) ent hd
      have hshA : same_shape w (modify w x
          (fun e => { e with presence_event_count := u32_inc e.presence_event_count })) :=
        same_shape_modify w x _ (fun e => rfl)
      by_cases hv : v = ent.present
      · -- no change of the flag
        have hb : (v != ent.present) = false := by simp [hv]
        rw [hb]
        simp only [Bool.false_eq_true, if_false]
        refine ⟨_, rfl, ?_, ?_, ?_, ?_, ?_, ?_⟩
        · exact same_shape_trans _ _ _ hshA
            (same_shape_of_quiet _ _ (quiet_presence_finish _ ev false))
        · intro q hq _
          unfold dyn_at
          rw [deref_presence_finish, deref_modify_ne w x q _ hq]
        · intro q e hq _ _
          unfold dyn_at
          rw [deref_presence_finish, deref_modify_ne w x q _ hq]
        · unfold present_at
          rw [deref_presence_finish, hdA, hd, hv]
          rfl
        · intro q _ ha
          have hpa : ∀ c, present_at (presence_finish (modify w x
              (fun e => { e with presence_event_count := u32_inc e.presence_event_count }))
              ev false) c = present_at w c := by
            intro c
            unfold present_at
            rw [deref_presence_finish]
            exact present_at_modify_keep w x c _ (fun e => rfl)
          exact aggregated_congr w _ q
            (((same_shape_of_quiet _ _ (quiet_presence_finish _ ev false)) q).trans (hshA q))
            (hpa q) (fun _ _ c _ => hpa c) ha
        · intro e hde hne
          rw [hd] at hde
          cases hde
          exact absurd hv hne
      · -- the flag changes
        have hb : (v != ent.present) = true := by simp [bne_iff_ne, hv]
        rw [hb]
        simp only [if_true]
        have hdB := deref_modify_same _ x (fun e => { e with present := v }) _ hdA
        have hshB : same_shape w (modify (modify w x
            (fun e => { e with presence_event_count := u32_inc e.presence_event_count })) x
            (fun e => { e with present := v })) :=
          same_shape_trans _ _ _ hshA (same_shape_modify _ x _ (fun e => rfl))
        have hq5 := quiet_presence_update (modify (modify w x
            (fun e => { e with presence_event_count := u32_inc e.presence_event_count })) x
            (fun e => { e with present := v })) x ent v
        cases hu : presence_update (modify (modify w x
            (fun e => { e with presence_event_count := u32_inc e.presence_event_count })) x
            (fun e => { e with present := v })) x ent v with
        | mk hsH rest =>
          obtain ⟨claimed, w5⟩ := rest
          rw [hu] at hq5
          simp only at hq5 ⊢
          have hsh5 : same_shape w w5 :=
            same_shape_trans _ _ _ hshB (same_shape_of_quiet _ _ hq5)
          obtain ⟨e5, hd5, _, hp5, _⟩ := same_shape_deref w w5 hsh5 x ent hd
          rw [hd5]
          simp only
          obtain ⟨w6, hres, hR1, hR2, hR3, hR4, hR5⟩ := rescan_ok fuel h ih x (by omega)
            e5.parent_entities w5 (edges_ok_of_same_shape w w5 hsh5 he)
            (ranked_of_same_shape w w5 h hsh5 hr) e5 hd5 (fun q hq => hq)
          rw [hres]
          simp only
          have hqF := quiet_presence_finish w6 (if claimed then none else ev) (hsH || claimed)
          have hdyn5 : ∀ q, q ≠ x → dyn_at w5 q = dyn_at w q := by
            intro q hq
            rw [(hq5 q).2, dyn_at_modify_ne _ x q _ hq, dyn_at_modify_ne _ x q _ hq]
          refine ⟨_, rfl, ?_, ?_, ?_, ?_, ?_, ?_⟩
          · exact same_shape_trans _ _ _ hsh5
              (same_shape_trans _ _ _ hR1 (same_shape_of_quiet _ _ hqF))
          · intro q hq hh
            rw [(hqF q).2, hR2 q hh, hdyn5 q hq]
          · intro q e hq hdq hsq
            obtain ⟨eq5, hdq5, _, _, hs5⟩ := same_shape_deref w w5 hsh5 q e hdq
            rw [(hqF q).2, hR3 q eq5 hdq5 (by rw [hs5]; exact hsq), hdyn5 q hq]
          · rw [present_of_dyn _ _ x (hqF x).2, present_of_dyn _ _ x (hR2 x (Nat.le_refl _)),
              present_of_dyn _ _ x (hq5 x).2]
            unfold present_at
            rw [hdB, hd]
            rfl
          · intro q hq ha
            apply aggregated_of_quiet _ _ hqF
            by_cases hqp : q ∈ ent.parent_entities
            · exact hR5 q (by rw [hp5]; exact hqp)
            · apply hR4
              refine aggregated_congr w w5 q (hsh5 q) (present_of_dyn _ _ q (hdyn5 q hq)) ?_ ha
              intro e hdq c hc
              apply present_of_dyn
              apply hdyn5
              intro hcx
              subst hcx
              obtain ⟨xx, hxx, hqx⟩ := (he q e hdq).1 c hc
              rw [hd] at hxx
              cases hxx
              exact hqp hqx
          · intro e hde _ q hq
            rw [hd] at hde
            cases hde
            exact aggregated_of_quiet _ _ hqF q (hR5 q (by rw [hp5]; exact hq))

theorem edges_ok_of_check (w : World) (h : edges_check w = true) : edges_ok w := by
  intro a e hd
  unfold edges_check at h
  rw [List.all_eq_true] at h
  have ha := h a (List.mem_range.mpr (deref_lt w a e hd))
  rw [hd] at ha
  simp only [Bool.and_eq_true, List.all_eq_true] at ha
  constructor
  · intro c hc
    have := ha.1 c hc
    cases hx : deref w c with
    | none => rw [hx] at this; simp at this
    | some x =>
      rw [hx] at this
      exact ⟨x, rfl, by simpa using this⟩
  · intro q hq
    have := ha.2 q hq
    cases hx : deref w q with
    | none => rw [hx] at this; simp at this
    | some x =>
      rw [hx] at this
      exact ⟨x, rfl, by simpa using this⟩

theorem ranked_of_check (w : World) (h : Nat → Nat) (hc : ranked_check w h = true) :
    ranked w h := by
  intro a e hd q hq
  unfold ranked_check at hc
  rw [List.all_eq_true] at hc
  have ha := hc a (List.mem_range.mpr (deref_lt w a e hd))
  rw [hd] at ha
  simp only [List.all_eq_true] at ha
  simpa using ha q hq

/-! ## Facts about the resolution phase of a scan -/

theorem scan_of_prepare_error (w : World) (mc : Nat) (c : Nat → Nat → Int)
    (env : Nat → Nat → mc_reply_t) (dlrs : List dlr_info_t) (r : Nat × World)
    (h : scan_prepare w mc c dlrs = .error r) :
    ipmi_entity_scan_sdrs w mc c env dlrs = some r := by
  unfold scan_prepare at h
  unfold ipmi_entity_scan_sdrs
  simp only at h ⊢
  generalize (match _ipmi_get_sdr_entities w mc with
    | some old => some (old, w)
    | none =>
      match take_alloc w with
      | (false, _) => none
      | (true, w1) =>
        some (({ found := [], dlrs := [] } : entity_sdr_info_t),
          _ipmi_set_sdr_entities w1 mc { found := [], dlrs := [] })) = got at h ⊢
  cases got with
  | none =>
    simp only at h ⊢
    cases h
    rfl
  | some x =>
    obtain ⟨old, w1⟩ := x
    simp only at h ⊢
    cases hm : match_loop c (dlrs.length + old.dlrs.length) 0 0
        (List.replicate dlrs.length found_zero)
        (List.replicate old.dlrs.length found_zero) with
    | mk nf of =>
      rw [hm] at h
      simp only at h ⊢
      cases hf1 : fill_in_entities w1 { found := nf, dlrs := dlrs } with
      | mk rv rest =>
        obtain ⟨infos1, w2⟩ := rest
        rw [hf1] at h
        by_cases hrv : rv = 0
        · subst hrv
          simp only at h ⊢
          cases hf2 : fill_in_entities w2 { found := of, dlrs := old.dlrs } with
          | mk rv2 rest2 =>
            obtain ⟨old1, w3⟩ := rest2
            rw [hf2] at h
            by_cases hrv2 : rv2 = 0
            · subst hrv2
              simp only at h ⊢
              cases ha : alloc_entries infos1.found w3 0 with
              | mk e w4 =>
                rw [ha] at h
                cases e with
                | none =>
                  simp only at h ⊢
                  cases h
                  rfl
                | some n =>
                  simp only at h
                  cases h
            · split at h
              · rename_i heq
                simp only [Prod.mk.injEq] at heq
                exact absurd heq.1 hrv2
              · rename_i heq
                simp only [Prod.mk.injEq] at heq
                obtain ⟨h1, h2, h3⟩ := heq
                subst h1 h2 h3
                cases h
                rfl
        · split at h
          · rename_i heq
            simp only [Prod.mk.injEq] at heq
            exact absurd heq.1 hrv
          · rename_i heq
            simp only [Prod.mk.injEq] at heq
            obtain ⟨h1, h2, h3⟩ := heq
            subst h1 h2 h3
            cases h
            rfl

theorem held_refl (w0 : World) : held w0 w0 (fun _ => 0) := by
  refine ⟨?_, fun _ _ _ h => h, fun p hp => absurd hp (Nat.lt_irrefl 0), fun p hp => Or.inl hp⟩
  intro p _ e0 hd
  exact ⟨e0, hd, rfl, by simp⟩

theorem held_mono (w0 w : World) (n n1 : Nat → Nat) (h : held w0 w n)
    (hn : ∀ p, n1 p ≤ n p) : held w0 w n1 := by
  refine ⟨?_, h.others, fun p hp => h.credit p (Nat.lt_of_lt_of_le hp (hn p)), h.registry⟩
  intro p hp e0 hd
  obtain ⟨e, he, hk, hu⟩ := h.members p hp e0 hd
  have := hn p
  exact ⟨e, he, hk, by omega⟩

theorem held_same (w0 w w1 : World) (n : Nat → Nat) (h : held w0 w n)
    (hd : ∀ q, deref w1 q = deref w q) (he : w1.entities = w.entities) : held w0 w1 n := by
  refine ⟨?_, ?_, h.credit, ?_⟩
  · intro p hp e0 hd0
    obtain ⟨e, hde, hk, hu⟩ := h.members p hp e0 hd0
    exact ⟨e, by rw [hd]; exact hde, hk, hu⟩
  · intro q e0 hq hd0
    rw [hd]
    exact h.others q e0 hq hd0
  · intro p hp
    rw [he] at hp
    exact h.registry p hp

theorem deref_of_heap (w w1 : World) (h : w1.heap = w.heap) (q : Nat) :
    deref w1 q = deref w q := by
  unfold deref
  rw [h]

theorem held_live (w0 w : World) (n : Nat → Nat) (h : held w0 w n) (q : Nat) (e0 : ipmi_entity_t) (hd : deref w0 q = some e0) :
    ∃ e, deref w q = some e := by
  by_cases hq : q ∈ w0.entities
  · obtain ⟨e, he, _, _⟩ := h.members q hq e0 hd
    exact ⟨e, he⟩
  · exact ⟨e0, h.others q e0 hq hd⟩

theorem held_fresh (w0 w : World) (n : Nat → Nat) (h : held w0 w n) :
    deref w0 w.heap.length = none := by
  cases hd : deref w0 w.heap.length with
  | none => rfl
  | some e0 =>
    obtain ⟨e, he⟩ := held_live w0 w n h _ e0 hd
    exact absurd (deref_lt w _ e he) (Nat.lt_irrefl _)

/-- What `entity_add` does to a state of the resolution phase: it pins a
member, or creates an entity at a new address and pins it, or fails with
ENOMEM and changes neither the heap nor the collection. -/
theorem held_entity_add (w0 w : World) (n : Nat → Nat) (h : held w0 w n) (dn : ipmi_device_num_t) (id inst : Int) (out data : Nat) :
    (∃ p w1, entity_add w dn id inst out data = (0, some p, w1)
        ∧ held w0 w1 (fun q => n q + if q = p then 1 else 0))
    ∨ (∃ w1, entity_add w dn id inst out data = (ENOMEM, none, w1) ∧ held w0 w1 n) := by
  rcases entity_find_cases w dn id inst with ⟨_, hm⟩ | ⟨p, e, hp, he, _, _, _, hf⟩
  · -- no member has the key
    unfold entity_add
    rw [hm]
    simp only [ENODEV]
    have h1 := take_alloc_same w
    rcases hta : take_alloc w with ⟨b, w2⟩
    rw [hta] at h1
    simp only at h1
    cases b with
    | false =>
      right
      exact ⟨w2, rfl, held_same w0 w w2 n h (deref_of_heap w w2 h1.1) h1.2.1⟩
    | true =>
      simp only [ipmi_get_seq]
      have h2 := take_allocs_same 14 { w2 with next_seq := w2.next_seq + 1 }
      rcases htb : take_allocs 14 { w2 with next_seq := w2.next_seq + 1 } with ⟨b2, w4⟩
      rw [htb] at h2
      simp only at h2
      have hheap : w4.heap = w.heap := h2.1.trans h1.1
      have hent : w4.entities = w.entities := h2.2.1.trans h1.2.1
      cases b2 with
      | false =>
        right
        exact ⟨w4, rfl, held_same w0 w w4 n h (deref_of_heap w w4 hheap) hent⟩
      | true =>
        left
        refine ⟨w4.heap.length, _, rfl, ?_⟩
        have hfresh := held_fresh w0 w n h
        rw [← hheap] at hfresh
        have hold : ∀ q e1, deref w q = some e1 →
            deref (call_entity_update_handlers
              { w4 with heap := w4.heap ++ [some (new_entity w4 w2.next_seq dn id inst out data)],
                        entities := w4.entities ++ [w4.heap.length] }
              w4.heap.length IPMI_ADDED) q = some e1 := by
          intro q e1 hq
          have hlt : q < w4.heap.length := by rw [hheap]; exact deref_lt w q e1 hq
          have : deref w4 q = some e1 := by rw [deref_of_heap w w4 hheap]; exact hq
          unfold deref at this ⊢
          simp only [call_entity_update_handlers]
          rw [List.getElem?_append_left hlt]
          exact this
        refine ⟨?_, ?_, ?_, ?_⟩
        · intro q hq e0 hd0
          obtain ⟨e1, hde, hk, hu⟩ := h.members q hq e0 hd0
          refine ⟨e1, hold q e1 hde, hk, ?_⟩
          have hne : q ≠ w4.heap.length := by
            intro hq2
            rw [hq2, hfresh] at hd0
            cases hd0
          simp only [hne, if_false]
          omega
        · intro q e0 hq hd0
          exact hold q e0 (h.others q e0 hq hd0)
        · intro q hq
          by_cases hq2 : q = w4.heap.length
          · right
            rw [hq2]
            exact hfresh
          · simp only [hq2, if_false, Nat.add_zero] at hq
            exact h.credit q hq
        · intro q hq
          simp only [call_entity_update_handlers, List.mem_append, List.mem_singleton] at hq
          rcases hq with hq | hq
          · rw [hent] at hq
            exact h.registry q hq
          · right
            rw [hq]
            exact hfresh
  · -- a member has the key
    left
    refine ⟨p, _, entity_add_hit w dn id inst out data p e he hf, ?_⟩
    have hlt := deref_lt w p e he
    have hsame : deref { w with heap := w.heap.set p (some
        { e with usecount := e.usecount + 1,
                 sdr_gen_output := if out != 0 then out else e.sdr_gen_output,
                 sdr_gen_cb_data := if out != 0 then data else e.sdr_gen_cb_data }) } p
        = some ({ e with usecount := e.usecount + 1,
                         sdr_gen_output := if out != 0 then out else e.sdr_gen_output,
                         sdr_gen_cb_data := if out != 0 then data else e.sdr_gen_cb_data }) := by
      simp [deref, List.getElem?_set, hlt]
    have hother : ∀ q, q ≠ p → deref { w with heap := w.heap.set p (some
        { e with usecount := e.usecount + 1,
                 sdr_gen_output := if out != 0 then out else e.sdr_gen_output,
                 sdr_gen_cb_data := if out != 0 then data else e.sdr_gen_cb_data }) } q
        = deref w q := by
      intro q hq
      have : p ≠ q := fun h2 => hq h2.symm
      simp [deref, List.getElem?_set, this]
    have hpm : p ∈ w0.entities ∨ deref w0 p = none := h.registry p hp
    refine ⟨?_, ?_, ?_, ?_⟩
    · intro q hq e0 hd0
      obtain ⟨e1, hde, hk, hu⟩ := h.members q hq e0 hd0
      by_cases hqp : q = p
      · subst hqp
        rw [he] at hde
        cases hde
        refine ⟨_, hsame, ?_, ?_⟩
        · rw [← hk]
          rfl
        · simp only [if_true]
          omega
      · refine ⟨e1, by rw [hother q hqp]; exact hde, hk, ?_⟩
        simp only [hqp, if_false]
        omega
    · intro q e0 hq hd0
      have hqp : q ≠ p := by
        intro hqp
        subst hqp
        rcases hpm with h1 | h1
        · exact hq h1
        · rw [h1] at hd0
          cases hd0
      rw [hother q hqp]
      exact h.others q e0 hq hd0
    · intro q hq
      by_cases hqp : q = p
      · subst hqp
        exact hpm
      · simp only [hqp, if_false, Nat.add_zero] at hq
        exact h.credit q hq
    · intro q hq
      exact h.registry q hq

theorem put_members_subset (w : World) (q p : Nat)
    (hp : p ∈ (_ipmi_entity_put w q).entities) : p ∈ w.entities := by
  cases hd : deref w q with
  | none =>
    simp only [_ipmi_entity_put, hd] at hp
    exact hp
  | some e =>
    by_cases h1 : e.usecount = 1
    · cases hr : cleanup_ready e with
      | true =>
        rw [(put_last_ready w q e hd h1 hr).2.1] at hp
        exact ((mem_locked_list_remove _ _ _).mp hp).1
      | false =>
        rw [put_last_not_ready w q e hd h1 hr] at hp
        exact hp
    · rw [put_not_last w q e hd h1] at hp
      exact hp

theorem put_keeps (w : World) (q : Nat) (e : ipmi_entity_t) (hd : deref w q = some e)
    (hsafe : cleanup_ready e = false ∨ e.usecount ≠ 1) :
    _ipmi_entity_put w q = modify w q (fun e => { e with usecount := e.usecount - 1 }) := by
  by_cases h1 : e.usecount = 1
  · rcases hsafe with hr | hne
    · exact put_dec w q e hd hr
    · exact absurd h1 hne
  · rw [put_not_last w q e hd h1, modify_eq_set w q _ e hd]

theorem cleanup_ready_of_kept (e e0 : ipmi_entity_t) (h : kept e = kept e0) :
    cleanup_ready e = cleanup_ready e0 := by
  unfold kept at h
  simp only [Prod.mk.injEq] at h
  obtain ⟨h1, _, h3, h4, h5, h6⟩ := h
  unfold cleanup_ready
  rw [h1, h3, h4, h5, h6]

theorem held_put (w0 w : World) (n : Nat → Nat) (hinv : registry_inv w0) (h : held w0 w n)
    (q : Nat) (hq : 0 < n q) :
    held w0 (_ipmi_entity_put w q) (fun p => n p - if p = q then 1 else 0) := by
  have hcred : ∀ p, 0 < n p - (if p = q then 1 else 0) → p ∈ w0.entities ∨ deref w0 p = none :=
    fun p hp => h.credit p (by omega)
  rcases h.credit q hq with hm | hnone
  · -- the entity was a member before the scan
    obtain ⟨e0, hd0, hu0, hrem⟩ := (member_ok_iff w0 q).mp (hinv q hm)
    obtain ⟨e, hde, hk, hu⟩ := h.members q hm e0 hd0
    have hsafe : cleanup_ready e = false ∨ e.usecount ≠ 1 := by
      cases hr : cleanup_ready e with
      | false => exact Or.inl rfl
      | true =>
        right
        have hr0 : cleanup_ready e0 = true := by rw [← cleanup_ready_of_kept e e0 hk]; exact hr
        unfold removable at hrem
        rw [hr0] at hrem
        simp only [Bool.true_and, beq_eq_false_iff_ne, ne_eq] at hrem
        omega
    rw [put_keeps w q e hde hsafe]
    refine ⟨?_, ?_, hcred, ?_⟩
    · intro p hp e1 hd1
      by_cases hpq : p = q
      · subst hpq
        rw [hd0] at hd1
        cases hd1
        refine ⟨_, deref_modify_same w p _ e hde, hk, ?_⟩
        simp only [if_true]
        omega
      · obtain ⟨e2, hde2, hk2, hu2⟩ := h.members p hp e1 hd1
        refine ⟨e2, by rw [deref_modify_ne w q p _ hpq]; exact hde2, hk2, ?_⟩
        simp only [hpq, if_false]
        omega
    · intro p e1 hp hd1
      have hpq : p ≠ q := fun hpq => hp (hpq ▸ hm)
      rw [deref_modify_ne w q p _ hpq]
      exact h.others p e1 hp hd1
    · intro p hp
      rw [modify_entities] at hp
      exact h.registry p hp
  · -- the entity was created by the scan
    refine ⟨?_, ?_, hcred, ?_⟩
    · intro p hp e1 hd1
      have hpq : p ≠ q := by
        intro hpq
        rw [hpq, hnone] at hd1
        cases hd1
      obtain ⟨e2, hde2, hk2, hu2⟩ := h.members p hp e1 hd1
      refine ⟨e2, by rw [put_other w q p hpq]; exact hde2, hk2, ?_⟩
      simp only [hpq, if_false]
      omega
    · intro p e1 hp hd1
      have hpq : p ≠ q := by
        intro hpq
        rw [hpq, hnone] at hd1
        cases hd1
      rw [put_other w q p hpq]
      exact h.others p e1 hp hd1
    · intro p hp
      exact h.registry p (put_members_subset w q p hp)

theorem held_puts (w0 : World) (hinv : registry_inv w0) (l : List Nat) (w : World)
    (n : Nat → Nat) (h : held w0 w (fun p => l.count p + n p)) :
    held w0 (l.foldl _ipmi_entity_put w) n := by
  induction l generalizing w with
  | nil =>
    simp only [List.foldl_nil]
    exact held_mono w0 w _ n h (fun p => by simp)
  | cons q l ih =>
    simp only [List.foldl_cons]
    apply ih
    have h1 := held_put w0 w _ hinv h q (by simp)
    apply held_mono w0 _ _ _ h1
    intro p
    simp only [List.count_cons]
    by_cases hpq : p = q
    · subst hpq
      simp
    · have : (q == p) = false := by
        simp only [beq_eq_false_iff_ne, ne_eq]
        exact fun h2 => hpq h2.symm
      simp [hpq, this]

theorem pins_cons (f : entity_found_t) (fs : List entity_found_t) :
    pins (f :: fs) = slot_pins f ++ pins fs := by
  simp [pins]

theorem put_entities_eq (fs : List entity_found_t) (w : World) :
    put_entities w fs = (pins fs).foldl _ipmi_entity_put w := by
  induction fs generalizing w with
  | nil => rfl
  | cons f fs ih =>
    rw [pins_cons, List.foldl_append]
    unfold put_entities
    unfold slot_pins
    split
    · rename_i hf
      simp only [hf, if_true, List.foldl_nil]
      exact ih w
    · rename_i hf
      simp only [hf, if_false, Bool.false_eq_true]
      rw [List.foldl_append, ih]
      cases f.ent with
      | none => rfl
      | some p => rfl

theorem held_put_entities (w0 : World) (hinv : registry_inv w0) (fs : List entity_found_t)
    (w : World) (n : Nat → Nat) (h : held w0 w (fun p => (pins fs).count p + n p)) :
    held w0 (put_entities w fs) n := by
  rw [put_entities_eq]
  exact held_puts w0 hinv (pins fs) w n h

theorem pins_set_le (d : Nat → Nat) (f1 : entity_found_t) (fs : List entity_found_t) (i : Nat)
    (hslot : ∀ q, (slot_pins f1).count q ≤ (slot_pins (fs.getD i found_zero)).count q + d q)
    (q : Nat) : (pins (fs.set i f1)).count q ≤ (pins fs).count q + d q := by
  induction fs generalizing i with
  | nil => simp [pins]
  | cons f fs ih =>
    cases i with
    | zero =>
      simp only [List.set_cons_zero, pins_cons, List.count_append]
      have := hslot q
      simp only [List.getD_cons_zero] at this
      omega
    | succ i =>
      simp only [List.set_cons_succ, pins_cons, List.count_append]
      have := ih i (fun q => by
        have := hslot q
        simp only [List.getD_cons_succ] at this
        exact this)
      omega

theorem count_unit (p q : Nat) : [p].count q = if q = p then 1 else 0 := by
  by_cases h : q = p
  · subst h
    simp
  · have : (p == q) = false := by
      simp only [beq_eq_false_iff_ne, ne_eq]
      exact fun h2 => h h2.symm
    simp [List.count_cons, h, this]

/-- What `add_child_ent_to_found` does: the child is appended to the
resolved children of the slot, or the growth of the array fails with
ENOMEM; the heap and the collection stay as they are. -/
theorem add_child_ent_cases (w : World) (found : entity_found_t) (p : Nat) :
    (∃ f1 w1, add_child_ent_to_found w found p = (0, f1, w1)
        ∧ f1.found = found.found ∧ f1.ent = found.ent ∧ f1.cent = found.cent ++ [p]
        ∧ w1.heap = w.heap ∧ w1.entities = w.entities)
    ∨ (∃ w1, add_child_ent_to_found w found p = (ENOMEM, found, w1)
        ∧ w1.heap = w.heap ∧ w1.entities = w.entities) := by
  unfold add_child_ent_to_found
  split
  · have h1 := take_alloc_same w
    rcases hta : take_alloc w with ⟨b, w1⟩
    rw [hta] at h1
    simp only at h1
    cases b with
    | false => exact Or.inr ⟨w1, rfl, h1.1, h1.2.1⟩
    | true => exact Or.inl ⟨_, w1, rfl, rfl, rfl, rfl, h1.1, h1.2.1⟩
  · exact Or.inl ⟨_, w, rfl, rfl, rfl, rfl, rfl, rfl⟩

theorem held_fill_in_children (w0 : World) (hinv : registry_inv w0) (t : Nat)
    (keys : List (ipmi_device_num_t × Nat × Nat)) :
    ∀ (w : World) (founds : List entity_found_t) (n0 : Nat → Nat),
      held w0 w (fun q => (pins founds).count q + n0 q) →
      ∀ rv founds1 w1, fill_in_children t keys w founds = (rv, founds1, w1) →
        held w0 w1 (fun q => (pins founds1).count q + n0 q) ∧ (rv = 0 ∨ rv = ENOMEM) := by
  induction keys with
  | nil =>
    intro w founds n0 h rv founds1 w1 hr
    simp only [fill_in_children, Prod.mk.injEq] at hr
    obtain ⟨h1, h2, h3⟩ := hr
    subst h1 h2 h3
    exact ⟨h, Or.inl rfl⟩
  | cons k ks ih =>
    obtain ⟨dn, id, inst⟩ := k
    intro w founds n0 h rv founds1 w1 hr
    unfold fill_in_children at hr
    rcases held_entity_add w0 w _ h dn id inst 0 0 with ⟨p, wa, hadd, hh⟩ | ⟨wa, hadd, hh⟩
    · rw [hadd] at hr
      simp only at hr
      rcases add_child_ent_cases wa (founds.getD t found_zero) p with
        ⟨f1, wb, hac, hf1, he1, hc1, hheap, hent⟩ | ⟨wb, hac, hheap, hent⟩
      · rw [hac] at hr
        simp only at hr
        have hb : held w0 wb (fun q => (pins founds).count q + n0 q + if q = p then 1 else 0) :=
          held_same w0 wa wb _ hh (deref_of_heap wa wb hheap) hent
        apply ih wb (founds.set t f1) n0 ?_ rv founds1 w1 hr
        apply held_mono w0 wb _ _ hb
        intro q
        have := pins_set_le (fun q => if q = p then 1 else 0) f1 founds t (fun q => by
          unfold slot_pins
          rw [hf1, he1, hc1]
          split
          · simp
          · simp only [List.count_append, count_unit]
            omega) q
        omega
      · rw [hac] at hr
        simp only [ENOMEM, Prod.mk.injEq] at hr
        obtain ⟨h1, h2, h3⟩ := hr
        subst h1 h2 h3
        have hb : held w0 wb (fun q => (pins founds).count q + n0 q + if q = p then 1 else 0) :=
          held_same w0 wa wb _ hh (deref_of_heap wa wb hheap) hent
        have hp := held_put w0 wb _ hinv hb p (by simp)
        refine ⟨held_mono w0 _ _ _ hp (fun q => by simp), Or.inr rfl⟩
    · rw [hadd] at hr
      simp only [ENOMEM, Prod.mk.injEq] at hr
      obtain ⟨h1, h2, h3⟩ := hr
      subst h1 h2 h3
      exact ⟨hh, Or.inr rfl⟩

theorem held_fill_in_entity (w0 : World) (hinv : registry_inv w0) (dlrs : List dlr_info_t)
    (i : Nat) (w : World) (founds : List entity_found_t) (n0 : Nat → Nat)
    (h : held w0 w (fun q => (pins founds).count q + n0 q))
    (rv : Nat) (founds1 : List entity_found_t) (w1 : World)
    (hr : fill_in_entity dlrs i w founds = (rv, founds1, w1)) :
    held w0 w1 (fun q => (pins founds1).count q + n0 q) ∧ (rv = 0 ∨ rv = ENOMEM) := by
  unfold fill_in_entity at hr
  simp only at hr
  split at hr
  · simp only [Prod.mk.injEq] at hr
    obtain ⟨h1, h2, h3⟩ := hr
    subst h1 h2 h3
    exact ⟨h, Or.inl rfl⟩
  · rename_i hnf
    have hfound : (founds.getD i found_zero).found = false := by simpa using hnf
    split at hr
    · rcases held_entity_add w0 w _ h (dlrs.getD i dlr_zero).device_num
          (dlrs.getD i dlr_zero).entity_id (dlrs.getD i dlr_zero).entity_instance
          (dlrs.getD i dlr_zero).output_handler 0 with ⟨p, wa, hadd, hh⟩ | ⟨wa, hadd, hh⟩
      · rw [hadd] at hr
        simp only at hr
        have h1 : held w0 wa (fun q =>
            (pins (founds.set i { (founds.getD i found_zero) with ent := some p })).count q
              + n0 q) := by
          apply held_mono w0 wa _ _ hh
          intro q
          have := pins_set_le (fun q => if q = p then 1 else 0)
            { (founds.getD i found_zero) with ent := some p } founds i (fun q => by
              unfold slot_pins
              simp only [hfound, Bool.false_eq_true, if_false, List.count_append,
                Option.toList]
              have := count_unit p q
              cases (founds.getD i found_zero).ent with
              | none => simp only [List.count_nil]; omega
              | some r => simp only; omega) q
          omega
        split at hr
        · simp only [Prod.mk.injEq] at hr
          obtain ⟨h2, h3, h4⟩ := hr
          subst h2 h3 h4
          exact ⟨h1, Or.inl rfl⟩
        · split at hr
          · refine held_fill_in_children w0 hinv _ _ wa _ n0 ?_ rv founds1 w1 hr
            apply held_mono w0 wa _ _ h1
            intro q
            have := pins_set_le (fun _ => 0)
              { ((founds.set i { (founds.getD i found_zero) with ent := some p }).getD i
                  found_zero) with found := true }
              (founds.set i { (founds.getD i found_zero) with ent := some p }) i (fun q => by
                unfold slot_pins
                simp) q
            simp only at this ⊢
            omega
          · exact held_fill_in_children w0 hinv _ _ wa _ n0 h1 rv founds1 w1 hr
      · rw [hadd] at hr
        simp only [ENOMEM, Prod.mk.injEq] at hr
        obtain ⟨h1, h2, h3⟩ := hr
        subst h1 h2 h3
        exact ⟨hh, Or.inr rfl⟩
    · simp only [Prod.mk.injEq] at hr
      obtain ⟨h1, h2, h3⟩ := hr
      subst h1 h2 h3
      refine ⟨?_, Or.inl rfl⟩
      apply held_mono w0 w _ _ h
      intro q
      have := pins_set_le (fun _ => 0) { (founds.getD i found_zero) with ent := none }
        founds i (fun q => by
          unfold slot_pins
          simp only [hfound, Bool.false_eq_true, if_false, List.count_append, Option.toList,
            List.count_nil]
          omega) q
      simp only at this ⊢
      omega

theorem held_fill_in_loop (w0 : World) (hinv : registry_inv w0) (dlrs : List dlr_info_t)
    (is : List Nat) :
    ∀ (w : World) (founds : List entity_found_t) (n0 : Nat → Nat),
      held w0 w (fun q => (pins founds).count q + n0 q) →
      ∀ rv founds1 w1, fill_in_loop dlrs is w founds = (rv, founds1, w1) →
        held w0 w1 (fun q => (pins founds1).count q + n0 q) ∧ (rv = 0 ∨ rv = ENOMEM) := by
  induction is with
  | nil =>
    intro w founds n0 h rv founds1 w1 hr
    simp only [fill_in_loop, Prod.mk.injEq] at hr
    obtain ⟨h1, h2, h3⟩ := hr
    subst h1 h2 h3
    exact ⟨h, Or.inl rfl⟩
  | cons i is ih =>
    intro w founds n0 h rv founds1 w1 hr
    unfold fill_in_loop at hr
    rcases hfe : fill_in_entity dlrs i w founds with ⟨rva, foundsa, wa⟩
    have ha := held_fill_in_entity w0 hinv dlrs i w founds n0 h rva foundsa wa hfe
    rw [hfe] at hr
    rcases ha.2 with hz | hz
    · subst hz
      simp only at hr
      exact ih wa foundsa n0 ha.1 rv founds1 w1 hr
    · subst hz
      simp only [ENOMEM, Prod.mk.injEq] at hr
      obtain ⟨h1, h2, h3⟩ := hr
      subst h1 h2 h3
      exact ⟨ha.1, Or.inr rfl⟩

theorem held_fill_in_entities (w0 : World) (hinv : registry_inv w0) (w : World)
    (infos : entity_sdr_info_t) (n0 : Nat → Nat)
    (h : held w0 w (fun q => (pins infos.found).count q + n0 q))
    (rv : Nat) (infos1 : entity_sdr_info_t) (w1 : World)
    (hr : fill_in_entities w infos = (rv, infos1, w1)) :
    held w0 w1 (fun q => (pins infos1.found).count q + n0 q) ∧ (rv = 0 ∨ rv = ENOMEM)
      ∧ infos1.dlrs = infos.dlrs := by
  unfold fill_in_entities at hr
  rcases hl : fill_in_loop infos.dlrs (List.range infos.dlrs.length) w infos.found with
    ⟨rva, foundsa, wa⟩
  rw [hl] at hr
  simp only [Prod.mk.injEq] at hr
  obtain ⟨h1, h2, h3⟩ := hr
  subst h1 h2 h3
  have := held_fill_in_loop w0 hinv infos.dlrs _ w infos.found n0 h rva foundsa wa hl
  exact ⟨this.1, this.2, rfl⟩

theorem alloc_entries_same (fs : List entity_found_t) (w : World) (n : Nat) :
    (alloc_entries fs w n).2.heap = w.heap ∧ (alloc_entries fs w n).2.entities = w.entities := by
  induction fs generalizing w n with
  | nil => exact ⟨rfl, rfl⟩
  | cons f fs ih =>
    unfold alloc_entries
    split
    · exact ih w n
    · have h1 := take_allocs_same (f.cent.length * 2) w
      rcases hta : take_allocs (f.cent.length * 2) w with ⟨b, w1⟩
      rw [hta] at h1
      simp only at h1
      cases b with
      | true =>
        simp only
        have h2 := ih w1 (n + f.cent.length * 2)
        exact ⟨h2.1.trans h1.1, h2.2.trans h1.2.1⟩
      | false => exact ⟨h1.1, h1.2.1⟩

theorem pins_blank (fs : List entity_found_t) (h : blank fs) : pins fs = [] := by
  induction fs with
  | nil => rfl
  | cons f fs ih =>
    rw [pins_cons, ih (fun g hg => h g (List.mem_cons_of_mem _ hg))]
    have := h f (List.mem_cons_self _ _)
    unfold slot_pins
    split
    · rfl
    · simp [this.1, this.2]

theorem blank_replicate (n : Nat) : blank (List.replicate n found_zero) := by
  intro f hf
  rw [List.eq_of_mem_replicate hf]
  exact ⟨rfl, rfl⟩

theorem blank_set (fs : List entity_found_t) (i : Nat) (h : blank fs) :
    blank (fs.set i { (fs.getD i found_zero) with found := true }) := by
  intro f hf
  rcases List.mem_or_eq_of_mem_set hf with hm | he
  · exact h f hm
  · rw [he]
    simp only
    by_cases hi : i < fs.length
    · have : fs.getD i found_zero = fs[i] := by simp [List.getD, hi]
      rw [this]
      exact h _ (List.getElem_mem hi)
    · have : fs.getD i found_zero = found_zero := by
        simp [List.getD, List.getElem?_eq_none (Nat.le_of_not_lt hi)]
      rw [this]
      exact ⟨rfl, rfl⟩

theorem blank_match_loop (c : Nat → Nat → Int) (fuel : Nat) :
    ∀ (i j : Nat) (nf of : List entity_found_t), blank nf → blank of →
      blank (match_loop c fuel i j nf of).1 ∧ blank (match_loop c fuel i j nf of).2 := by
  induction fuel with
  | zero =>
    intro i j nf of h1 h2
    exact ⟨h1, h2⟩
  | succ fuel ih =>
    intro i j nf of h1 h2
    unfold match_loop
    split
    · split
      · exact ih _ _ _ _ (blank_set nf i h1) (blank_set of j h2)
      · split
        · exact ih _ _ _ _ h1 h2
        · exact ih _ _ _ _ h1 h2
    · exact ⟨h1, h2⟩

theorem records_of_set (w : World) (mc : Nat) (infos : entity_sdr_info_t) :
    records_of (_ipmi_set_sdr_entities w mc infos) mc = infos.dlrs := by
  simp [records_of, _ipmi_get_sdr_entities, _ipmi_set_sdr_entities]

theorem held_scan_out_err (w0 : World) (hinv : registry_inv w0) (w : World) (mc rv : Nat)
    (infos old : entity_sdr_info_t)
    (h : held w0 w (fun q => (pins infos.found).count q + (pins old.found).count q)) :
    held w0 (scan_out_err w mc rv infos old).2 (fun _ => 0)
    ∧ (scan_out_err w mc rv infos old).1 = rv
    ∧ records_of (scan_out_err w mc rv infos old).2 mc = old.dlrs := by
  unfold scan_out_err
  simp only
  refine ⟨?_, trivial, records_of_set _ mc old⟩
  have h1 := held_put_entities w0 hinv infos.found w _ h
  have h2 := held_put_entities w0 hinv old.found _ (fun _ => 0)
    (held_mono w0 _ _ _ h1 (fun q => by simp))
  exact held_same w0 _ _ _ h2 (fun _ => rfl) rfl

theorem take_alloc_sdr_entities (w : World) :
    (take_alloc w).2.sdr_entities = w.sdr_entities := by
  unfold take_alloc
  split <;> rfl

/-- A call of `ipmi_entity_scan_sdrs` whose resolution or pre-allocation
fails returns ENOMEM and leaves a state that stands to the initial one as
a state of the resolution phase with no pin outstanding, with the
remembered records of the controller as they were. -/
theorem prepare_error_held (w : World) (mc : Nat) (c : Nat → Nat → Int)
    (dlrs : List dlr_info_t) (r : Nat × World) (hinv : registry_inv w)
    (h : scan_prepare w mc c dlrs = .error r) :
    r.1 = ENOMEM ∧ held w r.2 (fun _ => 0) ∧ records_of r.2 mc = records_of w mc := by
  unfold scan_prepare at h
  simp only at h
  have hgot : ∀ got, (match _ipmi_get_sdr_entities w mc with
      | some old => some (old, w)
      | none =>
        match take_alloc w with
        | (false, _) => none
        | (true, w1) =>
          some (({ found := [], dlrs := [] } : entity_sdr_info_t),
            _ipmi_set_sdr_entities w1 mc { found := [], dlrs := [] })) = got →
      match got with
      | none => records_of (take_alloc w).2 mc = records_of w mc
      | some (old, w1) => held w w1 (fun _ => 0) ∧ records_of w mc = old.dlrs := by
    intro got hg
    cases hs : _ipmi_get_sdr_entities w mc with
    | some old =>
      rw [hs] at hg
      subst hg
      exact ⟨held_refl w, by simp [records_of, hs]⟩
    | none =>
      rw [hs] at hg
      have h1 := take_alloc_same w
      rcases hta : take_alloc w with ⟨b, w1⟩
      rw [hta] at hg h1
      simp only at h1
      cases b with
      | false =>
        subst hg
        simp only
        have := take_alloc_sdr_entities w
        rw [hta] at this
        simp only at this
        simp [records_of, _ipmi_get_sdr_entities, this]
      | true =>
        subst hg
        simp only
        refine ⟨?_, by simp [records_of, hs]⟩
        exact held_same w w _ _ (held_refl w)
          (fun q => by
            show deref w1 q = deref w q
            exact deref_of_heap w w1 h1.1 q)
          (by
            show w1.entities = w.entities
            exact h1.2.1)
  generalize (match _ipmi_get_sdr_entities w mc with
    | some old => some (old, w)
    | none =>
      match take_alloc w with
      | (false, _) => none
      | (true, w1) =>
        some (({ found := [], dlrs := [] } : entity_sdr_info_t),
          _ipmi_set_sdr_entities w1 mc { found := [], dlrs := [] })) = got at h hgot
  have hg := hgot got rfl
  cases got with
  | none =>
    simp only at h hg
    cases h
    exact ⟨rfl, held_same w w _ _ (held_refl w)
      (fun q => deref_of_heap w _ (take_alloc_same w).1 q) (take_alloc_same w).2.1, hg⟩
  | some x =>
    obtain ⟨old, w1⟩ := x
    simp only at h hg
    obtain ⟨hh1, hrec⟩ := hg
    have hbl := blank_match_loop c (dlrs.length + old.dlrs.length) 0 0
      (List.replicate dlrs.length found_zero) (List.replicate old.dlrs.length found_zero)
      (blank_replicate _) (blank_replicate _)
    cases hm : match_loop c (dlrs.length + old.dlrs.length) 0 0
        (List.replicate dlrs.length found_zero)
        (List.replicate old.dlrs.length found_zero) with
    | mk nf of =>
      rw [hm] at h hbl
      simp only at h hbl
      have hpn : pins nf = [] := pins_blank nf hbl.1
      have hpo : pins of = [] := pins_blank of hbl.2
      cases hf1 : fill_in_entities w1 { found := nf, dlrs := dlrs } with
      | mk rv rest =>
        obtain ⟨infos1, w2⟩ := rest
        rw [hf1] at h
        have hA := held_fill_in_entities w hinv w1 { found := nf, dlrs := dlrs } (fun _ => 0)
          (held_mono w w1 _ _ hh1 (fun q => by simp [hpn])) rv infos1 w2 hf1
        by_cases hrv : rv = 0
        · subst hrv
          simp only at h
          cases hf2 : fill_in_entities w2 { found := of, dlrs := old.dlrs } with
          | mk rv2 rest2 =>
            obtain ⟨old1, w3⟩ := rest2
            rw [hf2] at h
            have hB := held_fill_in_entities w hinv w2 { found := of, dlrs := old.dlrs }
              (fun q => (pins infos1.found).count q)
              (held_mono w w2 _ _ hA.1 (fun q => by simp [hpo])) rv2 old1 w3 hf2
            have hdl : old1.dlrs = old.dlrs := hB.2.2
            by_cases hrv2 : rv2 = 0
            · subst hrv2
              simp only at h
              have hal := alloc_entries_same infos1.found w3 0
              cases ha : alloc_entries infos1.found w3 0 with
              | mk e w4 =>
                rw [ha] at h hal
                simp only at hal
                cases e with
                | none =>
                  simp only at h
                  cases h
                  have hC := held_scan_out_err w hinv w4 mc ENOMEM infos1 old1
                    (held_same w w3 w4 _
                      (held_mono w w3 _ _ hB.1 (fun q => by simp only; omega))
                      (deref_of_heap w3 w4 hal.1) hal.2)
                  exact ⟨hC.2.1, hC.1, by rw [hC.2.2, hdl, hrec]⟩
                | some n =>
                  simp only at h
                  cases h
            · have hen : rv2 = ENOMEM := by
                rcases hB.2.1 with h0 | h0
                · exact absurd h0 hrv2
                · exact h0
              subst hen
              simp only [ENOMEM] at h
              cases h
              have hC := held_scan_out_err w hinv w3 mc 12 infos1 old1
                (held_mono w w3 _ _ hB.1 (fun q => by simp only; omega))
              exact ⟨hC.2.1, hC.1, by rw [hC.2.2, hdl, hrec]⟩
        · have hen : rv = ENOMEM := by
            rcases hA.2.1 with h0 | h0
            · exact absurd h0 hrv
            · exact h0
          subst hen
          simp only [ENOMEM] at h
          cases h
          have hC := held_scan_out_err w hinv w2 mc 12 infos1 { found := of, dlrs := old.dlrs }
            (held_mono w w2 _ _ hA.1 (fun q => by simp [hpo]))
          exact ⟨hC.2.1, hC.1, by rw [hC.2.2, hrec]⟩

/-! ## Facts about the graph along a scan and its reversal -/

theorem keyed_map (G : graph_t) (F : Nat → node_t → node_t)
    (hk : ∀ q n, (F q n).key = n.key) (a : Nat) (k : search_info_t) :
    keyed (G.map F) a k ↔ keyed G a k := by
  unfold keyed graph_t.map
  simp only
  cases h : G.node a with
  | none => simp
  | some n => simp [hk]

theorem follows_congr (G G1 : graph_t) (n0 n : node_t) (Ks : List search_info_t)
    (E : List (search_info_t × search_info_t))
    (hk : ∀ a k, keyed G a k → (a ∈ n.children ∨ a ∈ n.parents) → keyed G1 a k)
    (h : follows G n0 n Ks E) : follows G1 n0 n Ks E := by
  obtain ⟨h1, h2, ⟨A, hA, hA2⟩, ⟨B, hB, hB2⟩⟩ := h
  refine ⟨h1, h2, ⟨A, hA, ?_⟩, ⟨B, hB, ?_⟩⟩
  · intro a ha
    obtain ⟨sk, hsk, e1, e2⟩ := hA2 a ha
    exact ⟨sk, hsk, e1, hk a _ e2 (Or.inl (by rw [hA]; simp [ha]))⟩
  · intro b hb
    obtain ⟨sk, hsk, e1, e2⟩ := hB2 b hb
    exact ⟨sk, hsk, hk b _ e1 (Or.inr (by rw [hB]; simp [hb])), e2⟩

theorem tracked_map (G0 G : graph_t) (Ks Ks1 : List search_info_t)
    (E E1 : List (search_info_t × search_info_t)) (F : Nat → node_t → node_t)
    (hk : ∀ q n, (F q n).key = n.key) (hT : tracked G0 G Ks E)
    (hstep : ∀ q ∈ G.members, q ∈ G0.members → ∀ n0 n, G0.node q = some n0 →
      G.node q = some n → follows G n0 n Ks E → follows G n0 (F q n) Ks1 E1) :
    tracked G0 (G.map F) Ks1 E1 := by
  intro q hq hq0 n0 hn0
  have hq1 : q ∈ G.members := hq
  obtain ⟨n, hn, hf⟩ := hT q hq1 hq0 n0 hn0
  refine ⟨F q n, by simp [graph_t.map, hn], ?_⟩
  have := hstep q hq1 hq0 n0 n hn0 hn hf
  exact follows_congr G _ n0 _ Ks1 E1 (fun a k h _ => (keyed_map G F hk a k).mpr h) this

theorem sound_map (G : graph_t) (F : Nat → node_t → node_t)
    (hk : ∀ q n, (F q n).key = n.key) (hs : sound G)
    (hd : ∀ p ∈ G.members, ∀ n, G.node p = some n → ∀ c ∈ (F p n).children,
      c ∈ G.members ∧ ∃ x, G.node c = some x ∧ p ∈ (F c x).parents)
    (hu : ∀ p ∈ G.members, ∀ n, G.node p = some n → ∀ q ∈ (F p n).parents,
      q ∈ G.members ∧ ∃ x, G.node q = some x ∧ p ∈ (F q x).children) :
    sound (G.map F) := by
  constructor
  · intro p hp
    obtain ⟨n, hn⟩ := hs.live p hp
    exact ⟨F p n, by simp [graph_t.map, hn]⟩
  · intro p hp
    have := hs.bound p hp
    simp [graph_t.map, this]
  · intro p hp q hq k h1 h2
    exact hs.unique p hp q hq k ((keyed_map G F hk p k).mp h1) ((keyed_map G F hk q k).mp h2)
  · intro p hp n hn c hc
    have hp1 : p ∈ G.members := hp
    obtain ⟨m, hm⟩ := hs.live p hp1
    have e : n = F p m := by
      have : (G.map F).node p = some (F p m) := by simp [graph_t.map, hm]
      rw [this] at hn
      cases hn
      rfl
    subst e
    obtain ⟨h1, x, hx, h2⟩ := hd p hp1 m hm c hc
    exact ⟨h1, F c x, by simp [graph_t.map, hx], h2⟩
  · intro p hp n hn c hc
    have hp1 : p ∈ G.members := hp
    obtain ⟨m, hm⟩ := hs.live p hp1
    have e : n = F p m := by
      have : (G.map F).node p = some (F p m) := by simp [graph_t.map, hm]
      rw [this] at hn
      cases hn
      rfl
    subst e
    obtain ⟨h1, x, hx, h2⟩ := hu p hp1 m hm c hc
    exact ⟨h1, F c x, by simp [graph_t.map, hx], h2⟩

theorem subject_map (G : graph_t) (F : Nat → node_t → node_t)
    (hk : ∀ q n, (F q n).key = n.key) (s : search_info_t) (p : Nat)
    (h : subject G s p) : subject (G.map F) s p :=
  ⟨fun q hq hkq => h.1 q hq ((keyed_map G F hk q s).mp hkq),
    fun hp => (keyed_map G F hk p s).mpr (h.2 hp)⟩

theorem key_of_keyed (G : graph_t) (p : Nat) (n : node_t) (k : search_info_t)
    (hn : G.node p = some n) (hk : keyed G p k) : n.key = k := by
  obtain ⟨x, hx, hxk⟩ := hk
  rw [hn] at hx
  cases hx
  exact hxk

theorem bump_key (p : Nat) (q : Nat) (n : node_t) : (bump p q n).key = n.key := by
  unfold bump
  split <;> rfl

theorem unbump_key (p : Nat) (q : Nat) (n : node_t) : (unbump p q n).key = n.key := by
  unfold unbump
  split <;> rfl

theorem tracked_bump (G0 G : graph_t) (Ks : List search_info_t)
    (E : List (search_info_t × search_info_t)) (p : Nat) (k : search_info_t)
    (hs : sound G) (hp : p ∈ G.members) (hk : keyed G p k) (hT : tracked G0 G Ks E) :
    tracked G0 (G.map (bump p)) (Ks ++ [k]) E := by
  apply tracked_map G0 G Ks (Ks ++ [k]) E E (bump p) (bump_key p) hT
  intro q hq _ n0 n _ hn hf
  obtain ⟨h1, h2, h3, h4⟩ := hf
  by_cases hqp : q = p
  · subst hqp
    have hkn : n0.key = k := by rw [← h1]; exact key_of_keyed G q n k hn hk
    refine ⟨by simp [bump, h1], ?_, by simpa [bump] using h3, by simpa [bump] using h4⟩
    simp only [bump, if_true, List.count_append, hkn, List.count_singleton, beq_self_eq_true]
    rw [h2, hkn]
    unfold u32_inc
    omega
  · have hne : n0.key ≠ k := by
      intro e
      apply hqp
      exact hs.unique q hq p hp k ⟨n, hn, by rw [h1, e]⟩ hk
    have hc : List.count n0.key [k] = 0 := by
      rw [List.count_singleton]
      simp [Ne.symm hne]
    refine ⟨by simp [bump, hqp, h1], ?_, by simpa [bump, hqp] using h3,
      by simpa [bump, hqp] using h4⟩
    simp only [bump, hqp, if_false, List.count_append, hc]
    rw [h2]
    rfl

theorem tracked_unbump (G0 G : graph_t) (Ks : List search_info_t)
    (E : List (search_info_t × search_info_t)) (p : Nat) (k : search_info_t)
    (hs : sound G) (hp : p ∈ G.members) (hk : keyed G p k)
    (hT : tracked G0 G (k :: Ks) E) :
    tracked G0 (G.map (unbump p)) Ks E := by
  apply tracked_map G0 G (k :: Ks) Ks E E (unbump p) (unbump_key p) hT
  intro q hq _ n0 n _ hn hf
  obtain ⟨h1, h2, h3, h4⟩ := hf
  by_cases hqp : q = p
  · subst hqp
    have hkn : n0.key = k := by rw [← h1]; exact key_of_keyed G q n k hn hk
    refine ⟨by simp [unbump, h1], ?_, by simpa [unbump] using h3, by simpa [unbump] using h4⟩
    simp only [unbump, if_true]
    rw [h2, hkn, List.count_cons_self]
    unfold u32_dec
    omega
  · have hne : n0.key ≠ k := by
      intro e
      apply hqp
      exact hs.unique q hq p hp k ⟨n, hn, by rw [h1, e]⟩ hk
    refine ⟨by simp [unbump, hqp, h1], ?_, by simpa [unbump, hqp] using h3,
      by simpa [unbump, hqp] using h4⟩
    simp only [unbump, hqp, if_false]
    rw [h2, List.count_cons_of_ne hne]

/-- A key no member has can be struck from the pending records. -/
theorem tracked_skip_key (G0 G : graph_t) (Ks : List search_info_t)
    (E : List (search_info_t × search_info_t)) (k : search_info_t)
    (hno : ∀ q ∈ G.members, ¬ keyed G q k) (hT : tracked G0 G (k :: Ks) E) :
    tracked G0 G Ks E := by
  intro q hq hq0 n0 hn0
  obtain ⟨n, hn, h1, h2, h3, h4⟩ := hT q hq hq0 n0 hn0
  refine ⟨n, hn, h1, ?_, h3, h4⟩
  have hne : n0.key ≠ k := by
    intro e
    exact hno q hq ⟨n, hn, by rw [h1, e]⟩
  rw [h2, List.count_cons_of_ne hne]

theorem tracked_prune (G0 G : graph_t) (Ks : List search_info_t)
    (E E1 : List (search_info_t × search_info_t)) (hs : sound G)
    (hE : ∀ sk ∈ E, sk ∈ E1 ∨ dead G sk) (hT : tracked G0 G Ks E) :
    tracked G0 G Ks E1 := by
  intro q hq hq0 n0 hn0
  obtain ⟨n, hn, h1, h2, ⟨A, hA, hA2⟩, ⟨B, hB, hB2⟩⟩ := hT q hq hq0 n0 hn0
  refine ⟨n, hn, h1, h2, ⟨A, hA, ?_⟩, ⟨B, hB, ?_⟩⟩
  · intro a ha
    obtain ⟨sk, hsk, e1, e2⟩ := hA2 a ha
    rcases hE sk hsk with h | h | h
    · exact ⟨sk, h, e1, e2⟩
    · exact absurd ⟨n, hn, by rw [h1, e1]⟩ (h q hq)
    · have ham : a ∈ G.members := (hs.down q hq n hn a (by rw [hA]; simp [ha])).1
      exact absurd e2 (h a ham)
  · intro b hb
    obtain ⟨sk, hsk, e1, e2⟩ := hB2 b hb
    rcases hE sk hsk with h | h | h
    · exact ⟨sk, h, e1, e2⟩
    · have hbm : b ∈ G.members := (hs.up q hq n hn b (by rw [hB]; simp [hb])).1
      exact absurd e1 (h b hbm)
    · exact absurd ⟨n, hn, by rw [h1, e2]⟩ (h q hq)

theorem tracked_mono (G0 G : graph_t) (Ks : List search_info_t)
    (E E1 : List (search_info_t × search_info_t)) (hs : sound G)
    (hE : ∀ sk ∈ E, sk ∈ E1) (hT : tracked G0 G Ks E) : tracked G0 G Ks E1 :=
  tracked_prune G0 G Ks E E1 hs (fun sk h => Or.inl (hE sk h)) hT

theorem mem_locked_list_add (l : List Nat) (c x : Nat) :
    x ∈ locked_list_add l c ↔ x ∈ l ∨ x = c := by
  unfold locked_list_add
  split
  · constructor
    · exact Or.inl
    · rintro (h | h)
      · exact h
      · subst h; assumption
  · simp

theorem lt_size_of_node (G : graph_t) (hs : sound G) (p : Nat) (n : node_t)
    (hn : G.node p = some n) : p < G.size := by
  by_contra h
  have := hs.bound p (by omega)
  rw [this] at hn
  cases hn

theorem sound_link (G : graph_t) (p c : Nat) (hs : sound G) (hp : p ∈ G.members)
    (hc : c ∈ G.members) : sound (G.map (link p c)) := by
  apply sound_map G (link p c) (fun _ _ => rfl) hs
  · intro q hq n hn x hx
    have hx1 : x ∈ n.children ∨ (q = p ∧ x = c) := by
      simp only [link] at hx
      split at hx
      · rcases (mem_locked_list_add _ _ _).mp hx with h | h
        · exact Or.inl h
        · exact Or.inr ⟨by assumption, h⟩
      · exact Or.inl hx
    rcases hx1 with h | ⟨h1, h2⟩
    · obtain ⟨hm, m, hm1, hm2⟩ := hs.down q hq n hn x h
      refine ⟨hm, m, hm1, ?_⟩
      simp only [link]
      split
      · exact (mem_locked_list_add _ _ _).mpr (Or.inl hm2)
      · exact hm2
    · subst h1 h2
      obtain ⟨m, hm⟩ := hs.live x hc
      refine ⟨hc, m, hm, ?_⟩
      simp only [link, if_true]
      exact (mem_locked_list_add _ _ _).mpr (Or.inr rfl)
  · intro q hq n hn x hx
    have hx1 : x ∈ n.parents ∨ (q = c ∧ x = p) := by
      simp only [link] at hx
      split at hx
      · rcases (mem_locked_list_add _ _ _).mp hx with h | h
        · exact Or.inl h
        · exact Or.inr ⟨by assumption, h⟩
      · exact Or.inl hx
    rcases hx1 with h | ⟨h1, h2⟩
    · obtain ⟨hm, m, hm1, hm2⟩ := hs.up q hq n hn x h
      refine ⟨hm, m, hm1, ?_⟩
      simp only [link]
      split
      · exact (mem_locked_list_add _ _ _).mpr (Or.inl hm2)
      · exact hm2
    · subst h1 h2
      obtain ⟨m, hm⟩ := hs.live x hp
      refine ⟨hp, m, hm, ?_⟩
      simp only [link, if_true]
      exact (mem_locked_list_add _ _ _).mpr (Or.inr rfl)

theorem add_append_form (L A : List Nat) (c : Nat) :
    ∃ A1, locked_list_add (L ++ A) c = L ++ A1 ∧ ∀ a ∈ A1, a ∈ A ∨ a = c := by
  unfold locked_list_add
  split
  · exact ⟨A, rfl, fun a h => Or.inl h⟩
  · refine ⟨A ++ [c], by simp, ?_⟩
    intro a ha
    simpa using ha

theorem tracked_link (G0 G : graph_t) (Ks : List search_info_t)
    (E : List (search_info_t × search_info_t)) (p c : Nat) (s k : search_info_t)
    (hps : keyed G p s) (hck : keyed G c k) (hE : (s, k) ∈ E) (hT : tracked G0 G Ks E) :
    tracked G0 (G.map (link p c)) Ks E := by
  apply tracked_map G0 G Ks Ks E E (link p c) (fun _ _ => rfl) hT
  intro q _ _ n0 n _ hn hf
  obtain ⟨h1, h2, ⟨A, hA, hA2⟩, ⟨B, hB, hB2⟩⟩ := hf
  refine ⟨h1, h2, ?_, ?_⟩
  · by_cases hqp : q = p
    · subst hqp
      have hks : n0.key = s := by rw [← h1]; exact key_of_keyed G q n s hn hps
      obtain ⟨A1, e1, e2⟩ := add_append_form n0.children A c
      refine ⟨A1, by simp only [link, if_true]; rw [hA, e1], ?_⟩
      intro a ha
      rcases e2 a ha with h | h
      · exact hA2 a h
      · subst h
        exact ⟨(s, k), hE, hks.symm, hck⟩
    · exact ⟨A, by simp only [link, if_neg hqp]; exact hA, hA2⟩
  · by_cases hqc : q = c
    · subst hqc
      have hks : n0.key = k := by rw [← h1]; exact key_of_keyed G q n k hn hck
      obtain ⟨B1, e1, e2⟩ := add_append_form n0.parents B p
      refine ⟨B1, by simp only [link, if_true]; rw [hB, e1], ?_⟩
      intro b hb
      rcases e2 b hb with h | h
      · exact hB2 b h
      · subst h
        exact ⟨(s, k), hE, hps, hks.symm⟩
    · exact ⟨B, by simp only [link, if_neg hqc]; exact hB, hB2⟩

theorem sound_unlink (G : graph_t) (p c : Nat) (hs : sound G) :
    sound (G.map (unlink p c)) := by
  apply sound_map G (unlink p c) (fun _ _ => rfl) hs
  · intro q hq n hn x hx
    have hx1 : x ∈ n.children ∧ (q = p → x ≠ c) := by
      simp only [unlink] at hx
      split at hx
      · rw [mem_locked_list_remove] at hx
        exact ⟨hx.1, fun _ => hx.2⟩
      · exact ⟨hx, fun h => absurd h (by assumption)⟩
    obtain ⟨hm, m, hm1, hm2⟩ := hs.down q hq n hn x hx1.1
    refine ⟨hm, m, hm1, ?_⟩
    simp only [unlink]
    split
    · rw [mem_locked_list_remove]
      refine ⟨hm2, ?_⟩
      intro e
      exact hx1.2 e (by assumption)
    · exact hm2
  · intro q hq n hn x hx
    have hx1 : x ∈ n.parents ∧ (q = c → x ≠ p) := by
      simp only [unlink] at hx
      split at hx
      · rw [mem_locked_list_remove] at hx
        exact ⟨hx.1, fun _ => hx.2⟩
      · exact ⟨hx, fun h => absurd h (by assumption)⟩
    obtain ⟨hm, m, hm1, hm2⟩ := hs.up q hq n hn x hx1.1
    refine ⟨hm, m, hm1, ?_⟩
    simp only [unlink]
    split
    · rw [mem_locked_list_remove]
      refine ⟨hm2, ?_⟩
      intro e
      exact hx1.2 e (by assumption)
    · exact hm2

theorem remove_append_form (L A : List Nat) (c : Nat) (h : c ∉ L) :
    locked_list_remove (L ++ A) c = L ++ locked_list_remove A c := by
  unfold locked_list_remove
  rw [List.filter_append]
  congr 1
  rw [List.filter_eq_self]
  intro a ha
  simp only [bne_iff_ne, ne_eq]
  intro e
  subst e
  exact h ha

theorem tracked_unlink (G0 G : graph_t) (Ks : List search_info_t)
    (E : List (search_info_t × search_info_t)) (p c : Nat) (s k : search_info_t)
    (hs : sound G) (hs0 : sound G0) (hc : c ∈ G.members) (hck : keyed G c k)
    (hsub : subject G s p) (hfr : fresh G0 (s, k))
    (hT : tracked G0 G Ks ((s, k) :: E)) :
    tracked G0 (G.map (unlink p c)) Ks E := by
  apply tracked_map G0 G Ks Ks ((s, k) :: E) E (unlink p c) (fun _ _ => rfl) hT
  intro q hq hq0 n0 n hn0 hn hf
  obtain ⟨h1, h2, ⟨A, hA, hA2⟩, ⟨B, hB, hB2⟩⟩ := hf
  refine ⟨h1, h2, ?_, ?_⟩
  · by_cases hqp : q = p
    · subst hqp
      have hks : n0.key = s := by rw [← h1]; exact key_of_keyed G q n s hn (hsub.2 hq)
      have hcL : c ∉ n0.children := by
        intro hcl
        obtain ⟨hc0, x0, hx0, _⟩ := hs0.down q hq0 n0 hn0 c hcl
        obtain ⟨nc, hnc, hfc⟩ := hT c hc hc0 x0 hx0
        have : x0.key = k := by rw [← hfc.1]; exact key_of_keyed G c nc k hnc hck
        exact hfr q hq0 n0 hn0 hks c hcl x0 hx0 this
      refine ⟨locked_list_remove A c, ?_, ?_⟩
      · simp only [unlink, if_true]
        rw [hA, remove_append_form _ _ _ hcL]
      · intro a ha
        rw [mem_locked_list_remove] at ha
        obtain ⟨sk, hsk, e1, e2⟩ := hA2 a ha.1
        rcases List.mem_cons.mp hsk with h | h
        · subst h
          have ham : a ∈ G.members := (hs.down q hq n hn a (by rw [hA]; simp [ha.1])).1
          exact absurd (hs.unique a ham c hc k e2 hck) ha.2
        · exact ⟨sk, h, e1, e2⟩
    · refine ⟨A, by simp only [unlink, if_neg hqp]; exact hA, ?_⟩
      intro a ha
      obtain ⟨sk, hsk, e1, e2⟩ := hA2 a ha
      rcases List.mem_cons.mp hsk with h | h
      · subst h
        exact absurd (hsub.1 q hq ⟨n, hn, by rw [h1, ← e1]⟩) hqp
      · exact ⟨sk, h, e1, e2⟩
  · by_cases hqc : q = c
    · subst hqc
      have hkk : n0.key = k := by rw [← h1]; exact key_of_keyed G q n k hn hck
      have hpP : p ∉ n0.parents := by
        intro hpl
        obtain ⟨hp0, x0, hx0, hcx⟩ := hs0.up q hq0 n0 hn0 p hpl
        have hpm : p ∈ G.members := (hs.up q hq n hn p (by rw [hB]; simp [hpl])).1
        obtain ⟨np, hnp, hfp⟩ := hT p hpm hp0 x0 hx0
        have : x0.key = s := by rw [← hfp.1]; exact key_of_keyed G p np s hnp (hsub.2 hpm)
        exact hfr p hp0 x0 hx0 this q hcx n0 hn0 hkk
      refine ⟨locked_list_remove B p, ?_, ?_⟩
      · simp only [unlink, if_true]
        rw [hB, remove_append_form _ _ _ hpP]
      · intro b hb
        rw [mem_locked_list_remove] at hb
        obtain ⟨sk, hsk, e1, e2⟩ := hB2 b hb.1
        rcases List.mem_cons.mp hsk with h | h
        · subst h
          have hbm : b ∈ G.members := (hs.up q hq n hn b (by rw [hB]; simp [hb.1])).1
          exact absurd (hsub.1 b hbm e1) hb.2
        · exact ⟨sk, h, e1, e2⟩
    · refine ⟨B, by simp only [unlink, if_neg hqc]; exact hB, ?_⟩
      intro b hb
      obtain ⟨sk, hsk, e1, e2⟩ := hB2 b hb
      rcases List.mem_cons.mp hsk with h | h
      · subst h
        exact absurd (hs.unique q hq c hc k ⟨n, hn, by rw [h1, ← e2]⟩ hck) hqc
      · exact ⟨sk, h, e1, e2⟩

theorem not_child_of_isolated (G : graph_t) (hs : sound G) (x : Nat) (hx : isolated G x)
    (q : Nat) (hq : q ∈ G.members) (n : node_t) (hn : G.node q = some n) :
    x ∉ n.children ∧ x ∉ n.parents := by
  obtain ⟨m, hm, h1, h2⟩ := hx
  constructor
  · intro h
    obtain ⟨_, y, hy, hy2⟩ := hs.down q hq n hn x h
    rw [hm] at hy
    cases hy
    rw [h2] at hy2
    cases hy2
  · intro h
    obtain ⟨_, y, hy, hy2⟩ := hs.up q hq n hn x h
    rw [hm] at hy
    cases hy
    rw [h1] at hy2
    cases hy2

theorem drop_node_ne (G : graph_t) (x : Nat) (o : Option node_t) (q : Nat) (h : q ≠ x) :
    (G.drop x o).node q = G.node q := by
  simp [graph_t.drop, h]

theorem mem_drop (G : graph_t) (x : Nat) (o : Option node_t) (q : Nat) :
    q ∈ (G.drop x o).members ↔ q ∈ G.members ∧ q ≠ x := by
  simp [graph_t.drop, mem_locked_list_remove]

theorem keyed_drop (G : graph_t) (x : Nat) (o : Option node_t) (q : Nat) (h : q ≠ x)
    (k : search_info_t) : keyed (G.drop x o) q k ↔ keyed G q k := by
  unfold keyed
  rw [drop_node_ne G x o q h]

theorem sound_drop (G : graph_t) (x : Nat) (o : Option node_t) (hs : sound G)
    (hx : isolated G x) : sound (G.drop x o) := by
  constructor
  · intro p hp
    rw [mem_drop] at hp
    rw [drop_node_ne G x o p hp.2]
    exact hs.live p hp.1
  · intro p hp
    have hp1 : G.size ≤ p := hp
    have hne : p ≠ x := by
      intro e
      subst e
      obtain ⟨n, hn, _⟩ := hx
      have := lt_size_of_node G hs p n hn
      omega
    rw [drop_node_ne G x o p hne]
    exact hs.bound p hp1
  · intro p hp q hq k h1 h2
    rw [mem_drop] at hp hq
    rw [keyed_drop G x o p hp.2] at h1
    rw [keyed_drop G x o q hq.2] at h2
    exact hs.unique p hp.1 q hq.1 k h1 h2
  · intro p hp n hn c hc
    rw [mem_drop] at hp
    rw [drop_node_ne G x o p hp.2] at hn
    obtain ⟨h1, m, hm, h2⟩ := hs.down p hp.1 n hn c hc
    have hne : c ≠ x := by
      intro e
      subst e
      exact (not_child_of_isolated G hs c hx p hp.1 n hn).1 hc
    exact ⟨(mem_drop G x o c).mpr ⟨h1, hne⟩, m, by rw [drop_node_ne G x o c hne]; exact hm, h2⟩
  · intro p hp n hn c hc
    rw [mem_drop] at hp
    rw [drop_node_ne G x o p hp.2] at hn
    obtain ⟨h1, m, hm, h2⟩ := hs.up p hp.1 n hn c hc
    have hne : c ≠ x := by
      intro e
      subst e
      exact (not_child_of_isolated G hs c hx p hp.1 n hn).2 hc
    exact ⟨(mem_drop G x o c).mpr ⟨h1, hne⟩, m, by rw [drop_node_ne G x o c hne]; exact hm, h2⟩

theorem tracked_drop (G0 G : graph_t) (Ks : List search_info_t)
    (E : List (search_info_t × search_info_t)) (x : Nat) (o : Option node_t)
    (hs : sound G) (hx : isolated G x) (hT : tracked G0 G Ks E) :
    tracked G0 (G.drop x o) Ks E := by
  intro q hq hq0 n0 hn0
  rw [mem_drop] at hq
  obtain ⟨n, hn, hf⟩ := hT q hq.1 hq0 n0 hn0
  refine ⟨n, by rw [drop_node_ne G x o q hq.2]; exact hn, ?_⟩
  apply follows_congr G _ n0 n Ks E _ hf
  intro a k hk ha
  have hne : a ≠ x := by
    intro e
    subst e
    have := not_child_of_isolated G hs a hx q hq.1 n hn
    rcases ha with h | h
    · exact this.1 h
    · exact this.2 h
  exact (keyed_drop G x o a hne k).mpr hk

theorem subject_drop (G : graph_t) (x : Nat) (o : Option node_t) (s : search_info_t)
    (p : Nat) (h : subject G s p) : subject (G.drop x o) s p := by
  constructor
  · intro q hq hk
    rw [mem_drop] at hq
    rw [keyed_drop G x o q hq.2] at hk
    exact h.1 q hq.1 hk
  · intro hp
    rw [mem_drop] at hp
    rw [keyed_drop G x o p hp.2]
    exact h.2 hp.1

theorem append_node_old (G : graph_t) (hs : sound G) (x : node_t) (q : Nat) (n : node_t)
    (hn : G.node q = some n) : (G.append x).node q = some n := by
  have := lt_size_of_node G hs q n hn
  have hne : q ≠ G.size := by omega
  simp [graph_t.append, hne, hn]

theorem mem_append (G : graph_t) (x : node_t) (q : Nat) :
    q ∈ (G.append x).members ↔ q ∈ G.members ∨ q = G.size := by
  simp [graph_t.append]

theorem member_ne_size (G : graph_t) (hs : sound G) (q : Nat) (hq : q ∈ G.members) :
    q ≠ G.size := by
  obtain ⟨n, hn⟩ := hs.live q hq
  have := lt_size_of_node G hs q n hn
  omega

theorem keyed_append_old (G : graph_t) (x : node_t) (q : Nat) (h : q ≠ G.size)
    (k : search_info_t) : keyed (G.append x) q k ↔ keyed G q k := by
  unfold keyed
  simp [graph_t.append, h]

theorem sound_append (G : graph_t) (x : node_t) (hs : sound G) (hc : x.children = [])
    (hp : x.parents = []) (hno : ∀ q ∈ G.members, ¬ keyed G q x.key) :
    sound (G.append x) := by
  constructor
  · intro p hp
    rcases (mem_append G x p).mp hp with h | h
    · obtain ⟨n, hn⟩ := hs.live p h
      exact ⟨n, append_node_old G hs x p n hn⟩
    · subst h
      exact ⟨x, by simp [graph_t.append]⟩
  · intro p hp
    have hp1 : G.size + 1 ≤ p := hp
    have hne : p ≠ G.size := by omega
    simp only [graph_t.append, if_neg hne]
    exact hs.bound p (by omega)
  · intro p hp q hq k h1 h2
    rcases (mem_append G x p).mp hp with h | h
    · rw [keyed_append_old G x p (member_ne_size G hs p h)] at h1
      rcases (mem_append G x q).mp hq with h3 | h3
      · rw [keyed_append_old G x q (member_ne_size G hs q h3)] at h2
        exact hs.unique p h q h3 k h1 h2
      · subst h3
        obtain ⟨y, hy, hyk⟩ := h2
        simp [graph_t.append] at hy
        subst hy
        subst hyk
        exact absurd h1 (hno p h)
    · subst h
      obtain ⟨y, hy, hyk⟩ := h1
      simp [graph_t.append] at hy
      subst hy
      subst hyk
      rcases (mem_append G x q).mp hq with h3 | h3
      · rw [keyed_append_old G x q (member_ne_size G hs q h3)] at h2
        exact absurd h2 (hno q h3)
      · exact h3.symm
  · intro p hp n hn c hcc
    rcases (mem_append G x p).mp hp with h | h
    · have hne := member_ne_size G hs p h
      simp only [graph_t.append, if_neg hne] at hn
      obtain ⟨h1, m, hm, h2⟩ := hs.down p h n hn c hcc
      exact ⟨(mem_append G x c).mpr (Or.inl h1), m, append_node_old G hs x c m hm, h2⟩
    · subst h
      simp [graph_t.append] at hn
      subst hn
      rw [hc] at hcc
      cases hcc
  · intro p hp1 n hn c hcc
    rcases (mem_append G x p).mp hp1 with h | h
    · have hne := member_ne_size G hs p h
      simp only [graph_t.append, if_neg hne] at hn
      obtain ⟨h1, m, hm, h2⟩ := hs.up p h n hn c hcc
      exact ⟨(mem_append G x c).mpr (Or.inl h1), m, append_node_old G hs x c m hm, h2⟩
    · subst h
      simp [graph_t.append] at hn
      subst hn
      rw [hp] at hcc
      cases hcc

theorem tracked_append (G0 G : graph_t) (Ks : List search_info_t)
    (E : List (search_info_t × search_info_t)) (x : node_t)
    (hs0 : sound G0) (hs : sound G) (hsz : G0.size ≤ G.size) (hT : tracked G0 G Ks E) :
    tracked G0 (G.append x) Ks E := by
  intro q hq hq0 n0 hn0
  rcases (mem_append G x q).mp hq with h | h
  · obtain ⟨n, hn, hf⟩ := hT q h hq0 n0 hn0
    refine ⟨n, append_node_old G hs x q n hn, ?_⟩
    apply follows_congr G _ n0 n Ks E _ hf
    intro a k hk _
    obtain ⟨y, hy, hyk⟩ := hk
    exact ⟨y, append_node_old G hs x a y hy, hyk⟩
  · subst h
    have := lt_size_of_node G0 hs0 _ n0 hn0
    omega

theorem graph_of_eq (w w1 : World) (hh : w1.heap = w.heap) (he : w1.entities = w.entities) :
    graph_of w1 = graph_of w := by
  unfold graph_of
  rw [hh, he]
  congr
  funext p
  rw [deref_of_heap w w1 hh]

theorem heap_length_modify (w : World) (p : Nat) (f : ipmi_entity_t → ipmi_entity_t) :
    (modify w p f).heap.length = w.heap.length := by
  unfold modify
  cases deref w p <;> simp

theorem graph_ext (G G1 : graph_t) (hm : G1.members = G.members) (hz : G1.size = G.size)
    (hn : ∀ q, G1.node q = G.node q) : G1 = G := by
  obtain ⟨m, z, n⟩ := G
  obtain ⟨m1, z1, n1⟩ := G1
  simp only at hm hz hn
  subst hm hz
  have : n1 = n := funext hn
  subst this
  rfl

theorem graph_modify (w : World) (p : Nat) (g : ipmi_entity_t → ipmi_entity_t)
    (f : node_t → node_t) (h : ∀ e, deref w p = some e → node_of (g e) = f (node_of e)) :
    graph_of (modify w p g) = (graph_of w).map (fun q n => if q = p then f n else n) := by
  apply graph_ext
  · simp [graph_of, graph_t.map]
  · simp [graph_of, graph_t.map, heap_length_modify]
  · intro q
    simp only [graph_of, graph_t.map]
    by_cases hq : q = p
    · subst hq
      cases hd : deref w q with
      | none => rw [modify_none w q g hd, hd]; rfl
      | some e =>
        rw [deref_modify_same w q g e hd]
        simp [h e hd]
    · rw [deref_modify_ne w p q g hq]
      cases deref w q <;> simp [hq]

theorem graph_map_id (G : graph_t) (F : Nat → node_t → node_t)
    (h : ∀ q n, G.node q = some n → F q n = n) : G.map F = G := by
  apply graph_ext
  · rfl
  · rfl
  · intro q
    simp only [graph_t.map]
    cases hq : G.node q with
    | none => rfl
    | some n => simp [h q n hq]

theorem graph_modify_inert (w : World) (p : Nat) (g : ipmi_entity_t → ipmi_entity_t)
    (h : ∀ e, deref w p = some e → node_of (g e) = node_of e) :
    graph_of (modify w p g) = graph_of w := by
  rw [graph_modify w p g (fun n => n) h]
  apply graph_map_id
  intro q n _
  split <;> rfl

theorem keyed_graph_of (w : World) (p : Nat) (k : search_info_t) :
    keyed (graph_of w) p k ↔ ∃ e, deref w p = some e ∧ has_key e k := by
  unfold keyed graph_of has_key
  simp only
  constructor
  · rintro ⟨x, hx, hk⟩
    cases hd : deref w p with
    | none => rw [hd] at hx; cases hx
    | some e =>
      rw [hd] at hx
      simp only [Option.map_some', Option.some.injEq] at hx
      subst hx
      subst hk
      exact ⟨e, rfl, rfl, rfl, rfl⟩
  · rintro ⟨e, hd, h1, h2, h3⟩
    refine ⟨node_of e, by rw [hd]; rfl, ?_⟩
    obtain ⟨⟨c, a⟩, i, n⟩ := k
    simp only [node_of, key_of] at *
    simp [h1, h2, h3]

theorem graph_entity_find (w : World) (dn : ipmi_device_num_t) (id inst : Int) :
    graph_of (entity_find w dn id inst).2.2 = graph_of w
    ∧ (((entity_find w dn id inst).1 = 0
        ∧ ∃ p, (entity_find w dn id inst).2.1 = some p ∧ p ∈ w.entities
          ∧ keyed (graph_of w) p (search_info_of dn id inst))
      ∨ ((entity_find w dn id inst).1 = ENODEV ∧ (entity_find w dn id inst).2.1 = none
        ∧ ∀ q ∈ w.entities, ¬ keyed (graph_of w) q (search_info_of dn id inst))) := by
  rcases entity_find_cases w dn id inst with ⟨hno, hm⟩ | ⟨p, e, hp, he, h1, h2, h3, hf⟩
  · rw [hm]
    refine ⟨rfl, Or.inr ⟨rfl, rfl, ?_⟩⟩
    intro q hq hk
    obtain ⟨e, hd, hk2⟩ := (keyed_graph_of w q _).mp hk
    exact hno ⟨q, hq, e, hd, hk2⟩
  · rw [hf]
    refine ⟨?_, Or.inl ⟨rfl, p, rfl, hp, ?_⟩⟩
    · have := graph_modify_inert w p (fun e => { e with usecount := e.usecount + 1 })
        (fun _ _ => rfl)
      rw [modify_eq_set w p _ e he] at this
      exact this
    · exact (keyed_graph_of w p _).mpr ⟨e, he, h1, h2, h3⟩

theorem graph_entity_add (w : World) (dn : ipmi_device_num_t) (id inst : Int)
    (out data : Nat) :
    (∃ p wa, entity_add w dn id inst out data = (0, some p, wa)
        ∧ ((graph_of wa = graph_of w ∧ p ∈ w.entities
            ∧ keyed (graph_of w) p (search_info_of dn id inst))
          ∨ (graph_of wa
              = (graph_of w).append
                  { rc := 0, key := search_info_of dn id inst, children := [], parents := [] }
            ∧ p = w.heap.length
            ∧ ∀ q ∈ w.entities, ¬ keyed (graph_of w) q (search_info_of dn id inst))))
    ∨ (∃ wa, entity_add w dn id inst out data = (ENOMEM, none, wa)
        ∧ graph_of wa = graph_of w) := by
  rcases entity_find_cases w dn id inst with ⟨hno, hm⟩ | ⟨p, e, hp, he, h1, h2, h3, hf⟩
  · have hno2 : ∀ q ∈ w.entities, ¬ keyed (graph_of w) q (search_info_of dn id inst) := by
      intro q hq hk
      obtain ⟨e, hd, hk2⟩ := (keyed_graph_of w q _).mp hk
      exact hno ⟨q, hq, e, hd, hk2⟩
    unfold entity_add
    rw [hm]
    simp only [ENODEV]
    have t1 := take_alloc_same w
    rcases hta : take_alloc w with ⟨b, w2⟩
    rw [hta] at t1
    simp only at t1
    cases b with
    | false =>
      right
      exact ⟨w2, rfl, graph_of_eq w w2 t1.1 t1.2.1⟩
    | true =>
      simp only [ipmi_get_seq]
      have t2 := take_allocs_same 14 { w2 with next_seq := w2.next_seq + 1 }
      rcases htb : take_allocs 14 { w2 with next_seq := w2.next_seq + 1 } with ⟨b2, w4⟩
      rw [htb] at t2
      simp only at t2
      have hh : w4.heap = w.heap := t2.1.trans t1.1
      have hee : w4.entities = w.entities := t2.2.1.trans t1.2.1
      cases b2 with
      | false =>
        right
        exact ⟨w4, rfl, graph_of_eq w w4 hh hee⟩
      | true =>
        left
        refine ⟨w4.heap.length, _, rfl, Or.inr ⟨?_, by rw [hh], hno2⟩⟩
        apply graph_ext
        · simp [graph_of, graph_t.append, call_entity_update_handlers, hh, hee]
        · simp [graph_of, graph_t.append, call_entity_update_handlers, hh]
        · intro q
          simp only [graph_of, graph_t.append, call_entity_update_handlers, deref, hh]
          by_cases hq : q = w.heap.length
          · subst hq
            simp [node_of, key_of, new_entity, search_info_of]
          · simp only [if_neg hq]
            by_cases hlt : q < w.heap.length
            · simp [List.getElem?_append_left hlt]
            · have h5 : w.heap.length < q := by omega
              have h6 : (w.heap ++ [some (new_entity w4 w2.next_seq dn id inst out data)])[q]?
                  = none := by
                apply List.getElem?_eq_none
                simp
                omega
              have h7 : w.heap[q]? = none := List.getElem?_eq_none (by omega)
              rw [h6, h7]
  · left
    have hadd := entity_add_hit w dn id inst out data p e he hf
    refine ⟨p, _, hadd, Or.inl ⟨?_, hp, (keyed_graph_of w p _).mpr ⟨e, he, h1, h2, h3⟩⟩⟩
    have := graph_modify_inert w p (fun x =>
        { e with usecount := e.usecount + 1,
                 sdr_gen_output := if out != 0 then out else e.sdr_gen_output,
                 sdr_gen_cb_data := if out != 0 then data else e.sdr_gen_cb_data })
      (fun x hx => by rw [he] at hx; cases hx; rfl)
    rw [modify_eq_set w p _ e he] at this
    exact this

theorem heap_length_put (w : World) (p : Nat) :
    (_ipmi_entity_put w p).heap.length = w.heap.length := by
  have hm : ∀ (w : World) (f : ipmi_entity_t → ipmi_entity_t),
      (modify w p f).heap.length = w.heap.length := fun w f => heap_length_modify w p f
  have ht : ∀ (w : World) (r : Bool), (destroy_timer w p r).heap.length = w.heap.length := by
    intro w r
    unfold destroy_timer stop_timer
    cases r with
    | false => rfl
    | true =>
      simp only [if_true]
      cases w.timer_stops with
      | nil => simp only [if_true]; rw [hm]
      | cons a rest =>
        simp only
        split
        · rw [hm]
        · rfl
  have hf : ∀ (w : World), (entity_final_destroy w p).heap.length = w.heap.length := by
    intro w
    unfold entity_final_destroy
    split
    · rfl
    · split
      · rfl
      · simp [mem_free]
  have hd : ∀ (w : World), (destroy_entity w p).heap.length = w.heap.length := by
    intro w
    unfold destroy_entity
    split
    · rfl
    · rw [hf, ht, ht, hm]
  cases hd0 : deref w p with
  | none => simp [_ipmi_entity_put, hd0]
  | some e =>
    by_cases h1 : e.usecount = 1
    · cases hr : cleanup_ready e with
      | true =>
        have hput : _ipmi_entity_put w p = destroy_entity
            { (call_entity_update_handlers (modify w p (fun e => { e with destroyed := true }))
                p IPMI_DELETED) with
              entities := locked_list_remove w.entities p } p := by
          unfold _ipmi_entity_put cleanup_entity
          simp [hd0, h1, hr, call_entity_update_handlers]
        rw [hput, hd]
        simp [call_entity_update_handlers, hm]
      | false =>
        rw [put_last_not_ready w p e hd0 h1 hr]
        simp
    · rw [put_not_last w p e hd0 h1]
      simp

theorem graph_entity_put (w : World) (p : Nat) :
    graph_of (_ipmi_entity_put w p) = graph_of w
    ∨ (isolated (graph_of w) p
      ∧ ∃ o, graph_of (_ipmi_entity_put w p) = (graph_of w).drop p o) := by
  cases hd : deref w p with
  | none =>
    left
    simp [_ipmi_entity_put, hd]
  | some e =>
    by_cases h1 : e.usecount = 1
    · cases hr : cleanup_ready e with
      | true =>
        right
        obtain ⟨_, hm, _, ho⟩ := put_last_ready w p e hd h1 hr
        constructor
        · refine ⟨node_of e, by simp [graph_of, hd], ?_⟩
          simp only [cleanup_ready, Bool.not_eq_true', Bool.or_eq_false_iff, bne_eq_false_iff_eq,
            List.length_eq_zero] at hr
          exact ⟨hr.1.1.1.2, hr.1.1.2⟩
        · refine ⟨(deref (_ipmi_entity_put w p) p).map node_of, ?_⟩
          apply graph_ext
          · simp [graph_of, graph_t.drop, hm]
          · simp [graph_of, graph_t.drop, heap_length_put]
          · intro q
            simp only [graph_of, graph_t.drop]
            by_cases hq : q = p
            · subst hq
              simp
            · rw [if_neg hq, ho q hq]
      | false =>
        left
        rw [put_last_not_ready w p e hd h1 hr]
        have := graph_modify_inert w p (fun x => { e with usecount := 0 })
          (fun x hx => by rw [hd] at hx; cases hx; rfl)
        rw [modify_eq_set w p _ e hd] at this
        exact this
    · left
      rw [put_not_last w p e hd h1]
      have := graph_modify_inert w p (fun x => { e with usecount := e.usecount - 1 })
        (fun x hx => by rw [hd] at hx; cases hx; rfl)
      rw [modify_eq_set w p _ e hd] at this
      exact this

theorem graph_map_map (G : graph_t) (F F1 : Nat → node_t → node_t) :
    (G.map F).map F1 = G.map (fun q n => F1 q (F q n)) := by
  apply graph_ext
  · rfl
  · rfl
  · intro q
    simp only [graph_t.map]
    cases G.node q <;> rfl

theorem graph_map_congr (G : graph_t) (F F1 : Nat → node_t → node_t)
    (h : ∀ q n, F q n = F1 q n) : G.map F = G.map F1 := by
  have : F = F1 := funext (fun q => funext (fun n => h q n))
  rw [this]

theorem modify_modify (w : World) (p : Nat) (f g : ipmi_entity_t → ipmi_entity_t) :
    modify (modify w p f) p g = modify w p (fun e => g (f e)) := by
  cases hd : deref w p with
  | none => rw [modify_none w p f hd, modify_none w p g hd, modify_none w p _ hd]
  | some e =>
    have h1 := deref_modify_same w p f e hd
    rw [modify_eq_set _ p g (f e) h1, modify_eq_set w p f e hd, modify_eq_set w p _ e hd]
    simp

theorem graph_add_child (w : World) (p c : Nat) :
    graph_of (add_child w p c) = (graph_of w).map (link p c) := by
  unfold add_child
  simp only
  refine Eq.trans (graph_modify_inert _ _ _ (fun _ _ => rfl)) ?_
  refine Eq.trans (graph_modify _ _ _
    (fun n => { n with parents := locked_list_add n.parents p }) (fun _ _ => rfl)) ?_
  refine Eq.trans (congrArg (fun G => graph_t.map G _) (graph_modify _ _ _
    (fun n => { n with children := locked_list_add n.children c }) (fun _ _ => rfl))) ?_
  simp only
  rw [graph_map_map]
  apply graph_map_congr
  intro q n
  by_cases h1 : q = p
  · subst h1
    by_cases h2 : q = c
    · subst h2
      simp [link]
    · simp [link, h2]
  · by_cases h2 : q = c
    · subst h2
      simp [link, h1]
    · simp [link, h1, h2]

theorem graph_remove_child (w : World) (p c : Nat) :
    graph_of (ipmi_entity_remove_child w p c).2 = (graph_of w).map (unlink p c) := by
  have key : graph_of (modify (modify (modify w p (fun e =>
        { e with child_entities := locked_list_remove e.child_entities c })) c (fun x =>
        { x with parent_entities := locked_list_remove x.parent_entities p })) p (fun e =>
        { e with presence_possibly_changed := true }))
      = (graph_of w).map (unlink p c) := by
    refine Eq.trans (graph_modify_inert _ _ _ (fun _ _ => rfl)) ?_
    refine Eq.trans (graph_modify _ _ _
      (fun n => { n with parents := locked_list_remove n.parents p }) (fun _ _ => rfl)) ?_
    refine Eq.trans (congrArg (fun G => graph_t.map G _) (graph_modify _ _ _
      (fun n => { n with children := locked_list_remove n.children c }) (fun _ _ => rfl))) ?_
    simp only
    rw [graph_map_map]
    apply graph_map_congr
    intro q n
    by_cases h1 : q = p
    · subst h1
      by_cases h2 : q = c
      · subst h2
        simp [unlink]
      · simp [unlink, h2]
    · by_cases h2 : q = c
      · subst h2
        simp [unlink, h1]
      · simp [unlink, h1, h2]
  unfold ipmi_entity_remove_child
  simp only
  split
  · rw [← key]
    exact graph_of_eq _ _ rfl rfl
  · exact key

theorem graph_commit_frudev (env : Nat → Nat → mc_reply_t) (d : dlr_info_t) (p : Nat)
    (ch : Option Nat) (ipmb rv : Nat) (w : World) :
    graph_of (commit_frudev env d p ch ipmb rv w).2 = graph_of w := by
  unfold commit_frudev
  split
  · rfl
  · split
    · rfl
    · split
      · simp only
        split
        · rfl
        · split
          · rfl
          · split
            · rfl
            · exact graph_modify_inert _ _ _ (fun _ _ => rfl)
      · rfl

theorem graph_commit_new_dlr (env : Nat → Nat → mc_reply_t) (d : dlr_info_t) (p : Nat)
    (rv : Nat) (w : World) (hk : ∀ e, deref w p = some e → key_of e = dlr_key d) :
    graph_of (commit_new_dlr env d p rv w).2 = (graph_of w).map (bump p) := by
  have h1 : graph_of (modify (modify w p (fun e => { e with ref_count := u32_inc e.ref_count }))
      p (fun e => { e with info := d })) = (graph_of w).map (bump p) := by
    rw [modify_modify]
    refine Eq.trans (graph_modify w p _ (fun n => { n with rc := u32_inc n.rc }) ?_) ?_
    · intro e he
      have := hk e he
      simp only [node_of, key_of, dlr_key] at this ⊢
      simp only [search_info_t.mk.injEq] at this
      simp [this.1, this.2.1, this.2.2]
    · apply graph_map_congr
      intro q n
      simp [bump]
  have h2 : graph_of (modify (modify w p (fun e => { e with ref_count := u32_inc e.ref_count }))
      p (fun e => if e.info.FRU_inventory_device == 0 then { e with info := d } else e))
      = (graph_of w).map (bump p) := by
    rw [modify_modify]
    refine Eq.trans (graph_modify w p _ (fun n => { n with rc := u32_inc n.rc }) ?_) ?_
    · intro e he
      have := hk e he
      simp only [node_of, key_of, dlr_key] at this ⊢
      simp only [search_info_t.mk.injEq] at this
      split
      · simp [this.1, this.2.1, this.2.2]
      · rfl
    · apply graph_map_congr
      intro q n
      simp [bump]
  unfold commit_new_dlr
  simp only
  split
  · rw [graph_commit_frudev, h1]
  · split
    · split
      · rw [graph_commit_frudev, h1]
      · rw [graph_commit_frudev, ← h2]
        exact graph_of_eq _ _ rfl rfl
    · rw [graph_commit_frudev, h1]

theorem steps_refl (G : graph_t) (hs : sound G) : steps G G :=
  ⟨hs, Nat.le_refl _, fun _ _ _ _ _ h => h⟩

theorem steps_trans (G G1 G2 : graph_t) (h1 : steps G G1) (h2 : steps G1 G2) : steps G G2 :=
  ⟨h2.ok, Nat.le_trans h1.size h2.size, fun G0 Ks E hs0 hz hT =>
    h2.track G0 Ks E hs0 (Nat.le_trans hz h1.size) (h1.track G0 Ks E hs0 hz hT)⟩

theorem grows_refl (G : graph_t) (hs : sound G) : grows G G :=
  ⟨steps_refl G hs, fun _ h => h, fun _ _ h => h⟩

theorem grows_trans (G G1 G2 : graph_t) (h1 : grows G G1) (h2 : grows G1 G2) : grows G G2 :=
  ⟨steps_trans G G1 G2 h1.all h2.all, fun a h => h2.members a (h1.members a h),
    fun a k h => h2.keys a k (h1.keys a k h)⟩

theorem grows_of_eq (G G1 : graph_t) (h : G1 = G) (hs : sound G) : grows G G1 := by
  subst h
  exact grows_refl _ hs

theorem grows_append (G : graph_t) (x : node_t) (hs : sound G) (hc : x.children = [])
    (hp : x.parents = []) (hno : ∀ q ∈ G.members, ¬ keyed G q x.key) :
    grows G (G.append x) := by
  refine ⟨⟨sound_append G x hs hc hp hno, by simp [graph_t.append], ?_⟩, ?_, ?_⟩
  · intro G0 Ks E hs0 hz hT
    exact tracked_append G0 G Ks E x hs0 hs hz hT
  · intro a ha
    exact (mem_append G x a).mpr (Or.inl ha)
  · intro a k hk
    obtain ⟨y, hy, hyk⟩ := hk
    exact ⟨y, append_node_old G hs x a y hy, hyk⟩

theorem steps_drop (G : graph_t) (x : Nat) (o : Option node_t) (hs : sound G)
    (hx : isolated G x) : steps G (G.drop x o) :=
  ⟨sound_drop G x o hs hx, Nat.le_refl _, fun G0 Ks E _ _ hT =>
    tracked_drop G0 G Ks E x o hs hx hT⟩

theorem steps_put (w : World) (p : Nat) (hs : sound (graph_of w)) :
    steps (graph_of w) (graph_of (_ipmi_entity_put w p)) := by
  rcases graph_entity_put w p with h | ⟨hx, o, h⟩
  · rw [h]
    exact steps_refl _ hs
  · rw [h]
    exact steps_drop _ p o hs hx

theorem grows_entity_add (w : World) (dn : ipmi_device_num_t) (id inst : Int)
    (out data : Nat) (hs : sound (graph_of w)) :
    grows (graph_of w) (graph_of (entity_add w dn id inst out data).2.2) := by
  rcases graph_entity_add w dn id inst out data with ⟨p, wa, hadd, h | h⟩ | ⟨wa, hadd, h⟩
  · rw [hadd]
    exact grows_of_eq _ _ h.1 hs
  · rw [hadd]
    simp only
    rw [h.1]
    exact grows_append _ _ hs rfl rfl h.2.2
  · rw [hadd]
    exact grows_of_eq _ _ h hs

theorem resolves_grows (G G1 : graph_t) (h : grows G G1)
    (ks : List (ipmi_device_num_t × Nat × Nat)) (cs : List Nat)
    (hf : List.Forall₂ (resolves G) ks cs) : List.Forall₂ (resolves G1) ks cs :=
  hf.imp (fun _ _ hr => ⟨h.members _ hr.1, h.keys _ _ hr.2⟩)

theorem member_entity_add (w : World) (dn : ipmi_device_num_t) (id inst : Int)
    (out data : Nat) (p : Nat) (wa : World)
    (hadd : entity_add w dn id inst out data = (0, some p, wa)) :
    p ∈ (graph_of wa).members ∧ keyed (graph_of wa) p (search_info_of dn id inst) := by
  rcases graph_entity_add w dn id inst out data with ⟨p1, wa1, hadd1, h | h⟩ | ⟨wa1, hadd1, _⟩
  · rw [hadd] at hadd1
    simp only [Prod.mk.injEq, Option.some.injEq, true_and] at hadd1
    obtain ⟨e1, e2⟩ := hadd1
    subst e1 e2
    rw [h.1]
    exact ⟨h.2.1, h.2.2⟩
  · rw [hadd] at hadd1
    simp only [Prod.mk.injEq, Option.some.injEq, true_and] at hadd1
    obtain ⟨e1, e2⟩ := hadd1
    subst e1 e2
    rw [h.1, h.2.1]
    constructor
    · exact (mem_append _ _ _).mpr (Or.inr rfl)
    · exact ⟨{ rc := 0, key := search_info_of dn id inst, children := [], parents := [] },
        by simp [graph_t.append, graph_of], rfl⟩
  · rw [hadd] at hadd1
    simp [ENOMEM] at hadd1

theorem getD_mid {α : Type} (pre : List α) (f : α) (post : List α) (d : α) :
    (pre ++ f :: post).getD pre.length d = f := by
  induction pre with
  | nil => rfl
  | cons a pre ih => simpa using ih

theorem set_mid {α : Type} (pre : List α) (f g : α) (post : List α) :
    (pre ++ f :: post).set pre.length g = pre ++ g :: post := by
  induction pre with
  | nil => rfl
  | cons a pre ih => simp

theorem fill_in_children_spec (t : Nat) (ks : List (ipmi_device_num_t × Nat × Nat)) :
    ∀ (w : World) (pre : List entity_found_t) (f : entity_found_t)
      (post : List entity_found_t), pre.length = t → sound (graph_of w) →
      ∀ rv founds1 w1, fill_in_children t ks w (pre ++ f :: post) = (rv, founds1, w1) →
        steps (graph_of w) (graph_of w1)
        ∧ (rv = 0 → grows (graph_of w) (graph_of w1)
            ∧ ∃ f1, founds1 = pre ++ f1 :: post ∧ f1.found = f.found ∧ f1.ent = f.ent
              ∧ ∃ cs, f1.cent = f.cent ++ cs
                ∧ List.Forall₂ (resolves (graph_of w1)) ks cs) := by
  induction ks with
  | nil =>
    intro w pre f post _ hs rv founds1 w1 hr
    simp only [fill_in_children, Prod.mk.injEq] at hr
    obtain ⟨h1, h2, h3⟩ := hr
    subst h1 h2 h3
    exact ⟨steps_refl _ hs, fun _ => ⟨grows_refl _ hs, f, rfl, rfl, rfl, [], by simp,
      List.Forall₂.nil⟩⟩
  | cons k ks ih =>
    obtain ⟨dn, id, inst⟩ := k
    intro w pre f post hlen hs rv founds1 w1 hr
    unfold fill_in_children at hr
    have hg := grows_entity_add w dn id inst 0 0 hs
    rcases graph_entity_add w dn id inst 0 0 with ⟨p, wa, hadd, _⟩ | ⟨wa, hadd, _⟩
    · have hmem := member_entity_add w dn id inst 0 0 p wa hadd
      rw [hadd] at hr hg
      simp only at hr hg
      have hget : (pre ++ f :: post).getD t found_zero = f := by
        subst hlen
        exact getD_mid pre f post found_zero
      rw [hget] at hr
      rcases add_child_ent_cases wa f p with
        ⟨f1, wb, hac, hf1, he1, hc1, hheap, hent⟩ | ⟨wb, hac, hheap, hent⟩
      · rw [hac] at hr
        simp only at hr
        have hgb : graph_of wb = graph_of wa := graph_of_eq wa wb hheap hent
        have hset : (pre ++ f :: post).set t f1 = pre ++ f1 :: post := by
          subst hlen
          exact set_mid pre f f1 post
        rw [hset] at hr
        have hsb : sound (graph_of wb) := by rw [hgb]; exact hg.all.ok
        obtain ⟨r1, r2⟩ := ih wb pre f1 post hlen hsb rv founds1 w1 hr
        have hgab : grows (graph_of w) (graph_of wb) := by rw [hgb]; exact hg
        refine ⟨steps_trans _ _ _ hgab.all r1, ?_⟩
        intro hz
        obtain ⟨g2, f2, e1, e2, e3, cs, e4, e5⟩ := r2 hz
        refine ⟨grows_trans _ _ _ hgab g2, f2, e1, e2.trans hf1, e3.trans he1, p :: cs, ?_, ?_⟩
        · rw [e4, hc1]
          simp
        · refine List.Forall₂.cons ?_ e5
          have : resolves (graph_of wb) (dn, id, inst) p := by
            rw [hgb]
            exact hmem
          exact ⟨g2.members _ this.1, g2.keys _ _ this.2⟩
      · rw [hac] at hr
        simp only [ENOMEM, Prod.mk.injEq] at hr
        obtain ⟨h1, h2, h3⟩ := hr
        subst h1 h2 h3
        have hgb : graph_of wb = graph_of wa := graph_of_eq wa wb hheap hent
        have hsb : sound (graph_of wb) := by rw [hgb]; exact hg.all.ok
        refine ⟨steps_trans _ _ _ (by rw [← hgb] at hg; exact hg.all) (steps_put wb p hsb), ?_⟩
        intro hz
        cases hz
    · rw [hadd] at hr hg
      simp only [ENOMEM, Prod.mk.injEq] at hr
      obtain ⟨h1, h2, h3⟩ := hr
      subst h1 h2 h3
      exact ⟨hg.all, fun hz => by cases hz⟩

theorem resolved_grows (G G1 : graph_t) (h : grows G G1) (d : dlr_info_t)
    (f : entity_found_t) (hr : resolved G d f) : resolved G1 d f := by
  obtain ⟨h1, h2 | ⟨h2, p, h3, h4, h5, h6⟩⟩ := hr
  · exact ⟨h1, Or.inl h2⟩
  · exact ⟨h1, Or.inr ⟨h2, p, h3, h.members p h4, h.keys p _ h5, resolves_grows G G1 h _ _ h6⟩⟩

theorem find_first_entry_stays (founds : List entity_found_t) (p : Nat) (fuel j : Nat)
    (acc : Nat × Bool)
    (h : ¬ (0 < j ∧ (founds.getD j found_zero).ent = some p)) :
    find_first_entry founds (some p) fuel j acc = acc := by
  cases fuel with
  | zero => rfl
  | succ fuel =>
    unfold find_first_entry
    have : (decide (j > 0) && (founds.getD j found_zero).ent == some p) = false := by
      by_cases hj : 0 < j
      · have h2 : (founds.getD j found_zero).ent ≠ some p := fun e => h ⟨hj, e⟩
        have hb : ((founds.getD j found_zero).ent == some p) = false :=
          beq_eq_false_iff_ne.mpr h2
        rw [hb]
        simp
      · simp [hj]
    rw [this]
    simp

theorem getD_pre {α : Type} (pre post : List α) (j : Nat) (d : α) (h : j < pre.length) :
    (pre ++ post).getD j d = pre.getD j d := by
  simp [List.getD_eq_getElem?_getD, List.getElem?_append_left h]

theorem fill_in_entity_spec (dlrs : List dlr_info_t) (i : Nat) (w : World)
    (pre post : List entity_found_t) (hlen : pre.length = i) (hs : sound (graph_of w))
    (hprev : 2 ≤ i → is_ear (dlrs.getD i dlr_zero) = true →
      ∀ q, (pre.getD (i - 1) found_zero).ent = some q →
        ∃ k, keyed (graph_of w) q k ∧ k ≠ subject_key (dlrs.getD i dlr_zero))
    (rv : Nat) (founds1 : List entity_found_t) (w1 : World)
    (hr : fill_in_entity dlrs i w (pre ++ found_zero :: post) = (rv, founds1, w1)) :
    steps (graph_of w) (graph_of w1)
    ∧ (rv = 0 → grows (graph_of w) (graph_of w1)
        ∧ ∃ f1, founds1 = pre ++ f1 :: post
          ∧ resolved (graph_of w1) (dlrs.getD i dlr_zero) f1) := by
  unfold fill_in_entity at hr
  have hget : (pre ++ found_zero :: post).getD i found_zero = found_zero := by
    subst hlen
    exact getD_mid pre found_zero post found_zero
  simp only [hget] at hr
  have hnf : found_zero.found = false := rfl
  simp only [hnf, Bool.false_eq_true, if_false] at hr
  by_cases hid : (dlrs.getD i dlr_zero).entity_id = 0
  · simp only [hid, bne_self_eq_false, Bool.false_eq_true, if_false, Prod.mk.injEq] at hr
    obtain ⟨h1, h2, h3⟩ := hr
    subst h1 h2 h3
    refine ⟨steps_refl _ hs, fun _ => ⟨grows_refl _ hs, found_zero, ?_, rfl, Or.inl ⟨hid, rfl, rfl⟩⟩⟩
    subst hlen
    exact set_mid pre found_zero _ post
  · have hid2 : ((dlrs.getD i dlr_zero).entity_id != 0) = true := bne_iff_ne.mpr hid
    simp only [hid2, if_true] at hr
    have hg := grows_entity_add w (dlrs.getD i dlr_zero).device_num
      (dlrs.getD i dlr_zero).entity_id (dlrs.getD i dlr_zero).entity_instance
      (dlrs.getD i dlr_zero).output_handler 0 hs
    rcases graph_entity_add w (dlrs.getD i dlr_zero).device_num
      (dlrs.getD i dlr_zero).entity_id (dlrs.getD i dlr_zero).entity_instance
      (dlrs.getD i dlr_zero).output_handler 0 with ⟨p, wa, hadd, _⟩ | ⟨wa, hadd, _⟩
    · have hmem := member_entity_add w _ _ _ _ 0 p wa hadd
      rw [hadd] at hr hg
      simp only at hr hg
      have hset : ∀ g, (pre ++ found_zero :: post).set i g = pre ++ g :: post := by
        intro g
        subst hlen
        exact set_mid pre found_zero g post
      rw [hset] at hr
      cases hear : is_ear (dlrs.getD i dlr_zero) with
      | false =>
        simp only [hear, Bool.not_false, if_true, Prod.mk.injEq] at hr
        obtain ⟨h1, h2, h3⟩ := hr
        subst h1 h2 h3
        refine ⟨hg.all, fun _ => ⟨hg, _, rfl, rfl, Or.inr ⟨hid, p, rfl, hmem.1, hmem.2, ?_⟩⟩⟩
        simp only [hear, Bool.false_eq_true, if_false]
        exact List.Forall₂.nil
      | true =>
        simp only [hear, Bool.not_true, Bool.false_eq_true, if_false] at hr
        have hstay : ∀ g, find_first_entry (pre ++ g :: post)
            (some p) i (i - 1) (i, false) = (i, false) := by
          intro g
          apply find_first_entry_stays
          rintro ⟨hj, he⟩
          have h2 : 2 ≤ i := by omega
          have hlt : i - 1 < pre.length := by omega
          rw [getD_pre pre _ (i - 1) found_zero hlt] at he
          obtain ⟨k, hk, hne⟩ := hprev h2 hear p he
          have hk1 := hg.keys p k hk
          obtain ⟨x, hx, hxk⟩ := hk1
          exact hne (by rw [← hxk]; exact key_of_keyed _ p x _ hx hmem.2)
        rw [hstay] at hr
        simp only [Bool.false_eq_true, if_false] at hr
        obtain ⟨r1, r2⟩ := fill_in_children_spec i _ wa pre _ post hlen hg.all.ok rv founds1 w1 hr
        refine ⟨steps_trans _ _ _ hg.all r1, ?_⟩
        intro hz
        obtain ⟨g2, f2, e1, e2, e3, cs, e4, e5⟩ := r2 hz
        refine ⟨grows_trans _ _ _ hg g2, f2, e1, e2.trans rfl, Or.inr ⟨hid, p, e3.trans rfl,
          g2.members p hmem.1, g2.keys p _ hmem.2, ?_⟩⟩
        simp only [hear, if_true]
        have : f2.cent = cs := by rw [e4]; rfl
        rw [this]
        exact e5
    · rw [hadd] at hr hg
      simp only [ENOMEM, Prod.mk.injEq] at hr
      obtain ⟨h1, h2, h3⟩ := hr
      subst h1 h2 h3
      exact ⟨hg.all, fun hz => by cases hz⟩

theorem getD_take_lt {α : Type} (l : List α) (i j : Nat) (d : α) (h : j < i) :
    (l.take i).getD j d = l.getD j d := by
  simp [List.getD_eq_getElem?_getD, List.getElem?_take, h]

theorem take_succ_getD {α : Type} (l : List α) (i : Nat) (d : α) (h : i < l.length) :
    l.take (i + 1) = l.take i ++ [l.getD i d] := by
  rw [List.take_succ]
  simp [List.getD_eq_getElem?_getD, List.getElem?_eq_getElem h]

theorem forall2_getD {α β : Type} (R : α → β → Prop) (l1 : List α) (l2 : List β)
    (h : List.Forall₂ R l1 l2) (d1 : α) (d2 : β) :
    ∀ j, j < l2.length → R (l1.getD j d1) (l2.getD j d2) := by
  induction h with
  | nil => intro j hj; simp at hj
  | cons hr _ ih =>
    intro j hj
    cases j with
    | zero => simpa using hr
    | succ j =>
      simp only [List.length_cons, Nat.add_lt_add_iff_right] at hj
      simpa using ih j hj

theorem fill_in_loop_spec (dlrs : List dlr_info_t) (hnr : no_redirect dlrs) :
    ∀ (m i : Nat) (w : World) (pre : List entity_found_t), pre.length = i →
      i + m = dlrs.length → sound (graph_of w) →
      List.Forall₂ (resolved (graph_of w)) (dlrs.take i) pre →
      ∀ rv founds1 w1,
        fill_in_loop dlrs (List.range' i m) w (pre ++ List.replicate m found_zero)
          = (rv, founds1, w1) →
        steps (graph_of w) (graph_of w1)
        ∧ (rv = 0 → grows (graph_of w) (graph_of w1)
            ∧ List.Forall₂ (resolved (graph_of w1)) dlrs founds1) := by
  intro m
  induction m with
  | zero =>
    intro i w pre hlen hsum hs hres rv founds1 w1 hr
    simp only [List.range'_zero, fill_in_loop, List.replicate_zero, List.append_nil,
      Prod.mk.injEq] at hr
    obtain ⟨h1, h2, h3⟩ := hr
    subst h1 h2 h3
    refine ⟨steps_refl _ hs, fun _ => ⟨grows_refl _ hs, ?_⟩⟩
    have : dlrs.take i = dlrs := List.take_of_length_le (by omega)
    rw [this] at hres
    exact hres
  | succ m ih =>
    intro i w pre hlen hsum hs hres rv founds1 w1 hr
    have hrange : List.range' i (m + 1) = i :: List.range' (i + 1) m := by
      simp [List.range'_succ]
    rw [hrange, List.replicate_succ] at hr
    unfold fill_in_loop at hr
    have hprev : 2 ≤ i → is_ear (dlrs.getD i dlr_zero) = true →
        ∀ q, (pre.getD (i - 1) found_zero).ent = some q →
          ∃ k, keyed (graph_of w) q k ∧ k ≠ subject_key (dlrs.getD i dlr_zero) := by
      intro h2 hear q hq
      have hres1 := forall2_getD _ _ _ hres dlr_zero found_zero (i - 1) (by omega)
      rw [getD_take_lt dlrs i (i - 1) dlr_zero (by omega)] at hres1
      obtain ⟨_, h | ⟨_, p, hp, _, hk, _⟩⟩ := hres1
      · rw [h.2.1] at hq
        cases hq
      · rw [hp] at hq
        cases hq
        exact ⟨_, hk, hnr i (by omega) h2 hear⟩
    rcases hfe : fill_in_entity dlrs i w (pre ++ found_zero :: List.replicate m found_zero)
      with ⟨rva, foundsa, wa⟩
    obtain ⟨r1, r2⟩ := fill_in_entity_spec dlrs i w pre _ hlen hs hprev rva foundsa wa hfe
    rw [hfe] at hr
    by_cases hz : rva = 0
    · subst hz
      simp only at hr
      obtain ⟨g1, f1, e1, e2⟩ := r2 rfl
      subst e1
      have hcat : pre ++ f1 :: List.replicate m found_zero
          = (pre ++ [f1]) ++ List.replicate m found_zero := by simp
      rw [hcat] at hr
      have hres2 : List.Forall₂ (resolved (graph_of wa)) (dlrs.take (i + 1)) (pre ++ [f1]) := by
        rw [take_succ_getD dlrs i dlr_zero (by omega)]
        apply List.rel_append
        · exact hres.imp (fun d f h => resolved_grows _ _ g1 d f h)
        · exact List.Forall₂.cons e2 List.Forall₂.nil
      obtain ⟨r3, r4⟩ := ih (i + 1) wa (pre ++ [f1]) (by simp [hlen]) (by omega) g1.all.ok hres2
        rv founds1 w1 hr
      refine ⟨steps_trans _ _ _ r1 r3, fun h0 => ?_⟩
      obtain ⟨g2, h5⟩ := r4 h0
      exact ⟨grows_trans _ _ _ g1 g2, h5⟩
    · split at hr
      · rename_i h
        simp only [Prod.mk.injEq] at h
        exact absurd h.1 hz
      · rename_i h
        simp only [Prod.mk.injEq] at h hr
        obtain ⟨a1, a2, a3⟩ := h
        obtain ⟨b1, b2, b3⟩ := hr
        subst a1 a2 a3 b1 b2 b3
        exact ⟨r1, fun h0 => absurd h0 hz⟩

theorem fill_in_entities_spec (w : World) (dlrs : List dlr_info_t) (hnr : no_redirect dlrs)
    (hs : sound (graph_of w)) (rv : Nat) (infos1 : entity_sdr_info_t) (w1 : World)
    (hr : fill_in_entities w
      { found := List.replicate dlrs.length found_zero, dlrs := dlrs } = (rv, infos1, w1)) :
    steps (graph_of w) (graph_of w1) ∧ infos1.dlrs = dlrs
    ∧ (rv = 0 → grows (graph_of w) (graph_of w1)
        ∧ List.Forall₂ (resolved (graph_of w1)) dlrs infos1.found) := by
  unfold fill_in_entities at hr
  simp only at hr
  rcases hl : fill_in_loop dlrs (List.range dlrs.length) w
      (List.replicate dlrs.length found_zero) with ⟨rva, foundsa, wa⟩
  rw [hl] at hr
  simp only [Prod.mk.injEq] at hr
  obtain ⟨h1, h2, h3⟩ := hr
  subst h1 h2 h3
  rw [List.range_eq_range'] at hl
  have := fill_in_loop_spec dlrs hnr dlrs.length 0 w [] rfl (by simp) hs
    (by simp) rva foundsa wa (by simpa using hl)
  exact ⟨this.1, rfl, this.2⟩

theorem same_keys_refl (G : graph_t) : same_keys G G :=
  ⟨rfl, rfl, fun _ _ => Iff.rfl⟩

theorem same_keys_trans (G G1 G2 : graph_t) (h1 : same_keys G G1) (h2 : same_keys G1 G2) :
    same_keys G G2 :=
  ⟨h2.1.trans h1.1, h2.2.1.trans h1.2.1, fun a k => (h2.2.2 a k).trans (h1.2.2 a k)⟩

theorem same_keys_map (G : graph_t) (F : Nat → node_t → node_t)
    (hk : ∀ q n, (F q n).key = n.key) : same_keys G (G.map F) :=
  ⟨rfl, rfl, fun a k => keyed_map G F hk a k⟩

theorem resolves_same_keys (G G1 : graph_t) (h : same_keys G G1)
    (ks : List (ipmi_device_num_t × Nat × Nat)) (cs : List Nat)
    (hf : List.Forall₂ (resolves G) ks cs) : List.Forall₂ (resolves G1) ks cs :=
  hf.imp (fun _ _ hr => ⟨by rw [h.1]; exact hr.1, (h.2.2 _ _).mpr hr.2⟩)

theorem resolved_same_keys (G G1 : graph_t) (h : same_keys G G1) (d : dlr_info_t)
    (f : entity_found_t) (hr : resolved G d f) : resolved G1 d f := by
  obtain ⟨h1, h2 | ⟨h2, p, h3, h4, h5, h6⟩⟩ := hr
  · exact ⟨h1, Or.inl h2⟩
  · exact ⟨h1, Or.inr ⟨h2, p, h3, by rw [h.1]; exact h4, (h.2.2 _ _).mpr h5,
      resolves_same_keys G G1 h _ _ h6⟩⟩

theorem sound_bump (G : graph_t) (p : Nat) (hs : sound G) : sound (G.map (bump p)) := by
  apply sound_map G (bump p) (bump_key p) hs
  · intro q hq n hn c hc
    have h1 : (bump p q n).children = n.children := by unfold bump; split <;> rfl
    rw [h1] at hc
    obtain ⟨hm, x, hx, h2⟩ := hs.down q hq n hn c hc
    refine ⟨hm, x, hx, ?_⟩
    have h3 : (bump p c x).parents = x.parents := by unfold bump; split <;> rfl
    rw [h3]
    exact h2
  · intro q hq n hn c hc
    have h1 : (bump p q n).parents = n.parents := by unfold bump; split <;> rfl
    rw [h1] at hc
    obtain ⟨hm, x, hx, h2⟩ := hs.up q hq n hn c hc
    refine ⟨hm, x, hx, ?_⟩
    have h3 : (bump p c x).children = x.children := by unfold bump; split <;> rfl
    rw [h3]
    exact h2

theorem sound_unbump (G : graph_t) (p : Nat) (hs : sound G) : sound (G.map (unbump p)) := by
  apply sound_map G (unbump p) (unbump_key p) hs
  · intro q hq n hn c hc
    have h1 : (unbump p q n).children = n.children := by unfold unbump; split <;> rfl
    rw [h1] at hc
    obtain ⟨hm, x, hx, h2⟩ := hs.down q hq n hn c hc
    refine ⟨hm, x, hx, ?_⟩
    have h3 : (unbump p c x).parents = x.parents := by unfold unbump; split <;> rfl
    rw [h3]
    exact h2
  · intro q hq n hn c hc
    have h1 : (unbump p q n).parents = n.parents := by unfold unbump; split <;> rfl
    rw [h1] at hc
    obtain ⟨hm, x, hx, h2⟩ := hs.up q hq n hn c hc
    refine ⟨hm, x, hx, ?_⟩
    have h3 : (unbump p c x).children = x.children := by unfold unbump; split <;> rfl
    rw [h3]
    exact h2

theorem commit_new_children_spec (G0 : graph_t) (Ks : List search_info_t)
    (E : List (search_info_t × search_info_t)) (p : Nat) (s : search_info_t)
    (cs : List Nat) :
    ∀ (ks : List (ipmi_device_num_t × Nat × Nat)) (entries : Nat) (w : World),
      List.Forall₂ (resolves (graph_of w)) ks cs →
      p ∈ (graph_of w).members → keyed (graph_of w) p s →
      (∀ k ∈ ks, (s, contained_key k) ∈ E) → sound (graph_of w) →
      tracked G0 (graph_of w) Ks E →
      ∀ r, commit_new_children p cs entries w = some r →
        sound (graph_of r.2) ∧ tracked G0 (graph_of r.2) Ks E
        ∧ same_keys (graph_of w) (graph_of r.2) := by
  induction cs with
  | nil =>
    intro ks entries w _ _ _ _ hs hT r hr
    simp only [commit_new_children, Option.some.injEq] at hr
    subst hr
    exact ⟨hs, hT, same_keys_refl _⟩
  | cons c cs ih =>
    intro ks entries w hf hp hps hE hs hT r hr
    cases hf with
    | @cons k _ ks _ hkc hrest =>
      unfold commit_new_children at hr
      split at hr
      · cases hr
      · have hg := graph_add_child w p c
        have hs1 : sound (graph_of (add_child w p c)) := by
          rw [hg]
          exact sound_link _ p c hs hp hkc.1
        have hT1 : tracked G0 (graph_of (add_child w p c)) Ks E := by
          rw [hg]
          exact tracked_link G0 _ Ks E p c s (contained_key k) hps hkc.2
            (hE k (List.mem_cons_self _ _)) hT
        have hsk : same_keys (graph_of w) (graph_of (add_child w p c)) := by
          rw [hg]
          exact same_keys_map _ _ (fun _ _ => rfl)
        have := ih ks (entries - 2) (add_child w p c)
          (resolves_same_keys _ _ hsk _ _ hrest)
          (by rw [hsk.1]; exact hp) ((hsk.2.2 _ _).mpr hps)
          (fun k1 hk1 => hE k1 (List.mem_cons_of_mem _ hk1)) hs1 hT1 r hr
        exact ⟨this.1, this.2.1, same_keys_trans _ _ _ hsk this.2.2⟩

theorem key_of_keyed_world (w : World) (p : Nat) (k : search_info_t) (e : ipmi_entity_t)
    (hk : keyed (graph_of w) p k) (hd : deref w p = some e) : key_of e = k := by
  obtain ⟨x, hx, hxk⟩ := hk
  simp only [graph_of, hd, Option.map_some', Option.some.injEq] at hx
  subst hx
  exact hxk

theorem subject_key_bytes (d : dlr_info_t) (h1 : d.entity_id < 256)
    (h2 : d.entity_instance < 256) : subject_key d = dlr_key d := by
  unfold subject_key dlr_key search_info_of
  rw [u8_of_lt _ h1, u8_of_lt _ h2]

theorem pending_keys_cons (d : dlr_info_t) (ds : List dlr_info_t) :
    pending_keys (d :: ds)
      = (if is_ear d then [] else [subject_key d]) ++ pending_keys ds := by
  unfold pending_keys
  cases h : is_ear d <;> simp [List.filter_cons, h]

theorem listed_edges_cons (d : dlr_info_t) (ds : List dlr_info_t) :
    listed_edges (d :: ds)
      = (if is_ear d then (contained_keys d).map (fun k => (subject_key d, contained_key k))
          else []) ++ listed_edges ds := by
  unfold listed_edges
  simp

theorem commit_new_spec (env : Nat → Nat → mc_reply_t) (G0 : graph_t)
    (E : List (search_info_t × search_info_t)) (fs : List entity_found_t) :
    ∀ (ds : List dlr_info_t) (rv entries : Nat) (w : World) (Ks : List search_info_t),
      List.Forall₂ (resolved (graph_of w)) ds fs →
      (∀ d ∈ ds, d.entity_id ≠ 0 ∧ d.entity_id < 256 ∧ d.entity_instance < 256) →
      (∀ sk ∈ listed_edges ds, sk ∈ E) → sound (graph_of w) →
      tracked G0 (graph_of w) Ks E →
      ∀ r, commit_new env (ds.zip fs) rv entries w = some r →
        sound (graph_of r.2.2) ∧ tracked G0 (graph_of r.2.2) (Ks ++ pending_keys ds) E
        ∧ same_keys (graph_of w) (graph_of r.2.2) := by
  induction fs with
  | nil =>
    intro ds rv entries w Ks hf _ _ hs hT r hr
    cases hf
    simp only [List.zip_nil_right, commit_new, Option.some.injEq] at hr
    subst hr
    simp only [pending_keys, List.filter_nil, List.map_nil, List.append_nil]
    exact ⟨hs, hT, same_keys_refl _⟩
  | cons f fs ih =>
    intro ds rv entries w Ks hf hb hE hs hT r hr
    cases hf with
    | @cons d _ ds _ hdf hrest =>
      obtain ⟨hnf, h0 | ⟨_, p, hent, hp, hk, hcs⟩⟩ := hdf
      · exact absurd h0.1 (hb d (List.mem_cons_self _ _)).1
      · have hbd := hb d (List.mem_cons_self _ _)
        rw [List.zip_cons_cons] at hr
        unfold commit_new at hr
        rw [hnf, hent] at hr
        simp only [Bool.false_eq_true, if_false] at hr
        rw [listed_edges_cons] at hE
        cases hear : is_ear d with
        | false =>
          simp only [hear, Bool.not_false, if_true] at hr
          have hkey : ∀ e, deref w p = some e → key_of e = dlr_key d := by
            intro e he
            rw [← subject_key_bytes d hbd.2.1 hbd.2.2]
            exact key_of_keyed_world w p _ e hk he
          have hg := graph_commit_new_dlr env d p rv w hkey
          rcases hc : commit_new_dlr env d p rv w with ⟨rv1, w1⟩
          rw [hc] at hr hg
          simp only at hr hg
          have hs1 : sound (graph_of w1) := by
            rw [hg]
            exact sound_bump _ p hs
          have hT1 : tracked G0 (graph_of w1) (Ks ++ [subject_key d]) E := by
            rw [hg]
            exact tracked_bump G0 _ Ks E p _ hs hp hk hT
          have hsk : same_keys (graph_of w) (graph_of w1) := by
            rw [hg]
            exact same_keys_map _ _ (bump_key p)
          have := ih ds rv1 entries w1 (Ks ++ [subject_key d])
            (hrest.imp (fun d f h => resolved_same_keys _ _ hsk d f h))
            (fun d1 hd1 => hb d1 (List.mem_cons_of_mem _ hd1))
            (fun sk hsk1 => hE sk (List.mem_append_right _ hsk1)) hs1 hT1 r hr
          rw [pending_keys_cons]
          simp only [hear, Bool.false_eq_true, if_false]
          rw [← List.append_assoc]
          exact ⟨this.1, this.2.1, same_keys_trans _ _ _ hsk this.2.2⟩
        | true =>
          simp only [hear, Bool.not_true, Bool.false_eq_true, if_false] at hr
          simp only [hear, if_true] at hcs hE
          cases hc : commit_new_children p f.cent entries w with
          | none =>
            rw [hc] at hr
            cases hr
          | some r1 =>
            rw [hc] at hr
            simp only at hr
            obtain ⟨hs1, hT1, hsk⟩ := commit_new_children_spec G0 Ks E p (subject_key d) f.cent
              (contained_keys d) entries w hcs hp hk
              (fun k hk1 => hE _ (List.mem_append_left _
                (List.mem_map.mpr ⟨k, hk1, rfl⟩))) hs hT r1 hc
            have := ih ds rv r1.1 r1.2 Ks
              (hrest.imp (fun d f h => resolved_same_keys _ _ hsk d f h))
              (fun d1 hd1 => hb d1 (List.mem_cons_of_mem _ hd1))
              (fun sk hsk1 => hE sk (List.mem_append_right _ hsk1)) hs1 hT1 r hr
            rw [pending_keys_cons]
            simp only [hear, if_true, List.nil_append]
            exact ⟨this.1, this.2.1, same_keys_trans _ _ _ hsk this.2.2⟩

theorem notify_new_graph (fs : List entity_found_t) :
    ∀ (w w1 : World), notify_new fs w = some w1 → graph_of w1 = graph_of w := by
  induction fs with
  | nil =>
    intro w w1 h
    simp only [notify_new, Option.some.injEq] at h
    subst h
    rfl
  | cons f fs ih =>
    intro w w1 h
    unfold notify_new at h
    split at h
    · exact ih w w1 h
    · split at h
      · cases h
      · rw [ih _ w1 h]
        have : ∀ (cs : List Nat) (w : World),
            graph_of (cs.foldl (fun w0 c => call_entity_update_handlers w0 c IPMI_CHANGED) w)
              = graph_of w := by
          intro cs
          induction cs with
          | nil => intro w; rfl
          | cons c cs ihc =>
            intro w
            simp only [List.foldl_cons]
            rw [ihc]
            exact graph_of_eq _ _ rfl rfl
        rw [this]
        exact graph_of_eq _ _ rfl rfl

theorem notify_new_ids (G : graph_t) (fs : List entity_found_t) :
    ∀ (ds : List dlr_info_t) (w w1 : World), List.Forall₂ (resolved G) ds fs →
      notify_new fs w = some w1 → ∀ d ∈ ds, d.entity_id ≠ 0 := by
  induction fs with
  | nil =>
    intro ds w w1 hf _ d hd
    cases hf
    cases hd
  | cons f fs ih =>
    intro ds w w1 hf h d hd
    cases hf with
    | @cons d0 _ ds _ hdf hrest =>
      unfold notify_new at h
      rw [hdf.1] at h
      simp only [Bool.false_eq_true, if_false] at h
      rcases hdf.2 with h0 | ⟨h1, p, hp, _⟩
      · rw [h0.2.1] at h
        cases h
      · rw [hp] at h
        simp only at h
        rcases List.mem_cons.mp hd with e | e
        · subst e
          exact h1
        · exact ih ds _ w1 hrest h d e

theorem match_loop_empty_old (c : Nat → Nat → Int) (fuel i j : Nat)
    (nf : List entity_found_t) : match_loop c fuel i j nf [] = (nf, []) := by
  cases fuel with
  | zero => rfl
  | succ fuel =>
    unfold match_loop
    simp

theorem put_entities_steps (fs : List entity_found_t) :
    ∀ (w : World), sound (graph_of w) → steps (graph_of w) (graph_of (put_entities w fs)) := by
  induction fs with
  | nil => intro w hs; exact steps_refl _ hs
  | cons f fs ih =>
    intro w hs
    have hfold : ∀ (cs : List Nat) (w : World), sound (graph_of w) →
        steps (graph_of w) (graph_of (cs.foldl _ipmi_entity_put w)) := by
      intro cs
      induction cs with
      | nil => intro w hs; exact steps_refl _ hs
      | cons c cs ihc =>
        intro w hs
        simp only [List.foldl_cons]
        have h1 := steps_put w c hs
        exact steps_trans _ _ _ h1 (ihc _ h1.ok)
    unfold put_entities
    split
    · exact ih w hs
    · simp only
      have h1 : steps (graph_of w) (graph_of (match f.ent with
          | some p => _ipmi_entity_put w p
          | none => w)) := by
        split
        · exact steps_put w _ hs
        · exact steps_refl _ hs
      have h2 := hfold f.cent _ h1.ok
      exact steps_trans _ _ _ (steps_trans _ _ _ h1 h2) (ih _ h2.ok)

theorem get_set_sdr_entities (w : World) (mc : Nat) (x : entity_sdr_info_t) :
    _ipmi_get_sdr_entities (_ipmi_set_sdr_entities w mc x) mc = some x := by
  simp [_ipmi_get_sdr_entities, _ipmi_set_sdr_entities]

theorem tracked_refl (G : graph_t)
    (hr : ∀ p ∈ G.members, ∀ n, G.node p = some n → n.rc < 4294967296) :
    tracked G G [] [] := by
  intro p hp _ n0 hn0
  refine ⟨n0, hn0, rfl, ?_, ⟨[], by simp, by simp⟩, ⟨[], by simp, by simp⟩⟩
  have := hr p hp n0 hn0
  simp only [List.count_nil, Nat.add_zero]
  omega

theorem ledger_of_steps (G G1 : graph_t) (hs : sound G)
    (hr : ∀ p ∈ G.members, ∀ n, G.node p = some n → n.rc < 4294967296)
    (h : steps G G1) : ledger G G1 [] :=
  ⟨h.ok, h.size, h.track G [] [] hs (Nat.le_refl _) (tracked_refl G hr)⟩

theorem scan_out_err_steps (w : World) (mc rv : Nat) (infos : entity_sdr_info_t)
    (hs : sound (graph_of w)) :
    steps (graph_of w) (graph_of (scan_out_err w mc rv infos { found := [], dlrs := [] }).2)
    ∧ _ipmi_get_sdr_entities (scan_out_err w mc rv infos { found := [], dlrs := [] }).2 mc
        = some { found := [], dlrs := [] } := by
  unfold scan_out_err
  simp only
  refine ⟨?_, get_set_sdr_entities _ _ _⟩
  have h1 := put_entities_steps infos.found w hs
  have h2 : graph_of (_ipmi_set_sdr_entities
      (put_entities (put_entities w infos.found) []) mc { found := [], dlrs := [] })
      = graph_of (put_entities w infos.found) := graph_of_eq _ _ rfl rfl
  rw [h2]
  exact h1

theorem first_scan_spec (w : World) (mc : Nat) (c : Nat → Nat → Int)
    (env : Nat → Nat → mc_reply_t) (D : List dlr_info_t)
    (hnone : _ipmi_get_sdr_entities w mc = none) (hnr : no_redirect D)
    (hb : ∀ d ∈ D, d.entity_id < 256 ∧ d.entity_instance < 256)
    (hs : sound (graph_of w))
    (hrange : ∀ p ∈ (graph_of w).members, ∀ n, (graph_of w).node p = some n →
      n.rc < 4294967296)
    (r : Nat × World) (hscan : ipmi_entity_scan_sdrs w mc c env D = some r)
    (infos : entity_sdr_info_t) (hinfos : _ipmi_get_sdr_entities r.2 mc = some infos) :
    ledger (graph_of w) (graph_of r.2) infos.dlrs
    ∧ ((infos.dlrs = D ∧ ∀ d ∈ D, d.entity_id ≠ 0) ∨ infos.dlrs = []) := by
  unfold ipmi_entity_scan_sdrs at hscan
  rw [hnone] at hscan
  simp only at hscan
  have hta := take_alloc_same w
  have hsd := take_alloc_sdr_entities w
  rcases htk : take_alloc w with ⟨b, wA⟩
  rw [htk] at hscan hta hsd
  simp only at hta hsd
  cases b with
  | false =>
    simp only [Option.some.injEq] at hscan
    subst hscan
    simp only [_ipmi_get_sdr_entities, hsd] at hinfos hnone
    rw [hnone] at hinfos
    cases hinfos
  | true =>
    simp only [List.length_nil, Nat.add_zero, List.replicate_zero, match_loop_empty_old]
      at hscan
    have hgA : graph_of (_ipmi_set_sdr_entities wA mc { found := [], dlrs := [] })
        = graph_of w := graph_of_eq _ _ hta.1 hta.2.1
    have hsA : sound (graph_of (_ipmi_set_sdr_entities wA mc { found := [], dlrs := [] })) := by
      rw [hgA]
      exact hs
    rcases hf1 : fill_in_entities (_ipmi_set_sdr_entities wA mc { found := [], dlrs := [] })
        { found := List.replicate D.length found_zero, dlrs := D } with ⟨rv1, infos1, w2⟩
    obtain ⟨st1, hd1, hres⟩ := fill_in_entities_spec _ D hnr hsA rv1 infos1 w2 hf1
    rw [hgA] at st1
    rw [hf1] at hscan
    by_cases hrv : rv1 = 0
    · subst hrv
      obtain ⟨g1, hres1⟩ := hres rfl
      rw [hgA] at g1
      have hf2 : fill_in_entities w2 { found := [], dlrs := [] }
          = (0, { found := [], dlrs := [] }, w2) := by
        simp [fill_in_entities, fill_in_loop]
      simp only [hf2] at hscan
      have hal := alloc_entries_same infos1.found w2 0
      rcases ha : alloc_entries infos1.found w2 0 with ⟨e, w4⟩
      rw [ha] at hscan hal
      simp only at hal
      have hg4 : graph_of w4 = graph_of w2 := graph_of_eq _ _ hal.1 hal.2
      cases e with
      | none =>
        simp only [Option.some.injEq] at hscan
        subst hscan
        have hs4 : sound (graph_of w4) := by rw [hg4]; exact st1.ok
        obtain ⟨st2, hget⟩ := scan_out_err_steps w4 mc ENOMEM infos1 hs4
        rw [hget] at hinfos
        cases hinfos
        rw [hg4] at st2
        exact ⟨ledger_of_steps _ _ hs hrange (steps_trans _ _ _ st1 st2), Or.inr rfl⟩
      | some entries =>
        simp only [List.zip_nil_right, commit_old] at hscan
        cases hc : commit_new env (infos1.dlrs.zip infos1.found) 0 entries w4 with
        | none =>
          rw [hc] at hscan
          cases hscan
        | some r6 =>
          obtain ⟨rv6, e6, w6⟩ := r6
          rw [hc] at hscan
          simp only at hscan
          cases hn : notify_new infos1.found w6 with
          | none =>
            rw [hn] at hscan
            cases hscan
          | some w7 =>
            rw [hn] at hscan
            simp only [Option.some.injEq] at hscan
            subst hscan
            rw [get_set_sdr_entities] at hinfos
            cases hinfos
            simp only
            have hids := notify_new_ids _ infos1.found D w6 w7 hres1 hn
            rw [hd1] at hc
            have hres4 : List.Forall₂ (resolved (graph_of w4)) D infos1.found := by
              rw [hg4]
              exact hres1
            have hs4 : sound (graph_of w4) := by rw [hg4]; exact st1.ok
            have hT4 : tracked (graph_of w) (graph_of w4) [] (listed_edges D) := by
              rw [hg4]
              exact tracked_mono _ _ _ [] _ st1.ok (fun _ h => by cases h)
                (st1.track _ [] [] hs (Nat.le_refl _) (tracked_refl _ hrange))
            obtain ⟨hs6, hT6, hk6⟩ := commit_new_spec env (graph_of w) (listed_edges D)
              infos1.found D 0 entries w4 [] hres4
              (fun d hd => ⟨hids d hd, hb d hd⟩) (fun _ h => h) hs4 hT4 _ hc
            simp only [List.nil_append] at hT6 hs6 hk6
            have hg7 : graph_of w7 = graph_of w6 := notify_new_graph _ _ _ hn
            have hs7 : sound (graph_of w7) := by rw [hg7]; exact hs6
            have st8 := put_entities_steps infos1.found w7 hs7
            have hg9 : graph_of (_ipmi_set_sdr_entities
                (put_entities (put_entities w7 infos1.found) []) mc
                { found := cleanup_sdr_info infos1.found, dlrs := D })
                = graph_of (put_entities w7 infos1.found) := graph_of_eq _ _ rfl rfl
            rw [hg9]
            have hsz : (graph_of w).size ≤ (graph_of w7).size := by
              rw [hg7, hk6.2.1, hg4]
              exact st1.size
            refine ⟨⟨st8.ok, Nat.le_trans hsz st8.size, ?_⟩, Or.inl ⟨trivial, hids⟩⟩
            apply st8.track _ _ _ hs hsz
            rw [hg7]
            exact hT6
    · split at hscan
      · rename_i h
        simp only [Prod.mk.injEq] at h
        exact absurd h.1 hrv
      · rename_i h
        simp only [Prod.mk.injEq] at h
        obtain ⟨a1, a2, a3⟩ := h
        subst a1 a2 a3
        simp only [Option.some.injEq] at hscan
        subst hscan
        obtain ⟨st2, hget⟩ := scan_out_err_steps w2 mc rv1 infos1 st1.ok
        rw [hget] at hinfos
        cases hinfos
        exact ⟨ledger_of_steps _ _ hs hrange (steps_trans _ _ _ st1 st2), Or.inr rfl⟩

theorem subject_put (w : World) (p : Nat) (s : search_info_t) (x : Nat)
    (h : subject (graph_of w) s x) : subject (graph_of (_ipmi_entity_put w p)) s x := by
  rcases graph_entity_put w p with hg | ⟨_, o, hg⟩
  · rw [hg]
    exact h
  · rw [hg]
    exact subject_drop _ p o s x h

theorem entity_find_hit_or_miss (w : World) (dn : ipmi_device_num_t) (id inst : Int) :
    (∃ p w1, entity_find w dn id inst = (0, some p, w1) ∧ graph_of w1 = graph_of w
        ∧ p ∈ (graph_of w).members ∧ keyed (graph_of w) p (search_info_of dn id inst))
    ∨ (∃ w1, entity_find w dn id inst = (ENODEV, none, w1) ∧ graph_of w1 = graph_of w
        ∧ ∀ q ∈ (graph_of w).members, ¬ keyed (graph_of w) q (search_info_of dn id inst)) := by
  obtain ⟨hg, h | h⟩ := graph_entity_find w dn id inst
  · obtain ⟨h1, p, h2, h3, h4⟩ := h
    left
    refine ⟨p, (entity_find w dn id inst).2.2, ?_, hg, h3, h4⟩
    rw [← h1, ← h2]
  · obtain ⟨h1, h2, h3⟩ := h
    right
    refine ⟨(entity_find w dn id inst).2.2, ?_, hg, h3⟩
    rw [← h1, ← h2]

theorem destroy_children_spec (G0 : graph_t) (hs0 : sound G0) (Ks : List search_info_t)
    (E : List (search_info_t × search_info_t)) (s : search_info_t) (p : Nat)
    (ks : List (ipmi_device_num_t × Nat × Nat)) :
    ∀ (w : World), sound (graph_of w) → G0.size ≤ (graph_of w).size →
      subject (graph_of w) s p → (∀ k ∈ ks, fresh G0 (s, contained_key k)) →
      tracked G0 (graph_of w) Ks (ks.map (fun k => (s, contained_key k)) ++ E) →
      sound (graph_of (destroy_children p ks w))
      ∧ G0.size ≤ (graph_of (destroy_children p ks w)).size
      ∧ tracked G0 (graph_of (destroy_children p ks w)) Ks E := by
  induction ks with
  | nil =>
    intro w hs hz _ _ hT
    exact ⟨hs, hz, by simpa using hT⟩
  | cons k ks ih =>
    obtain ⟨dn, id, inst⟩ := k
    intro w hs hz hsub hfr hT
    simp only [List.map_cons, List.cons_append] at hT
    unfold destroy_children
    rcases entity_find_hit_or_miss w dn id inst with
      ⟨c, w1, hfind, hg, hc, hck⟩ | ⟨w1, hfind, hg, hno⟩
    · rw [hfind]
      simp only
      have hg2 := graph_remove_child w1 p c
      rw [hg] at hg2
      have hs2 : sound (graph_of (ipmi_entity_remove_child w1 p c).2) := by
        rw [hg2]
        exact sound_unlink _ p c hs
      have hT2 : tracked G0 (graph_of (ipmi_entity_remove_child w1 p c).2) Ks
          (ks.map (fun k => (s, contained_key k)) ++ E) := by
        rw [hg2]
        exact tracked_unlink G0 _ Ks _ p c s _ hs hs0 hc hck hsub
          (hfr _ (List.mem_cons_self _ _)) hT
      have hsub2 : subject (graph_of (ipmi_entity_remove_child w1 p c).2) s p := by
        rw [hg2]
        exact subject_map _ (unlink p c) (fun _ _ => rfl) s p hsub
      have hz2 : G0.size ≤ (graph_of (ipmi_entity_remove_child w1 p c).2).size := by
        rw [hg2]
        exact hz
      have st := steps_put (ipmi_entity_remove_child w1 p c).2 c hs2
      exact ih _ st.ok (Nat.le_trans hz2 st.size) (subject_put _ c s p hsub2)
        (fun k1 hk1 => hfr k1 (List.mem_cons_of_mem _ hk1))
        (st.track G0 Ks _ hs0 hz2 hT2)
    · rw [hfind]
      simp only [ENODEV]
      have hT1 : tracked G0 (graph_of w) Ks (ks.map (fun k => (s, contained_key k)) ++ E) := by
        apply tracked_prune G0 _ Ks _ _ hs _ hT
        intro sk hsk
        rcases List.mem_cons.mp hsk with e | e
        · right
          right
          subst e
          exact hno
        · exact Or.inl e
      rw [← hg] at hs hz hsub hT1
      exact ih w1 hs hz hsub (fun k1 hk1 => hfr k1 (List.mem_cons_of_mem _ hk1)) hT1

theorem destroy_record_spec (G0 : graph_t) (hs0 : sound G0) (d : dlr_info_t)
    (R : List dlr_info_t) (w : World) (hl : ledger G0 (graph_of w) (d :: R))
    (hfr : ∀ sk ∈ listed_edges (d :: R), fresh G0 sk) :
    ledger G0 (graph_of (destroy_record w d)) R := by
  obtain ⟨hs, hz, hT⟩ := hl
  rw [pending_keys_cons, listed_edges_cons] at hT
  rw [listed_edges_cons] at hfr
  unfold destroy_record
  rcases entity_find_hit_or_miss w d.device_num d.entity_id d.entity_instance with
    ⟨p, w1, hfind, hg, hp, hpk⟩ | ⟨w1, hfind, hg, hno⟩
  · rw [hfind]
    simp only
    cases hear : is_ear d with
    | false =>
      simp only [hear, Bool.not_false, if_true, Bool.false_eq_true, if_false,
        List.nil_append, List.singleton_append] at hT ⊢
      have hga : ∀ (b : Bool), graph_of (if b then
          modify w1 p (fun e => { e with frudev_mc := 0, frudev_present := false })
          else w1) = graph_of w := by
        intro b
        cases b with
        | false => exact hg
        | true =>
          simp only [if_true]
          exact Eq.trans (graph_modify_inert _ _ _ (fun _ _ => rfl)) hg
      have key : ∀ wx, graph_of wx = graph_of w →
          ledger G0 (graph_of (_ipmi_entity_put
            (modify wx p (fun e => { e with ref_count := u32_dec e.ref_count })) p)) R := by
        intro wx hwx
        have hgb : graph_of (modify wx p (fun e => { e with ref_count := u32_dec e.ref_count }))
            = (graph_of w).map (unbump p) := by
          refine Eq.trans (graph_modify _ _ _ (fun n => { n with rc := u32_dec n.rc }) ?_) ?_
          · intro e _
            simp only [node_of, key_of]
          · rw [hwx]
            apply graph_map_congr
            intro q n
            simp only [unbump]
        have hs2 := sound_unbump _ p hs
        have hT2 := tracked_unbump G0 _ _ _ p _ hs hp hpk hT
        rw [← hgb] at hs2 hT2
        have st := steps_put _ p hs2
        have hz2 : G0.size ≤ (graph_of (modify wx p
            (fun e => { e with ref_count := u32_dec e.ref_count }))).size := by
          rw [hgb]
          exact hz
        exact ⟨st.ok, Nat.le_trans hz2 st.size, st.track G0 _ _ hs0 hz2 hT2⟩
      exact key _ (hga _)
    | true =>
      simp only [hear, Bool.not_true, Bool.false_eq_true, if_false, if_true,
        List.nil_append] at hT hfr ⊢
      have hsub : subject (graph_of w1) (subject_key d) p := by
        rw [hg]
        exact ⟨fun q hq hk => hs.unique q hq p hp _ hk hpk, fun _ => hpk⟩
      rw [← hg] at hs hz hT
      obtain ⟨hs2, hz2, hT2⟩ := destroy_children_spec G0 hs0 (pending_keys R)
        (listed_edges R) (subject_key d) p (contained_keys d) w1 hs hz hsub
        (fun k hk => hfr _ (List.mem_append_left _ (List.mem_map.mpr ⟨k, hk, rfl⟩))) hT
      have st := steps_put _ p hs2
      exact ⟨st.ok, Nat.le_trans hz2 st.size, st.track G0 _ _ hs0 hz2 hT2⟩
  · rw [hfind]
    simp only [ENODEV]
    rw [hg]
    refine ⟨hs, hz, ?_⟩
    cases hear : is_ear d with
    | false =>
      simp only [hear, Bool.false_eq_true, if_false, List.nil_append,
        List.singleton_append] at hT
      exact tracked_skip_key G0 _ _ _ _ hno hT
    | true =>
      simp only [hear, if_true, List.nil_append] at hT
      apply tracked_prune G0 _ _ _ _ hs _ hT
      intro sk hsk
      rcases List.mem_append.mp hsk with e | e
      · right
        left
        obtain ⟨k, _, hk⟩ := List.mem_map.mp e
        subst hk
        exact hno
      · exact Or.inl e

theorem destroy_spec (G0 : graph_t) (hs0 : sound G0) (D : List dlr_info_t) :
    ∀ (w : World), ledger G0 (graph_of w) D → (∀ sk ∈ listed_edges D, fresh G0 sk) →
      ledger G0 (graph_of (D.foldl destroy_record w)) [] := by
  induction D with
  | nil => intro w hl _; exact hl
  | cons d R ih =>
    intro w hl hfr
    simp only [List.foldl_cons]
    apply ih _ (destroy_record_spec G0 hs0 d R w hl hfr)
    intro sk hsk
    apply hfr
    rw [listed_edges_cons]
    exact List.mem_append_right _ hsk

theorem node_graph_of (w : World) (p : Nat) (n : node_t) :
    (graph_of w).node p = some n ↔ ∃ e, deref w p = some e ∧ node_of e = n := by
  simp only [graph_of]
  cases deref w p with
  | none => simp
  | some e => simp

theorem sound_of_graph_ok (w : World) (h : graph_ok w) :
    sound (graph_of w)
    ∧ ∀ p ∈ (graph_of w).members, ∀ n, (graph_of w).node p = some n → n.rc < 4294967296 := by
  have key : ∀ p ∈ w.entities, ∃ e, deref w p = some e ∧ e.ref_count < 4294967296
      ∧ (∀ q ∈ w.entities, q ≠ p → ∀ x, deref w q = some x → key_of x ≠ key_of e)
      ∧ (∀ c ∈ e.child_entities, c ∈ w.entities
          ∧ ∃ x, deref w c = some x ∧ p ∈ x.parent_entities)
      ∧ (∀ q ∈ e.parent_entities, q ∈ w.entities
          ∧ ∃ x, deref w q = some x ∧ p ∈ x.child_entities) := by
    intro p hp
    have hn := h p hp
    unfold node_ok at hn
    cases hd : deref w p with
    | none => rw [hd] at hn; cases hn
    | some e =>
      rw [hd] at hn
      simp only [Bool.and_eq_true, decide_eq_true_eq, List.all_eq_true, Bool.or_eq_true,
        beq_iff_eq] at hn
      obtain ⟨⟨⟨h1, h2⟩, h3⟩, h4⟩ := hn
      refine ⟨e, rfl, h1, ?_, ?_, ?_⟩
      · intro q hq hne x hx
        rcases h2 q hq with e1 | e1
        · exact absurd e1 hne
        · rw [hx] at e1
          simpa using e1
      · intro c hc
        have := h3 c hc
        refine ⟨this.1, ?_⟩
        cases hx : deref w c with
        | none => rw [hx] at this; simp at this
        | some x =>
          rw [hx] at this
          exact ⟨x, rfl, by simpa using this.2⟩
      · intro c hc
        have := h4 c hc
        refine ⟨this.1, ?_⟩
        cases hx : deref w c with
        | none => rw [hx] at this; simp at this
        | some x =>
          rw [hx] at this
          exact ⟨x, rfl, by simpa using this.2⟩
  constructor
  · constructor
    · intro p hp
      obtain ⟨e, he, _⟩ := key p hp
      exact ⟨node_of e, (node_graph_of w p _).mpr ⟨e, he, rfl⟩⟩
    · intro p hp
      have : deref w p = none := by
        unfold deref
        have hp1 : w.heap.length ≤ p := hp
        rw [List.getElem?_eq_none hp1]
      simp [graph_of, this]
    · intro p hp q hq k h1 h2
      by_contra hne
      obtain ⟨e, he, _, hu, _⟩ := key p hp
      obtain ⟨x1, hx1, hk1⟩ := h1
      obtain ⟨x2, hx2, hk2⟩ := h2
      obtain ⟨e1, he1, hn1⟩ := (node_graph_of w p _).mp hx1
      obtain ⟨e2, he2, hn2⟩ := (node_graph_of w q _).mp hx2
      rw [he] at he1
      cases he1
      apply hu q hq (fun e => hne e.symm) e2 he2
      have a1 : key_of e = k := by rw [← hk1, ← hn1]; rfl
      have a2 : key_of e2 = k := by rw [← hk2, ← hn2]; rfl
      rw [a1, a2]
    · intro p hp n hn c hc
      obtain ⟨e, he, _, _, hd, _⟩ := key p hp
      obtain ⟨e1, he1, hn1⟩ := (node_graph_of w p _).mp hn
      rw [he] at he1
      cases he1
      subst hn1
      obtain ⟨h1, x, hx, h2⟩ := hd c hc
      exact ⟨h1, node_of x, (node_graph_of w c _).mpr ⟨x, hx, rfl⟩, h2⟩
    · intro p hp n hn c hc
      obtain ⟨e, he, _, _, _, hu⟩ := key p hp
      obtain ⟨e1, he1, hn1⟩ := (node_graph_of w p _).mp hn
      rw [he] at he1
      cases he1
      subst hn1
      obtain ⟨h1, x, hx, h2⟩ := hu c hc
      exact ⟨h1, node_of x, (node_graph_of w c _).mpr ⟨x, hx, rfl⟩, h2⟩
  · intro p hp n hn
    obtain ⟨e, he, hr, _⟩ := key p hp
    obtain ⟨e1, he1, hn1⟩ := (node_graph_of w p _).mp hn
    rw [he] at he1
    cases he1
    subst hn1
    exact hr

theorem fresh_of_edge_known (w : World) (sk : search_info_t × search_info_t)
    (h : edge_known w sk = false) : fresh (graph_of w) sk := by
  intro p hp n hn hk c hc x hx hxk
  obtain ⟨e, he, hne⟩ := (node_graph_of w p _).mp hn
  obtain ⟨e2, he2, hne2⟩ := (node_graph_of w c _).mp hx
  subst hne hne2
  have : edge_known w sk = true := by
    unfold edge_known
    rw [List.any_eq_true]
    refine ⟨p, hp, ?_⟩
    rw [he]
    simp only [Bool.and_eq_true, beq_iff_eq, List.any_eq_true]
    refine ⟨hk, c, hc, ?_⟩
    rw [he2]
    simp only [beq_iff_eq]
    exact hxk
  rw [h] at this
  cases this

theorem restored_of_ledger (G0 G : graph_t) (h : ledger G0 G [])
    (hr : ∀ p ∈ G0.members, ∀ n, G0.node p = some n → n.rc < 4294967296)
    (p : Nat) (hp : p ∈ G.members) (hp0 : p ∈ G0.members) (n0 : node_t)
    (hn0 : G0.node p = some n0) :
    ∃ n, G.node p = some n ∧ n.rc = n0.rc ∧ n.children = n0.children
      ∧ n.parents = n0.parents := by
  obtain ⟨n, hn, _, h2, ⟨A, hA, hA2⟩, ⟨B, hB, hB2⟩⟩ := h.track p hp hp0 n0 hn0
  refine ⟨n, hn, ?_, ?_, ?_⟩
  · have := hr p hp0 n0 hn0
    rw [h2]
    simp only [pending_keys, List.filter_nil, List.map_nil, List.count_nil, Nat.add_zero]
    omega
  · have : A = [] := by
      apply List.eq_nil_iff_forall_not_mem.mpr
      intro a ha
      obtain ⟨sk, hsk, _⟩ := hA2 a ha
      simp [listed_edges] at hsk
    rw [hA, this, List.append_nil]
  · have : B = [] := by
      apply List.eq_nil_iff_forall_not_mem.mpr
      intro b hb
      obtain ⟨sk, hsk, _⟩ := hB2 b hb
      simp [listed_edges] at hsk
    rw [hB, this, List.append_nil]

/-! ## Facts about the hot-swap machine -/

theorem send_request_fst (w : World) (r : request_t) : (send_request w r).1 = next_rv w := by
  unfold send_request next_rv
  split
  · rename_i h; simp [h]
  · rename_i rv rest h
    split
    · rename_i h0; simp [h, h0]
    · simp [h]

theorem send_request_issued (w : World) (r : request_t) : issued w (send_request w r).2 r := by
  unfold issued send_request next_rv
  split
  · rename_i h; simp [h]
  · rename_i rv rest h
    split
    · rename_i h0; simp [h, h0]
    · rename_i h0; simp [h, h0]

theorem send_request_allocs (w : World) (r : request_t) :
    (send_request w r).2.allocs = w.allocs := by
  unfold send_request
  split
  · rfl
  · split <;> rfl

theorem take_claim_trace (w : World) :
    (take_claim w).2.trace.requests = w.trace.requests
    ∧ (take_claim w).2.trace.request_rvs = w.trace.request_rvs
    ∧ (take_claim w).2.allocs = w.allocs := by
  unfold take_claim
  split <;> exact ⟨rfl, rfl, rfl⟩

theorem modify_allocs (w : World) (p : Nat) (f : ipmi_entity_t → ipmi_entity_t) :
    (modify w p f).allocs = w.allocs := by
  unfold modify; cases deref w p <;> rfl

theorem silent_refl (w : World) : silent w w := ⟨rfl, rfl⟩

theorem silent_trans {a b c : World} (h1 : silent a b) (h2 : silent b c) :
    silent a c :=
  ⟨h2.1.trans h1.1, h2.2.trans h1.2⟩

theorem silent_of_trace {w w1 : World} (h : w1.trace = w.trace) : silent w w1 := by
  unfold silent; rw [h]; exact ⟨rfl, rfl⟩

theorem silent_modify (w : World) (p : Nat) (f : ipmi_entity_t → ipmi_entity_t) :
    silent w (modify w p f) :=
  silent_of_trace (modify_trace w p f)

theorem silent_take_claim (w : World) : silent w (take_claim w).2 :=
  ⟨(take_claim_trace w).2.1, (take_claim_trace w).1⟩

theorem silent_take_alloc (w : World) : silent w (take_alloc w).2 :=
  silent_of_trace (take_alloc_trace w)

theorem issued_of_silent_left {w0 w w1 : World} {r : request_t} (h0 : silent w0 w)
    (h : issued w w1 r) : issued w0 w1 r := by
  unfold issued next_rv at *
  unfold silent at h0
  rw [h0.1, h0.2] at h
  exact h

theorem issued_of_silent_right {w w1 w2 : World} {r : request_t} (h : issued w w1 r)
    (h2 : silent w1 w2) : issued w w2 r := by
  unfold issued at *
  unfold silent at h2
  rw [h2.1, h2.2]
  exact h

theorem silent_start_hot_swap_timer (w : World) (p : Nat) (act : Bool) :
    silent w (start_hot_swap_timer w p act) := by
  unfold start_hot_swap_timer
  split
  · exact silent_refl w
  · split
    · split
      · exact silent_trans (b := { w with trace := _ }) ⟨rfl, rfl⟩ (silent_modify _ _ _)
      · exact silent_refl w
    · split
      · exact silent_trans (b := { w with trace := _ }) ⟨rfl, rfl⟩ (silent_modify _ _ _)
      · exact silent_refl w

theorem silent_call_hot_swap_handlers (w : World) (p : Nat) (a b : ipmi_hot_swap_states) :
    silent w (ipmi_entity_call_hot_swap_handlers w p a b).2 := by
  unfold ipmi_entity_call_hot_swap_handlers
  exact silent_trans (b := { w with trace := _ }) ⟨rfl, rfl⟩ (silent_take_claim _)

theorem timed_of_deref {w : World} {p : Nat} {ent : ipmi_entity_t} (h : deref w p = some ent) :
    timed w p ent :=
  ⟨ent.hot_swap_act_timer_running, ent.hot_swap_deact_timer_running, ent.running_timer_count, h⟩

theorem timed_start_hot_swap_timer (w : World) (p : Nat) (act : Bool) (ent : ipmi_entity_t)
    (hd : deref w p = some ent) : timed (start_hot_swap_timer w p act) p ent := by
  unfold start_hot_swap_timer
  rw [hd]
  simp only
  split
  · split
    · refine ⟨true, ent.hot_swap_deact_timer_running, u32_inc ent.running_timer_count, ?_⟩
      exact deref_modify_same _ p _ ent hd
    · exact timed_of_deref hd
  · split
    · refine ⟨ent.hot_swap_act_timer_running, true, u32_inc ent.running_timer_count, ?_⟩
      exact deref_modify_same _ p _ ent hd
    · exact timed_of_deref hd

theorem timed_deref {w w1 : World} {p : Nat} {ent : ipmi_entity_t} (h : timed w p ent)
    (hq : deref w1 p = deref w p) : timed w1 p ent := by
  obtain ⟨b1, b2, n, h⟩ := h
  exact ⟨b1, b2, n, hq.trans h⟩

theorem timed_state {w : World} {p : Nat} {ent : ipmi_entity_t} (h : timed w p ent) :
    hs_state_at w p = some ent.hot_swap_state := by
  obtain ⟨b1, b2, n, h⟩ := h
  unfold hs_state_at
  rw [h]
  rfl

theorem set_hot_swap_state_eq (w : World) (p : Nat) (s : ipmi_hot_swap_states)
    (ent : ipmi_entity_t) (hd : deref w p = some ent) :
    set_hot_swap_state w p s =
      (let w1 := timers_started w p s ent
       let w2 := match state_indicator_val ent s, ent.hot_swap_indicator with
         | some val, some ind =>
           (send_request w1
             { req := .control_set_val ind val, cb := .indicator_change, ent := p }).2
         | _, _ => w1
       if ent.hot_swap_state != s then
         ipmi_entity_call_hot_swap_handlers
           (modify w2 p (fun e => { e with hot_swap_state := s })) p ent.hot_swap_state s
       else (false, w2)) := by
  unfold set_hot_swap_state
  rw [hd]
  cases s <;> rfl

theorem silent_timers_started (w : World) (p : Nat) (s : ipmi_hot_swap_states)
    (ent : ipmi_entity_t) : silent w (timers_started w p s ent) := by
  unfold timers_started
  split
  · split
    · exact silent_start_hot_swap_timer w p true
    · exact silent_refl w
  · split
    · exact silent_start_hot_swap_timer w p false
    · exact silent_refl w
  · exact silent_refl w

theorem timed_timers_started (w : World) (p : Nat) (s : ipmi_hot_swap_states)
    (ent : ipmi_entity_t) (hd : deref w p = some ent) :
    timed (timers_started w p s ent) p ent := by
  unfold timers_started
  split
  · split
    · exact timed_start_hot_swap_timer w p true ent hd
    · exact timed_of_deref hd
  · split
    · exact timed_start_hot_swap_timer w p false ent hd
    · exact timed_of_deref hd
  · exact timed_of_deref hd

theorem timed_modify_state {w : World} {p : Nat} {ent : ipmi_entity_t} (h : timed w p ent)
    (s : ipmi_hot_swap_states) :
    timed (modify w p (fun e => { e with hot_swap_state := s })) p
      { ent with hot_swap_state := s } := by
  obtain ⟨b1, b2, n, h⟩ := h
  exact ⟨b1, b2, n, deref_modify_same _ p _ _ h⟩

theorem deref_call_hot_swap_handlers (w : World) (p q : Nat) (a b : ipmi_hot_swap_states) :
    deref (ipmi_entity_call_hot_swap_handlers w p a b).2 q = deref w q := by
  unfold ipmi_entity_call_hot_swap_handlers
  rw [deref_take_claim]
  rfl

theorem timed_set_hot_swap_state (w : World) (p : Nat) (s : ipmi_hot_swap_states)
    (ent : ipmi_entity_t) (hd : deref w p = some ent) :
    timed (set_hot_swap_state w p s).2 p { ent with hot_swap_state := s } := by
  rw [set_hot_swap_state_eq w p s ent hd]
  simp only
  have h1 := timed_timers_started w p s ent hd
  have h2 : timed (match state_indicator_val ent s, ent.hot_swap_indicator with
      | some val, some ind =>
        (send_request (timers_started w p s ent)
          { req := .control_set_val ind val, cb := .indicator_change, ent := p }).2
      | _, _ => timers_started w p s ent) p ent := by
    split
    · exact timed_deref h1 (deref_send_request _ _ _)
    · exact h1
  split
  · exact timed_deref (timed_modify_state h2 s) (deref_call_hot_swap_handlers _ _ _ _ _)
  · rename_i hs
    have : ent.hot_swap_state = s := by simpa using hs
    subst this
    exact h2

theorem set_hot_swap_state_issued (w : World) (p : Nat) (s : ipmi_hot_swap_states)
    (ent : ipmi_entity_t) (val : Int) (ind : Nat) (hd : deref w p = some ent)
    (hv : state_indicator_val ent s = some val) (hi : ent.hot_swap_indicator = some ind) :
    issued w (set_hot_swap_state w p s).2
      { req := .control_set_val ind val, cb := .indicator_change, ent := p } := by
  rw [set_hot_swap_state_eq w p s ent hd, hv, hi]
  simp only
  have h2 := issued_of_silent_left (silent_timers_started w p s ent)
    (send_request_issued (timers_started w p s ent)
      { req := .control_set_val ind val, cb := .indicator_change, ent := p })
  split
  · exact issued_of_silent_right h2
      (silent_trans (silent_modify _ _ _) (silent_call_hot_swap_handlers _ _ _ _))
  · exact h2

theorem set_hot_swap_state_silent (w : World) (p : Nat) (s : ipmi_hot_swap_states)
    (ent : ipmi_entity_t) (hd : deref w p = some ent)
    (h : state_indicator_val ent s = none ∨ ent.hot_swap_indicator = none) :
    silent w (set_hot_swap_state w p s).2 := by
  rw [set_hot_swap_state_eq w p s ent hd]
  simp only
  have h2 : silent w (match state_indicator_val ent s, ent.hot_swap_indicator with
      | some val, some ind =>
        (send_request (timers_started w p s ent)
          { req := .control_set_val ind val, cb := .indicator_change, ent := p }).2
      | _, _ => timers_started w p s ent) := by
    split
    · rename_i val ind hv hi
      rcases h with h | h
      · rw [h] at hv; cases hv
      · rw [h] at hi; cases hi
    · exact silent_timers_started w p s ent
  split
  · exact silent_trans h2
      (silent_trans (silent_modify _ _ _) (silent_call_hot_swap_handlers _ _ _ _))
  · exact h2

theorem start_hot_swap_timer_allocs (w : World) (p : Nat) (act : Bool) :
    (start_hot_swap_timer w p act).allocs = w.allocs := by
  unfold start_hot_swap_timer
  split
  · rfl
  · split
    · split
      · rw [modify_allocs]
      · rfl
    · split
      · rw [modify_allocs]
      · rfl

theorem set_hot_swap_state_allocs (w : World) (p : Nat) (s : ipmi_hot_swap_states) :
    (set_hot_swap_state w p s).2.allocs = w.allocs := by
  cases hd : deref w p with
  | none => unfold set_hot_swap_state; rw [hd]
  | some ent =>
    rw [set_hot_swap_state_eq w p s ent hd]
    simp only
    have h1 : (timers_started w p s ent).allocs = w.allocs := by
      unfold timers_started
      split
      · split
        · exact start_hot_swap_timer_allocs w p true
        · rfl
      · split
        · exact start_hot_swap_timer_allocs w p false
        · rfl
      · rfl
    have h2 : (match state_indicator_val ent s, ent.hot_swap_indicator with
        | some val, some ind =>
          (send_request (timers_started w p s ent)
            { req := .control_set_val ind val, cb := .indicator_change, ent := p }).2
        | _, _ => timers_started w p s ent).allocs = w.allocs := by
      split
      · rw [send_request_allocs, h1]
      · exact h1
    split
    · unfold ipmi_entity_call_hot_swap_handlers
      rw [(take_claim_trace _).2.2]
      show (modify _ p _).allocs = _
      rw [modify_allocs, h2]
    · exact h2

theorem power_write_fst (w : World) (p power : Nat) (val : Int) (cb : callback_e)
    (next : ipmi_hot_swap_states) : (power_write w p power val cb next).1 = next_rv w := by
  unfold power_write
  rw [← send_request_fst w { req := .control_set_val power val, cb := cb, ent := p }]
  cases send_request w { req := .control_set_val power val, cb := cb, ent := p } with
  | mk rv w1 =>
    simp only
    split <;> rfl

theorem power_write_issued (w : World) (p power : Nat) (val : Int) (cb : callback_e)
    (next : ipmi_hot_swap_states) (ent : ipmi_entity_t) (hd : deref w p = some ent)
    (hn : state_indicator_val ent next = none) :
    issued w (power_write w p power val cb next).2
      { req := .control_set_val power val, cb := cb, ent := p } := by
  have h := send_request_issued w { req := .control_set_val power val, cb := cb, ent := p }
  have hd1 := (deref_send_request w { req := .control_set_val power val, cb := cb, ent := p } p).trans hd
  unfold power_write
  revert h hd1
  cases send_request w { req := .control_set_val power val, cb := cb, ent := p } with
  | mk rv w1 =>
    intro h hd1
    simp only at h hd1 ⊢
    split
    · exact issued_of_silent_right h (set_hot_swap_state_silent w1 p next ent hd1 (Or.inl hn))
    · exact h

theorem power_write_accepted (w : World) (p power : Nat) (val : Int) (cb : callback_e)
    (next : ipmi_hot_swap_states) (ent : ipmi_entity_t) (hd : deref w p = some ent)
    (h0 : next_rv w = 0) :
    timed (power_write w p power val cb next).2 p { ent with hot_swap_state := next } := by
  have h := send_request_fst w { req := .control_set_val power val, cb := cb, ent := p }
  have hd1 := (deref_send_request w { req := .control_set_val power val, cb := cb, ent := p } p).trans hd
  unfold power_write
  revert h hd1
  cases send_request w { req := .control_set_val power val, cb := cb, ent := p } with
  | mk rv w1 =>
    intro h hd1
    simp only at h hd1 ⊢
    rw [h, h0]
    exact timed_set_hot_swap_state w1 p next ent hd1

theorem power_write_rejected (w : World) (p power : Nat) (val : Int) (cb : callback_e)
    (next : ipmi_hot_swap_states) (ent : ipmi_entity_t) (hd : deref w p = some ent)
    (h0 : next_rv w ≠ 0) :
    deref (power_write w p power val cb next).2 p = some ent := by
  have h := send_request_fst w { req := .control_set_val power val, cb := cb, ent := p }
  have hd1 := (deref_send_request w { req := .control_set_val power val, cb := cb, ent := p } p).trans hd
  unfold power_write
  revert h hd1
  cases send_request w { req := .control_set_val power val, cb := cb, ent := p } with
  | mk rv w1 =>
    intro h hd1
    simp only at h hd1 ⊢
    rw [h]
    simp only [beq_iff_eq, h0, if_false]
    exact hd1

theorem next_rv_take_alloc (w : World) : next_rv (take_alloc w).2 = next_rv w := by
  unfold next_rv
  rw [take_alloc_trace]

theorem hot_swap_act_eagain (w : World) (p handler : Nat) (ent : ipmi_entity_t)
    (hd : deref w p = some ent) (hs : ent.hot_swap_state ≠ IPMI_HOT_SWAP_ACTIVATION_REQUESTED) :
    hot_swap_act w p handler = (EAGAIN, w) := by
  unfold hot_swap_act
  rw [hd]
  simp [hs]

theorem hot_swap_act_enosys (w : World) (p handler : Nat) (ent : ipmi_entity_t)
    (hd : deref w p = some ent) (hs : ent.hot_swap_state = IPMI_HOT_SWAP_ACTIVATION_REQUESTED)
    (hp : ent.hot_swap_power = none) :
    hot_swap_act w p handler = (ENOSYS, w) := by
  unfold hot_swap_act
  rw [hd]
  simp [hs, hp]

theorem hot_swap_act_write (w : World) (p handler power : Nat) (ent : ipmi_entity_t)
    (hd : deref w p = some ent) (hs : ent.hot_swap_state = IPMI_HOT_SWAP_ACTIVATION_REQUESTED)
    (hp : ent.hot_swap_power = some power) (ha : handler = 0 ∨ (take_alloc w).1 = true) :
    hot_swap_act w p handler
      = power_write (if handler = 0 then w else (take_alloc w).2) p power 1
          (if handler = 0 then .hot_swap_power_on else .hot_swap_power_on_cb handler)
          IPMI_HOT_SWAP_ACTIVATION_IN_PROGRESS := by
  unfold hot_swap_act
  rw [hd]
  simp only [hs, hp, beq_self_eq_true, if_true]
  by_cases h0 : handler = 0
  · simp [h0]
  · have ha1 : (take_alloc w).1 = true := by
      rcases ha with h | h
      · exact absurd h h0
      · exact h
    revert ha1
    cases take_alloc w with
    | mk b w1 =>
      intro ha1
      simp only at ha1
      subst ha1
      simp [h0]

theorem hot_swap_act_enomem (w : World) (p handler power : Nat) (ent : ipmi_entity_t)
    (hd : deref w p = some ent) (hs : ent.hot_swap_state = IPMI_HOT_SWAP_ACTIVATION_REQUESTED)
    (hp : ent.hot_swap_power = some power) (h0 : handler ≠ 0)
    (ha : (take_alloc w).1 = false) :
    hot_swap_act w p handler = (ENOMEM, (take_alloc w).2) := by
  unfold hot_swap_act
  rw [hd]
  simp only [hs, hp, beq_self_eq_true, if_true]
  revert ha
  cases take_alloc w with
  | mk b w1 =>
    intro ha
    simp only at ha
    subst ha
    simp [h0]

theorem hot_swap_power_on_state (w : World) (p : Nat) (ent : ipmi_entity_t)
    (hd : deref w p = some ent) :
    hs_state_at (hot_swap_power_on w p 0) p = some IPMI_HOT_SWAP_ACTIVE := by
  unfold hot_swap_power_on
  simp only [bne_self_eq_false, Bool.false_eq_true, if_false]
  exact timed_state (timed_set_hot_swap_state w p _ ent hd)

theorem hs_state_at_call_user_handler (w : World) (handler p q : Nat) :
    hs_state_at (call_user_handler w handler p) q = hs_state_at w q := by
  unfold call_user_handler
  split <;> rfl

theorem hot_swap_power_on_cb_state (w : World) (p handler : Nat) (ent : ipmi_entity_t)
    (hd : deref w p = some ent) :
    hs_state_at (hot_swap_power_on_cb w p handler 0) p = some IPMI_HOT_SWAP_ACTIVE := by
  unfold hot_swap_power_on_cb
  simp only [bne_self_eq_false, Bool.false_eq_true, if_false]
  rw [hs_state_at_call_user_handler]
  exact timed_state (timed_set_hot_swap_state w p _ ent hd)

theorem table_at_modify (w : World) (p q : Nat) (f : ipmi_entity_t → ipmi_entity_t)
    (hf : ∀ e, (f e).hot_swappable = e.hot_swappable ∧ (f e).hs_cb = e.hs_cb) :
    table_at (modify w p f) q = table_at w q :=
  map_deref_modify (fun e => (e.hot_swappable, e.hs_cb)) w p q f
    (fun e => by simp only [(hf e).1, (hf e).2])

theorem table_at_of_deref {w w1 : World} {q : Nat} (h : deref w1 q = deref w q) :
    table_at w1 q = table_at w q := by
  unfold table_at
  rw [h]

theorem table_at_send_request (w : World) (r : request_t) (q : Nat) :
    table_at (send_request w r).2 q = table_at w q :=
  table_at_of_deref (deref_send_request w r q)

theorem table_at_install_internal_hs (w : World) (p : Nat) :
    table_at (install_internal_hs w p) p
      = (table_at w p).map (fun t =>
          if t.2.get_hot_swap_state = 0 then (1, internal_hs_cb) else t) := by
  unfold install_internal_hs
  simp only
  cases hd : deref w p with
  | none =>
    rw [modify_none w p _ hd, hd]
    simp only
    unfold table_at
    rw [hd]
    rfl
  | some ent =>
    rw [deref_modify_same w p _ ent hd]
    simp only
    by_cases hg : ent.hs_cb.get_hot_swap_state = 0
    · simp only [hg, beq_self_eq_true, if_true]
      unfold ipmi_entity_set_hot_swappable call_entity_update_handlers table_at
      have h1 : deref (modify w p (fun e => { e with presence_possibly_changed := true })) p
          = some { ent with presence_possibly_changed := true } :=
        deref_modify_same w p _ ent hd
      have h2 := deref_modify_same _ p (fun e => { e with hot_swappable := (1 : Int) }) _ h1
      have h3 := deref_modify_same
        { modify (modify w p (fun e => { e with presence_possibly_changed := true })) p
            (fun e => { e with hot_swappable := (1 : Int) }) with
          events := (modify (modify w p (fun e => { e with presence_possibly_changed := true })) p
            (fun e => { e with hot_swappable := (1 : Int) })).events ++ [(IPMI_CHANGED, p)] } p
        (fun e => { e with hs_cb := internal_hs_cb }) _ h2
      rw [h3, hd]
      simp [hg]
    · have hg1 : (ent.hs_cb.get_hot_swap_state == 0) = false := by simpa using hg
      simp only [hg1, Bool.false_eq_true, if_false]
      refine Eq.trans (table_at_modify _ _ _ _ (fun e => ⟨rfl, rfl⟩)) ?_
      unfold table_at
      rw [hd]
      simp [hg]

theorem table_at_handle_new_presence_sensor (w : World) (p : Nat) :
    table_at (handle_new_presence_sensor w p) p
      = (table_at w p).map (fun t =>
          if t.2.get_hot_swap_state = 0 then (1, internal_hs_cb) else t) := by
  unfold handle_new_presence_sensor
  rw [table_at_install_internal_hs]
  congr 1
  exact table_at_modify _ _ _ _ (fun e => ⟨rfl, rfl⟩)

theorem table_at_handle_new_hot_swap_requester (sens : Nat → ipmi_sensor_t) (w : World)
    (p sensor : Nat) :
    table_at (handle_new_hot_swap_requester sens w p sensor) p = table_at w p := by
  unfold handle_new_hot_swap_requester
  simp only
  have h1 : table_at (modify w p (fun e =>
      match (sens sensor).requester with
      | some (offset, val) =>
        { e with hot_swap_offset := offset, hot_swap_requesting_val := val }
      | none => e)) p = table_at w p := by
    refine table_at_modify _ _ _ _ (fun e => ?_)
    split <;> exact ⟨rfl, rfl⟩
  have h2 : ∀ w0 : World, table_at (modify w0 p (fun e =>
      { e with hot_swap_requester := some sensor })) p = table_at w0 p :=
    fun w0 => table_at_modify _ _ _ _ (fun e => ⟨rfl, rfl⟩)
  split
  · exact h1
  · split
    · exact (h2 _).trans h1
    · split
      · exact (h2 _).trans h1
      · split
        · exact (table_at_send_request _ _ _).trans ((h2 _).trans h1)
        · exact (h2 _).trans h1

theorem table_at_add_sensor_requester (sens : Nat → ipmi_sensor_t) (w : World)
    (p sensor : Nat) :
    table_at (add_sensor_requester sens w p sensor) p = table_at w p := by
  unfold add_sensor_requester
  simp only
  split
  · exact table_at_handle_new_hot_swap_requester sens w p sensor
  · rfl

theorem table_at_handle_new_hot_swap_power (ctl : Nat → ipmi_control_t) (w : World)
    (p control : Nat) :
    table_at (handle_new_hot_swap_power ctl w p control) p = table_at w p := by
  unfold handle_new_hot_swap_power
  have h2 : table_at (modify w p (fun e => { e with hot_swap_power := some control })) p
      = table_at w p :=
    table_at_modify _ _ _ _ (fun e => ⟨rfl, rfl⟩)
  split
  · rfl
  · simp only
    split
    · exact h2
    · split
      · exact (table_at_send_request _ _ _).trans h2
      · exact h2

theorem table_at_handle_new_hot_swap_indicator (ctl : Nat → ipmi_control_t) (w : World)
    (p control : Nat) :
    table_at (handle_new_hot_swap_indicator ctl w p control) p = table_at w p := by
  unfold handle_new_hot_swap_indicator
  simp only
  have h1 : table_at (modify w p (fun e =>
      match (ctl control).hot_swap_indicator with
      | some (req_act, act, req_deact, inact) =>
        { e with hot_swap_ind_req_act := req_act, hot_swap_ind_act := act,
                 hot_swap_ind_req_deact := req_deact, hot_swap_ind_inact := inact }
      | none => e)) p = table_at w p := by
    refine table_at_modify _ _ _ _ (fun e => ?_)
    split <;> exact ⟨rfl, rfl⟩
  have h2 : ∀ w0 : World, table_at (modify w0 p (fun e =>
      { e with hot_swap_indicator := some control })) p = table_at w0 p :=
    fun w0 => table_at_modify _ _ _ _ (fun e => ⟨rfl, rfl⟩)
  split
  · exact (h2 _).trans h1
  · exact (table_at_send_request _ _ _).trans ((h2 _).trans h1)

theorem table_at_add_control (ctl : Nat → ipmi_control_t) (w : World) (p control : Nat) :
    table_at (ipmi_entity_add_control ctl w p control) p = table_at w p := by
  unfold ipmi_entity_add_control
  simp only
  refine Eq.trans (table_at_modify _ _ _ _ (fun e => ⟨rfl, rfl⟩)) ?_
  have h1 : table_at (if is_hot_swap_power (ctl control) then
      handle_new_hot_swap_power ctl w p control else w) p = table_at w p := by
    split
    · exact table_at_handle_new_hot_swap_power ctl w p control
    · rfl
  split
  · exact (table_at_handle_new_hot_swap_indicator ctl _ p control).trans h1
  · exact h1

theorem table_at_add_sensor_presence (sens : Nat → ipmi_sensor_t) (w : World)
    (p sensor : Nat) (ent : ipmi_entity_t) :
    table_at (add_sensor_presence sens w p sensor ent) p
      = if (is_presence_sensor (sens sensor) && ent.presence_sensor.isNone)
            || ((is_presence_bit_sensor (sens sensor)).isSome
                && ent.presence_sensor.isNone && ent.presence_bit_sensor.isNone) then
          (table_at w p).map (fun t =>
            if t.2.get_hot_swap_state = 0 then (1, internal_hs_cb) else t)
        else table_at w p := by
  unfold add_sensor_presence
  by_cases h1 : (is_presence_sensor (sens sensor) && ent.presence_sensor.isNone) = true
  · rw [if_pos h1]
    simp only [h1, Bool.true_or, if_true]
    rw [table_at_handle_new_presence_sensor]
    congr 1
    exact table_at_modify _ _ _ _ (fun e => ⟨rfl, rfl⟩)
  · rw [if_neg h1]
    have h1f : (is_presence_sensor (sens sensor) && ent.presence_sensor.isNone) = false :=
      Bool.eq_false_iff.mpr h1
    rw [h1f]
    simp only [Bool.false_or]
    cases hb : is_presence_bit_sensor (sens sensor) with
    | none => simp
    | some bit =>
      simp only [Option.isSome_some, Bool.true_and]
      by_cases h2 : (ent.presence_sensor.isNone && ent.presence_bit_sensor.isNone) = true
      · rw [if_pos h2, if_pos h2]
        unfold handle_new_presence_bit_sensor
        rw [table_at_install_internal_hs]
        congr 1
        exact table_at_modify _ _ _ _ (fun e => ⟨rfl, rfl⟩)
      · rw [if_neg h2, if_neg h2]

theorem table_at_add_sensor (sens : Nat → ipmi_sensor_t) (w : World) (p sensor : Nat)
    (ent : ipmi_entity_t) (hd : deref w p = some ent) :
    table_at (ipmi_entity_add_sensor sens w p sensor) p
      = if (is_presence_sensor (sens sensor) && ent.presence_sensor.isNone)
            || ((is_presence_bit_sensor (sens sensor)).isSome
                && ent.presence_sensor.isNone && ent.presence_bit_sensor.isNone) then
          some (if ent.hs_cb.get_hot_swap_state = 0 then (1, internal_hs_cb)
                else (ent.hot_swappable, ent.hs_cb))
        else some (ent.hot_swappable, ent.hs_cb) := by
  unfold ipmi_entity_add_sensor
  rw [hd]
  simp only
  refine Eq.trans (table_at_modify _ _ _ _ (fun e => ⟨rfl, rfl⟩)) ?_
  rw [table_at_add_sensor_requester, table_at_add_sensor_presence]
  have ht : table_at w p = some (ent.hot_swappable, ent.hs_cb) := by
    unfold table_at
    rw [hd]
    rfl
  rw [ht]
  rfl

theorem map_deref_send_request {α : Type} (g : ipmi_entity_t → α) (w : World) (r : request_t)
    (q : Nat) : (deref (send_request w r).2 q).map g = (deref w q).map g := by
  rw [deref_send_request]

theorem power_handle_new_hot_swap_power (ctl : Nat → ipmi_control_t) (w : World)
    (p control : Nat) (ent : ipmi_entity_t) (hd : deref w p = some ent)
    (hrv : (ctl control).add_handler_rv = 0) :
    (deref (handle_new_hot_swap_power ctl w p control) p).map (fun e => e.hot_swap_power)
      = some (some control) := by
  unfold handle_new_hot_swap_power
  have h2 := deref_modify_same w p (fun e => { e with hot_swap_power := some control }) ent hd
  simp only [hrv, bne_self_eq_false, Bool.false_eq_true, if_false]
  rw [h2]
  simp only
  split
  · rw [deref_send_request, h2]
    rfl
  · rw [h2]
    rfl

theorem deref_isSome_handle_new_hot_swap_power (ctl : Nat → ipmi_control_t) (w : World)
    (p control : Nat) :
    (deref (handle_new_hot_swap_power ctl w p control) p).map (fun _ => ())
      = (deref w p).map (fun _ => ()) := by
  unfold handle_new_hot_swap_power
  have h2 : (deref (modify w p (fun e => { e with hot_swap_power := some control })) p).map
      (fun _ => ()) = (deref w p).map (fun _ => ()) :=
    map_deref_modify _ _ _ _ _ (fun _ => rfl)
  split
  · rfl
  · simp only
    split
    · exact h2
    · split
      · rw [deref_send_request]; exact h2
      · exact h2

theorem map_handle_new_hot_swap_indicator {α : Type} (g : ipmi_entity_t → α)
    (ctl : Nat → ipmi_control_t) (w : World) (p control : Nat)
    (hg : ∀ e a b c d i,
      g { e with hot_swap_ind_req_act := a, hot_swap_ind_act := b,
                 hot_swap_ind_req_deact := c, hot_swap_ind_inact := d,
                 hot_swap_indicator := i } = g e) :
    (deref (handle_new_hot_swap_indicator ctl w p control) p).map g = (deref w p).map g := by
  unfold handle_new_hot_swap_indicator
  simp only
  have h1 : (deref (modify (modify w p (fun e =>
      match (ctl control).hot_swap_indicator with
      | some (req_act, act, req_deact, inact) =>
        { e with hot_swap_ind_req_act := req_act, hot_swap_ind_act := act,
                 hot_swap_ind_req_deact := req_deact, hot_swap_ind_inact := inact }
      | none => e)) p (fun e => { e with hot_swap_indicator := some control })) p).map g
      = (deref w p).map g := by
    refine Eq.trans (map_deref_modify g _ _ _ _ (fun e => ?_)) ?_
    · exact hg e e.hot_swap_ind_req_act e.hot_swap_ind_act e.hot_swap_ind_req_deact
        e.hot_swap_ind_inact (some control)
    · refine map_deref_modify g _ _ _ _ (fun e => ?_)
      split
      · rename_i a b c d _
        exact hg e a b c d e.hot_swap_indicator
      · rfl
  split
  · exact h1
  · rw [deref_send_request]; exact h1

theorem indicator_handle_new_hot_swap_indicator (ctl : Nat → ipmi_control_t) (w : World)
    (p control : Nat) (ent : ipmi_entity_t) (hd : deref w p = some ent) :
    (deref (handle_new_hot_swap_indicator ctl w p control) p).map
      (fun e => e.hot_swap_indicator) = some (some control) := by
  unfold handle_new_hot_swap_indicator
  simp only
  have h1 := deref_modify_same w p (fun e =>
      match (ctl control).hot_swap_indicator with
      | some (req_act, act, req_deact, inact) =>
        { e with hot_swap_ind_req_act := req_act, hot_swap_ind_act := act,
                 hot_swap_ind_req_deact := req_deact, hot_swap_ind_inact := inact }
      | none => e) ent hd
  have h2 := deref_modify_same _ p (fun e => { e with hot_swap_indicator := some control }) _ h1
  split
  · rename_i h
    cases h2.symm.trans h
  · rw [deref_send_request]
    exact congrArg (Option.map (fun e => e.hot_swap_indicator)) h2

theorem devices_add_control (ctl : Nat → ipmi_control_t) (w : World) (p control : Nat)
    (ent : ipmi_entity_t) (hd : deref w p = some ent) :
    (is_hot_swap_power (ctl control) = true → (ctl control).add_handler_rv = 0 →
      (deref (ipmi_entity_add_control ctl w p control) p).map (fun e => e.hot_swap_power)
        = some (some control))
    ∧ (is_hot_swap_indicator (ctl control) = true →
      (deref (ipmi_entity_add_control ctl w p control) p).map (fun e => e.hot_swap_indicator)
        = some (some control)) := by
  constructor
  · intro hp hrv
    unfold ipmi_entity_add_control
    simp only [hp, if_true]
    refine Eq.trans (map_deref_modify _ _ _ _ _ (fun e => rfl)) ?_
    have h1 := power_handle_new_hot_swap_power ctl w p control ent hd hrv
    split
    · exact (map_handle_new_hot_swap_indicator (fun e => e.hot_swap_power) ctl _ p control
        (fun _ _ _ _ _ _ => rfl)).trans h1
    · exact h1
  · intro hi
    unfold ipmi_entity_add_control
    simp only [hi, if_true]
    refine Eq.trans (map_deref_modify _ _ _ _ _ (fun e => rfl)) ?_
    have h0 : ∃ e0, deref (if is_hot_swap_power (ctl control) then
        handle_new_hot_swap_power ctl w p control else w) p = some e0 := by
      split
      · have := deref_isSome_handle_new_hot_swap_power ctl w p control
        rw [hd] at this
        cases h : deref (handle_new_hot_swap_power ctl w p control) p with
        | none => rw [h] at this; cases this
        | some e0 => exact ⟨e0, rfl⟩
      · exact ⟨ent, hd⟩
    obtain ⟨e0, h0⟩ := h0
    exact indicator_handle_new_hot_swap_indicator ctl _ p control e0 h0

theorem requester_handle_new_hot_swap_requester (sens : Nat → ipmi_sensor_t) (w : World)
    (p sensor : Nat) (ent : ipmi_entity_t) (hd : deref w p = some ent)
    (hrv : (sens sensor).add_handler_rv = 0) :
    (deref (handle_new_hot_swap_requester sens w p sensor) p).map
      (fun e => e.hot_swap_requester) = some (some sensor) := by
  unfold handle_new_hot_swap_requester
  simp only [hrv, bne_self_eq_false, Bool.false_eq_true, if_false]
  have h1 := deref_modify_same w p (fun e =>
    match (sens sensor).requester with
    | some (offset, val) => { e with hot_swap_offset := offset, hot_swap_requesting_val := val }
    | none => e) ent hd
  have h2 := deref_modify_same _ p (fun e => { e with hot_swap_requester := some sensor }) _ h1
  have h3 := congrArg (Option.map (fun e => e.hot_swap_requester)) h2
  split
  · exact h3
  · split
    · exact h3
    · split
      · rw [deref_send_request]; exact h3
      · exact h3

theorem map_add_sensor_presence {α : Type} (g : ipmi_entity_t → α)
    (sens : Nat → ipmi_sensor_t) (w : World) (p sensor : Nat) (ent : ipmi_entity_t)
    (hg : ∀ e a b c d h t,
      g { e with presence_sensor := a, presence_bit_sensor := b,
                 presence_bit_offset := c, presence_possibly_changed := d,
                 hot_swappable := h, hs_cb := t } = g e) :
    (deref (add_sensor_presence sens w p sensor ent) p).map g = (deref w p).map g := by
  have hi : ∀ w0 : World, (deref (install_internal_hs w0 p) p).map g = (deref w0 p).map g := by
    intro w0
    unfold install_internal_hs
    simp only
    have h1 : (deref (modify w0 p (fun e => { e with presence_possibly_changed := true })) p).map g
        = (deref w0 p).map g :=
      map_deref_modify g _ _ _ _ (fun e => hg e e.presence_sensor e.presence_bit_sensor
        e.presence_bit_offset true e.hot_swappable e.hs_cb)
    split
    · exact h1
    · split
      · refine Eq.trans (map_deref_modify g _ _ _ _ (fun e => hg e e.presence_sensor
          e.presence_bit_sensor e.presence_bit_offset e.presence_possibly_changed
          e.hot_swappable internal_hs_cb)) ?_
        unfold ipmi_entity_set_hot_swappable call_entity_update_handlers
        refine Eq.trans ?_ h1
        exact map_deref_modify g _ _ _ _ (fun e => hg e e.presence_sensor
          e.presence_bit_sensor e.presence_bit_offset e.presence_possibly_changed 1 e.hs_cb)
      · exact h1
  unfold add_sensor_presence
  split
  · unfold handle_new_presence_sensor
    rw [hi]
    refine Eq.trans (map_deref_modify g _ _ _ _ (fun e => hg e e.presence_sensor none
      e.presence_bit_offset e.presence_possibly_changed e.hot_swappable e.hs_cb)) ?_
    exact map_deref_modify g _ _ _ _ (fun e => hg e (some sensor) e.presence_bit_sensor
      e.presence_bit_offset e.presence_possibly_changed e.hot_swappable e.hs_cb)
  · split
    · split
      · unfold handle_new_presence_bit_sensor
        rw [hi]
        rename_i bit _ _
        exact map_deref_modify g _ _ _ _ (fun e => hg e e.presence_sensor (some sensor)
          bit e.presence_possibly_changed e.hot_swappable e.hs_cb)
      · rfl
    · rfl

theorem requester_add_sensor (sens : Nat → ipmi_sensor_t) (w : World) (p sensor : Nat)
    (ent : ipmi_entity_t) (hd : deref w p = some ent)
    (hq : is_hot_swap_requester (sens sensor) = true) (hfree : ent.hot_swap_requester = none)
    (hrv : (sens sensor).add_handler_rv = 0) :
    (deref (ipmi_entity_add_sensor sens w p sensor) p).map (fun e => e.hot_swap_requester)
      = some (some sensor) := by
  unfold ipmi_entity_add_sensor
  rw [hd]
  simp only
  refine Eq.trans (map_deref_modify _ _ _ _ _ (fun e => rfl)) ?_
  have h1 : (deref (add_sensor_presence sens w p sensor ent) p).map
      (fun e => (e.hot_swap_requester, ())) = some (none, ()) := by
    rw [map_add_sensor_presence (fun e => (e.hot_swap_requester, ())) sens w p sensor ent
      (fun _ _ _ _ _ _ _ => rfl), hd]
    simp [hfree]
  cases h0 : deref (add_sensor_presence sens w p sensor ent) p with
  | none => rw [h0] at h1; cases h1
  | some e0 =>
    rw [h0] at h1
    have hf0 : e0.hot_swap_requester = none := by
      simpa using h1
    unfold add_sensor_requester
    simp only [h0, hf0, hq, Option.isNone_none, Bool.and_self, if_true]
    exact requester_handle_new_hot_swap_requester sens _ p sensor e0 h0 hrv

theorem start_hot_swap_timer_calls (w : World) (p : Nat) (act : Bool) :
    (start_hot_swap_timer w p act).trace.hot_swap_calls = w.trace.hot_swap_calls := by
  unfold start_hot_swap_timer
  split
  · rfl
  · split
    · split
      · rw [modify_trace]
      · rfl
    · split
      · rw [modify_trace]
      · rfl

theorem send_request_calls (w : World) (r : request_t) :
    (send_request w r).2.trace.hot_swap_calls = w.trace.hot_swap_calls := by
  unfold send_request
  split
  · rfl
  · split <;> rfl

theorem take_claim_calls (w : World) :
    (take_claim w).2.trace.hot_swap_calls = w.trace.hot_swap_calls := by
  unfold take_claim
  split <;> rfl

theorem set_hot_swap_state_calls (w : World) (p : Nat) (s : ipmi_hot_swap_states)
    (ent : ipmi_entity_t) (hd : deref w p = some ent) :
    (set_hot_swap_state w p s).2.trace.hot_swap_calls
      = w.trace.hot_swap_calls
          ++ (if ent.hot_swap_state = s then [] else [(p, ent.hot_swap_state, s)]) := by
  rw [set_hot_swap_state_eq w p s ent hd]
  simp only
  have h1 : (timers_started w p s ent).trace.hot_swap_calls = w.trace.hot_swap_calls := by
    unfold timers_started
    split
    · split
      · exact start_hot_swap_timer_calls w p true
      · rfl
    · split
      · exact start_hot_swap_timer_calls w p false
      · rfl
    · rfl
  have h2 : (match state_indicator_val ent s, ent.hot_swap_indicator with
      | some val, some ind =>
        (send_request (timers_started w p s ent)
          { req := .control_set_val ind val, cb := .indicator_change, ent := p }).2
      | _, _ => timers_started w p s ent).trace.hot_swap_calls = w.trace.hot_swap_calls := by
    split
    · rw [send_request_calls, h1]
    · exact h1
  by_cases hs : ent.hot_swap_state = s
  · simp only [hs, bne_self_eq_false, Bool.false_eq_true, if_false, if_true,
      List.append_nil]
    rw [← hs] at h2 ⊢
    exact h2
  · have hb : (ent.hot_swap_state != s) = true := bne_iff_ne.mpr hs
    simp only [hb, if_true, if_neg hs]
    unfold ipmi_entity_call_hot_swap_handlers
    rw [take_claim_calls]
    show (modify _ p _).trace.hot_swap_calls ++ _ = _
    rw [modify_trace, h2]

theorem set_hot_swap_state_rvs_nil (w : World) (p : Nat) (s : ipmi_hot_swap_states)
    (ent : ipmi_entity_t) (hd : deref w p = some ent) (h : w.trace.request_rvs = []) :
    (set_hot_swap_state w p s).2.trace.request_rvs = [] := by
  cases hv : state_indicator_val ent s with
  | none => rw [(set_hot_swap_state_silent w p s ent hd (Or.inl hv)).1, h]
  | some val =>
    cases hi : ent.hot_swap_indicator with
    | none => rw [(set_hot_swap_state_silent w p s ent hd (Or.inr hi)).1, h]
    | some ind =>
      rw [(set_hot_swap_state_issued w p s ent val ind hd hv hi).1, h]
      rfl

theorem stage_set_hot_swap_state {w0 w : World} {p : Nat} {ent : ipmi_entity_t}
    {s : ipmi_hot_swap_states} {log : List (Nat × ipmi_hot_swap_states × ipmi_hot_swap_states)}
    (h : stage w0 w p ent s log) (s1 : ipmi_hot_swap_states) (hne : s ≠ s1) :
    stage w0 (set_hot_swap_state w p s1).2 p ent s1 (log ++ [(p, s, s1)]) := by
  obtain ⟨⟨b1, b2, n, hd⟩, hrv, ha, hc⟩ := h
  refine ⟨?_, set_hot_swap_state_rvs_nil w p s1 _ hd hrv, ?_, ?_⟩
  · obtain ⟨c1, c2, m, hd2⟩ := timed_set_hot_swap_state w p s1 _ hd
    exact ⟨c1, c2, m, hd2⟩
  · rw [set_hot_swap_state_allocs, ha]
  · rw [set_hot_swap_state_calls w p s1 _ hd, hc]
    simp only [if_neg hne, List.append_assoc]

theorem stage_send_request {w0 w : World} {p : Nat} {ent : ipmi_entity_t}
    {s : ipmi_hot_swap_states} {log : List (Nat × ipmi_hot_swap_states × ipmi_hot_swap_states)}
    (h : stage w0 w p ent s log) (r : request_t) :
    stage w0 (send_request w r).2 p ent s log
    ∧ (send_request w r).1 = 0
    ∧ (send_request w r).2.trace.requests = w.trace.requests ++ [r] := by
  obtain ⟨ht, hrv, ha, hc⟩ := h
  have hn : next_rv w = 0 := by
    unfold next_rv
    rw [hrv]
    rfl
  have hi := send_request_issued w r
  refine ⟨⟨timed_deref ht (deref_send_request w r p), ?_, ?_, ?_⟩, ?_, ?_⟩
  · rw [hi.1, hrv]; rfl
  · rw [send_request_allocs, ha]
  · rw [send_request_calls, hc]
  · rw [send_request_fst, hn]
  · rw [hi.2, if_pos hn]

theorem stage_state {w0 w : World} {p : Nat} {ent : ipmi_entity_t}
    {s : ipmi_hot_swap_states} {log : List (Nat × ipmi_hot_swap_states × ipmi_hot_swap_states)}
    (h : stage w0 w p ent s log) : hs_state_at w p = some s :=
  timed_state h.1

theorem stage_call_user_handler {w0 w : World} {p : Nat} {ent : ipmi_entity_t}
    {s : ipmi_hot_swap_states} {log : List (Nat × ipmi_hot_swap_states × ipmi_hot_swap_states)}
    (h : stage w0 w p ent s log) (handler : Nat) :
    stage w0 (call_user_handler w handler p) p ent s log := by
  unfold call_user_handler
  split
  · exact h
  · exact h

theorem stage_handle_hot_swap_presence {w0 w : World} {p : Nat} {ent : ipmi_entity_t}
    {s : ipmi_hot_swap_states} {log : List (Nat × ipmi_hot_swap_states × ipmi_hot_swap_states)}
    (h : stage w0 w p ent s log) (power : Nat) (hp : ent.hot_swap_power = some power) :
    stage w0 (handle_hot_swap_presence w p true).2 p ent s log
    ∧ (handle_hot_swap_presence w p true).2.trace.requests
        = w.trace.requests ++ [{ req := .control_get_val power, cb := .power_checked, ent := p }] := by
  obtain ⟨b1, b2, n, hd⟩ := h.1
  have hs := stage_send_request h { req := .control_get_val power, cb := .power_checked, ent := p }
  have he : handle_hot_swap_presence w p true
      = (false, (send_request w
          { req := .control_get_val power, cb := .power_checked, ent := p }).2) := by
    unfold handle_hot_swap_presence
    rw [hd]
    simp only [hp, if_true]
    rfl
  rw [he]
  exact ⟨hs.1, hs.2.2⟩

theorem stage_power_checked_off {w0 w : World} {p : Nat} {ent : ipmi_entity_t}
    {s : ipmi_hot_swap_states} {log : List (Nat × ipmi_hot_swap_states × ipmi_hot_swap_states)}
    (h : stage w0 w p ent s log) (hne : s ≠ IPMI_HOT_SWAP_INACTIVE) (requester : Nat)
    (hr : ent.hot_swap_requester = some requester) :
    stage w0 (power_checked w p 0 0) p ent IPMI_HOT_SWAP_INACTIVE
      (log ++ [(p, s, IPMI_HOT_SWAP_INACTIVE)])
    ∧ { req := .states_get requester, cb := .requester_checked, ent := p }
        ∈ (power_checked w p 0 0).trace.requests := by
  have h1 := stage_set_hot_swap_state h IPMI_HOT_SWAP_INACTIVE hne
  obtain ⟨c1, c2, m, hd1⟩ := h1.1
  have hs := stage_send_request h1
    { req := .states_get requester, cb := .requester_checked, ent := p }
  have he : power_checked w p 0 0
      = (send_request (set_hot_swap_state w p IPMI_HOT_SWAP_INACTIVE).2
          { req := .states_get requester, cb := .requester_checked, ent := p }).2 := by
    unfold power_checked
    simp only [bne_self_eq_false, Bool.false_eq_true, if_false]
    rw [hd1]
    simp only [hr]
  rw [he]
  refine ⟨hs.1, ?_⟩
  rw [hs.2.2]
  simp

theorem stage_requester_deasserted {w0 w : World} {p : Nat} {ent : ipmi_entity_t}
    {log : List (Nat × ipmi_hot_swap_states × ipmi_hot_swap_states)}
    (h : stage w0 w p ent IPMI_HOT_SWAP_INACTIVE log) :
    stage w0 (hot_swap_requester_changed w p .IPMI_DEASSERTION ent.hot_swap_offset).2 p ent
      IPMI_HOT_SWAP_ACTIVATION_REQUESTED
      (log ++ [(p, IPMI_HOT_SWAP_INACTIVE, IPMI_HOT_SWAP_ACTIVATION_REQUESTED)]) := by
  obtain ⟨b1, b2, n, hd⟩ := h.1
  have h1 := stage_set_hot_swap_state h IPMI_HOT_SWAP_ACTIVATION_REQUESTED (by decide)
  unfold hot_swap_requester_changed
  rw [hd]
  simp only [bne_self_eq_false, Bool.false_eq_true, if_false]
  have hdir : (ipmi_event_dir_e.IPMI_DEASSERTION == ipmi_event_dir_e.IPMI_ASSERTION) = false := by
    decide
  simp only [hdir, Bool.and_false, Bool.false_eq_true, if_false]
  exact h1

theorem stage_activate {w0 w : World} {p : Nat} {ent : ipmi_entity_t}
    {log : List (Nat × ipmi_hot_swap_states × ipmi_hot_swap_states)}
    (h : stage w0 w p ent IPMI_HOT_SWAP_ACTIVATION_REQUESTED log) (handler power : Nat)
    (hp : ent.hot_swap_power = some power) (hsw : ent.hot_swappable ≠ 0)
    (htab : ent.hs_cb = internal_hs_cb) :
    ∃ w1, ipmi_entity_activate w p handler = some (0, w1)
      ∧ stage w0 w1 p ent IPMI_HOT_SWAP_ACTIVATION_IN_PROGRESS
          (log ++ [(p, IPMI_HOT_SWAP_ACTIVATION_REQUESTED,
            IPMI_HOT_SWAP_ACTIVATION_IN_PROGRESS)])
      ∧ { req := .control_set_val power 1,
          cb := if handler = 0 then .hot_swap_power_on else .hot_swap_power_on_cb handler,
          ent := p } ∈ w1.trace.requests := by
  obtain ⟨b1, b2, n, hd⟩ := h.1
  have halloc : take_alloc w = (true, w) := by
    unfold take_alloc
    rw [h.2.2.1]
  have hw := hot_swap_act_write w p handler power _ hd rfl hp (Or.inr (by rw [halloc]))
  have hw0 : (if handler = 0 then w else (take_alloc w).2) = w := by
    split
    · rfl
    · rw [halloc]
  rw [hw0] at hw
  have hsend := stage_send_request h
    { req := .control_set_val power 1,
      cb := if handler = 0 then .hot_swap_power_on else .hot_swap_power_on_cb handler,
      ent := p }
  have hact : ipmi_entity_activate w p handler = some (hot_swap_act w p handler) := by
    unfold ipmi_entity_activate
    rw [hd]
    have h1 : (ent.hot_swappable == 0) = false := by simpa using hsw
    simp only [h1, htab, Bool.false_eq_true, if_false]
    rfl
  rw [hact, hw]
  unfold power_write
  revert hsend
  cases send_request w
      { req := .control_set_val power 1,
        cb := if handler = 0 then .hot_swap_power_on else .hot_swap_power_on_cb handler,
        ent := p } with
  | mk rv w1 =>
    intro hsend
    simp only at hsend ⊢
    obtain ⟨hst, hrv0, hreq⟩ := hsend
    subst hrv0
    simp only [beq_self_eq_true, if_true]
    refine ⟨_, rfl, stage_set_hot_swap_state hst _ (by decide), ?_⟩
    obtain ⟨c1, c2, m, hd1⟩ := hst.1
    rw [(set_hot_swap_state_silent w1 p IPMI_HOT_SWAP_ACTIVATION_IN_PROGRESS _ hd1
      (Or.inl rfl)).2, hreq]
    simp

theorem stage_power_on {w0 w : World} {p : Nat} {ent : ipmi_entity_t}
    {s : ipmi_hot_swap_states} {log : List (Nat × ipmi_hot_swap_states × ipmi_hot_swap_states)}
    (h : stage w0 w p ent s log) (handler : Nat) (hne : s ≠ IPMI_HOT_SWAP_ACTIVE) :
    stage w0 (if handler = 0 then hot_swap_power_on w p 0
        else hot_swap_power_on_cb w p handler 0) p ent IPMI_HOT_SWAP_ACTIVE
      (log ++ [(p, s, IPMI_HOT_SWAP_ACTIVE)]) := by
  have h1 := stage_set_hot_swap_state h IPMI_HOT_SWAP_ACTIVE hne
  split
  · unfold hot_swap_power_on
    simp only [bne_self_eq_false, Bool.false_eq_true, if_false]
    exact h1
  · unfold hot_swap_power_on_cb
    simp only [bne_self_eq_false, Bool.false_eq_true, if_false]
    exact stage_call_user_handler h1 handler

/-! ## Facts about the bytes of a locator record -/

theorem byte_lt (x : Nat) : byte x < 256 := Nat.mod_lt _ (by decide)

theorem byte_of_lt {x : Nat} (h : x < 256) : byte x = x := Nat.mod_eq_of_lt h

theorem byte_byte (x : Nat) : byte (byte x) = byte x := byte_of_lt (byte_lt x)

theorem sdr_data_lt (sdr : ipmi_sdr_t) (i : Nat) : sdr_data sdr i < 256 := byte_lt _

theorem byte_sdr_data (sdr : ipmi_sdr_t) (i : Nat) : byte (sdr_data sdr i) = sdr_data sdr i :=
  byte_byte _

set_option maxRecDepth 100000 in
theorem shr5_lt : ∀ x < 256, x >>> 5 < 8 := by decide

set_option maxRecDepth 100000 in
theorem shl3_and8 : ∀ x < 256, (x <<< 3) &&& 0x08 = 0 ∨ (x <<< 3) &&& 0x08 = 8 := by decide

set_option maxRecDepth 100000 in
theorem and_fe_even : ∀ x < 256, ∃ s, s < 128 ∧ byte (x &&& 0xfe) = 2 * s := by
  intro x hx
  refine ⟨x / 2, by omega, ?_⟩
  revert x
  decide

set_option maxRecDepth 100000 in
theorem and_fe_idem : ∀ x < 256, byte (byte (byte (byte (x &&& 0xfe))) &&& 0xfe) = byte (x &&& 0xfe) := by
  decide

set_option maxRecDepth 100000 in
theorem and_7_idem : ∀ x < 256, byte (byte (byte (byte (x &&& 0x7) &&& 0x7)) &&& 0x7) = byte (x &&& 0x7) := by
  decide

theorem chan_lt : ∀ a < 8, ∀ b, (b = 0 ∨ b = 8) → byte (a ||| b) < 16 := by
  intro a ha b hb
  rcases hb with rfl | rfl <;> revert a <;> decide

set_option maxRecDepth 100000 in
theorem lun_lt : ∀ x < 256, byte ((x >>> 3) &&& 0x3) < 4 := by decide

set_option maxRecDepth 100000 in
theorem pb_lt : ∀ x < 256, byte (x &&& 0x7) < 8 := by decide

set_option maxRecDepth 100000 in
set_option maxHeartbeats 4000000 in
theorem gdlr_y2 : ∀ ch < 16, ∀ lun < 4, ∀ pb < 8,
    byte (byte ((ch <<< 5) ||| (lun <<< 3) ||| pb)) >>> 5 = ch &&& 7
    ∧ byte ((byte (byte ((ch <<< 5) ||| (lun <<< 3) ||| pb)) >>> 3) &&& 0x3) = lun
    ∧ byte (byte (byte ((ch <<< 5) ||| (lun <<< 3) ||| pb)) &&& 0x7) = pb := by
  decide

set_option maxRecDepth 100000 in
set_option maxHeartbeats 4000000 in
theorem gdlr_y1 : ∀ s < 128, ∀ ch < 16,
    byte (byte (byte (2 * s ||| (ch >>> 3))) &&& 0xfe) = 2 * s
    ∧ (byte (byte (2 * s ||| (ch >>> 3))) <<< 3) &&& 0x08 = (ch >>> 3) <<< 3 := by
  decide

theorem chan_join : ∀ ch < 16, byte ((ch &&& 7) ||| ((ch >>> 3) <<< 3)) = ch := by decide

/-- The four fields of a generic locator record that share the bytes 1
and 2 survive the encoding and a second decoding. -/
theorem gdlr_bytes (x1 x2 : Nat) (h1 : x1 < 256) (h2 : x2 < 256) :
    byte (byte (byte (byte (x1 &&& 0xfe)
        ||| (byte ((x2 >>> 5) ||| ((x1 <<< 3) &&& 0x08)) >>> 3))) &&& 0xfe)
      = byte (x1 &&& 0xfe)
    ∧ byte ((byte (byte ((byte ((x2 >>> 5) ||| ((x1 <<< 3) &&& 0x08)) <<< 5)
          ||| (byte ((x2 >>> 3) &&& 0x3) <<< 3) ||| byte (x2 &&& 0x7))) >>> 5)
        ||| ((byte (byte (byte (x1 &&& 0xfe)
          ||| (byte ((x2 >>> 5) ||| ((x1 <<< 3) &&& 0x08)) >>> 3))) <<< 3) &&& 0x08))
      = byte ((x2 >>> 5) ||| ((x1 <<< 3) &&& 0x08))
    ∧ byte ((byte (byte ((byte ((x2 >>> 5) ||| ((x1 <<< 3) &&& 0x08)) <<< 5)
          ||| (byte ((x2 >>> 3) &&& 0x3) <<< 3) ||| byte (x2 &&& 0x7))) >>> 3) &&& 0x3)
      = byte ((x2 >>> 3) &&& 0x3)
    ∧ byte (byte (byte ((byte ((x2 >>> 5) ||| ((x1 <<< 3) &&& 0x08)) <<< 5)
          ||| (byte ((x2 >>> 3) &&& 0x3) <<< 3) ||| byte (x2 &&& 0x7))) &&& 0x7)
      = byte (x2 &&& 0x7) := by
  obtain ⟨s, hs, hslv⟩ := and_fe_even x1 h1
  have hch := chan_lt _ (shr5_lt x2 h2) _ (shl3_and8 x1 h1)
  have hlun := lun_lt x2 h2
  have hpb := pb_lt x2 h2
  rw [hslv]
  generalize byte ((x2 >>> 5) ||| ((x1 <<< 3) &&& 0x08)) = ch at hch ⊢
  generalize byte ((x2 >>> 3) &&& 0x3) = lun at hlun ⊢
  generalize byte (x2 &&& 0x7) = pb at hpb ⊢
  obtain ⟨a1, a2, a3⟩ := gdlr_y2 ch hch lun hlun pb hpb
  obtain ⟨b1, b2⟩ := gdlr_y1 s hs ch hch
  refine ⟨b1, ?_, a2, a3⟩
  rw [a1, b2]
  exact chan_join ch hch

theorem c_bool_lt (b : Bool) : c_bool b < 2 := by
  cases b <;> decide

set_option maxRecDepth 100000 in
theorem shr4_lt : ∀ x < 256, byte (x >>> 4) < 16 := by decide

theorem frudlr_y3 : ∀ ch < 16, byte (byte (byte (ch <<< 4)) >>> 4) = ch := by decide

set_option maxRecDepth 100000 in
set_option maxHeartbeats 4000000 in
theorem frudlr_y2 : ∀ lf < 2, ∀ lun < 4, ∀ pb < 8,
    c_bool (byte (byte ((lf <<< 7) ||| (lun <<< 3) ||| pb)) &&& 0x80 == 0x80) = lf
    ∧ byte ((byte (byte ((lf <<< 7) ||| (lun <<< 3) ||| pb)) >>> 3) &&& 0x3) = lun
    ∧ byte (byte (byte ((lf <<< 7) ||| (lun <<< 3) ||| pb)) &&& 0x7) = pb := by
  decide

/-- The three fields of a FRU locator record that share the byte 2
survive the encoding and a second decoding. -/
theorem frudlr_bytes (x2 : Nat) (h2 : x2 < 256) :
    c_bool (byte (byte ((c_bool (x2 &&& 0x80 == 0x80) <<< 7)
          ||| (byte ((x2 >>> 3) &&& 0x3) <<< 3) ||| byte (x2 &&& 0x7))) &&& 0x80 == 0x80)
      = c_bool (x2 &&& 0x80 == 0x80)
    ∧ byte ((byte (byte ((c_bool (x2 &&& 0x80 == 0x80) <<< 7)
          ||| (byte ((x2 >>> 3) &&& 0x3) <<< 3) ||| byte (x2 &&& 0x7))) >>> 3) &&& 0x3)
      = byte ((x2 >>> 3) &&& 0x3)
    ∧ byte (byte (byte ((c_bool (x2 &&& 0x80 == 0x80) <<< 7)
          ||| (byte ((x2 >>> 3) &&& 0x3) <<< 3) ||| byte (x2 &&& 0x7))) &&& 0x7)
      = byte (x2 &&& 0x7) :=
  frudlr_y2 _ (c_bool_lt _) _ (lun_lt x2 h2) _ (pb_lt x2 h2)

theorem gdlr_roundtrip (str : device_string_t) (r : ipmi_sdr_t) :
    let i := decode_gdlr str r
    let j := decode_gdlr str (gdlr_output str i)
    j.access_address = i.access_address ∧ j.slave_address = i.slave_address
    ∧ j.channel = i.channel ∧ j.lun = i.lun ∧ j.private_bus_id = i.private_bus_id
    ∧ j.address_span = i.address_span
    ∧ j.device_type = i.device_type ∧ j.device_type_modifier = i.device_type_modifier
    ∧ j.entity_id = i.entity_id ∧ j.entity_instance = i.entity_instance
    ∧ j.oem = i.oem ∧ j.device_num = i.device_num
    ∧ j.type = i.type ∧ j.output_handler = i.output_handler := by
  obtain ⟨g1, g2, g3, g4⟩ := gdlr_bytes (sdr_data r 1) (sdr_data r 2) (sdr_data_lt r 1)
    (sdr_data_lt r 2)
  have g0 := and_fe_idem (sdr_data r 0) (sdr_data_lt r 0)
  have g5 := and_7_idem (sdr_data r 3) (sdr_data_lt r 3)
  have e : ∀ k, byte (byte (sdr_data r k)) = sdr_data r k := fun k => by
    rw [byte_sdr_data, byte_sdr_data]
  have e8 : sdr_data (gdlr_output str (decode_gdlr str r)) 8 = sdr_data r 8 := e 8
  refine ⟨g0, g1, g2, g3, g4, g5, e 5, e 6, e 7, e 8, e 9, ?_, rfl, rfl⟩
  show (if sdr_data (gdlr_output str (decode_gdlr str r)) 8 ≥ 0x60 then _ else _)
    = (if sdr_data r 8 ≥ 0x60 then _ else _)
  rw [e8]
  by_cases h : sdr_data r 8 ≥ 0x60
  · rw [if_pos h, if_pos h]
    exact congrArg₂ ipmi_device_num_t.mk g2 g0
  · rw [if_neg h, if_neg h]

theorem frudlr_roundtrip (str : device_string_t) (r : ipmi_sdr_t) :
    let i := decode_frudlr str r
    let j := decode_frudlr str (frudlr_output str i)
    j.access_address = i.access_address ∧ j.channel = i.channel ∧ j.lun = i.lun
    ∧ j.private_bus_id = i.private_bus_id
    ∧ j.fru_device_id = i.fru_device_id ∧ j.is_logical_fru = i.is_logical_fru
    ∧ j.device_type = i.device_type ∧ j.device_type_modifier = i.device_type_modifier
    ∧ j.entity_id = i.entity_id ∧ j.entity_instance = i.entity_instance
    ∧ j.oem = i.oem ∧ j.device_num = i.device_num
    ∧ j.type = i.type ∧ j.output_handler = i.output_handler := by
  obtain ⟨g1, g2, g3⟩ := frudlr_bytes (sdr_data r 2) (sdr_data_lt r 2)
  have g0 := and_fe_idem (sdr_data r 0) (sdr_data_lt r 0)
  have g4 := frudlr_y3 _ (shr4_lt (sdr_data r 3) (sdr_data_lt r 3))
  have e : ∀ k, byte (byte (sdr_data r k)) = sdr_data r k := fun k => by
    rw [byte_sdr_data, byte_sdr_data]
  have e8 : sdr_data (frudlr_output str (decode_frudlr str r)) 8 = sdr_data r 8 := e 8
  refine ⟨g0, g4, g2, g3, e 1, g1, e 5, e 6, e 7, e 8, e 9, ?_, rfl, rfl⟩
  show (if sdr_data (frudlr_output str (decode_frudlr str r)) 8 ≥ 0x60 then _ else _)
    = (if sdr_data r 8 ≥ 0x60 then _ else _)
  rw [e8]
  by_cases h : sdr_data r 8 ≥ 0x60
  · rw [if_pos h, if_pos h]
    exact congrArg₂ ipmi_device_num_t.mk g4 g0
  · rw [if_neg h, if_neg h]

theorem mc_record_twice (str : device_string_t) :
    mc_flags (decode_mcdlr str (mcdlr_output str (decode_mcdlr str mc_record)))
      = [0, 0, 0, 0, 1, 0, 0, 0, 0, 0, 0, 0, 1] := by
  have h2 : sdr_data (mcdlr_output str (decode_mcdlr str mc_record)) 2 = 1 := rfl
  have h3 : sdr_data (mcdlr_output str (decode_mcdlr str mc_record)) 3 = 1 := rfl
  show [(sdr_data (mcdlr_output str (decode_mcdlr str mc_record)) 2 >>> 7) &&& 1,
    (sdr_data (mcdlr_output str (decode_mcdlr str mc_record)) 2 >>> 6) &&& 1,
    (sdr_data (mcdlr_output str (decode_mcdlr str mc_record)) 2 >>> 3) &&& 1,
    (sdr_data (mcdlr_output str (decode_mcdlr str mc_record)) 2 >>> 2) &&& 1,
    (sdr_data (mcdlr_output str (decode_mcdlr str mc_record)) 2 >>> 0) &&& 3,
    (sdr_data (mcdlr_output str (decode_mcdlr str mc_record)) 3 >>> 7) &&& 1,
    (sdr_data (mcdlr_output str (decode_mcdlr str mc_record)) 3 >>> 6) &&& 1,
    (sdr_data (mcdlr_output str (decode_mcdlr str mc_record)) 3 >>> 5) &&& 1,
    (sdr_data (mcdlr_output str (decode_mcdlr str mc_record)) 3 >>> 4) &&& 1,
    (sdr_data (mcdlr_output str (decode_mcdlr str mc_record)) 3 >>> 3) &&& 1,
    (sdr_data (mcdlr_output str (decode_mcdlr str mc_record)) 3 >>> 2) &&& 1,
    (sdr_data (mcdlr_output str (decode_mcdlr str mc_record)) 3 >>> 1) &&& 1,
    (sdr_data (mcdlr_output str (decode_mcdlr str mc_record)) 3 >>> 0) &&& 1] = _
  rw [h2, h3]
  rfl

/-! ## Facts about the textual id -/

theorem get_id_clen (ent : ipmi_entity_t) (length : Int) (h0 : 0 ≤ length)
    (h1 : length < 2147483648) (h2 : ent.info.id_len < 2147483648) :
    (if ent.info.id_len % 4294967296 > u32_of_int length then length
      else int_of_u32 ent.info.id_len) = min (ent.info.id_len : Int) length := by
  have e1 : ent.info.id_len % 4294967296 = ent.info.id_len := Nat.mod_eq_of_lt (by omega)
  have e2 : u32_of_int length = length.toNat := by
    unfold u32_of_int
    rw [Int.emod_eq_of_lt h0 (by omega)]
  have e3 : int_of_u32 ent.info.id_len = (ent.info.id_len : Int) := by
    unfold int_of_u32
    rw [e1]
    simp [h2]
  rw [e1, e2, e3]
  split
  · rename_i h
    have : length < (ent.info.id_len : Int) := by omega
    omega
  · rename_i h
    have : (ent.info.id_len : Int) ≤ length := by omega
    omega

theorem get_id_zero_ascii (ent : ipmi_entity_t) :
    ipmi_entity_get_id
      { ent with info := { ent.info with id_type := IPMI_ASCII_STR } } 0 = (-1, [(-1, 0)]) := by
  have hc : (if ent.info.id_len % 4294967296 > u32_of_int 0 then (0 : Int)
      else int_of_u32 ent.info.id_len) = 0 := by
    split
    · rfl
    · rename_i h
      have h0 : ent.info.id_len % 4294967296 = 0 := by
        have : u32_of_int 0 = 0 := rfl
        omega
      unfold int_of_u32
      rw [h0]
      rfl
  unfold ipmi_entity_get_id
  simp only [hc]
  rfl

theorem get_id_in_bounds (ent : ipmi_entity_t) (length : Int) (h0 : 1 ≤ length)
    (h1 : length < 2147483648) (h2 : ent.info.id_len < 2147483648) :
    (∀ x ∈ (ipmi_entity_get_id ent length).2, 0 ≤ x.1 ∧ x.1 < length)
    ∧ 0 ≤ (ipmi_entity_get_id ent length).1
    ∧ (ipmi_entity_get_id ent length).1 ≤ ent.info.id_len
    ∧ (ipmi_entity_get_id ent length).1 ≤ length
    ∧ (ent.info.id_type = IPMI_ASCII_STR →
        (ipmi_entity_get_id ent length).2.getLast?
          = some ((ipmi_entity_get_id ent length).1, 0)) := by
  have hc := get_id_clen ent length (by omega) h1 h2
  unfold ipmi_entity_get_id
  simp only [hc]
  generalize hm : min (ent.info.id_len : Int) length = m
  have hm0 : 0 ≤ m := by omega
  have hm1 : m ≤ ent.info.id_len := by omega
  have hm2 : m ≤ length := by omega
  have hcop : ∀ x ∈ (List.range m.toNat).map
      (fun (i : Nat) => ((i : Int), ent.info.id.getD i 0)), 0 ≤ x.1 ∧ x.1 < m := by
    intro x hx
    simp only [List.mem_map, List.mem_range] at hx
    obtain ⟨i, hi, rfl⟩ := hx
    simp only
    omega
  by_cases ht : ent.info.id_type = IPMI_ASCII_STR
  · simp only [ht, beq_self_eq_true, if_true]
    by_cases hl : m = length
    · simp only [hl, beq_self_eq_true, if_true]
      refine ⟨?_, by omega, by omega, by omega, fun _ => by simp⟩
      intro x hx
      simp only [List.mem_append, List.mem_singleton] at hx
      rcases hx with hx | hx
      · have := hcop x (by rw [hl]; exact hx)
        omega
      · subst hx
        simp only
        omega
    · have hb : (m == length) = false := by simpa using hl
      simp only [hb, Bool.false_eq_true, if_false]
      refine ⟨?_, by omega, by omega, by omega, fun _ => by simp⟩
      intro x hx
      simp only [List.mem_append, List.mem_singleton] at hx
      rcases hx with hx | hx
      · have := hcop x hx
        omega
      · subst hx
        simp only
        omega
  · have hb : (ent.info.id_type == IPMI_ASCII_STR) = false := by simpa using ht
    simp only [hb, Bool.false_eq_true, if_false]
    refine ⟨?_, by omega, by omega, by omega, fun h => absurd h ht⟩
    intro x hx
    have := hcop x hx
    omega

theorem get_id_zero_other (ent : ipmi_entity_t) (ht : ent.info.id_type ≠ IPMI_ASCII_STR) :
    ipmi_entity_get_id ent 0 = (0, []) := by
  have hc : (if ent.info.id_len % 4294967296 > u32_of_int 0 then (0 : Int)
      else int_of_u32 ent.info.id_len) = 0 := by
    split
    · rfl
    · rename_i h
      have h0 : ent.info.id_len % 4294967296 = 0 := by
        have : u32_of_int 0 = 0 := rfl
        omega
      unfold int_of_u32
      rw [h0]
      rfl
  have hb : (ent.info.id_type == IPMI_ASCII_STR) = false := by simpa using ht
  unfold ipmi_entity_get_id
  simp only [hc, hb]
  rfl

/-! ## Facts about the tests of the requester -/

theorem hot_swap_requester_changed_test (w : World) (p : Nat) (dir : ipmi_event_dir_e)
    (offset : Int) (ent : ipmi_entity_t) (hd : deref w p = some ent)
    (ho : offset = ent.hot_swap_offset) :
    hot_swap_requester_changed w p dir offset
      = if event_is_request ent dir then
          match ent.hot_swap_state with
          | IPMI_HOT_SWAP_ACTIVE =>
            (0, (set_hot_swap_state w p IPMI_HOT_SWAP_DEACTIVATION_REQUESTED).2)
          | IPMI_HOT_SWAP_ACTIVATION_REQUESTED =>
            (0, (set_hot_swap_state w p IPMI_HOT_SWAP_INACTIVE).2)
          | IPMI_HOT_SWAP_ACTIVATION_IN_PROGRESS =>
            (0, (set_hot_swap_state w p IPMI_HOT_SWAP_DEACTIVATION_IN_PROGRESS).2)
          | _ => (0, w)
        else
          match ent.hot_swap_state with
          | IPMI_HOT_SWAP_DEACTIVATION_REQUESTED =>
            (0, (set_hot_swap_state w p IPMI_HOT_SWAP_ACTIVE).2)
          | IPMI_HOT_SWAP_INACTIVE =>
            (0, (set_hot_swap_state w p IPMI_HOT_SWAP_ACTIVATION_REQUESTED).2)
          | _ => (0, w) := by
  subst ho
  unfold hot_swap_requester_changed event_is_request
  rw [hd]
  simp only [bne_self_eq_false, Bool.false_eq_true, if_false]

theorem requester_checked_test (w : World) (p : Nat) (states : ipmi_states_t)
    (ent : ipmi_entity_t) (hd : deref w p = some ent) :
    requester_checked w p 0 states
      = if poll_is_request ent states then
          if ent.hot_swap_state == IPMI_HOT_SWAP_ACTIVE then
            (set_hot_swap_state w p IPMI_HOT_SWAP_DEACTIVATION_REQUESTED).2
          else w
        else
          if ent.hot_swap_state == IPMI_HOT_SWAP_INACTIVE then
            (set_hot_swap_state w p IPMI_HOT_SWAP_ACTIVATION_REQUESTED).2
          else w := by
  unfold requester_checked poll_is_request
  rw [hd]
  rfl


/-! ## Facts about the pool of list entries -/

theorem commit_new_children_total (p : Nat) (cs : List Nat) :
    ∀ (entries : Nat) (w : World), 2 * cs.length ≤ entries →
      ∃ w1, commit_new_children p cs entries w = some (entries - 2 * cs.length, w1) := by
  induction cs with
  | nil =>
    intro entries w _
    exact ⟨w, by simp [commit_new_children]⟩
  | cons c cs ih =>
    intro entries w h
    simp only [List.length_cons] at h
    obtain ⟨w1, h1⟩ := ih (entries - 2) (add_child w p c) (by omega)
    refine ⟨w1, ?_⟩
    unfold commit_new_children
    rw [if_neg (by omega), h1]
    simp only [List.length_cons, Option.some.injEq, Prod.mk.injEq, and_true]
    omega

theorem commit_new_children_some (p : Nat) (cs : List Nat) :
    ∀ (entries : Nat) (w : World) (r : Nat × World),
      commit_new_children p cs entries w = some r →
        2 * cs.length ≤ entries ∧ r.1 = entries - 2 * cs.length := by
  induction cs with
  | nil =>
    intro entries w r h
    simp only [commit_new_children, Option.some.injEq] at h
    subst h
    simp
  | cons c cs ih =>
    intro entries w r h
    unfold commit_new_children at h
    by_cases hlt : entries < 2
    · rw [if_pos hlt] at h
      cases h
    · rw [if_neg hlt] at h
      have := ih _ _ _ h
      simp only [List.length_cons]
      omega

theorem commit_new_total (env : Nat → Nat → mc_reply_t)
    (dfs : List (dlr_info_t × entity_found_t)) :
    ∀ (rv entries : Nat) (w : World), 2 * commit_adds dfs ≤ entries →
      ∃ rv1 w1, commit_new env dfs rv entries w
        = some (rv1, entries - 2 * commit_adds dfs, w1) := by
  induction dfs with
  | nil =>
    intro rv entries w _
    exact ⟨rv, w, by simp [commit_new, commit_adds]⟩
  | cons x dfs ih =>
    obtain ⟨d, f⟩ := x
    intro rv entries w h
    unfold commit_adds at h
    unfold commit_new commit_adds
    by_cases hf : f.found = true
    · simp only [hf, if_true, Nat.zero_add] at h ⊢
      exact ih rv entries w h
    · simp only [hf, Bool.false_eq_true, if_false] at h ⊢
      cases he : f.ent with
      | none =>
        simp only [he, Nat.zero_add] at h ⊢
        exact ih rv entries w h
      | some p =>
        simp only [he] at h ⊢
        cases hear : is_ear d with
        | false =>
          simp only [hear, Bool.not_false, if_true, Nat.zero_add] at h ⊢
          exact ih _ entries _ h
        | true =>
          simp only [hear, Bool.not_true, Bool.false_eq_true, if_false] at h ⊢
          obtain ⟨w1, h1⟩ := commit_new_children_total p f.cent entries w (by omega)
          rw [h1]
          simp only
          obtain ⟨rv1, w2, h2⟩ := ih rv (entries - 2 * f.cent.length) w1 (by omega)
          refine ⟨rv1, w2, ?_⟩
          rw [h2]
          simp only [Option.some.injEq, Prod.mk.injEq, and_true, true_and]
          omega

theorem alloc_entries_size (fs : List entity_found_t) :
    ∀ (ds : List dlr_info_t) (w : World) (n m : Nat) (w1 : World),
      alloc_entries fs w n = (some m, w1) → n + 2 * commit_adds (ds.zip fs) ≤ m := by
  induction fs with
  | nil =>
    intro ds w n m w1 h
    simp only [alloc_entries, Prod.mk.injEq, Option.some.injEq] at h
    simp [commit_adds, h.1]
  | cons f fs ih =>
    intro ds w n m w1 h
    cases ds with
    | nil =>
      simp only [List.zip_nil_left, commit_adds, Nat.mul_zero, Nat.add_zero]
      unfold alloc_entries at h
      split at h
      · have := ih [] w n m w1 h
        simp only [List.zip_nil_left, commit_adds, Nat.mul_zero, Nat.add_zero] at this
        exact this
      · split at h
        · have := ih [] _ _ m w1 h
          simp only [List.zip_nil_left, commit_adds, Nat.mul_zero, Nat.add_zero] at this
          omega
        · cases h
    | cons d ds =>
      rw [List.zip_cons_cons]
      unfold commit_adds
      unfold alloc_entries at h
      by_cases hf : f.found = true
      · simp only [hf, if_true, Nat.zero_add] at h ⊢
        exact ih ds w n m w1 h
      · simp only [hf, Bool.false_eq_true, if_false] at h ⊢
        split at h
        · have := ih ds _ _ m w1 h
          have hle : (match f.ent with
              | none => 0
              | some _ => if (!is_ear d) = true then 0 else f.cent.length) ≤ f.cent.length := by
            split
            · exact Nat.zero_le _
            · split
              · exact Nat.zero_le _
              · exact Nat.le_refl _
          omega
        · cases h

theorem scan_of_prepare_ok (w : World) (mc : Nat) (c : Nat → Nat → Int)
    (env : Nat → Nat → mc_reply_t) (dlrs : List dlr_info_t)
    (x : Nat × entity_sdr_info_t × entity_sdr_info_t × World)
    (h : scan_prepare w mc c dlrs = .ok x) :
    2 * commit_adds (x.2.1.dlrs.zip x.2.1.found) ≤ x.1
    ∧ ipmi_entity_scan_sdrs w mc c env dlrs
      = match commit_new env (x.2.1.dlrs.zip x.2.1.found) 0 x.1
          (commit_old (x.2.2.1.dlrs.zip x.2.2.1.found) x.2.2.2) with
        | none => none
        | some (rv, _, w6) =>
          match notify_new x.2.1.found w6 with
          | none => none
          | some w7 =>
            some (rv, _ipmi_set_sdr_entities
              (put_entities (put_entities w7 x.2.1.found) x.2.2.1.found) mc
              { found := cleanup_sdr_info x.2.1.found, dlrs := dlrs }) := by
  unfold scan_prepare at h
  unfold ipmi_entity_scan_sdrs
  simp only at h ⊢
  split at h
  · cases h
  · rename_i old w1 heq
    cases hm : match_loop c (dlrs.length + old.dlrs.length) 0 0
        (List.replicate dlrs.length found_zero)
        (List.replicate old.dlrs.length found_zero) with
    | mk nf of =>
      rw [hm] at h
      simp only at h ⊢
      cases hf1 : fill_in_entities w1 { found := nf, dlrs := dlrs } with
      | mk rv rest =>
        obtain ⟨infos1, w2⟩ := rest
        rw [hf1] at h
        by_cases hrv : rv = 0
        · subst hrv
          simp only at h ⊢
          cases hf2 : fill_in_entities w2 { found := of, dlrs := old.dlrs } with
          | mk rv2 rest2 =>
            obtain ⟨old1, w3⟩ := rest2
            rw [hf2] at h
            by_cases hrv2 : rv2 = 0
            · subst hrv2
              simp only at h ⊢
              cases ha : alloc_entries infos1.found w3 0 with
              | mk e w4 =>
                rw [ha] at h
                cases e with
                | none =>
                  cases h
                | some n =>
                  cases h
                  simp only
                  have := alloc_entries_size infos1.found infos1.dlrs w3 0 n w4 ha
                  exact ⟨by omega, trivial⟩
            · split at h
              · rename_i heq
                simp only [Prod.mk.injEq] at heq
                exact absurd heq.1 hrv2
              · cases h
        · split at h
          · rename_i heq
            simp only [Prod.mk.injEq] at heq
            exact absurd heq.1 hrv
          · cases h

/-! ## Facts about the timers of a destroyed entity -/

theorem deref_stop_timer (w : World) (q : Nat) : deref (stop_timer w).2 q = deref w q := by
  unfold stop_timer
  cases w.timer_stops <;> rfl

theorem modify_timer_stops (w : World) (p : Nat) (f : ipmi_entity_t → ipmi_entity_t) :
    (modify w p f).timer_stops = w.timer_stops := by
  unfold modify; cases deref w p <;> rfl

theorem stop_timer_congr (w w1 : World) (h : w1.timer_stops = w.timer_stops) :
    (stop_timer w1).1 = (stop_timer w).1
    ∧ (stop_timer w1).2.timer_stops = (stop_timer w).2.timer_stops := by
  unfold stop_timer
  rw [h]
  cases w.timer_stops <;> simp [h]

theorem destroy_timer_at (w : World) (p : Nat) (r : Bool) (e : ipmi_entity_t)
    (hd : deref w p = some e) :
    deref (destroy_timer w p r) p
      = some (if r && (stop_timer w).1 == 0 then
          { e with running_timer_count := u32_dec e.running_timer_count } else e)
    ∧ (destroy_timer w p r).timer_stops
      = (if r then stop_timer w else (0, w)).2.timer_stops := by
  unfold destroy_timer
  cases r with
  | false => simp [hd]
  | true =>
    simp only [if_true, Bool.true_and]
    rcases hs : stop_timer w with ⟨rv, w1⟩
    have h1 : deref w1 p = some e := by
      have := deref_stop_timer w p
      rw [hs] at this
      rw [this, hd]
    simp only
    by_cases h0 : rv = 0
    · subst h0
      simp only [if_true, beq_self_eq_true]
      exact ⟨deref_modify_same w1 p _ e h1, modify_timer_stops _ _ _⟩
    · have hb : (rv == 0) = false := by simpa using h0
      simp only [h0, if_false, hb, Bool.false_eq_true]
      exact ⟨h1, trivial⟩

theorem deref_mem_free_same (w : World) (p : Nat) : deref (mem_free w p) p = none := by
  unfold mem_free deref
  simp only
  by_cases h : p < w.heap.length
  · simp [List.getElem?_set, h]
  · have : (w.heap.set p none)[p]? = none := List.getElem?_eq_none (by simpa using h)
    rw [this]

theorem final_destroy_pending (w : World) (p n : Nat) (h : pending w p n) :
    (n = 0 → deref (entity_final_destroy w p) p = none)
    ∧ (n ≠ 0 → entity_final_destroy w p = w) := by
  obtain ⟨e, hd, _, hq, hc, hp, hn⟩ := h
  have hcond : (e.running_timer_count != 0 || e.waitq_in_progress
      || e.child_entities.length != 0 || e.parent_entities.length != 0) = (n != 0) := by
    rw [hq, hc, hp, hn]
    simp
  unfold entity_final_destroy
  rw [hd]
  simp only [hcond]
  constructor
  · intro h0
    have hb : (n != 0) = false := by
      rw [h0]
      rfl
    rw [hb]
    exact deref_mem_free_same w p
  · intro h0
    have hb : (n != 0) = true := by
      cases n with
      | zero => exact absurd rfl h0
      | succ m => rfl
    rw [hb]
    rfl

theorem u32_dec_one : u32_dec 1 = 0 := by
  unfold u32_dec
  norm_num

theorem u32_dec_two : u32_dec 2 = 1 := by
  unfold u32_dec
  norm_num

theorem destroy_entity_pending (w : World) (p : Nat) (ent : ipmi_entity_t)
    (hd : deref w p = some ent) (hq : ent.waitq_in_progress = false)
    (hc : ent.child_entities = []) (hp : ent.parent_entities = [])
    (hn : ent.running_timer_count = timers_running ent) :
    ((armed_after_destroy w ent).length = 0 → deref (destroy_entity w p) p = none)
    ∧ ((armed_after_destroy w ent).length ≠ 0 →
        pending (destroy_entity w p) p (armed_after_destroy w ent).length) := by
  have h0 := deref_modify_same w p (fun e => { e with destroyed := true }) ent hd
  have t0 := modify_timer_stops w p (fun e => { e with destroyed := true })
  obtain ⟨h1, t1⟩ := destroy_timer_at _ p ent.hot_swap_act_timer_running _ h0
  obtain ⟨h2, t2⟩ := destroy_timer_at _ p ent.hot_swap_deact_timer_running _ h1
  have hpend : pending (destroy_timer (destroy_timer
      (modify w p (fun e => { e with destroyed := true })) p ent.hot_swap_act_timer_running)
      p ent.hot_swap_deact_timer_running) p (armed_after_destroy w ent).length := by
    refine ⟨_, h2, ?_, ?_, ?_, ?_, ?_⟩
    · split <;> split <;> rfl
    · split <;> split <;> exact hq
    · split <;> split <;> exact hc
    · split <;> split <;> exact hp
    · have sa := stop_timer_congr w _ t0
      unfold armed_after_destroy
      unfold timers_running at hn
      cases ha : ent.hot_swap_act_timer_running with
      | false =>
        rw [ha] at t1 hn
        simp only [Bool.false_and, Bool.false_eq_true, if_false] at t1 hn ⊢
        have sd := stop_timer_congr w _ (t1.trans t0)
        cases hdd : ent.hot_swap_deact_timer_running with
        | false =>
          rw [hdd] at hn
          simp [hn]
        | true =>
          rw [hdd] at hn
          simp only [Bool.true_and, if_true, sd.1, hn, List.nil_append]
          by_cases hz : (stop_timer w).1 = 0
          · simp [hz, u32_dec_one]
          · simp [hz]
      | true =>
        rw [ha] at t1 hn
        simp only [Bool.true_and, if_true] at t1 hn ⊢
        have sd := stop_timer_congr (stop_timer w).2 _ (t1.trans sa.2)
        cases hdd : ent.hot_swap_deact_timer_running with
        | false =>
          rw [hdd] at hn
          simp only [Bool.false_and, Bool.false_eq_true, if_false, sa.1, hn, List.append_nil]
          by_cases hz : (stop_timer w).1 = 0
          · simp [hz, u32_dec_one]
          · simp [hz]
        | true =>
          rw [hdd] at hn
          simp only [Bool.true_and, if_true, sa.1, sd.1, hn]
          by_cases hz : (stop_timer w).1 = 0
          · by_cases hz2 : (stop_timer (stop_timer w).2).1 = 0
            · simp [hz, hz2, u32_dec_one, u32_dec_two]
            · simp [hz, hz2, u32_dec_two]
          · by_cases hz2 : (stop_timer (stop_timer w).2).1 = 0
            · simp [hz, hz2, u32_dec_two]
            · simp [hz, hz2]
  have hfin := final_destroy_pending _ p _ hpend
  have hde : destroy_entity w p = entity_final_destroy (destroy_timer (destroy_timer
      (modify w p (fun e => { e with destroyed := true })) p ent.hot_swap_act_timer_running)
      p ent.hot_swap_deact_timer_running) p := by
    unfold destroy_entity
    rw [hd]
  rw [hde]
  constructor
  · intro hz
    exact hfin.1 hz
  · intro hz
    rw [hfin.2 hz]
    exact hpend

theorem u32_dec_succ (n : Nat) (h : n + 1 < 4294967296) : u32_dec (n + 1) = n := by
  unfold u32_dec
  omega

theorem timeout_pending (act : Bool) (w : World) (p n : Nat) (h : pending w p (n + 1))
    (hn : n + 1 < 4294967296) :
    ∃ w1, (if act then hot_swap_act_timeout w p else hot_swap_deact_timeout w p) = some w1
      ∧ (n = 0 → deref w1 p = none) ∧ (n ≠ 0 → pending w1 p n) := by
  obtain ⟨e, hd, hdes, hq, hc, hp, hcount⟩ := h
  cases act with
  | true =>
    simp only [if_true]
    have h1 := deref_modify_same w p (fun e =>
      { e with running_timer_count := u32_dec e.running_timer_count,
               hot_swap_act_timer_running := false }) e hd
    have hpend : pending (modify w p (fun e =>
        { e with running_timer_count := u32_dec e.running_timer_count,
                 hot_swap_act_timer_running := false })) p n :=
      ⟨_, h1, hdes, hq, hc, hp, by simp only [hcount]; exact u32_dec_succ n hn⟩
    have hfin := final_destroy_pending _ p n hpend
    refine ⟨entity_final_destroy (modify w p (fun e =>
        { e with running_timer_count := u32_dec e.running_timer_count,
                 hot_swap_act_timer_running := false })) p, ?_, hfin.1, ?_⟩
    · unfold hot_swap_act_timeout
      simp only [h1, hdes, if_true]
    · intro h0
      rw [hfin.2 h0]
      exact hpend
  | false =>
    simp only [Bool.false_eq_true, if_false]
    have h1 := deref_modify_same w p (fun e =>
      { e with running_timer_count := u32_dec e.running_timer_count,
               hot_swap_deact_timer_running := false }) e hd
    have hpend : pending (modify w p (fun e =>
        { e with running_timer_count := u32_dec e.running_timer_count,
                 hot_swap_deact_timer_running := false })) p n :=
      ⟨_, h1, hdes, hq, hc, hp, by simp only [hcount]; exact u32_dec_succ n hn⟩
    have hfin := final_destroy_pending _ p n hpend
    refine ⟨entity_final_destroy (modify w p (fun e =>
        { e with running_timer_count := u32_dec e.running_timer_count,
                 hot_swap_deact_timer_running := false })) p, ?_, hfin.1, ?_⟩
    · unfold hot_swap_deact_timeout
      simp only [h1, hdes, if_true]
    · intro h0
      rw [hfin.2 h0]
      exact hpend

theorem fire_timers_pending (p : Nat) (order : List Bool) :
    ∀ (w : World), order ≠ [] → order.length < 4294967296 → pending w p order.length →
      (∀ k, k < order.length →
        ∃ e, (fire_timers p (order.take k) w).bind (fun w1 => deref w1 p) = some e
          ∧ e.destroyed = true ∧ e.running_timer_count = order.length - k)
      ∧ (fire_timers p order w).map (fun w1 => deref w1 p) = some none := by
  induction order with
  | nil => intro w h; exact absurd rfl h
  | cons act rest ih =>
    intro w _ hlen hpend
    simp only [List.length_cons] at hlen hpend ⊢
    obtain ⟨w1, hw1, hz, hnz⟩ := timeout_pending act w p rest.length hpend hlen
    have hfire : ∀ l, fire_timers p (act :: l) w = fire_timers p l w1 := by
      intro l
      show ((if act then hot_swap_act_timeout w p else hot_swap_deact_timeout w p).bind
        (fire_timers p l)) = _
      rw [hw1]
      rfl
    constructor
    · intro k hk
      cases k with
      | zero =>
        obtain ⟨e, hd, hdes, _, _, _, hcount⟩ := hpend
        refine ⟨e, ?_, hdes, by simpa using hcount⟩
        simp only [List.take_zero, fire_timers, Option.some_bind]
        exact hd
      | succ k =>
        have hrest : rest ≠ [] := by
          intro h
          rw [h] at hk
          simp at hk
        have hne : rest.length ≠ 0 := fun h => hrest (List.length_eq_zero.mp h)
        obtain ⟨e, he, hdes, hcount⟩ := (ih w1 hrest (by omega) (hnz hne)).1 k (by omega)
        refine ⟨e, ?_, hdes, by omega⟩
        rw [List.take_succ_cons, hfire]
        exact he
    · rw [hfire]
      cases rest with
      | nil =>
        simp only [fire_timers, Option.map_some']
        rw [hz rfl]
      | cons b rest2 =>
        exact (ih w1 (by simp) (by omega) (hnz (by simp))).2

theorem armed_length_le (w : World) (ent : ipmi_entity_t) :
    (armed_after_destroy w ent).length ≤ 2 := by
  have h : ∀ (c : Bool) (x : Bool), (if c then [x] else []).length ≤ 1 := by
    intro c x
    cases c <;> simp
  unfold armed_after_destroy
  simp only [List.length_append]
  exact Nat.add_le_add (h _ _) (h _ _)


/-! ## Facts about a timer that fires on a live entity -/

theorem search_entities_modify (w : World) (p : Nat) (f : ipmi_entity_t → ipmi_entity_t)
    (hf : ∀ e, (f e).info = e.info) (info : search_info_t) :
    search_entities (modify w p f) info = search_entities w info := by
  unfold search_entities
  rw [modify_entities]
  congr 1
  funext q
  unfold search_at
  by_cases hq : q = p
  · subst hq
    cases hd : deref w q with
    | none => rw [modify_none w q f hd, hd]
    | some e =>
      rw [deref_modify_same w q f e hd]
      simp only [search_entity, hf]
  · rw [deref_modify_ne w p q f hq]

theorem modify_usecount_back (w : World) (p : Nat) (e : ipmi_entity_t)
    (hd : deref w p = some e) (h : cleanup_ready e = false ∨ e.usecount ≠ 0) :
    _ipmi_entity_put (modify w p (fun e => { e with usecount := e.usecount + 1 })) p = w := by
  have h1 := deref_modify_same w p (fun e => { e with usecount := e.usecount + 1 }) e hd
  have hsafe : cleanup_ready ({ e with usecount := e.usecount + 1 } : ipmi_entity_t) = false
      ∨ ({ e with usecount := e.usecount + 1 } : ipmi_entity_t).usecount ≠ 1 := by
    rcases h with h | h
    · exact Or.inl h
    · refine Or.inr ?_
      simp only
      omega
  rw [put_keeps _ p _ h1 hsafe, modify_eq_set _ p _ _ h1, modify_eq_set w p _ e hd]
  simp only [List.set_set]
  have : ({ e with usecount := e.usecount + 1 - 1 } : ipmi_entity_t) = e := by
    simp
  rw [this, heap_set_self w p e hd]

theorem pointer_cb_run_idle (w : World) (p : Nat) (ent : ipmi_entity_t)
    (hd : deref w p = some ent) (handler : World → Nat → Option World)
    (hh : ∀ w2 e2, deref w2 p = some e2 → e2.hot_swap_state = ent.hot_swap_state →
      handler w2 p = some w2)
    (hfind : ∀ q e, search_entities w (search_info_of ent.info.device_num
        (ent.info.entity_id : Int) (ent.info.entity_instance : Int)) = some q →
      deref w q = some e →
        (cleanup_ready e = false ∨ e.usecount ≠ 0) ∧ (e.seq = ent.seq → q = p)) :
    (ipmi_entity_pointer_cb_run w (ipmi_entity_convert_to_id ent) handler).map (fun r => r.2)
      = some w := by
  unfold ipmi_entity_pointer_cb_run
  by_cases hdom : (ipmi_entity_convert_to_id ent).domain_id = w.domain_id
  · rw [if_pos hdom]
    unfold domain_cb_run
    cases hs : search_entities w (search_info_of ent.info.device_num
        (ent.info.entity_id : Int) (ent.info.entity_instance : Int)) with
    | none =>
      have hf : entity_find w ent.info.device_num (ent.info.entity_id : Int)
          (ent.info.entity_instance : Int) = (ENODEV, none, w) := by
        simp [entity_find, hs]
      show Option.map (fun r => r.2) (match entity_find w ent.info.device_num
          (ent.info.entity_id : Int) (ent.info.entity_instance : Int) with
        | (0, some p, w1) =>
          match deref w1 p with
          | none => some (0, w1)
          | some e =>
            if e.seq != (ipmi_entity_convert_to_id ent).seq then some (EINVAL, _ipmi_entity_put w1 p)
            else (handler w1 p).map (fun w2 => (0, _ipmi_entity_put w2 p))
        | (err, _, w1) => some (err, w1)) = some w
      rw [hf]
      rfl
    | some q =>
      have hf := entity_find_of_search w ent.info.device_num (ent.info.entity_id : Int)
          (ent.info.entity_instance : Int) q hs
      have hq : search_at w (search_info_of ent.info.device_num
          (ent.info.entity_id : Int) (ent.info.entity_instance : Int)) q = true := by
        unfold search_entities at hs
        exact List.find?_some hs
      obtain ⟨e, he, _⟩ := (search_at_iff w _ q).mp hq
      obtain ⟨hsafe, hseq⟩ := hfind q e hs he
      have h1 := deref_modify_same w q (fun e => { e with usecount := e.usecount + 1 }) e he
      show Option.map (fun r => r.2) (match entity_find w ent.info.device_num
          (ent.info.entity_id : Int) (ent.info.entity_instance : Int) with
        | (0, some p, w1) =>
          match deref w1 p with
          | none => some (0, w1)
          | some e =>
            if e.seq != (ipmi_entity_convert_to_id ent).seq then some (EINVAL, _ipmi_entity_put w1 p)
            else (handler w1 p).map (fun w2 => (0, _ipmi_entity_put w2 p))
        | (err, _, w1) => some (err, w1)) = some w
      rw [hf]
      simp only [h1]
      by_cases hsq : e.seq = ent.seq
      · have hqp := hseq hsq
        subst hqp
        have hst : e = ent := by
          rw [hd] at he
          exact (Option.some.inj he).symm
        subst hst
        have hb : (e.seq != (ipmi_entity_convert_to_id e).seq) = false := by
          simp [ipmi_entity_convert_to_id]
        rw [hb]
        simp only [Bool.false_eq_true, if_false]
        rw [hh _ _ h1 rfl]
        simp only [Option.map_some']
        rw [modify_usecount_back w q e hd hsafe]
      · have hb : (e.seq != (ipmi_entity_convert_to_id ent).seq) = true := by
          simpa [ipmi_entity_convert_to_id] using hsq
        rw [hb]
        simp only [if_true, Option.map_some']
        rw [modify_usecount_back w q e he hsafe]
  · rw [if_neg hdom]
    rfl

theorem hot_swap_act_idle (w : World) (p : Nat) (e : ipmi_entity_t) (hd : deref w p = some e)
    (hs : e.hot_swap_state ≠ IPMI_HOT_SWAP_ACTIVATION_REQUESTED) :
    hot_swap_act_cb w p = w := by
  unfold hot_swap_act_cb hot_swap_act
  rw [hd]
  have hb : (e.hot_swap_state == IPMI_HOT_SWAP_ACTIVATION_REQUESTED) = false := by
    simpa using hs
  simp only [hb, Bool.false_eq_true, if_false]

theorem hot_swap_deact_idle (w : World) (p : Nat) (e : ipmi_entity_t)
    (hd : deref w p = some e)
    (hs : e.hot_swap_state ≠ IPMI_HOT_SWAP_DEACTIVATION_REQUESTED) :
    hot_swap_deact_cb w p = w := by
  unfold hot_swap_deact_cb hot_swap_deact
  rw [hd]
  have hb : (e.hot_swap_state == IPMI_HOT_SWAP_DEACTIVATION_REQUESTED) = false := by
    simpa using hs
  simp only [hb, Bool.false_eq_true, if_false]

theorem timeout_idle (w : World) (p : Nat) (ent : ipmi_entity_t)
    (f : ipmi_entity_t → ipmi_entity_t) (handler : World → Nat → Option World)
    (hd : deref w p = some ent)
    (hf : ∀ e, (f e).info = e.info ∧ (f e).seq = e.seq ∧ (f e).usecount = e.usecount
      ∧ cleanup_ready (f e) = cleanup_ready e ∧ (f e).domain_id = e.domain_id
      ∧ (f e).hot_swap_state = e.hot_swap_state)
    (hh : ∀ w2 e2, deref w2 p = some e2 → e2.hot_swap_state = ent.hot_swap_state →
      handler w2 p = some w2)
    (hfind : ∀ q e, search_entities w (search_info_of ent.info.device_num
        (ent.info.entity_id : Int) (ent.info.entity_instance : Int)) = some q →
      deref w q = some e →
        (cleanup_ready e = false ∨ e.usecount ≠ 0) ∧ (e.seq = ent.seq → q = p)) :
    (ipmi_entity_pointer_cb_run (modify w p f) (ipmi_entity_convert_to_id (f ent)) handler).map
      (fun r => r.2) = some (modify w p f) := by
  have h1 := deref_modify_same w p f ent hd
  refine pointer_cb_run_idle (modify w p f) p (f ent) h1 handler ?_ ?_
  · intro w2 e2 hd2 hs2
    exact hh w2 e2 hd2 (hs2.trans (hf ent).2.2.2.2.2)
  · intro q e hs he
    rw [(hf ent).1, search_entities_modify w p f (fun e => (hf e).1)] at hs
    by_cases hq : q = p
    · subst hq
      rw [h1] at he
      have hee := Option.some.inj he
      obtain ⟨hsafe, _⟩ := hfind q ent hs hd
      refine ⟨?_, fun _ => rfl⟩
      rw [← hee, (hf ent).2.2.2.1, (hf ent).2.2.1]
      exact hsafe
    · rw [deref_modify_ne w p q f hq] at he
      obtain ⟨hsafe, hseq⟩ := hfind q e hs he
      exact ⟨hsafe, fun h => hseq (h.trans (hf ent).2.1)⟩

theorem clear_act_keeps (e : ipmi_entity_t) (n : Nat) (b : Bool) :
    ({ e with running_timer_count := n, hot_swap_act_timer_running := b } : ipmi_entity_t).info
      = e.info
    ∧ ({ e with running_timer_count := n, hot_swap_act_timer_running := b } : ipmi_entity_t).seq
      = e.seq
    ∧ ({ e with running_timer_count := n,
                hot_swap_act_timer_running := b } : ipmi_entity_t).usecount = e.usecount
    ∧ cleanup_ready { e with running_timer_count := n, hot_swap_act_timer_running := b }
      = cleanup_ready e
    ∧ ({ e with running_timer_count := n,
                hot_swap_act_timer_running := b } : ipmi_entity_t).domain_id = e.domain_id
    ∧ ({ e with running_timer_count := n,
                hot_swap_act_timer_running := b } : ipmi_entity_t).hot_swap_state
      = e.hot_swap_state :=
  ⟨rfl, rfl, rfl, rfl, rfl, rfl⟩

theorem clear_deact_keeps (e : ipmi_entity_t) (n : Nat) (b : Bool) :
    ({ e with running_timer_count := n, hot_swap_deact_timer_running := b } : ipmi_entity_t).info
      = e.info
    ∧ ({ e with running_timer_count := n, hot_swap_deact_timer_running := b } : ipmi_entity_t).seq
      = e.seq
    ∧ ({ e with running_timer_count := n,
                hot_swap_deact_timer_running := b } : ipmi_entity_t).usecount = e.usecount
    ∧ cleanup_ready { e with running_timer_count := n, hot_swap_deact_timer_running := b }
      = cleanup_ready e
    ∧ ({ e with running_timer_count := n,
                hot_swap_deact_timer_running := b } : ipmi_entity_t).domain_id = e.domain_id
    ∧ ({ e with running_timer_count := n,
                hot_swap_deact_timer_running := b } : ipmi_entity_t).hot_swap_state
      = e.hot_swap_state :=
  ⟨rfl, rfl, rfl, rfl, rfl, rfl⟩

/-! ## Facts about the symmetry of the parent and child sets -/

theorem calm_refl (w : World) : calm w w := fun _ => rfl

theorem calm_trans {a b c : World} (h1 : calm a b) (h2 : calm b c) : calm a c :=
  fun q => (h2 q).trans (h1 q)

theorem calm_of_heap (w w1 : World) (h : w1.heap = w.heap) : calm w w1 := by
  intro q
  rw [deref_of_heap w w1 h q]

theorem calm_modify (w : World) (p : Nat) (f : ipmi_entity_t → ipmi_entity_t)
    (hf : ∀ e, (f e).child_entities = e.child_entities
      ∧ (f e).parent_entities = e.parent_entities) : calm w (modify w p f) := by
  intro q
  by_cases hq : q = p
  · subst hq
    cases hd : deref w q with
    | none => rw [modify_none w q f hd, hd]
    | some e =>
      rw [deref_modify_same w q f e hd]
      simp only [Option.map_some', (hf e).1, (hf e).2]
  · rw [deref_modify_ne w p q f hq]

theorem child_list_calm (w w1 : World) (h : calm w w1) (q : Nat) :
    child_list w1 q = child_list w q := by
  have := h q
  unfold child_list
  cases h1 : deref w1 q <;> cases h0 : deref w q <;> rw [h1, h0] at this <;>
    simp only [Option.map_some', Option.map_none', Option.some.injEq, Prod.mk.injEq] at this
  · cases this
  · cases this
  · exact this.1

theorem parent_list_calm (w w1 : World) (h : calm w w1) (q : Nat) :
    parent_list w1 q = parent_list w q := by
  have := h q
  unfold parent_list
  cases h1 : deref w1 q <;> cases h0 : deref w q <;> rw [h1, h0] at this <;>
    simp only [Option.map_some', Option.map_none', Option.some.injEq, Prod.mk.injEq] at this
  · cases this
  · cases this
  · exact this.2

theorem symmetric_calm (w w1 : World) (h : calm w w1) (hs : symmetric w) : symmetric w1 := by
  intro p c
  rw [child_list_calm w w1 h, parent_list_calm w w1 h]
  exact hs p c

theorem live_calm (w w1 : World) (h : calm w w1) (q : Nat) (hq : deref w q ≠ none) :
    deref w1 q ≠ none := by
  have := h q
  intro h1
  rw [h1] at this
  cases h0 : deref w q with
  | none => exact hq h0
  | some e =>
    rw [h0] at this
    cases this

theorem tame_refl (w : World) : tame w w := ⟨fun h => h, fun _ h => h⟩

theorem tame_trans {a b c : World} (h1 : tame a b) (h2 : tame b c) : tame a c :=
  ⟨fun h => h2.1 (h1.1 h), fun q h => h2.2 q (h1.2 q h)⟩

theorem tame_of_calm (w w1 : World) (h : calm w w1) : tame w w1 :=
  ⟨symmetric_calm w w1 h, live_calm w w1 h⟩

theorem slots_live_tame (w w1 : World) (fs : List entity_found_t) (h : tame w w1)
    (hl : slots_live w fs) : slots_live w1 fs :=
  fun f hf => ⟨fun p hp => h.2 p ((hl f hf).1 p hp), fun c hc => h.2 c ((hl f hf).2 c hc)⟩

theorem symmetric_empty (d : Nat) : symmetric (World.empty d) := by
  intro p c
  have h : ∀ q, deref (World.empty d) q = none := by
    intro q
    simp [deref, World.empty]
  simp [child_list, parent_list, h]

theorem child_list_some (w : World) (p : Nat) (e : ipmi_entity_t) (h : deref w p = some e) :
    child_list w p = e.child_entities := by
  simp [child_list, h]

theorem parent_list_some (w : World) (p : Nat) (e : ipmi_entity_t) (h : deref w p = some e) :
    parent_list w p = e.parent_entities := by
  simp [parent_list, h]

theorem child_list_none (w : World) (p : Nat) (h : deref w p = none) : child_list w p = [] := by
  simp [child_list, h]

theorem parent_list_none (w : World) (p : Nat) (h : deref w p = none) :
    parent_list w p = [] := by
  simp [parent_list, h]

theorem child_list_modify (w : World) (p q : Nat) (f : ipmi_entity_t → ipmi_entity_t) :
    child_list (modify w p f) q
      = if q = p then
          (match deref w p with
            | some e => (f e).child_entities
            | none => [])
        else child_list w q := by
  by_cases hq : q = p
  · subst hq
    simp only [if_true]
    cases hd : deref w q with
    | none => rw [modify_none w q f hd, child_list_none w q hd]
    | some e => rw [child_list_some _ q _ (deref_modify_same w q f e hd)]
  · simp only [hq, if_false]
    unfold child_list
    rw [deref_modify_ne w p q f hq]

theorem parent_list_modify (w : World) (p q : Nat) (f : ipmi_entity_t → ipmi_entity_t) :
    parent_list (modify w p f) q
      = if q = p then
          (match deref w p with
            | some e => (f e).parent_entities
            | none => [])
        else parent_list w q := by
  by_cases hq : q = p
  · subst hq
    simp only [if_true]
    cases hd : deref w q with
    | none => rw [modify_none w q f hd, parent_list_none w q hd]
    | some e => rw [parent_list_some _ q _ (deref_modify_same w q f e hd)]
  · simp only [hq, if_false]
    unfold parent_list
    rw [deref_modify_ne w p q f hq]

theorem live_modify (w : World) (p q : Nat) (f : ipmi_entity_t → ipmi_entity_t) :
    deref (modify w p f) q ≠ none ↔ deref w q ≠ none := by
  by_cases hq : q = p
  · subst hq
    cases hd : deref w q with
    | none => rw [modify_none w q f hd, hd]
    | some e =>
      rw [deref_modify_same w q f e hd]
      simp
  · rw [deref_modify_ne w p q f hq]

theorem same_lists_refl (w : World) : same_lists w w := fun _ => ⟨rfl, rfl⟩

theorem same_lists_trans {a b c : World} (h1 : same_lists a b) (h2 : same_lists b c) :
    same_lists a c :=
  fun q => ⟨(h2 q).1.trans (h1 q).1, (h2 q).2.trans (h1 q).2⟩

theorem same_lists_of_calm (w w1 : World) (h : calm w w1) : same_lists w w1 :=
  fun q => ⟨child_list_calm w w1 h q, parent_list_calm w w1 h q⟩

theorem symmetric_same_lists (w w1 : World) (h : same_lists w w1) (hs : symmetric w) :
    symmetric w1 := by
  intro p c
  rw [(h p).1, (h c).2]
  exact hs p c

theorem count_locked_list_add (l : List Nat) (x y : Nat) :
    (locked_list_add l x).count y = l.count y + if y = x ∧ l.count x = 0 then 1 else 0 := by
  unfold locked_list_add
  by_cases hx : x ∈ l
  · have : l.count x ≠ 0 := fun h => (List.count_eq_zero.mp h) hx
    simp [hx, this]
  · have h0 : l.count x = 0 := List.count_eq_zero.mpr hx
    simp only [hx, if_false, List.count_append, h0, and_true]
    by_cases hy : y = x
    · subst hy
      simp
    · have : ¬ x = y := fun h => hy h.symm
      simp [hy, List.count_cons, this]

theorem count_locked_list_remove (l : List Nat) (x y : Nat) :
    (locked_list_remove l x).count y = if y = x then 0 else l.count y := by
  unfold locked_list_remove
  by_cases hy : y = x
  · subst hy
    simp only [if_true]
    apply List.count_eq_zero.mpr
    intro h
    have := (List.mem_filter.mp h).2
    simp at this
  · simp only [hy, if_false]
    rw [List.count_filter]
    simpa using hy

theorem child_list_modify_map (w : World) (p : Nat) (f : ipmi_entity_t → ipmi_entity_t)
    (q : Nat) (g : List Nat → List Nat)
    (hf : ∀ e, (f e).child_entities = g e.child_entities)
    (hl : deref w p ≠ none ∨ g [] = []) :
    child_list (modify w p f) q = if q = p then g (child_list w p) else child_list w q := by
  rw [child_list_modify]
  by_cases hq : q = p
  · simp only [hq, if_true]
    cases hd : deref w p with
    | none =>
      rcases hl with hl | hl
      · exact absurd hd hl
      · rw [child_list_none w p hd, hl]
    | some e =>
      rw [child_list_some w p e hd]
      exact hf e
  · simp only [hq, if_false]

theorem parent_list_modify_map (w : World) (p : Nat) (f : ipmi_entity_t → ipmi_entity_t)
    (q : Nat) (g : List Nat → List Nat)
    (hf : ∀ e, (f e).parent_entities = g e.parent_entities)
    (hl : deref w p ≠ none ∨ g [] = []) :
    parent_list (modify w p f) q = if q = p then g (parent_list w p) else parent_list w q := by
  rw [parent_list_modify]
  by_cases hq : q = p
  · simp only [hq, if_true]
    cases hd : deref w p with
    | none =>
      rcases hl with hl | hl
      · exact absurd hd hl
      · rw [parent_list_none w p hd, hl]
    | some e =>
      rw [parent_list_some w p e hd]
      exact hf e
  · simp only [hq, if_false]

theorem child_list_modify_keep (w : World) (p : Nat) (f : ipmi_entity_t → ipmi_entity_t)
    (q : Nat) (hf : ∀ e, (f e).child_entities = e.child_entities) :
    child_list (modify w p f) q = child_list w q := by
  rw [child_list_modify_map w p f q id hf (Or.inr rfl)]
  by_cases hq : q = p
  · simp [hq]
  · simp [hq]

theorem parent_list_modify_keep (w : World) (p : Nat) (f : ipmi_entity_t → ipmi_entity_t)
    (q : Nat) (hf : ∀ e, (f e).parent_entities = e.parent_entities) :
    parent_list (modify w p f) q = parent_list w q := by
  rw [parent_list_modify_map w p f q id hf (Or.inr rfl)]
  by_cases hq : q = p
  · simp [hq]
  · simp [hq]

theorem child_list_add_child (w : World) (ent child q : Nat) (he : deref w ent ≠ none) :
    child_list (add_child w ent child) q
      = if q = ent then locked_list_add (child_list w ent) child else child_list w q := by
  unfold add_child
  refine Eq.trans (child_list_modify_keep _ _ _ _ (fun e => rfl)) ?_
  refine Eq.trans (child_list_modify_keep _ _ _ _ (fun e => rfl)) ?_
  exact child_list_modify_map _ _ _ _ (fun l => locked_list_add l child) (fun e => rfl)
    (Or.inl he)

theorem parent_list_add_child (w : World) (ent child q : Nat) (hc : deref w child ≠ none) :
    parent_list (add_child w ent child) q
      = if q = child then locked_list_add (parent_list w child) ent else parent_list w q := by
  unfold add_child
  refine Eq.trans (parent_list_modify_keep _ _ _ _ (fun e => rfl)) ?_
  refine Eq.trans (parent_list_modify_map _ _ _ _ (fun l => locked_list_add l ent)
    (fun e => rfl) (Or.inl ((live_modify w ent child _).mpr hc))) ?_
  by_cases hq : q = child
  · simp only [hq, if_true]
    exact congrArg (fun l => locked_list_add l ent)
      (parent_list_modify_keep _ _ _ _ (fun e => rfl))
  · simp only [hq, if_false]
    exact parent_list_modify_keep _ _ _ _ (fun e => rfl)

theorem symmetric_add_child (w : World) (ent child : Nat) (he : deref w ent ≠ none)
    (hc : deref w child ≠ none) (hs : symmetric w) : symmetric (add_child w ent child) := by
  intro p c
  rw [child_list_add_child w ent child p he, parent_list_add_child w ent child c hc]
  have h1 := hs p c
  have h2 := hs ent child
  by_cases hp : p = ent
  · by_cases hcc : c = child
    · subst hp hcc
      simp only [if_true, count_locked_list_add, h1, true_and]
    · subst hp
      simp only [if_true, hcc, if_false, count_locked_list_add, false_and, Nat.add_zero]
      exact h1
  · by_cases hcc : c = child
    · subst hcc
      simp only [hp, if_false, if_true, count_locked_list_add, false_and, Nat.add_zero]
      exact h1
    · simp only [hp, hcc, if_false]
      exact h1

theorem live_add_child (w : World) (ent child q : Nat) :
    deref (add_child w ent child) q ≠ none ↔ deref w q ≠ none := by
  unfold add_child
  exact ((live_modify _ _ _ _).trans (live_modify _ _ _ _)).trans (live_modify _ _ _ _)

theorem tame_add_child (w : World) (ent child : Nat) (he : deref w ent ≠ none)
    (hc : deref w child ≠ none) : tame w (add_child w ent child) :=
  ⟨symmetric_add_child w ent child he hc, fun q h => (live_add_child w ent child q).mpr h⟩

theorem remove_child_lists (w : World) (ent child q : Nat) :
    child_list (ipmi_entity_remove_child w ent child).2 q
      = (if q = ent then locked_list_remove (child_list w ent) child else child_list w q)
    ∧ parent_list (ipmi_entity_remove_child w ent child).2 q
      = (if q = child then locked_list_remove (parent_list w child) ent
          else parent_list w q)
    ∧ (deref (ipmi_entity_remove_child w ent child).2 q ≠ none ↔ deref w q ≠ none) := by
  have hc : child_list (modify (modify (modify w ent (fun e =>
      { e with child_entities := locked_list_remove e.child_entities child })) child (fun c =>
      { c with parent_entities := locked_list_remove c.parent_entities ent })) ent (fun e =>
      { e with presence_possibly_changed := true })) q
      = (if q = ent then locked_list_remove (child_list w ent) child else child_list w q) := by
    refine Eq.trans (child_list_modify_keep _ _ _ _ (fun e => rfl)) ?_
    refine Eq.trans (child_list_modify_keep _ _ _ _ (fun e => rfl)) ?_
    exact child_list_modify_map _ _ _ _ (fun l => locked_list_remove l child) (fun e => rfl)
      (Or.inr rfl)
  have hp : parent_list (modify (modify (modify w ent (fun e =>
      { e with child_entities := locked_list_remove e.child_entities child })) child (fun c =>
      { c with parent_entities := locked_list_remove c.parent_entities ent })) ent (fun e =>
      { e with presence_possibly_changed := true })) q
      = (if q = child then locked_list_remove (parent_list w child) ent
          else parent_list w q) := by
    refine Eq.trans (parent_list_modify_keep _ _ _ _ (fun e => rfl)) ?_
    refine Eq.trans (parent_list_modify_map _ _ _ _ (fun l => locked_list_remove l ent)
      (fun e => rfl) (Or.inr rfl)) ?_
    by_cases hq : q = child
    · simp only [hq, if_true]
      exact congrArg (fun l => locked_list_remove l ent)
        (parent_list_modify_keep _ _ _ _ (fun e => rfl))
    · simp only [hq, if_false]
      exact parent_list_modify_keep _ _ _ _ (fun e => rfl)
  have hl : (deref (modify (modify (modify w ent (fun e =>
      { e with child_entities := locked_list_remove e.child_entities child })) child (fun c =>
      { c with parent_entities := locked_list_remove c.parent_entities ent })) ent (fun e =>
      { e with presence_possibly_changed := true })) q ≠ none ↔ deref w q ≠ none) :=
    ((live_modify _ _ _ _).trans (live_modify _ _ _ _)).trans (live_modify _ _ _ _)
  unfold ipmi_entity_remove_child
  simp only
  split
  · exact ⟨hc, hp, hl⟩
  · exact ⟨hc, hp, hl⟩

theorem tame_remove_child (w : World) (ent child : Nat) :
    tame w (ipmi_entity_remove_child w ent child).2 := by
  refine ⟨fun hs => ?_, fun q h => ((remove_child_lists w ent child q).2.2).mpr h⟩
  intro p c
  rw [(remove_child_lists w ent child p).1, (remove_child_lists w ent child c).2.1]
  have h1 := hs p c
  by_cases hp : p = ent
  · by_cases hcc : c = child
    · subst hp hcc
      simp only [if_true, count_locked_list_remove]
    · subst hp
      simp only [if_true, hcc, if_false, count_locked_list_remove]
      exact h1
  · by_cases hcc : c = child
    · subst hcc
      simp only [hp, if_false, if_true, count_locked_list_remove]
      exact h1
    · simp only [hp, hcc, if_false]
      exact h1

theorem tame_of_same_lists (w w1 : World) (h : same_lists w w1)
    (hl : ∀ q, deref w q ≠ none → deref w1 q ≠ none) : tame w w1 :=
  ⟨symmetric_same_lists w w1 h, hl⟩

theorem same_lists_mem_free (w : World) (p : Nat) (hc : child_list w p = [])
    (hp : parent_list w p = []) : same_lists w (mem_free w p) := by
  intro q
  by_cases hq : q = p
  · subst hq
    rw [child_list_none _ q (deref_mem_free_same w q),
      parent_list_none _ q (deref_mem_free_same w q), hc, hp]
    exact ⟨rfl, rfl⟩
  · have := (frame_mem_free p w).other q hq
    unfold child_list parent_list
    rw [this]
    exact ⟨rfl, rfl⟩

theorem same_lists_entity_final_destroy (w : World) (p : Nat) :
    same_lists w (entity_final_destroy w p) := by
  unfold entity_final_destroy
  cases hd : deref w p with
  | none => exact same_lists_refl w
  | some ent =>
    simp only
    split
    · exact same_lists_refl w
    · rename_i h
      simp only [Bool.or_eq_true, bne_iff_ne, ne_eq, not_or, not_not] at h
      apply same_lists_mem_free
      · rw [child_list_some w p ent hd]
        exact List.length_eq_zero.mp h.1.2
      · rw [parent_list_some w p ent hd]
        exact List.length_eq_zero.mp h.2

theorem calm_stop_timer (w : World) : calm w (stop_timer w).2 := by
  intro q
  rw [deref_stop_timer]

theorem calm_destroy_timer (w : World) (p : Nat) (r : Bool) :
    calm w (destroy_timer w p r) := by
  unfold destroy_timer
  cases r with
  | false => exact calm_refl w
  | true =>
    simp only [if_true]
    have h := calm_stop_timer w
    rcases hs : stop_timer w with ⟨rv, w1⟩
    rw [hs] at h
    simp only at h ⊢
    split
    · exact calm_trans h (calm_modify w1 p _ (fun e => ⟨rfl, rfl⟩))
    · exact h

theorem same_lists_destroy_entity (w : World) (p : Nat) :
    same_lists w (destroy_entity w p) := by
  unfold destroy_entity
  cases hd : deref w p with
  | none => exact same_lists_refl w
  | some ent =>
    simp only
    have h0 : calm w (modify w p (fun e => { e with destroyed := true })) :=
      calm_modify w p _ (fun e => ⟨rfl, rfl⟩)
    have h1 := calm_destroy_timer (modify w p (fun e => { e with destroyed := true })) p
      ent.hot_swap_act_timer_running
    have h2 := calm_destroy_timer (destroy_timer
      (modify w p (fun e => { e with destroyed := true })) p ent.hot_swap_act_timer_running) p
      ent.hot_swap_deact_timer_running
    exact same_lists_trans (same_lists_of_calm _ _ (calm_trans (calm_trans h0 h1) h2))
      (same_lists_entity_final_destroy _ p)

theorem same_lists_cleanup_entity (w : World) (p : Nat) :
    same_lists w (cleanup_entity w p).2 := by
  unfold cleanup_entity
  cases hd : deref w p with
  | none => exact same_lists_refl w
  | some ent =>
    simp only
    split
    · simp only
      have h0 : calm w (modify w p (fun e => { e with destroyed := true })) :=
        calm_modify w p _ (fun e => ⟨rfl, rfl⟩)
      exact same_lists_trans (same_lists_of_calm w _ (fun q => h0 q))
        (same_lists_destroy_entity _ p)
    · exact same_lists_refl w

theorem same_lists_put (w : World) (p : Nat) : same_lists w (_ipmi_entity_put w p) := by
  unfold _ipmi_entity_put
  cases hd : deref w p with
  | none => exact same_lists_refl w
  | some ent =>
    simp only
    split
    · have h := same_lists_cleanup_entity w p
      rcases hc : cleanup_entity w p with ⟨b, w1⟩
      rw [hc] at h
      simp only at h ⊢
      cases b with
      | true => exact h
      | false =>
        exact same_lists_trans h
          (same_lists_of_calm _ _ (calm_modify w1 p _ (fun e => ⟨rfl, rfl⟩)))
    · exact same_lists_of_calm _ _ (calm_modify w p _ (fun e => ⟨rfl, rfl⟩))

theorem symmetric_put (w : World) (p : Nat) (hs : symmetric w) :
    symmetric (_ipmi_entity_put w p) :=
  symmetric_same_lists _ _ (same_lists_put w p) hs

theorem entity_find_calm (w : World) (dn : ipmi_device_num_t) (id inst : Int) :
    calm w (entity_find w dn id inst).2.2
    ∧ ∀ p, (entity_find w dn id inst).2.1 = some p → deref (entity_find w dn id inst).2.2 p ≠ none := by
  unfold entity_find
  cases hs : search_entities w (search_info_of dn id inst) with
  | none =>
    simp only
    exact ⟨calm_refl w, fun p h => by cases h⟩
  | some q =>
    simp only
    refine ⟨calm_modify w q _ (fun e => ⟨rfl, rfl⟩), ?_⟩
    intro p hp
    cases hp
    have hq : search_at w (search_info_of dn id inst) q = true := by
      unfold search_entities at hs
      exact List.find?_some hs
    obtain ⟨e, he, _⟩ := (search_at_iff w _ q).mp hq
    apply (live_modify w q q _).mpr
    rw [he]
    simp

theorem deref_append_new (w w1 : World) (e : ipmi_entity_t)
    (h : w1.heap = w.heap ++ [some e]) (q : Nat) :
    deref w1 q = if q = w.heap.length then some e else deref w q := by
  unfold deref
  rw [h]
  by_cases hq : q = w.heap.length
  · subst hq
    simp
  · simp only [hq, if_false]
    by_cases hlt : q < w.heap.length
    · rw [List.getElem?_append_left hlt]
    · have h1 : (w.heap ++ [some e])[q]? = none :=
        List.getElem?_eq_none (by simp; omega)
      have h2 : w.heap[q]? = none := List.getElem?_eq_none (by omega)
      rw [h1, h2]

theorem deref_heap_length (w : World) : deref w w.heap.length = none := by
  unfold deref
  rw [List.getElem?_eq_none (Nat.le_refl _)]

theorem entity_add_tame (w : World) (dn : ipmi_device_num_t) (id inst : Int)
    (out data : Nat) :
    same_lists w (entity_add w dn id inst out data).2.2
    ∧ (∀ q, deref w q ≠ none → deref (entity_add w dn id inst out data).2.2 q ≠ none)
    ∧ (∀ p, (entity_add w dn id inst out data).2.1 = some p →
        deref (entity_add w dn id inst out data).2.2 p ≠ none) := by
  have hfind := entity_find_calm w dn id inst
  unfold entity_add
  rcases hf : entity_find w dn id inst with ⟨rv0, r0, w0⟩
  rw [hf] at hfind
  simp only at hfind
  obtain ⟨hcalm, hlive⟩ := hfind
  split
  · rename_i p w1 heq
    simp only [Prod.mk.injEq] at heq
    obtain ⟨_, h2, h3⟩ := heq
    subst h2 h3
    split
    · simp only
      have hc2 := calm_trans hcalm (calm_modify w0 p (fun e =>
        { e with sdr_gen_output := out, sdr_gen_cb_data := data }) (fun e => ⟨rfl, rfl⟩))
      refine ⟨same_lists_of_calm _ _ hc2, live_calm _ _ hc2, ?_⟩
      intro q hq
      cases hq
      exact (live_modify w0 p p _).mpr (hlive p rfl)
    · simp only
      refine ⟨same_lists_of_calm _ _ hcalm, live_calm _ _ hcalm, ?_⟩
      intro q hq
      cases hq
      exact hlive p rfl
  · rename_i rv1 r1 w1 hne heq
    simp only [Prod.mk.injEq] at heq
    obtain ⟨_, _, h3⟩ := heq
    subst h3
    have ha := take_alloc_heap w0
    rcases hta : take_alloc w0 with ⟨b, w2⟩
    rw [hta] at ha
    simp only at ha ⊢
    have hc2 : calm w w2 := calm_trans hcalm (calm_of_heap _ _ ha.1)
    cases b with
    | false =>
      simp only
      exact ⟨same_lists_of_calm _ _ hc2, live_calm _ _ hc2, fun p h => by cases h⟩
    | true =>
      simp only [ipmi_get_seq]
      have hb := take_allocs_heap 14 { w2 with next_seq := w2.next_seq + 1 }
      rcases htb : take_allocs 14 { w2 with next_seq := w2.next_seq + 1 } with ⟨b2, w4⟩
      rw [htb] at hb
      simp only at hb ⊢
      have hc4 : calm w w4 := calm_trans hc2 (calm_of_heap _ _ hb.1)
      cases b2 with
      | false =>
        simp only
        exact ⟨same_lists_of_calm _ _ hc4, live_calm _ _ hc4, fun p h => by cases h⟩
      | true =>
        simp only
        have hd : ∀ q, deref (call_entity_update_handlers
            { w4 with heap := w4.heap ++ [some (new_entity w4 w2.next_seq dn id inst out data)],
                      entities := w4.entities ++ [w4.heap.length] }
            w4.heap.length IPMI_ADDED) q
            = if q = w4.heap.length then
                some (new_entity w4 w2.next_seq dn id inst out data)
              else deref w4 q := by
          intro q
          exact deref_append_new w4 _ _ rfl q
        have hsl : same_lists w4 (call_entity_update_handlers
            { w4 with heap := w4.heap ++ [some (new_entity w4 w2.next_seq dn id inst out data)],
                      entities := w4.entities ++ [w4.heap.length] }
            w4.heap.length IPMI_ADDED) := by
          intro q
          unfold child_list parent_list
          rw [hd q]
          by_cases hq : q = w4.heap.length
          · subst hq
            simp only [if_true, deref_heap_length]
            exact ⟨rfl, rfl⟩
          · simp only [hq, if_false]
            exact ⟨trivial, trivial⟩
        refine ⟨same_lists_trans (same_lists_of_calm _ _ hc4) hsl, ?_, ?_⟩
        · intro q hq
          rw [hd q]
          split
          · simp
          · exact live_calm _ _ hc4 q hq
        · intro p hp
          cases hp
          rw [hd]
          simp

theorem slots_live_set (w : World) (fs : List entity_found_t) (i : Nat) (g : entity_found_t)
    (h : slots_live w fs)
    (hg : (∀ p, g.ent = some p → deref w p ≠ none) ∧ ∀ c ∈ g.cent, deref w c ≠ none) :
    slots_live w (fs.set i g) := by
  intro f hf
  rcases List.mem_or_eq_of_mem_set hf with h1 | h1
  · exact h f h1
  · rw [h1]
    exact hg

theorem slots_live_getD (w : World) (fs : List entity_found_t) (i : Nat)
    (h : slots_live w fs) :
    (∀ p, (fs.getD i found_zero).ent = some p → deref w p ≠ none)
    ∧ ∀ c ∈ (fs.getD i found_zero).cent, deref w c ≠ none := by
  by_cases hi : i < fs.length
  · have hm : fs.getD i found_zero ∈ fs := by
      rw [List.getD_eq_getElem _ _ hi]
      exact List.getElem_mem hi
    exact h _ hm
  · rw [List.getD_eq_default _ _ (by omega)]
    exact ⟨fun p hp => (by cases hp), fun c hc => (by cases hc)⟩

theorem add_child_ent_to_found_calm (w : World) (found : entity_found_t) (ent : Nat) :
    calm w (add_child_ent_to_found w found ent).2.2
    ∧ (add_child_ent_to_found w found ent).2.1.ent = found.ent
    ∧ ∀ c ∈ (add_child_ent_to_found w found ent).2.1.cent, c ∈ found.cent ∨ c = ent := by
  unfold add_child_ent_to_found
  split
  · have ha := take_alloc_heap w
    rcases hta : take_alloc w with ⟨b, w1⟩
    rw [hta] at ha
    simp only at ha ⊢
    cases b with
    | false =>
      simp only
      exact ⟨calm_of_heap _ _ ha.1, trivial, fun c hc => Or.inl hc⟩
    | true =>
      simp only
      refine ⟨calm_of_heap _ _ ha.1, trivial, fun c hc => ?_⟩
      simpa using hc
  · simp only
    refine ⟨calm_refl w, trivial, fun c hc => ?_⟩
    simpa using hc

theorem fill_in_children_tame (t : Nat) (ks : List (ipmi_device_num_t × Nat × Nat)) :
    ∀ (w : World) (founds : List entity_found_t),
      (symmetric w → symmetric (fill_in_children t ks w founds).2.2)
      ∧ ((fill_in_children t ks w founds).1 = 0 →
          (∀ q, deref w q ≠ none → deref (fill_in_children t ks w founds).2.2 q ≠ none)
          ∧ (slots_live w founds →
              slots_live (fill_in_children t ks w founds).2.2
                (fill_in_children t ks w founds).2.1)) := by
  induction ks with
  | nil =>
    intro w founds
    exact ⟨fun h => h, fun _ => ⟨fun _ h => h, fun h => h⟩⟩
  | cons k ks ih =>
    obtain ⟨dn, id, inst⟩ := k
    intro w founds
    have hadd := entity_add_tame w dn id inst 0 0
    unfold fill_in_children
    rcases hea : entity_add w dn id inst 0 0 with ⟨rv1, r1, w1⟩
    rw [hea] at hadd
    simp only at hadd
    obtain ⟨hsl, hgrow, hlive⟩ := hadd
    split
    · rename_i child w1x heq
      simp only [Prod.mk.injEq] at heq
      obtain ⟨_, h2, h3⟩ := heq
      subst h2 h3
      have hatf := add_child_ent_to_found_calm w1 (founds.getD t found_zero) child
      rcases hac : add_child_ent_to_found w1 (founds.getD t found_zero) child with
        ⟨rv2, f, w2⟩
      rw [hac] at hatf
      simp only at hatf
      obtain ⟨hcalm, hent, hcent⟩ := hatf
      split
      · rename_i f2 w2x heq2
        simp only [Prod.mk.injEq] at heq2
        obtain ⟨_, h4, h5⟩ := heq2
        subst h4 h5
        obtain ⟨ih1, ih2⟩ := ih w2 (founds.set t f)
        refine ⟨fun hs => ih1 (symmetric_calm _ _ hcalm (symmetric_same_lists _ _ hsl hs)), ?_⟩
        intro hrv
        obtain ⟨ih3, ih4⟩ := ih2 hrv
        refine ⟨fun q hq => ih3 q (live_calm _ _ hcalm q (hgrow q hq)), ?_⟩
        intro hlv
        apply ih4
        have hlv2 : slots_live w2 founds := fun g hg =>
          ⟨fun p hp => live_calm _ _ hcalm p (hgrow p ((hlv g hg).1 p hp)),
            fun c hc => live_calm _ _ hcalm c (hgrow c ((hlv g hg).2 c hc))⟩
        apply slots_live_set w2 founds t f hlv2
        have hg := slots_live_getD w2 founds t hlv2
        refine ⟨fun p hp => hg.1 p (hent ▸ hp), fun c hc => ?_⟩
        rcases hcent c hc with h6 | h6
        · exact hg.2 c h6
        · rw [h6]
          exact live_calm _ _ hcalm child (hlive child rfl)
      · rename_i rv3 f3 w3 hne heq2
        simp only [Prod.mk.injEq] at heq2
        obtain ⟨h7, _, h9⟩ := heq2
        subst h7 h9
        simp only
        refine ⟨fun hs => symmetric_put _ child
          (symmetric_calm _ _ hcalm (symmetric_same_lists _ _ hsl hs)), ?_⟩
        intro hrv
        exact (hne hrv).elim
    · rename_i rv3 r3 w3 hne heq
      simp only [Prod.mk.injEq] at heq
      obtain ⟨h7, _, h9⟩ := heq
      subst h7 h9
      simp only
      refine ⟨fun hs => symmetric_same_lists _ _ hsl hs, fun _ => ⟨hgrow, fun hlv g hg => ?_⟩⟩
      exact ⟨fun p hp => hgrow p ((hlv g hg).1 p hp), fun c hc => hgrow c ((hlv g hg).2 c hc)⟩

theorem fill_in_entity_tame (dlrs : List dlr_info_t) (i : Nat) (w : World)
    (founds : List entity_found_t) :
    (symmetric w → symmetric (fill_in_entity dlrs i w founds).2.2)
    ∧ ((fill_in_entity dlrs i w founds).1 = 0 →
        (∀ q, deref w q ≠ none → deref (fill_in_entity dlrs i w founds).2.2 q ≠ none)
        ∧ (slots_live w founds →
            slots_live (fill_in_entity dlrs i w founds).2.2
              (fill_in_entity dlrs i w founds).2.1)) := by
  unfold fill_in_entity
  simp only
  split
  · exact ⟨fun h => h, fun _ => ⟨fun _ h => h, fun h => h⟩⟩
  · split
    · have hadd := entity_add_tame w (dlrs.getD i dlr_zero).device_num
        (dlrs.getD i dlr_zero).entity_id (dlrs.getD i dlr_zero).entity_instance
        (dlrs.getD i dlr_zero).output_handler 0
      rcases hea : entity_add w (dlrs.getD i dlr_zero).device_num
        (dlrs.getD i dlr_zero).entity_id (dlrs.getD i dlr_zero).entity_instance
        (dlrs.getD i dlr_zero).output_handler 0 with ⟨rv1, r1, w1⟩
      rw [hea] at hadd
      simp only at hadd
      obtain ⟨hsl, hgrow, hlive⟩ := hadd
      split
      · rename_i p w1x heq
        simp only [Prod.mk.injEq] at heq
        obtain ⟨_, h2, h3⟩ := heq
        subst h2 h3
        have hlv1 : slots_live w founds → slots_live w1
            (founds.set i { (founds.getD i found_zero) with ent := some p }) := by
          intro hlv
          have hlv2 : slots_live w1 founds := fun g hg =>
            ⟨fun q hq => hgrow q ((hlv g hg).1 q hq), fun c hc => hgrow c ((hlv g hg).2 c hc)⟩
          apply slots_live_set w1 founds i _ hlv2
          refine ⟨fun q hq => ?_, (slots_live_getD w1 founds i hlv2).2⟩
          simp only [Option.some.injEq] at hq
          rw [← hq]
          exact hlive p rfl
        split
        · simp only
          exact ⟨fun hs => symmetric_same_lists _ _ hsl hs, fun _ => ⟨hgrow, hlv1⟩⟩
        · rcases hff : find_first_entry
              (founds.set i { (founds.getD i found_zero) with ent := some p }) (some p) i (i - 1)
              (i, false) with ⟨t, hit⟩
          simp only
          have hc := fill_in_children_tame t (contained_keys (dlrs.getD i dlr_zero)) w1
            (if hit = true then
              (founds.set i { (founds.getD i found_zero) with ent := some p }).set i
                { ((founds.set i { (founds.getD i found_zero) with ent := some p }).getD i
                    found_zero) with found := true }
              else founds.set i { (founds.getD i found_zero) with ent := some p })
          refine ⟨fun hs => hc.1 (symmetric_same_lists _ _ hsl hs), fun hrv => ?_⟩
          obtain ⟨h4, h5⟩ := hc.2 hrv
          refine ⟨fun q hq => h4 q (hgrow q hq), fun hlv => h5 ?_⟩
          have hl1 := hlv1 hlv
          split
          · apply slots_live_set w1 _ i _ hl1
            exact slots_live_getD w1 _ i hl1
          · exact hl1
      · rename_i rv3 r3 w3 hne heq
        simp only [Prod.mk.injEq] at heq
        obtain ⟨h7, _, h9⟩ := heq
        subst h7 h9
        simp only
        refine ⟨fun hs => symmetric_same_lists _ _ hsl hs,
          fun _ => ⟨hgrow, fun hlv g hg => ?_⟩⟩
        exact ⟨fun p hp => hgrow p ((hlv g hg).1 p hp),
          fun c hc => hgrow c ((hlv g hg).2 c hc)⟩
    · simp only
      refine ⟨fun h => h, fun _ => ⟨fun _ h => h, fun hlv => ?_⟩⟩
      apply slots_live_set w founds i _ hlv
      exact ⟨fun p hp => (by cases hp), (slots_live_getD w founds i hlv).2⟩

theorem fill_in_loop_tame (dlrs : List dlr_info_t) (is : List Nat) :
    ∀ (w : World) (founds : List entity_found_t),
      (symmetric w → symmetric (fill_in_loop dlrs is w founds).2.2)
      ∧ ((fill_in_loop dlrs is w founds).1 = 0 →
          (∀ q, deref w q ≠ none → deref (fill_in_loop dlrs is w founds).2.2 q ≠ none)
          ∧ (slots_live w founds →
              slots_live (fill_in_loop dlrs is w founds).2.2
                (fill_in_loop dlrs is w founds).2.1)) := by
  induction is with
  | nil =>
    intro w founds
    exact ⟨fun h => h, fun _ => ⟨fun _ h => h, fun h => h⟩⟩
  | cons i is ih =>
    intro w founds
    have h1 := fill_in_entity_tame dlrs i w founds
    unfold fill_in_loop
    rcases hfe : fill_in_entity dlrs i w founds with ⟨rv1, founds1, w1⟩
    rw [hfe] at h1
    simp only at h1
    split
    · rename_i f2 w2 heq
      simp only [Prod.mk.injEq] at heq
      obtain ⟨h0, h2, h3⟩ := heq
      subst h0 h2 h3
      obtain ⟨ih1, ih2⟩ := ih w1 founds1
      obtain ⟨h4, h5⟩ := h1.2 rfl
      refine ⟨fun hs => ih1 (h1.1 hs), fun hrv => ?_⟩
      obtain ⟨h6, h7⟩ := ih2 hrv
      exact ⟨fun q hq => h6 q (h4 q hq), fun hlv => h7 (h5 hlv)⟩
    · rename_i rv3 f3 w3 hne heq
      simp only [Prod.mk.injEq] at heq
      obtain ⟨h7, h8, h9⟩ := heq
      subst h7 h8 h9
      simp only
      exact ⟨h1.1, h1.2⟩

theorem fill_in_entities_tame (w : World) (infos : entity_sdr_info_t) :
    (symmetric w → symmetric (fill_in_entities w infos).2.2)
    ∧ ((fill_in_entities w infos).1 = 0 →
        (∀ q, deref w q ≠ none → deref (fill_in_entities w infos).2.2 q ≠ none)
        ∧ (slots_live w infos.found →
            slots_live (fill_in_entities w infos).2.2 (fill_in_entities w infos).2.1.found)) := by
  have h := fill_in_loop_tame infos.dlrs (List.range infos.dlrs.length) w infos.found
  unfold fill_in_entities
  rcases hl : fill_in_loop infos.dlrs (List.range infos.dlrs.length) w infos.found with
    ⟨rv, founds, w1⟩
  rw [hl] at h
  exact h

theorem slots_live_blank (w : World) (fs : List entity_found_t) (h : blank fs) :
    slots_live w fs := by
  intro f hf
  obtain ⟨h1, h2⟩ := h f hf
  exact ⟨fun p hp => (by rw [h1] at hp; cases hp), fun c hc => (by rw [h2] at hc; cases hc)⟩

theorem calm_take_alloc (w : World) : calm w (take_alloc w).2 :=
  calm_of_heap _ _ (take_alloc_heap w).1

theorem calm_alloc_entries (fs : List entity_found_t) (w : World) (n : Nat) :
    calm w (alloc_entries fs w n).2 :=
  calm_of_heap _ _ (alloc_entries_same fs w n).1

theorem tame_remove_children (p : Nat) (cs : List Nat) :
    ∀ w : World, tame w (cs.foldl (fun w0 c => (ipmi_entity_remove_child w0 p c).2) w) := by
  induction cs with
  | nil => intro w; exact tame_refl w
  | cons c cs ih =>
    intro w
    simp only [List.foldl_cons]
    exact tame_trans (tame_remove_child w p c) (ih _)

theorem tame_commit_old (dfs : List (dlr_info_t × entity_found_t)) :
    ∀ w : World, tame w (commit_old dfs w) := by
  induction dfs with
  | nil => intro w; exact tame_refl w
  | cons x dfs ih =>
    obtain ⟨d, f⟩ := x
    intro w
    unfold commit_old
    split
    · exact ih w
    · split
      · exact ih w
      · rename_i p hp
        split
        · refine tame_trans ?_ (ih _)
          exact tame_of_calm _ _ (calm_modify w p _ (fun e => ⟨rfl, rfl⟩))
        · exact tame_trans (tame_remove_children p f.cent w) (ih _)

theorem calm_commit_frudev (env : Nat → Nat → mc_reply_t) (d : dlr_info_t) (p : Nat)
    (channel : Option Nat) (ipmb rv : Nat) (w : World) :
    calm w (commit_frudev env d p channel ipmb rv w).2 := by
  unfold commit_frudev
  split
  · exact calm_refl w
  · split
    · exact calm_refl w
    · split
      · simp only
        split
        · exact calm_refl w
        · split
          · exact calm_refl w
          · split
            · exact calm_refl w
            · exact calm_modify w p _ (fun e => ⟨rfl, rfl⟩)
      · exact calm_refl w

theorem calm_commit_new_dlr (env : Nat → Nat → mc_reply_t) (d : dlr_info_t) (p : Nat)
    (rv : Nat) (w : World) : calm w (commit_new_dlr env d p rv w).2 := by
  have h1 : calm w (modify w p (fun e => { e with ref_count := u32_inc e.ref_count })) :=
    calm_modify w p _ (fun e => ⟨rfl, rfl⟩)
  have h2 : calm (modify w p (fun e => { e with ref_count := u32_inc e.ref_count }))
      (modify (modify w p (fun e => { e with ref_count := u32_inc e.ref_count })) p
        (fun e => { e with info := d })) :=
    calm_modify _ p _ (fun e => ⟨rfl, rfl⟩)
  unfold commit_new_dlr
  simp only
  split
  · exact calm_trans (calm_trans h1 h2) (calm_commit_frudev env d p _ _ rv _)
  · split
    · split
      · exact calm_trans (calm_trans h1 h2) (calm_commit_frudev env d p _ _ rv _)
      · have h3 : calm (modify w p (fun e => { e with ref_count := u32_inc e.ref_count }))
            (modify (modify w p (fun e => { e with ref_count := u32_inc e.ref_count })) p
              (fun e => if e.info.FRU_inventory_device == 0 then { e with info := d } else e)) := by
          apply calm_modify
          intro e
          split <;> exact ⟨rfl, rfl⟩
        refine calm_trans (calm_trans h1 h3) ?_
        refine calm_trans ?_ (calm_commit_frudev env d p _ _ rv _)
        exact fun q => rfl
    · exact calm_trans (calm_trans h1 h2) (calm_commit_frudev env d p _ _ rv _)

theorem tame_commit_new_children (p : Nat) (cs : List Nat) :
    ∀ (entries : Nat) (w : World) (r : Nat × World), deref w p ≠ none →
      (∀ c ∈ cs, deref w c ≠ none) → commit_new_children p cs entries w = some r →
      tame w r.2 := by
  induction cs with
  | nil =>
    intro entries w r _ _ h
    simp only [commit_new_children, Option.some.injEq] at h
    subst h
    exact tame_refl w
  | cons c cs ih =>
    intro entries w r hp hcs h
    unfold commit_new_children at h
    split at h
    · cases h
    · have hc := hcs c (List.mem_cons_self _ _)
      have ht := tame_add_child w p c hp hc
      exact tame_trans ht (ih _ _ r (ht.2 p hp)
        (fun x hx => ht.2 x (hcs x (List.mem_cons_of_mem _ hx))) h)

theorem tame_commit_new (env : Nat → Nat → mc_reply_t)
    (dfs : List (dlr_info_t × entity_found_t)) :
    ∀ (rv entries : Nat) (w : World) (r : Nat × Nat × World),
      (∀ x ∈ dfs, (∀ p, x.2.ent = some p → deref w p ≠ none)
        ∧ ∀ c ∈ x.2.cent, deref w c ≠ none) →
      commit_new env dfs rv entries w = some r → tame w r.2.2 := by
  induction dfs with
  | nil =>
    intro rv entries w r _ h
    simp only [commit_new, Option.some.injEq] at h
    subst h
    exact tame_refl w
  | cons x dfs ih =>
    obtain ⟨d, f⟩ := x
    intro rv entries w r hl h
    have hrest : ∀ w1, tame w w1 → ∀ x ∈ dfs, (∀ p, x.2.ent = some p → deref w1 p ≠ none)
        ∧ ∀ c ∈ x.2.cent, deref w1 c ≠ none := by
      intro w1 ht x hx
      have := hl x (List.mem_cons_of_mem _ hx)
      exact ⟨fun p hp => ht.2 p (this.1 p hp), fun c hc => ht.2 c (this.2 c hc)⟩
    have hf := hl (d, f) (List.mem_cons_self _ _)
    simp only at hf
    unfold commit_new at h
    split at h
    · exact ih rv entries w r (hrest w (tame_refl w)) h
    · split at h
      · exact ih rv entries w r (hrest w (tame_refl w)) h
      · rename_i p hp
        split at h
        · have hc := calm_commit_new_dlr env d p rv w
          rcases hcd : commit_new_dlr env d p rv w with ⟨rv1, w1⟩
          rw [hcd] at hc h
          simp only at hc h
          have ht := tame_of_calm _ _ hc
          exact tame_trans ht (ih rv1 entries w1 r (hrest w1 ht) h)
        · split at h
          · cases h
          · rename_i entries1 w1 hcc
            have ht := tame_commit_new_children p f.cent entries w (entries1, w1)
              (hf.1 p hp) hf.2 hcc
            exact tame_trans ht (ih rv entries1 w1 r (hrest w1 ht) h)

theorem calm_notify_new (fs : List entity_found_t) :
    ∀ (w w1 : World), notify_new fs w = some w1 → calm w w1 := by
  induction fs with
  | nil =>
    intro w w1 h
    simp only [notify_new, Option.some.injEq] at h
    subst h
    exact calm_refl w
  | cons f fs ih =>
    intro w w1 h
    unfold notify_new at h
    split at h
    · exact ih w w1 h
    · split at h
      · cases h
      · rename_i p hp
        have hfold : ∀ (cs : List Nat) (w0 : World),
            (cs.foldl (fun w0 c => call_entity_update_handlers w0 c IPMI_CHANGED) w0).heap
              = w0.heap := by
          intro cs
          induction cs with
          | nil => intro w0; rfl
          | cons c cs ihc =>
            intro w0
            simp only [List.foldl_cons]
            rw [ihc]
            rfl
        refine calm_trans ?_ (ih _ w1 h)
        exact calm_of_heap _ _ (hfold f.cent _)

theorem same_lists_put_entities (fs : List entity_found_t) :
    ∀ w : World, same_lists w (put_entities w fs) := by
  induction fs with
  | nil => intro w; exact same_lists_refl w
  | cons f fs ih =>
    intro w
    have hfold : ∀ (cs : List Nat) (w0 : World),
        same_lists w0 (cs.foldl _ipmi_entity_put w0) := by
      intro cs
      induction cs with
      | nil => intro w0; exact same_lists_refl w0
      | cons c cs ihc =>
        intro w0
        simp only [List.foldl_cons]
        exact same_lists_trans (same_lists_put w0 c) (ihc _)
    unfold put_entities
    split
    · exact ih w
    · simp only
      have h1 : same_lists w (match f.ent with
          | some p => _ipmi_entity_put w p
          | none => w) := by
        split
        · exact same_lists_put w _
        · exact same_lists_refl w
      exact same_lists_trans (same_lists_trans h1 (hfold f.cent _)) (ih _)

theorem same_lists_scan_out_err (w : World) (mc rv : Nat) (infos old : entity_sdr_info_t) :
    same_lists w (scan_out_err w mc rv infos old).2 := by
  unfold scan_out_err
  simp only
  have h1 := same_lists_put_entities infos.found w
  have h2 := same_lists_put_entities old.found (put_entities w infos.found)
  exact fun q => (same_lists_trans h1 h2) q

theorem got_calm (w : World) (mc : Nat) (old : entity_sdr_info_t) (w1 : World)
    (h : (match _ipmi_get_sdr_entities w mc with
      | some old => some (old, w)
      | none =>
        match take_alloc w with
        | (false, _) => none
        | (true, w1) =>
          some (({ found := [], dlrs := [] } : entity_sdr_info_t),
            _ipmi_set_sdr_entities w1 mc { found := [], dlrs := [] })) = some (old, w1)) :
    calm w w1 := by
  cases hg : _ipmi_get_sdr_entities w mc with
  | some o =>
    rw [hg] at h
    simp only [Option.some.injEq, Prod.mk.injEq] at h
    rw [← h.2]
    exact calm_refl w
  | none =>
    rw [hg] at h
    have ha := take_alloc_heap w
    rcases hta : take_alloc w with ⟨b, w2⟩
    rw [hta] at h ha
    cases b with
    | false => cases h
    | true =>
      simp only [Option.some.injEq, Prod.mk.injEq] at h ha
      rw [← h.2]
      exact calm_of_heap _ _ ha.1

theorem scan_prepare_symmetric (w : World) (mc : Nat) (c : Nat → Nat → Int)
    (dlrs : List dlr_info_t) (hs : symmetric w)
    (res : Except (Nat × World) (Nat × entity_sdr_info_t × entity_sdr_info_t × World))
    (h : scan_prepare w mc c dlrs = res) :
    match res with
    | .error r => symmetric r.2
    | .ok x => symmetric x.2.2.2 ∧ slots_live x.2.2.2 x.2.1.found := by
  unfold scan_prepare at h
  simp only at h
  split at h
  · subst h
    exact symmetric_calm _ _ (calm_take_alloc w) hs
  · rename_i old w1 heq
    have hs1 := symmetric_calm _ _ (got_calm w mc old w1 heq) hs
    have hb := blank_match_loop c (dlrs.length + old.dlrs.length) 0 0
      (List.replicate dlrs.length found_zero) (List.replicate old.dlrs.length found_zero)
      (blank_replicate _) (blank_replicate _)
    cases hm : match_loop c (dlrs.length + old.dlrs.length) 0 0
        (List.replicate dlrs.length found_zero)
        (List.replicate old.dlrs.length found_zero) with
    | mk nf of =>
      rw [hm] at h hb
      simp only at h hb
      have hf1 := fill_in_entities_tame w1 { found := nf, dlrs := dlrs }
      rcases hfe : fill_in_entities w1 { found := nf, dlrs := dlrs } with ⟨rv, infos1, w2⟩
      rw [hfe] at h hf1
      simp only at hf1
      split at h
      · rename_i i1 w2x heq1
        simp only [Prod.mk.injEq] at heq1
        obtain ⟨h0, h1, h2⟩ := heq1
        subst h0 h1 h2
        obtain ⟨hg1, hl1⟩ := hf1.2 rfl
        have hs2 := hf1.1 hs1
        have hlive1 := hl1 (slots_live_blank w1 nf hb.1)
        have hf2 := fill_in_entities_tame w2 { found := of, dlrs := old.dlrs }
        rcases hfe2 : fill_in_entities w2 { found := of, dlrs := old.dlrs } with
          ⟨rv2, old1, w3⟩
        rw [hfe2] at h hf2
        simp only at hf2
        split at h
        · rename_i o1 w3x heq2
          simp only [Prod.mk.injEq] at heq2
          obtain ⟨h3, h4, h5⟩ := heq2
          subst h3 h4 h5
          obtain ⟨hg2, _⟩ := hf2.2 rfl
          have hs3 := hf2.1 hs2
          have hca := calm_alloc_entries infos1.found w3 0
          rcases hae : alloc_entries infos1.found w3 0 with ⟨e, w4⟩
          rw [hae] at h hca
          simp only at hca
          have hs4 := symmetric_calm _ _ hca hs3
          cases e with
          | none =>
            simp only at h
            subst h
            exact symmetric_same_lists _ _ (same_lists_scan_out_err w4 mc ENOMEM infos1 old1) hs4
          | some n =>
            simp only at h
            subst h
            refine ⟨hs4, fun f hf => ?_⟩
            have := hlive1 f hf
            exact ⟨fun p hp => live_calm _ _ hca p (hg2 p (this.1 p hp)),
              fun x hx => live_calm _ _ hca x (hg2 x (this.2 x hx))⟩
        · rename_i rv3 o3 w3x hne heq2
          simp only [Prod.mk.injEq] at heq2
          obtain ⟨h3, h4, h5⟩ := heq2
          subst h3 h4 h5
          subst h
          exact symmetric_same_lists _ _ (same_lists_scan_out_err _ mc _ infos1 _) (hf2.1 hs2)
      · rename_i rv3 i3 w3x hne heq1
        simp only [Prod.mk.injEq] at heq1
        obtain ⟨h3, h4, h5⟩ := heq1
        subst h3 h4 h5
        subst h
        exact symmetric_same_lists _ _ (same_lists_scan_out_err _ mc _ _ _) (hf1.1 hs1)

theorem scan_symmetric (w : World) (mc : Nat) (c : Nat → Nat → Int)
    (env : Nat → Nat → mc_reply_t) (dlrs : List dlr_info_t) (hs : symmetric w)
    (r : Nat × World) (h : ipmi_entity_scan_sdrs w mc c env dlrs = some r) :
    symmetric r.2 := by
  cases hsp : scan_prepare w mc c dlrs with
  | error r0 =>
    have hp := scan_prepare_symmetric w mc c dlrs hs (.error r0) hsp
    rw [scan_of_prepare_error w mc c env dlrs r0 hsp] at h
    cases h
    exact hp
  | ok x =>
    have hp := scan_prepare_symmetric w mc c dlrs hs (.ok x) hsp
    obtain ⟨hs4, hlive⟩ := hp
    rw [(scan_of_prepare_ok w mc c env dlrs x hsp).2] at h
    have hto := tame_commit_old (x.2.2.1.dlrs.zip x.2.2.1.found) x.2.2.2
    cases hcn : commit_new env (x.2.1.dlrs.zip x.2.1.found) 0 x.1
        (commit_old (x.2.2.1.dlrs.zip x.2.2.1.found) x.2.2.2) with
    | none =>
      rw [hcn] at h
      cases h
    | some y =>
      obtain ⟨rv, left, w6⟩ := y
      rw [hcn] at h
      simp only at h
      have htn := tame_commit_new env (x.2.1.dlrs.zip x.2.1.found) 0 x.1 _ (rv, left, w6)
        (fun z hz => by
          have hm := hlive z.2 (List.of_mem_zip (a := z.1) (b := z.2) hz).2
          exact ⟨fun p hp => hto.2 p (hm.1 p hp), fun q hq => hto.2 q (hm.2 q hq)⟩) hcn
      have hs6 := htn.1 (hto.1 hs4)
      cases hnn : notify_new x.2.1.found w6 with
      | none =>
        rw [hnn] at h
        cases h
      | some w7 =>
        rw [hnn] at h
        simp only [Option.some.injEq] at h
        subst h
        have hs7 := symmetric_calm _ _ (calm_notify_new _ _ _ hnn) hs6
        have h8 := same_lists_trans (same_lists_put_entities x.2.1.found w7)
          (same_lists_put_entities x.2.2.1.found _)
        exact symmetric_same_lists _ _ (fun q => h8 q) hs7

theorem symmetric_destroy_children (p : Nat) (ks : List (ipmi_device_num_t × Nat × Nat)) :
    ∀ w : World, symmetric w → symmetric (destroy_children p ks w) := by
  induction ks with
  | nil => intro w hs; exact hs
  | cons k ks ih =>
    obtain ⟨dn, id, inst⟩ := k
    intro w hs
    have hf := entity_find_calm w dn id inst
    unfold destroy_children
    rcases hef : entity_find w dn id inst with ⟨rv, r, w1⟩
    rw [hef] at hf
    simp only at hf
    have hs1 := symmetric_calm _ _ hf.1 hs
    split
    · rename_i child w1x heq
      simp only [Prod.mk.injEq] at heq
      obtain ⟨_, _, h3⟩ := heq
      subst h3
      exact ih _ (symmetric_put _ child ((tame_remove_child w1 p child).1 hs1))
    · rename_i a b w1x hne heq
      simp only [Prod.mk.injEq] at heq
      obtain ⟨_, _, h3⟩ := heq
      subst h3
      exact ih _ hs1

theorem symmetric_destroy_record (w : World) (d : dlr_info_t) (hs : symmetric w) :
    symmetric (destroy_record w d) := by
  have hf := entity_find_calm w d.device_num d.entity_id d.entity_instance
  unfold destroy_record
  rcases hef : entity_find w d.device_num d.entity_id d.entity_instance with ⟨rv, r, w1⟩
  rw [hef] at hf
  simp only at hf
  have hs1 := symmetric_calm _ _ hf.1 hs
  split
  · rename_i p w1x heq
    simp only [Prod.mk.injEq] at heq
    obtain ⟨_, _, h3⟩ := heq
    subst h3
    simp only
    apply symmetric_put
    split
    · refine symmetric_calm _ _ (calm_modify _ p _ (fun e => ⟨rfl, rfl⟩)) ?_
      split
      · exact symmetric_calm _ _ (calm_modify _ p _ (fun e => ⟨rfl, rfl⟩)) hs1
      · exact hs1
    · exact symmetric_destroy_children p _ w1 hs1
  · rename_i a b w1x hne heq
    simp only [Prod.mk.injEq] at heq
    obtain ⟨_, _, h3⟩ := heq
    subst h3
    exact hs1

theorem symmetric_sdr_entity_destroy (infos : entity_sdr_info_t) :
    ∀ w : World, symmetric w → symmetric (ipmi_sdr_entity_destroy w infos).2 := by
  unfold ipmi_sdr_entity_destroy
  simp only
  generalize infos.dlrs = ds
  induction ds with
  | nil => intro w hs; exact hs
  | cons d ds ih =>
    intro w hs
    simp only [List.foldl_cons]
    exact ih _ (symmetric_destroy_record w d hs)

theorem symmetric_add_child_call (w : World) (p c : Nat) (hp : deref w p ≠ none)
    (hc : deref w c ≠ none) (hs : symmetric w) :
    symmetric (ipmi_entity_add_child w p c).2 := by
  unfold ipmi_entity_add_child
  have ha := calm_take_alloc w
  rcases hta : take_alloc w with ⟨b, w1⟩
  rw [hta] at ha
  simp only at ha ⊢
  cases b with
  | false => exact symmetric_calm _ _ ha hs
  | true =>
    simp only
    have ha2 := calm_take_alloc w1
    rcases htb : take_alloc w1 with ⟨b2, w2⟩
    rw [htb] at ha2
    simp only at ha2 ⊢
    have hc2 := calm_trans ha ha2
    cases b2 with
    | false => exact symmetric_calm _ _ hc2 hs
    | true =>
      simp only
      have hs2 := symmetric_add_child w2 p c (live_calm _ _ hc2 p hp) (live_calm _ _ hc2 c hc)
        (symmetric_calm _ _ hc2 hs)
      exact symmetric_calm _ _ (fun q => rfl) hs2

theorem family_step_symmetric (w : World) (op : family_op) (w1 : World)
    (hs : symmetric w) (h : family_step w op = some w1) : symmetric w1 := by
  cases op with
  | add dn id inst out data =>
    simp only [family_step, Option.some.injEq] at h
    subst h
    exact symmetric_same_lists _ _ (entity_add_tame w dn id inst out data).1 hs
  | pin p =>
    simp only [family_step, Option.some.injEq] at h
    subst h
    exact symmetric_calm _ _ (calm_modify w p _ (fun e => ⟨rfl, rfl⟩)) hs
  | unpin p =>
    simp only [family_step, Option.some.injEq] at h
    subst h
    exact symmetric_put w p hs
  | add_child p c =>
    simp only [family_step] at h
    split at h
    · rename_i hl
      simp only [Option.some.injEq] at h
      subst h
      simp only [Bool.and_eq_true, Option.isSome_iff_ne_none] at hl
      exact symmetric_add_child_call w p c hl.1 hl.2 hs
    · cases h
  | remove_child p c =>
    simp only [family_step, Option.some.injEq] at h
    subst h
    exact (tame_remove_child w p c).1 hs
  | scan mc c env dlrs =>
    simp only [family_step, Option.map_eq_some'] at h
    obtain ⟨r, hr, h2⟩ := h
    subst h2
    exact scan_symmetric w mc c env dlrs hs r hr
  | destroy mc =>
    simp only [family_step] at h
    split at h
    · simp only [Option.some.injEq] at h
      subst h
      exact symmetric_sdr_entity_destroy _ w hs
    · simp only [Option.some.injEq] at h
      subst h
      exact hs

theorem family_run_symmetric (ops : List family_op) :
    ∀ (w w1 : World), symmetric w → family_run w ops = some w1 → symmetric w1 := by
  induction ops with
  | nil =>
    intro w w1 hs h
    simp only [family_run, Option.some.injEq] at h
    subst h
    exact hs
  | cons op ops ih =>
    intro w w1 hs h
    unfold family_run at h
    cases hst : family_step w op with
    | none =>
      rw [hst] at h
      cases h
    | some w2 =>
      rw [hst] at h
      exact ih w2 w1 (family_step_symmetric w op w2 hs hst) h

/-! ## Facts about the requests of presence detection -/

theorem hot_swap_only_refl (w : World) : hot_swap_only w w := fun _ hx => Or.inl hx

theorem hot_swap_only_trans {a b c : World} (h1 : hot_swap_only a b) (h2 : hot_swap_only b c) :
    hot_swap_only a c := by
  intro x hx
  rcases h2 x hx with h | h
  · exact h1 x h
  · exact Or.inr h

theorem hot_swap_only_of_silent {w w1 : World} (h : silent w w1) : hot_swap_only w w1 := by
  intro x hx
  rw [h.2] at hx
  exact Or.inl hx

theorem hot_swap_only_of_trace {w w1 : World} (h : w1.trace = w.trace) : hot_swap_only w w1 :=
  hot_swap_only_of_silent (silent_of_trace h)

theorem hot_swap_only_send_request (w : World) (r : request_t)
    (hr : r.cb = .power_checked ∨ r.cb = .indicator_change) :
    hot_swap_only w (send_request w r).2 := by
  intro x hx
  rcases send_request_requests w r x hx with h | h
  · exact Or.inl h
  · rw [h]; exact Or.inr hr

theorem entity_final_destroy_trace (w : World) (p : Nat) :
    (entity_final_destroy w p).trace = w.trace := by
  unfold entity_final_destroy
  split
  · rfl
  · split <;> rfl

theorem stop_timer_trace (w : World) : (stop_timer w).2.trace = w.trace := by
  unfold stop_timer
  split <;> rfl

theorem destroy_timer_trace (w : World) (p : Nat) (b : Bool) :
    (destroy_timer w p b).trace = w.trace := by
  unfold destroy_timer
  split
  · have h := stop_timer_trace w
    cases hs : stop_timer w with
    | mk rv w1 =>
      rw [hs] at h
      simp only at h ⊢
      split
      · rw [modify_trace]
        exact h
      · exact h
  · rfl

theorem destroy_entity_trace (w : World) (p : Nat) : (destroy_entity w p).trace = w.trace := by
  unfold destroy_entity
  split
  · rfl
  · simp only
    rw [entity_final_destroy_trace, destroy_timer_trace, destroy_timer_trace, modify_trace]

theorem cleanup_entity_trace (w : World) (p : Nat) : (cleanup_entity w p).2.trace = w.trace := by
  unfold cleanup_entity
  split
  · rfl
  · split
    · simp only
      rw [destroy_entity_trace]
      simp only [call_entity_update_handlers, modify_trace]
    · rfl

theorem put_trace (w : World) (p : Nat) : (_ipmi_entity_put w p).trace = w.trace := by
  unfold _ipmi_entity_put
  split
  · rfl
  · split
    · have h := cleanup_entity_trace w p
      split
      · rename_i w1 hc
        rw [hc] at h
        exact h
      · rename_i w1 hc
        rw [hc] at h
        rw [modify_trace]
        exact h
    · rw [modify_trace]

theorem get_trace (w : World) (p : Nat) : (_ipmi_entity_get w p).trace = w.trace := by
  unfold _ipmi_entity_get
  rw [modify_trace]

theorem children_present_trace (cs : List Nat) :
    ∀ (w : World) (acc : Bool), (children_present cs w acc).2.trace = w.trace := by
  induction cs with
  | nil => intro w acc; rfl
  | cons c cs ih =>
    intro w acc
    unfold children_present
    simp only
    rw [ih, put_trace, get_trace]

theorem hot_swap_only_set_hot_swap_state (w : World) (p : Nat) (s : ipmi_hot_swap_states) :
    hot_swap_only w (set_hot_swap_state w p s).2 := by
  cases hd : deref w p with
  | none =>
    unfold set_hot_swap_state
    rw [hd]
    exact hot_swap_only_refl w
  | some ent =>
    rw [set_hot_swap_state_eq w p s ent hd]
    simp only
    have h1 : hot_swap_only w (timers_started w p s ent) :=
      hot_swap_only_of_silent (silent_timers_started w p s ent)
    have h2 : ∀ w2, hot_swap_only w w2 →
        hot_swap_only w (if ent.hot_swap_state != s then
          ipmi_entity_call_hot_swap_handlers
            (modify w2 p (fun e => { e with hot_swap_state := s })) p ent.hot_swap_state s
        else (false, w2)).2 := by
      intro w2 hw2
      split
      · exact hot_swap_only_trans hw2 (hot_swap_only_of_silent
          (silent_trans (silent_modify _ _ _) (silent_call_hot_swap_handlers _ _ _ _)))
      · exact hw2
    apply h2
    split
    · exact hot_swap_only_trans h1 (hot_swap_only_send_request _ _ (Or.inr rfl))
    · exact h1

theorem hot_swap_only_handle_hot_swap_presence (w : World) (p : Nat) (present : Bool) :
    hot_swap_only w (handle_hot_swap_presence w p present).2 := by
  unfold handle_hot_swap_presence
  split
  · exact hot_swap_only_refl w
  · split
    · split
      · exact hot_swap_only_set_hot_swap_state w p _
      · split
        · exact hot_swap_only_set_hot_swap_state w p _
        · exact hot_swap_only_send_request w _ (Or.inl rfl)
    · exact hot_swap_only_set_hot_swap_state w p _

theorem requests_fetch_frus (w : World) (p : Nat) :
    (ipmi_entity_fetch_frus w p).2.trace.requests = w.trace.requests := by
  unfold ipmi_entity_fetch_frus
  have h := take_alloc_trace w
  split
  · rename_i w1 ha
    rw [ha] at h
    simp only at h ⊢
    rw [h]
  · rename_i w1 ha
    rw [ha] at h
    simp only at h
    split
    · simp only
      rw [h]
    · split
      · simp only
        rw [h]
      · simp only
        rw [h]

theorem hot_swap_only_of_requests {w w1 : World} (h : w1.trace.requests = w.trace.requests) :
    hot_swap_only w w1 := by
  intro x hx
  rw [h] at hx
  exact Or.inl hx

theorem hot_swap_only_presence_update (w : World) (p : Nat) (ent : ipmi_entity_t) (v : Bool) :
    hot_swap_only w (presence_update w p ent v).2.2 := by
  unfold presence_update
  simp only
  have hhs : hot_swap_only w (if ent.hot_swappable != 0
        && ent.hs_cb.get_hot_swap_state == e_get_hot_swap_state_addr then
      handle_hot_swap_presence w p v
    else (false, w)).2 := by
    split
    · exact hot_swap_only_handle_hot_swap_presence w p v
    · exact hot_swap_only_refl w
  generalize (if ent.hot_swappable != 0
        && ent.hs_cb.get_hot_swap_state == e_get_hot_swap_state_addr then
      handle_hot_swap_presence w p v
    else (false, w)) = hs at hhs
  have h4 : hot_swap_only w (if ipmi_entity_get_is_fru ent then
      if v then (ipmi_entity_fetch_frus hs.2 p).2
      else if ent.fru.isSome then
        call_fru_handlers (modify hs.2 p (fun e => { e with fru := none })) p IPMI_DELETED
      else hs.2
    else hs.2) := by
    split
    · split
      · exact hot_swap_only_trans hhs (hot_swap_only_of_requests (requests_fetch_frus _ p))
      · split
        · refine hot_swap_only_trans hhs (hot_swap_only_of_requests ?_)
          simp only [call_fru_handlers, modify_trace]
        · exact hhs
    · exact hhs
  generalize (if ipmi_entity_get_is_fru ent then
      if v then (ipmi_entity_fetch_frus hs.2 p).2
      else if ent.fru.isSome then
        call_fru_handlers (modify hs.2 p (fun e => { e with fru := none })) p IPMI_DELETED
      else hs.2
    else hs.2) = w4 at h4
  have h5 := silent_take_claim { w4 with trace := { w4.trace with
      presence_calls := w4.trace.presence_calls ++ [(p, v)] } }
  cases hc : take_claim { w4 with trace := { w4.trace with
      presence_calls := w4.trace.presence_calls ++ [(p, v)] } } with
  | mk claimed w5 =>
    rw [hc] at h5
    simp only
    exact hot_swap_only_trans h4 (hot_swap_only_of_requests h5.2)

theorem hot_swap_only_presence_finish (w : World) (event : Option Nat) (handled : Bool) :
    hot_swap_only w (presence_finish w event handled) := by
  unfold presence_finish
  split
  · split
    · exact hot_swap_only_of_requests rfl
    · exact hot_swap_only_refl w
  · exact hot_swap_only_refl w

theorem hot_swap_only_parent_with
    (changed : World → Nat → Bool → Option Nat → Option World)
    (hch : ∀ w q v e w1, changed w q v e = some w1 → hot_swap_only w w1)
    (w : World) (ent : Option Nat) (parent : Nat) (start : Option Nat) (w1 : World)
    (h : presence_parent_with changed w ent parent start = some w1) : hot_swap_only w w1 := by
  unfold presence_parent_with at h
  split at h
  · cases h; exact hot_swap_only_refl w
  · rename_i par hd
    split at h
    · cases h; exact hot_swap_only_refl w
    · have ht := children_present_trace par.child_entities w false
      cases hc : children_present par.child_entities w false with
      | mk present w2 =>
        rw [hc] at ht h
        simp only at ht h
        have h2 : hot_swap_only w w2 := hot_swap_only_of_trace ht
        split at h
        · cases ent with
          | none => cases h
          | some e =>
            simp only at h
            split at h
            · cases h; exact h2
            · exact hot_swap_only_trans h2 (hch _ _ _ _ _ h)
        · exact hot_swap_only_trans h2 (hch _ _ _ _ _ h)

theorem hot_swap_only_parents_rescan
    (changed : World → Nat → Bool → Option Nat → Option World)
    (hch : ∀ w q v e w1, changed w q v e = some w1 → hot_swap_only w w1) (p : Nat)
    (qs : List Nat) :
    ∀ w w1, parents_rescan changed p qs w = some w1 → hot_swap_only w w1 := by
  induction qs with
  | nil =>
    intro w w1 h
    unfold parents_rescan at h
    cases h
    exact hot_swap_only_refl w
  | cons q qs ih =>
    intro w w1 h
    unfold parents_rescan at h
    split at h
    · cases h
    · rename_i w2 h2
      have ha := hot_swap_only_parent_with changed hch _ _ _ _ _ h2
      have hb := ih _ _ h
      exact hot_swap_only_trans (hot_swap_only_trans
        (hot_swap_only_trans (hot_swap_only_of_trace (get_trace w q)) ha)
        (hot_swap_only_of_trace (put_trace w2 q))) hb

theorem hot_swap_only_presence_changed :
    ∀ fuel w p v ev w1, presence_changed fuel w p v ev = some w1 → hot_swap_only w w1 := by
  intro fuel
  induction fuel with
  | zero =>
    intro w p v ev w1 h
    unfold presence_changed at h
    cases h
  | succ fuel ih =>
    intro w p v ev w1 h
    unfold presence_changed at h
    cases hd : deref w p with
    | none =>
      rw [hd] at h
      cases h
      exact hot_swap_only_refl w
    | some ent =>
      rw [hd] at h
      simp only at h
      by_cases hv : (v != ent.present) = true
      · rw [hv] at h
        simp only [if_true] at h
        have h5 := hot_swap_only_presence_update
          (modify (modify w p (fun e =>
            { e with presence_event_count := u32_inc e.presence_event_count })) p
            (fun e => { e with present := v })) p ent v
        cases hu : presence_update (modify (modify w p (fun e =>
            { e with presence_event_count := u32_inc e.presence_event_count })) p
            (fun e => { e with present := v })) p ent v with
        | mk hsH rest =>
          obtain ⟨claimed, w5⟩ := rest
          rw [hu] at h5 h
          simp only at h5 h
          have h5a : hot_swap_only w w5 :=
            hot_swap_only_trans
              (hot_swap_only_of_trace (by rw [modify_trace, modify_trace])) h5
          split at h
          · cases h
          · rename_i w6 h6
            cases h
            exact hot_swap_only_trans h5a (hot_swap_only_trans
              (hot_swap_only_parents_rescan _ ih p _ _ _ h6)
              (hot_swap_only_presence_finish _ _ _))
      · have hb : (v != ent.present) = false := by simpa using hv
        rw [hb] at h
        simp only [Bool.false_eq_true, if_false] at h
        cases h
        exact hot_swap_only_trans (hot_swap_only_of_trace (modify_trace _ _ _))
          (hot_swap_only_presence_finish _ _ _)

theorem send_request_frame (w : World) (r : request_t) :
    (send_request w r).2
      = { w with trace := { w.trace with
            requests := (send_request w r).2.trace.requests,
            request_rvs := (send_request w r).2.trace.request_rvs } } := by
  unfold send_request
  split
  · rename_i h
    simp only
  · split <;> rfl

theorem sensor_detect_send_facts (w : World) (p s : Nat) (c : Int) :
    ∃ added, (sensor_detect_send w p s c).2.trace.requests = w.trace.requests ++ added
      ∧ (sensor_detect_send w p s c).1 = c + (added.length : Int)
      ∧ (∀ x ∈ added,
          x = { req := .reading_get s, cb := .detect_reading_read, ent := p }
          ∨ x = { req := .states_get s, cb := .detect_states_read, ent := p })
      ∧ (w.trace.request_rvs = [] →
          added = [{ req := .reading_get s, cb := .detect_reading_read, ent := p }]
          ∧ (sensor_detect_send w p s c).2.trace.request_rvs = [])
      ∧ (sensor_detect_send w p s c).2
          = { w with trace := { w.trace with
                requests := (sensor_detect_send w p s c).2.trace.requests,
                request_rvs := (sensor_detect_send w p s c).2.trace.request_rvs } } := by
  unfold sensor_detect_send send_request
  cases h : w.trace.request_rvs with
  | nil =>
    refine ⟨[{ req := .reading_get s, cb := .detect_reading_read, ent := p }], ?_⟩
    simp [h]
  | cons rv rest =>
    by_cases h0 : rv = 0
    · refine ⟨[{ req := .reading_get s, cb := .detect_reading_read, ent := p }], ?_⟩
      simp [h0]
    · cases rest with
      | nil =>
        refine ⟨[{ req := .states_get s, cb := .detect_states_read, ent := p }], ?_⟩
        simp [h0]
      | cons rv2 rest2 =>
        by_cases h1 : rv2 = 0
        · refine ⟨[{ req := .states_get s, cb := .detect_states_read, ent := p }], ?_⟩
          simp [h0, h1]
        · refine ⟨[], ?_⟩
          simp [h0, h1]

theorem detect_send_fold (p : Nat) (l : List Nat) :
    ∀ (c : Int) (w : World),
      ∃ added,
        ((l.foldl (fun (acc : Int × World) s => sensor_detect_send acc.2 p s acc.1)
            (c, w)).2).trace.requests = w.trace.requests ++ added
        ∧ (l.foldl (fun (acc : Int × World) s => sensor_detect_send acc.2 p s acc.1)
            (c, w)).1 = c + (added.length : Int)
        ∧ (∀ x ∈ added, ∃ s ∈ l,
            x = { req := .reading_get s, cb := .detect_reading_read, ent := p }
            ∨ x = { req := .states_get s, cb := .detect_states_read, ent := p })
        ∧ (w.trace.request_rvs = [] →
            added = l.map (fun s =>
              { req := .reading_get s, cb := .detect_reading_read, ent := p })
            ∧ ((l.foldl (fun (acc : Int × World) s => sensor_detect_send acc.2 p s acc.1)
                (c, w)).2).trace.request_rvs = [])
        ∧ (l.foldl (fun (acc : Int × World) s => sensor_detect_send acc.2 p s acc.1) (c, w)).2
            = { w with trace := { w.trace with
                  requests := ((l.foldl (fun (acc : Int × World) s =>
                    sensor_detect_send acc.2 p s acc.1) (c, w)).2).trace.requests,
                  request_rvs := ((l.foldl (fun (acc : Int × World) s =>
                    sensor_detect_send acc.2 p s acc.1) (c, w)).2).trace.request_rvs } } := by
  induction l with
  | nil =>
    intro c w
    exact ⟨[], by simp⟩
  | cons s l ih =>
    intro c w
    obtain ⟨a1, h1, h2, h3, h4, h5⟩ := sensor_detect_send_facts w p s c
    obtain ⟨a2, k1, k2, k3, k4, k5⟩ :=
      ih (sensor_detect_send w p s c).1 (sensor_detect_send w p s c).2
    simp only [List.foldl_cons]
    refine ⟨a1 ++ a2, ?_, ?_, ?_, ?_, ?_⟩
    · rw [k1, h1, List.append_assoc]
    · rw [k2, h2, List.length_append]
      push_cast
      omega
    · intro x hx
      rcases List.mem_append.mp hx with hx | hx
      · exact ⟨s, List.mem_cons_self _ _, h3 x hx⟩
      · obtain ⟨s1, hs1, hx1⟩ := k3 x hx
        exact ⟨s1, List.mem_cons_of_mem _ hs1, hx1⟩
    · intro hr
      obtain ⟨ha1, hr1⟩ := h4 hr
      obtain ⟨ha2, hr2⟩ := k4 hr1
      refine ⟨?_, hr2⟩
      rw [ha1, ha2]
      rfl
    · rw [k5]
      rw [h5]

theorem detect_base_present (w : World) (p : Nat) (ent : ipmi_entity_t)
    (hd : deref w p = some ent) (q : Nat) :
    present_at (detect_base w p ent) q = present_at w q := by
  obtain ⟨h1, h2, _⟩ := detect_base_facts w p ent hd
  unfold present_at
  by_cases hq : q = p
  · subst hq
    rw [h1, hd]
    rfl
  · rw [h2 q hq]

theorem detect_base_shape (w : World) (p : Nat) (ent : ipmi_entity_t)
    (hd : deref w p = some ent) : same_shape w (detect_base w p ent) := by
  obtain ⟨h1, h2, _⟩ := detect_base_facts w p ent hd
  intro q
  unfold shape_at
  by_cases hq : q = p
  · subst hq
    rw [h1, hd]
    rfl
  · rw [h2 q hq]

/-! ## Claims -/

/-- C1 (the code departs from the claim): a user adds and holds entities
1.1 and 2.1, a scan reports a locator record for each, and the next scan
reports an empty directory.  Both calls return 0, and afterwards the
collection holds two entities with the same identity key (0, 0, 0, 0):
the commit of the dropped records zeroes the whole payload of their
entities, key fields included. -/
theorem C1_two_members_same_key :
    two_scanned.map (fun r => (r.1, r.2.entities, key_at r.2 0, key_at r.2 1))
        = some (0, [0, 1], some [0, 0, 1, 1], some [0, 0, 2, 1])
    ∧ two_dropped.map (fun r => (r.1, r.2.entities, key_at r.2 0, key_at r.2 1))
        = some (0, [0, 1], some [0, 0, 0, 0], some [0, 0, 0, 0]) := by
  decide

/-- C2: `entity_find` either finds no member of the collection with the
requested key, returns ENODEV and leaves the state as it is; or returns
success and the address of a member whose four key fields are the
requested ones (the two `int` arguments as stored in `uint8_t`), and the
state differs only in that this entity's usecount is one higher. -/
theorem C2_entity_find (w : World) (dn : ipmi_device_num_t) (id inst : Int) :
    ((¬ ∃ p ∈ w.entities, ∃ e, deref w p = some e ∧ has_key e (search_info_of dn id inst))
        ∧ entity_find w dn id inst = (ENODEV, none, w))
    ∨ (∃ p e, p ∈ w.entities ∧ deref w p = some e
        ∧ e.info.device_num = dn ∧ e.info.entity_id = u8 id
        ∧ e.info.entity_instance = u8 inst
        ∧ entity_find w dn id inst =
            (0, some p,
              { w with heap := w.heap.set p (some { e with usecount := e.usecount + 1 }) })) :=
  entity_find_cases w dn id inst

/-- C3: `entity_add` on a key that a member of the collection has returns
that entity with its usecount one higher, and neither the collection nor
the event log changes (no entity is created, no Added is fired; the only
other write is the SDR output callback, when one is passed).  On a key no
member has, when none of the fifteen allocations fails, it appends one
new entity with that key, usecount 1, ref_count 0, present false,
presence_possibly_changed true, type Unknown, no running timer, empty
child, parent, sensor and control sets, and appends one Added event for
it to the log.  The third case, a key no member has and a failing
allocation, is left to C4. -/
theorem C3_entity_add (w : World) (dn : ipmi_device_num_t) (id inst : Int)
    (out data : Nat) :
    (∃ p e, p ∈ w.entities ∧ deref w p = some e
        ∧ has_key e (search_info_of dn id inst)
        ∧ entity_add w dn id inst out data =
            (0, some p, { w with heap := w.heap.set p (some
              { e with usecount := e.usecount + 1,
                       sdr_gen_output := if out != 0 then out else e.sdr_gen_output,
                       sdr_gen_cb_data := if out != 0 then data else e.sdr_gen_cb_data }) }))
    ∨ ((¬ ∃ p ∈ w.entities, ∃ e, deref w p = some e
          ∧ has_key e (search_info_of dn id inst))
        ∧ (∀ b ∈ w.allocs.take 15, b = true)
        ∧ ∃ ent w1, entity_add w dn id inst out data = (0, some w.heap.length, w1)
            ∧ w1.heap = w.heap ++ [some ent]
            ∧ w1.entities = w.entities ++ [w.heap.length]
            ∧ w1.events = w.events ++ [(IPMI_ADDED, w.heap.length)]
            ∧ ent.info.device_num = dn ∧ ent.info.entity_id = u8 id
            ∧ ent.info.entity_instance = u8 inst
            ∧ ent.usecount = 1 ∧ ent.ref_count = 0 ∧ ent.present = false
            ∧ ent.presence_possibly_changed = true
            ∧ ent.info.type = IPMI_ENTITY_UNKNOWN ∧ ent.running_timer_count = 0
            ∧ ent.hot_swap_act_timer_running = false
            ∧ ent.hot_swap_deact_timer_running = false
            ∧ ent.child_entities = [] ∧ ent.parent_entities = []
            ∧ ent.sensors = [] ∧ ent.controls = [])
    ∨ ((¬ ∃ p ∈ w.entities, ∃ e, deref w p = some e
          ∧ has_key e (search_info_of dn id inst))
        ∧ ∃ b ∈ w.allocs.take 15, b = false) := by
  rcases entity_find_cases w dn id inst with ⟨hno, hm⟩ | ⟨p, e, hp, he, h1, h2, h3, hf⟩
  · right
    by_cases ha : ∀ b ∈ w.allocs.take 15, b = true
    · left
      refine ⟨hno, ha, new_entity w w.next_seq dn id inst out data, _,
        entity_add_miss w dn id inst out data hm ha, ?_⟩
      simp [new_entity]
    · right
      refine ⟨hno, ?_⟩
      simpa using ha
  · left
    exact ⟨p, e, hp, he, ⟨h1, h2, h3⟩, entity_add_hit w dn id inst out data p e he hf⟩

/-- C4 (the code departs from the claim): whenever no member has the key
and one of the fifteen allocations of `entity_add` fails, `entity_add`
returns ENOMEM and leaves the heap and the collection as they were, but
`ipmi_entity_add` returns 0 to its caller and hands back no entity; it
returns 0 on every input.  Evaluated at the empty registry whose first
allocation fails. -/
theorem C4_ipmi_entity_add_returns_zero :
    (∀ (w : World) (ch addr : Nat) (id inst : Int) (s : List Nat) (t l out data : Nat),
        (ipmi_entity_add w ch addr id inst s t l out data).1 = 0)
    ∧ (∀ (w : World) (dn : ipmi_device_num_t) (id inst : Int) (out data : Nat),
        (¬ ∃ p ∈ w.entities, ∃ e, deref w p = some e
          ∧ has_key e (search_info_of dn id inst)) →
        (∃ b ∈ w.allocs.take 15, b = false) →
        (entity_add w dn id inst out data).1 = ENOMEM
        ∧ (entity_add w dn id inst out data).2.2.heap = w.heap
        ∧ (entity_add w dn id inst out data).2.2.entities = w.entities)
    ∧ (entity_add { World.empty 1 with allocs := [false] } ⟨0, 0⟩ 1 1 0 0).1 = ENOMEM
    ∧ (ipmi_entity_add { World.empty 1 with allocs := [false] } 0 0 1 1 [] 0 0 0 0)
        = (0, none, World.empty 1) := by
  refine ⟨?_, ?_, by decide, by decide⟩
  · intro w ch addr id inst s t l out data
    unfold ipmi_entity_add
    dsimp only
    split <;> rfl
  · intro w dn id inst out data hno ha
    obtain ⟨h1, _, h3, h4, _⟩ :=
      entity_add_miss_fail w dn id inst out data (entity_find_miss w dn id inst hno) ha
    exact ⟨h1, h3, h4⟩

/-- C5: `_ipmi_entity_put` on the entity at `p`.  With usecount above 1
the state changes only in that this entity's usecount is one lower (no
notification, same collection, every other field and entity as before).
With usecount 1 and the cleanup test of `cleanup_entity` passed (zero
ref_count, no child, parent, sensor or control), one Deleted event for
`p` is appended to the log and `p` leaves the collection, all other
members and entities staying as they are.  With usecount 1 and the test
failed the state changes only in that the usecount becomes 0. -/
theorem C5_entity_put (w : World) (p : Nat) (ent : ipmi_entity_t)
    (hd : deref w p = some ent) :
    (ent.usecount > 1 →
      _ipmi_entity_put w p
        = { w with heap := w.heap.set p (some { ent with usecount := ent.usecount - 1 }) })
    ∧ (ent.usecount = 1 → cleanup_ready ent = true →
      (_ipmi_entity_put w p).events = w.events ++ [(IPMI_DELETED, p)]
      ∧ p ∉ (_ipmi_entity_put w p).entities
      ∧ (∀ q, q ≠ p → (q ∈ (_ipmi_entity_put w p).entities ↔ q ∈ w.entities))
      ∧ (∀ q, q ≠ p → deref (_ipmi_entity_put w p) q = deref w q))
    ∧ (ent.usecount = 1 → cleanup_ready ent = false →
      _ipmi_entity_put w p
        = { w with heap := w.heap.set p (some { ent with usecount := 0 }) }) := by
  refine ⟨fun h => put_not_last w p ent hd (by omega), fun h hr => ?_,
    fun h hr => put_last_not_ready w p ent hd h hr⟩
  obtain ⟨h1, h2, _, h4⟩ := put_last_ready w p ent hd h hr
  refine ⟨h1, ?_, ?_, h4⟩
  · rw [h2, mem_locked_list_remove]; simp
  · intro q hq
    rw [h2, mem_locked_list_remove]
    exact ⟨fun h => h.1, fun h => ⟨h, hq⟩⟩

/-- Witness of C5: the registry with the single pinned entity 1.1; its
last pin is dropped, the cleanup test passes, one Deleted event is
logged and the entity leaves the collection. -/
theorem C5_entity_put_witness :
    deref one_pinned 0 = some entity_1_1
    ∧ entity_1_1.usecount = 1 ∧ cleanup_ready entity_1_1 = true
    ∧ (_ipmi_entity_put one_pinned 0).events = one_pinned.events ++ [(IPMI_DELETED, 0)]
    ∧ 0 ∉ (_ipmi_entity_put one_pinned 0).entities :=
  have h := (C5_entity_put one_pinned 0 entity_1_1 (by decide)).2.1 (by decide) (by decide)
  ⟨by decide, by decide, by decide, h.1, h.2.1⟩

set_option maxRecDepth 100000 in
/-- C5 as stated fails in its third case: in the state `timer_state` the
entity at address 0 is a member of the collection with one pin and a
running timer that cannot be stopped, so it is not eligible for
destruction as the specification defines it (no running timer), while its
ref_count, children, parents, sensors and controls are all zero.  Dropping
the last pin does not just set the usecount to 0: Deleted is fired and the
entity leaves the collection. -/
theorem C5_last_unpin_ignores_running_timer :
    (deref timer_state 0).map
        (fun e => (e.usecount, e.running_timer_count, e.hot_swap_act_timer_running,
          e.waitq_in_progress, cleanup_ready e)) = some (1, 1, true, false, true)
    ∧ 0 ∈ timer_state.entities
    ∧ 0 ∉ (_ipmi_entity_put timer_state 0).entities
    ∧ (_ipmi_entity_put timer_state 0).events = timer_state.events ++ [(IPMI_DELETED, 0)]
    ∧ _ipmi_entity_put timer_state 0
        ≠ modify timer_state 0 (fun e => { e with usecount := 0 })
    ∧ (deref (_ipmi_entity_put timer_state 0) 0).map
        (fun e => (e.destroyed, e.running_timer_count)) = some (true, 1) := by
  decide

/-- C6 as stated fails: an entity with a running auto-activate timer that
cannot be stopped (and no sensor, control, edge or structural reference
left) loses its last pin; the timer count is nonzero, yet the entity is
no longer found, Deleted has been fired, and the object is still alive
with its timer running. -/
theorem C6_running_timer_does_not_keep :
    (deref timer_state 0).map (fun e => (e.usecount, e.running_timer_count)) = some (1, 1)
    ∧ (entity_find timer_state ⟨0, 0⟩ 1 1).1 = 0
    ∧ (entity_find (_ipmi_entity_put timer_state 0) ⟨0, 0⟩ 1 1).1 = ENODEV
    ∧ (_ipmi_entity_put timer_state 0).events = [(IPMI_ADDED, 0), (IPMI_DELETED, 0)]
    ∧ (deref (_ipmi_entity_put timer_state 0) 0).map (fun e => e.running_timer_count)
        = some 1 := by
  decide

/-- C6 amended: along every sequence of add, find, pin and unpin in which
pin and unpin are applied to pinned entities, started from a registry
whose members are live, have a usecount that is not negative and are not
removable, every member of the collection stays live and not removable,
where removable means zero ref_count, no child, no parent, no sensor, no
control and zero usecount.  In the state reached, a member stays in the
collection under every further operation except the unpin that drops its
last pin while the first five are zero; that unpin removes it from the
collection and fires Deleted, whereas dropping the last pin while one of
the five is not zero leaves the collection and the event log as they
are.  Running timers and queued operations play no part in this. -/
theorem C6_members_not_removable (w : World) (ops : List lifecycle_op)
    (hinv : registry_inv w) (hops : ops_allowed w ops = true) :
    registry_inv (lifecycle_run w ops)
    ∧ (∀ op q, q ∈ (lifecycle_run w ops).entities →
        q ∈ (lifecycle_step (lifecycle_run w ops) op).entities
        ∨ (op = .unpin q
            ∧ ∃ e, deref (lifecycle_run w ops) q = some e ∧ e.usecount = 1
                ∧ cleanup_ready e = true))
    ∧ ∀ p ent, deref (lifecycle_run w ops) p = some ent → ent.usecount = 1 →
        (cleanup_ready ent = true →
          p ∉ (_ipmi_entity_put (lifecycle_run w ops) p).entities
          ∧ (_ipmi_entity_put (lifecycle_run w ops) p).events
              = (lifecycle_run w ops).events ++ [(IPMI_DELETED, p)])
        ∧ (cleanup_ready ent = false →
          (_ipmi_entity_put (lifecycle_run w ops) p).entities
              = (lifecycle_run w ops).entities
          ∧ (_ipmi_entity_put (lifecycle_run w ops) p).events
              = (lifecycle_run w ops).events) := by
  refine ⟨inv_lifecycle_run w ops hinv hops, fun op q hq => member_step _ op q hq, ?_⟩
  intro p ent hd h1
  refine ⟨fun hr => ?_, fun hr => ?_⟩
  · obtain ⟨he, hm, _, _⟩ := put_last_ready _ p ent hd h1 hr
    refine ⟨?_, he⟩
    rw [hm, mem_locked_list_remove]; simp
  · rw [put_last_not_ready _ p ent hd h1 hr]
    exact ⟨rfl, rfl⟩

/-- Witness of C6 amended: from the empty registry, add entity 1.1, find
it, pin it, and unpin it twice. -/
theorem C6_members_not_removable_witness :
    registry_inv (World.empty 1)
    ∧ ops_allowed (World.empty 1)
        [.add ⟨0, 0⟩ 1 1 0 0, .find ⟨0, 0⟩ 1 1, .pin 0, .unpin 0, .unpin 0] = true
    ∧ registry_inv (lifecycle_run (World.empty 1)
        [.add ⟨0, 0⟩ 1 1 0 0, .find ⟨0, 0⟩ 1 1, .pin 0, .unpin 0, .unpin 0]) :=
  ⟨by decide, by decide,
    (C6_members_not_removable (World.empty 1)
      [.add ⟨0, 0⟩ 1 1 0 0, .find ⟨0, 0⟩ 1 1, .pin 0, .unpin 0, .unpin 0]
      (by decide) (by decide)).1⟩

/-- C7 (the code departs from the claim): in the state `two_dropped`,
reached by two adds and two scans, the entities at addresses 0 and 1 are
pinned members of the collection with the same key.  The handle of the
first resolves (return value 0, one handler call on it); the handle of
the second does not: the lookup by key yields the first entity, whose
sequence number differs, so EINVAL is returned and no handler is called. -/
theorem C7_round_trip_fails_on_shared_key :
    two_dropped.map (fun r => (r.2.entities, pinned r.2 0, pinned r.2 1))
        = some ([0, 1], true, true)
    ∧ two_dropped.map (fun r => (key_at r.2 0, key_at r.2 1))
        = some (some [0, 0, 0, 0], some [0, 0, 0, 0])
    ∧ two_dropped.map (fun r => handle_round_trip r.2 0) = some (some (0, [0]))
    ∧ two_dropped.map (fun r => handle_round_trip r.2 1) = some (some (EINVAL, [])) := by
  decide

/-- C8: for a handle of this domain.  When the member that the lookup by
the handle's key yields has a sequence number other than the handle's,
`ipmi_entity_pointer_cb` returns EINVAL (nonzero), calls no handler, and
every pinned entity is as before.  When no member of the collection has
the handle's key it returns ENODEV and the state is unchanged. -/
theorem C8_pointer_cb_rejects (w : World) (id : ipmi_entity_id_t)
    (hdom : id.domain_id = w.domain_id) :
    (∀ p e,
        search_entities w (search_info_of ⟨id.channel, id.address⟩
          id.entity_id id.entity_instance) = some p →
        deref w p = some e → e.seq ≠ id.seq →
        (ipmi_entity_pointer_cb w id).1 = EINVAL ∧ EINVAL ≠ 0
        ∧ (ipmi_entity_pointer_cb w id).2.handler_calls = w.handler_calls
        ∧ ∀ q x, deref w q = some x → 1 ≤ x.usecount →
            deref (ipmi_entity_pointer_cb w id).2 q = some x)
    ∧ ((¬ ∃ p ∈ w.entities, ∃ e, deref w p = some e
          ∧ has_key e (search_info_of ⟨id.channel, id.address⟩
              id.entity_id id.entity_instance)) →
        ipmi_entity_pointer_cb w id = (ENODEV, w)) := by
  constructor
  · intro p e hs hd hseq
    have hf := entity_find_of_search w ⟨id.channel, id.address⟩ id.entity_id
      id.entity_instance p hs
    have hd1 := deref_modify_same w p (fun e => { e with usecount := e.usecount + 1 }) e hd
    have hne : (e.seq != id.seq) = true := by simpa using hseq
    have hres : ipmi_entity_pointer_cb w id
        = (EINVAL, _ipmi_entity_put
            (modify w p (fun e => { e with usecount := e.usecount + 1 })) p) := by
      unfold ipmi_entity_pointer_cb ipmi_domain_pointer_cb domain_cb
      simp only [hdom, if_true, hf, hd1]
      simp [hne]
    obtain ⟨h1, h2⟩ := find_then_put w p e hd
    rw [hres]
    exact ⟨rfl, by decide, h1, h2⟩
  · intro hno
    have hf := entity_find_miss w ⟨id.channel, id.address⟩ id.entity_id id.entity_instance hno
    unfold ipmi_entity_pointer_cb ipmi_domain_pointer_cb domain_cb
    simp only [hdom, if_true, hf]
    simp [ENODEV]

/-- Witness of C8: the handle of entity 1.1 with a sequence number the
entity does not have, in the registry that holds this entity only. -/
theorem C8_pointer_cb_rejects_witness :
    (ipmi_entity_pointer_cb one_pinned
        { domain_id := 1, entity_id := 1, entity_instance := 1, channel := 0,
          address := 0, seq := 7 }).1 = EINVAL
    ∧ (ipmi_entity_pointer_cb one_pinned
        { domain_id := 1, entity_id := 1, entity_instance := 1, channel := 0,
          address := 0, seq := 7 }).2.handler_calls = one_pinned.handler_calls :=
  have h := (C8_pointer_cb_rejects one_pinned
    { domain_id := 1, entity_id := 1, entity_instance := 1, channel := 0,
      address := 0, seq := 7 } (by decide)).1 0 entity_1_1 (by decide) (by decide) (by decide)
  ⟨h.1, h.2.2.1⟩

/-- C9 (the code departs from the claim): the new array and the old array
each hold one pointer to a copy of the same generic locator record, the
copies being stored at addresses 12288 and 4096.  The matching loop hands
`cmp_dlr` the addresses of the array slots, not the records, so it
compares the two pointers, finds them different and marks neither record,
where the claim has one marked record on each side. -/
theorem C9_equal_records_not_matched :
    match_loop (slot_cmp lp64 [12288] [4096] (fun _ => 0) (fun _ => 0)) 2 0 0
        [found_zero] [found_zero]
      = ([found_zero], [found_zero])
    ∧ min ([generic_dlr 1 1].count (generic_dlr 1 1))
        ([generic_dlr 1 1].count (generic_dlr 1 1)) = 1 := by
  refine ⟨?_, by decide⟩
  exact match_loop_slots lp64 [12288] [4096] (fun _ => 0) (fun _ => 0)
    (by decide) (by decide) (by decide) (by decide)

/-- C10 (the code departs from the claim): an empty registry scans a
directory with two generic locator records twice in a row.  Both calls
return 0.  On the second call no record is marked matched, and a Changed
notification is fired for each of the two entities. -/
theorem C10_second_pass_fires_changed :
    first_pass.map (fun r => (r.1, r.2.events))
        = some (0, [(IPMI_ADDED, 0), (IPMI_ADDED, 1), (IPMI_CHANGED, 0), (IPMI_CHANGED, 1)])
    ∧ second_pass.map (fun r => (r.1, r.2.events))
        = some (0, [(IPMI_ADDED, 0), (IPMI_ADDED, 1), (IPMI_CHANGED, 0), (IPMI_CHANGED, 1),
            (IPMI_CHANGED, 0), (IPMI_CHANGED, 1)])
    ∧ second_pass.map (fun r =>
          (_ipmi_get_sdr_entities r.2 5).map (fun i => i.found.map (fun f => f.found)))
        = some (some [false, false]) := by
  decide

/-- C11 (the code departs from the claim): entities 1.1 and 2.1 each have
one locator record remembered, and a user has given 1.1 the textual id
"x".  The next directory drops the record of 2.1 only.  The call returns
0, entity 2.1 loses its reference and is deleted, and the reference count
of 1.1 is 1 as before; but since no record is matched the record of 1.1
is committed as removed and added again, and the payload of 1.1 is
overwritten: its textual id is gone.  With a comparison that reports
the two copies of the record of 1.1 equal, the payload stays. -/
theorem C11_dropped_record_rewrites_other_payload :
    named_state.map (fun w => (ref_count_at w 0, id_at w 0, ref_count_at w 1))
        = some (some 1, some (1, 120), some 1)
    ∧ drop_pass.map (fun r => (r.1, ref_count_at r.2 0, ref_count_at r.2 1))
        = some (0, some 1, none)
    ∧ drop_pass.map (fun r => id_at r.2 0) = some (some (0, 0))
    ∧ drop_pass_matched.map (fun r => (r.1, ref_count_at r.2 0, ref_count_at r.2 1))
        = some (0, some 1, none)
    ∧ drop_pass_matched.map (fun r => id_at r.2 0) = some (some (1, 120)) := by
  decide

set_option maxRecDepth 100000 in
/-- C12 (the code departs from the claim): the registry holds the entities
1.1 and 7.1 from a directory with their two locator records.  The next
directory adds a range-form association of 7.1 with 5.2 to 5.4, stored
after the locator record of 7.1.  The call returns 0; the three entities
5.2, 5.3 and 5.4 are created at the addresses 2, 3 and 4 and deleted again
before the call returns, entity 7.1 has no child, and the collection holds
the two old entities only.  A directory that holds the association alone
gives the three children and the three pairs of edges, and scanning it
again leaves them as they are. -/
theorem C12_range_children_lost :
    range_pass.map (fun r => (r.1, r.2.entities)) = some (0, [0, 1])
    ∧ range_pass.map (fun r => (children_at r.2 1, key_at r.2 1))
        = some (some [], some [0, 0, 7, 1])
    ∧ range_pass.map (fun r => (deref r.2 2, deref r.2 3, deref r.2 4))
        = some (none, none, none)
    ∧ range_pass.map (fun r => r.2.events.filter (fun x => decide (2 ≤ x.2)))
        = some [(IPMI_ADDED, 2), (IPMI_ADDED, 3), (IPMI_ADDED, 4),
            (IPMI_CHANGED, 2), (IPMI_CHANGED, 3), (IPMI_CHANGED, 4),
            (IPMI_DELETED, 2), (IPMI_DELETED, 3), (IPMI_DELETED, 4)]
    ∧ lone_range_pass.map (fun r => (r.1, r.2.entities, children_at r.2 0))
        = some (0, [0, 1, 2, 3], some [1, 2, 3])
    ∧ lone_range_pass.map (fun r => [key_at r.2 1, key_at r.2 2, key_at r.2 3])
        = some [some [0, 0, 5, 2], some [0, 0, 5, 3], some [0, 0, 5, 4]]
    ∧ lone_range_pass.map (fun r => [parents_at r.2 1, parents_at r.2 2, parents_at r.2 3])
        = some [some [0], some [0], some [0]]
    ∧ lone_range_again.map (fun r => (r.1, r.2.entities, children_at r.2 0))
        = some (0, [0, 1, 2, 3], some [1, 2, 3])
    ∧ lone_range_again.map (fun r => [parents_at r.2 1, parents_at r.2 2, parents_at r.2 3])
        = some [some [0], some [0], some [0]] := by
  decide

/-- C13: in a state whose collection holds live entities none of which is
removable, a call of `ipmi_entity_scan_sdrs` in which the resolution of
an entity, the growth of an array of resolved children or the
pre-allocation of the list entries fails (`scan_prepare` ends in the error
exit) returns ENOMEM, which is not 0; every entity of the state before
the call is still there, with the reference count, the payload, the
children and the parents it had; and the records remembered for the
controller are the same. -/
theorem C13_failed_scan_changes_nothing (w : World) (mc : Nat) (c : Nat → Nat → Int)
    (env : Nat → Nat → mc_reply_t) (dlrs : List dlr_info_t) (r : Nat × World)
    (hinv : registry_inv w) (hfail : scan_prepare w mc c dlrs = .error r) :
    ipmi_entity_scan_sdrs w mc c env dlrs = some r
    ∧ r.1 = ENOMEM ∧ ENOMEM ≠ 0
    ∧ (∀ p e, deref w p = some e →
        ∃ e1, deref r.2 p = some e1 ∧ e1.ref_count = e.ref_count ∧ e1.info = e.info
          ∧ e1.child_entities = e.child_entities ∧ e1.parent_entities = e.parent_entities)
    ∧ records_of r.2 mc = records_of w mc := by
  obtain ⟨h1, h2, h3⟩ := prepare_error_held w mc c dlrs r hinv hfail
  refine ⟨scan_of_prepare_error w mc c env dlrs r hfail, h1, by decide, ?_, h3⟩
  intro p e hd
  by_cases hp : p ∈ w.entities
  · obtain ⟨e1, hd1, hk, _⟩ := h2.members p hp e hd
    unfold kept at hk
    simp only [Prod.mk.injEq] at hk
    exact ⟨e1, hd1, hk.1, hk.2.1, hk.2.2.1, hk.2.2.2.1⟩
  · exact ⟨e, h2.others p e hp hd, rfl, rfl, rfl, rfl⟩

/-- Witness for C13: the registry `starved` holds the entities 1.1 and 2.1
and lets the second allocation fail.  The scan of a directory with the
known entity 1.1 and the unknown entity 3.1 pins 1.1, fails to create 3.1
and returns ENOMEM; both entities are as before and the collection is the
same. -/
theorem C13_failed_scan_changes_nothing_witness :
    registry_inv starved
    ∧ scan_prepare starved 5 (fun _ _ => 1) starved_dlrs = .error starved_out
    ∧ (ipmi_entity_scan_sdrs starved 5 (fun _ _ => 1) mc_env_ok starved_dlrs = some starved_out
      ∧ starved_out.1 = ENOMEM ∧ ENOMEM ≠ 0
      ∧ (∀ p e, deref starved p = some e →
          ∃ e1, deref starved_out.2 p = some e1 ∧ e1.ref_count = e.ref_count
            ∧ e1.info = e.info ∧ e1.child_entities = e.child_entities
            ∧ e1.parent_entities = e.parent_entities)
      ∧ records_of starved_out.2 5 = records_of starved 5)
    ∧ [ref_count_at starved 0, ref_count_at starved 1] = [some 0, some 0]
    ∧ [ref_count_at starved_out.2 0, ref_count_at starved_out.2 1] = [some 0, some 0]
    ∧ starved_out.2.entities = [0, 1] ∧ starved_out.2.allocs = [] :=
  ⟨by decide, by rfl,
    C13_failed_scan_changes_nothing starved 5 (fun _ _ => 1) mc_env_ok starved_dlrs starved_out
      (by decide) (by rfl),
    by decide, by decide, by decide, by decide⟩

/-- C14 as stated fails: in the registry `housed` entity 5.1 is a child of
7.1 before the scan.  The first scan of controller 5 whose directory lists
5.1 under 7.1 returns 0 and leaves the edge as it is; the call of
`ipmi_sdr_entity_destroy` on the resulting scan state returns 0, both
entities still exist, and 7.1 has lost the child and 5.1 the parent they
had before the scan. -/
theorem C14_destroy_removes_older_edge :
    _ipmi_get_sdr_entities housed 5 = none
    ∧ children_at housed 0 = some [1] ∧ parents_at housed 1 = some [0]
    ∧ housed_scan.map (fun r => (r.1, children_at r.2 0, parents_at r.2 1))
        = some (0, some [1], some [0])
    ∧ housed_destroy.map (fun r => (r.1, r.2.entities, children_at r.2 0, parents_at r.2 1))
        = some (0, [0, 1], some [], some []) := by
  refine ⟨by decide, by decide, by decide, by decide, by decide⟩

/-- C14 amended: let the members of the collection be live, with
different keys and reference counts in the range of `unsigned int`, and
let every edge join two members and be recorded on both sides.  Let no
scan state be remembered for the controller, let the entity ids and
instances of the records of the directory D be bytes, let no association
record from the third record on have the key of the record before it, and
let no edge that an association record of D lists exist already.  If
`ipmi_entity_scan_sdrs` on D returns, then `ipmi_sdr_entity_destroy` on
the scan state it has left for the controller returns 0, and every entity
that was a member before the scan and is a member afterwards has the
reference count, the children and the parents it had before the scan. -/
theorem C14_destroy_reverses_first_scan (w : World) (mc : Nat) (c : Nat → Nat → Int)
    (env : Nat → Nat → mc_reply_t) (D : List dlr_info_t) (r : Nat × World)
    (infos : entity_sdr_info_t)
    (hok : graph_ok w) (hnone : _ipmi_get_sdr_entities w mc = none)
    (hbytes : ∀ d ∈ D, d.entity_id < 256 ∧ d.entity_instance < 256)
    (hnr : no_redirect D) (hfresh : fresh_edges w D)
    (hscan : ipmi_entity_scan_sdrs w mc c env D = some r)
    (hinfos : _ipmi_get_sdr_entities r.2 mc = some infos) :
    (ipmi_sdr_entity_destroy r.2 infos).1 = 0
    ∧ ∀ p ∈ (ipmi_sdr_entity_destroy r.2 infos).2.entities, p ∈ w.entities →
        ∀ e, deref w p = some e →
          ∃ e1, deref (ipmi_sdr_entity_destroy r.2 infos).2 p = some e1
            ∧ e1.ref_count = e.ref_count ∧ e1.child_entities = e.child_entities
            ∧ e1.parent_entities = e.parent_entities := by
  obtain ⟨hs, hrange⟩ := sound_of_graph_ok w hok
  obtain ⟨hl, hd⟩ := first_scan_spec w mc c env D hnone hnr hbytes hs hrange r hscan infos hinfos
  have hfr : ∀ sk ∈ listed_edges infos.dlrs, fresh (graph_of w) sk := by
    intro sk hsk
    rcases hd with h | h
    · rw [h.1] at hsk
      exact fresh_of_edge_known w sk (hfresh sk hsk)
    · rw [h] at hsk
      simp [listed_edges] at hsk
  have hl2 := destroy_spec (graph_of w) hs infos.dlrs r.2 hl hfr
  refine ⟨rfl, ?_⟩
  intro p hp hp0 e he
  obtain ⟨n, hn, h1, h2, h3⟩ := restored_of_ledger (graph_of w) _ hl2 hrange p hp hp0
    (node_of e) ((node_graph_of w p _).mpr ⟨e, he, rfl⟩)
  obtain ⟨e1, he1, hne⟩ := (node_graph_of _ p _).mp hn
  subst hne
  exact ⟨e1, he1, h1, h2, h3⟩

/-- Witness of C14 amended: in the registry `annexed` (entities 1.1, 7.1
and 5.1, with 5.1 a child of 1.1) the first scan of a directory with a
locator record for 7.1, an association of 5.1 with 7.1 and an association
of the unknown entity 6.1 with 1.1 gives 7.1 a reference and the child
5.1 and gives 1.1 the new child 6.1; the reversal restores the three
entities and removes 6.1. -/
theorem C14_destroy_reverses_first_scan_witness :
    graph_ok annexed ∧ _ipmi_get_sdr_entities annexed 5 = none
    ∧ (∀ d ∈ annexed_dlrs, d.entity_id < 256 ∧ d.entity_instance < 256)
    ∧ no_redirect annexed_dlrs ∧ fresh_edges annexed annexed_dlrs
    ∧ ipmi_entity_scan_sdrs annexed 5 (fun _ _ => 1) mc_env_ok annexed_dlrs = some annexed_scan
    ∧ _ipmi_get_sdr_entities annexed_scan.2 5 = some annexed_infos
    ∧ ((ipmi_sdr_entity_destroy annexed_scan.2 annexed_infos).1 = 0
      ∧ ∀ p ∈ (ipmi_sdr_entity_destroy annexed_scan.2 annexed_infos).2.entities,
          p ∈ annexed.entities → ∀ e, deref annexed p = some e →
            ∃ e1, deref (ipmi_sdr_entity_destroy annexed_scan.2 annexed_infos).2 p = some e1
              ∧ e1.ref_count = e.ref_count ∧ e1.child_entities = e.child_entities
              ∧ e1.parent_entities = e.parent_entities)
    ∧ [ref_count_at annexed 1, ref_count_at annexed_scan.2 1,
        ref_count_at (ipmi_sdr_entity_destroy annexed_scan.2 annexed_infos).2 1]
        = [some 0, some 1, some 0]
    ∧ [children_at annexed 0, children_at annexed_scan.2 0,
        children_at (ipmi_sdr_entity_destroy annexed_scan.2 annexed_infos).2 0]
        = [some [2], some [2, 3], some [2]]
    ∧ [parents_at annexed 2, parents_at annexed_scan.2 2,
        parents_at (ipmi_sdr_entity_destroy annexed_scan.2 annexed_infos).2 2]
        = [some [0], some [0, 1], some [0]]
    ∧ (ipmi_sdr_entity_destroy annexed_scan.2 annexed_infos).2.entities = [0, 1, 2] :=
  ⟨by decide, by decide, by decide, by decide, by decide, by rfl, by rfl,
    C14_destroy_reverses_first_scan annexed 5 (fun _ _ => 1) mc_env_ok annexed_dlrs
      annexed_scan annexed_infos (by decide) (by decide) (by decide) (by decide) (by decide)
      (by rfl) (by rfl),
    by decide, by decide, by decide, by decide⟩

/-- C15: the commit of one unmatched MC locator record `d` for the entity
at `p` (`commit_new_dlr`).  If `d` lacks the FRU inventory device
capability and the payload of the entity has the flag set, the payload is
left as it is and a scan of the controller is started.  If `d` has the
capability, the payload becomes `d`.  And when the commit loop of one scan
meets, for the same entity, a record `F` with the capability and a record
`N` without it, in either order and with any slots for other entities or
for association records around them, the payload of the entity is `F`
afterwards. -/
theorem C15_mc_fru_priority (env : Nat → Nat → mc_reply_t) :
    (∀ (d : dlr_info_t) (p rv : Nat) (w : World) (x : dlr_info_t),
        d.type = IPMI_ENTITY_MC → d.FRU_inventory_device = 0 →
        payload_at w p = some x → x.FRU_inventory_device ≠ 0 →
        payload_at (commit_new_dlr env d p rv w).2 p = some x
        ∧ (commit_new_dlr env d p rv w).2.mc_scans
            = w.mc_scans ++ [(d.channel, d.access_address)])
    ∧ (∀ (d : dlr_info_t) (p rv : Nat) (w : World) (x : dlr_info_t),
        d.type = IPMI_ENTITY_MC → d.FRU_inventory_device ≠ 0 →
        payload_at w p = some x →
        payload_at (commit_new_dlr env d p rv w).2 p = some d)
    ∧ (∀ (l1 l2 l3 : List (dlr_info_t × entity_found_t)) (F N : dlr_info_t)
        (fF fN : entity_found_t) (p rv n : Nat) (w : World) (x : dlr_info_t)
        (r : Nat × Nat × World),
        F.type = IPMI_ENTITY_MC → F.FRU_inventory_device ≠ 0 →
        N.type = IPMI_ENTITY_MC → N.FRU_inventory_device = 0 →
        fF.found = false → fF.ent = some p → fN.found = false → fN.ent = some p →
        (∀ y ∈ l1 ++ l2 ++ l3, foreign_slot p y) →
        payload_at w p = some x →
        (commit_new env (l1 ++ (F, fF) :: (l2 ++ (N, fN) :: l3)) rv n w = some r →
          payload_at r.2.2 p = some F)
        ∧ (commit_new env (l1 ++ (N, fN) :: (l2 ++ (F, fF) :: l3)) rv n w = some r →
          payload_at r.2.2 p = some F)) := by
  refine ⟨?_, ?_, ?_⟩
  · intro d p rv w x ht hz hx hfl
    refine ⟨?_, mc_scans_commit_new_dlr env d p rv w ht hz⟩
    rw [payload_commit_new_dlr_same env d p rv w x hx, next_payload_keep x d ht hz hfl]
  · intro d p rv w x _ hf hx
    rw [payload_commit_new_dlr_same env d p rv w x hx, next_payload_fru x d hf]
  · intro l1 l2 l3 F N fF fN p rv n w x r hFt hFf hNt hNz hf1 he1 hf2 he2 hl hx
    have hl1 : ∀ y ∈ l1, foreign_slot p y := fun y hy => hl y (by simp [hy])
    have hl2 : ∀ y ∈ l2, foreign_slot p y := fun y hy => hl y (by simp [hy])
    have hl3 : ∀ y ∈ l3, foreign_slot p y := fun y hy => hl y (by simp [hy])
    constructor
    · intro h
      obtain ⟨rv1, n1, w1, hp1, h1⟩ := commit_new_split env p l1 _ F fF rv n w x r hf1 he1
        (is_ear_of_mc F hFt) hl1 hx h
      rw [next_payload_fru x F hFf] at hp1
      obtain ⟨rv2, n2, w2, hp2, h2⟩ := commit_new_split env p l2 l3 N fN rv1 n1 w1 F r hf2 he2
        (is_ear_of_mc N hNt) hl2 hp1 h1
      rw [next_payload_keep F N hNt hNz hFf] at hp2
      exact (payload_commit_new_foreign env p l3 rv2 n2 w2 r hl3 h2).trans hp2
    · intro h
      obtain ⟨rv1, n1, w1, hp1, h1⟩ := commit_new_split env p l1 _ N fN rv n w x r hf2 he2
        (is_ear_of_mc N hNt) hl1 hx h
      obtain ⟨rv2, n2, w2, hp2, h2⟩ := commit_new_split env p l2 l3 F fF rv1 n1 w1 _ r hf1 he1
        (is_ear_of_mc F hFt) hl2 hp1 h1
      rw [next_payload_fru _ F hFf] at hp2
      exact (payload_commit_new_foreign env p l3 rv2 n2 w2 r hl3 h2).trans hp2

/-- Witness for C15: entity 1.1 of `one_pinned` with the two MC records in
both orders. -/
theorem C15_mc_fru_priority_witness :
    (mc_pair_commit true).map (fun r => payload_at r.2.2 0) = some (some (mc_dlr 1))
    ∧ (mc_pair_commit false).map (fun r => payload_at r.2.2 0) = some (some (mc_dlr 1)) := by
  have hx : payload_at one_pinned 0 = some entity_1_1.info := rfl
  constructor
  · cases h : mc_pair_commit true with
    | none => exact absurd h (by decide)
    | some r =>
      have := ((C15_mc_fru_priority mc_env_ok).2.2 [] [] [] (mc_dlr 1) (mc_dlr 0) slot_0 slot_0
        0 0 0 one_pinned entity_1_1.info r rfl (by decide) rfl rfl rfl rfl rfl rfl
        (by simp) hx).1 h
      simp [this]
  · cases h : mc_pair_commit false with
    | none => exact absurd h (by decide)
    | some r =>
      have := ((C15_mc_fru_priority mc_env_ok).2.2 [] [] [] (mc_dlr 1) (mc_dlr 0) slot_0 slot_0
        0 0 0 one_pinned entity_1_1.info r rfl (by decide) rfl rfl rfl rfl rfl rfl
        (by simp) hx).2 h
      simp [this]

/-- C16: `ent_detect_presence` on the entity `ent` at `p`.  Without
`force` and with the flag `presence_possibly_changed` clear, nothing
changes.  Otherwise the source is chosen in the state `detect_base`, in
which the flag is cleared, no other entity has changed and the only new
requests are those of the hot-swap check.

With a presence sensor the call makes one request of the sensor layer,
the state query of that sensor to be completed by `states_read`: the
query is on record when the layer accepts it, and nothing else of the
state differs from `detect_base` (no other request, no handler call, no
entity changed).  Without a presence sensor but with a presence-bit
sensor the same holds for the state query of that sensor, completed by
`states_bit_read`.

Without both but with a registered active FRU device monitor the call is
that of `presence_changed` with the active flag; in a state whose edges
join live entities and are recorded on both sides, with the height `h`
and a recursion budget above the height of `p`, it returns with the
entity present, leaves no detection record, and every request it adds is
one of the hot-swap machine, so no sensor is queried for presence.

Without that but with sensors attached and memory for the detection
record, each sensor whose controller is there is asked for its reading,
or for its states if that request is refused; no entity changes, the
requests added are these queries and no others, the detection record
left behind counts them, and there is no record exactly when no query
was accepted; when the layer accepts everything the reading query of
each such sensor is on record, in order.  Without memory nothing is
queried and no entity changes.

With none of these child aggregation is called: under the same
conditions on the edges and the budget the call returns with the
presence flag of the entity equal to the logical OR of the flags of its
children, which keep their flags, and no sensor is queried.

`states_read` sets the presence to state bit 0 when bit 0 is readable
and to the complement of state bit 1 otherwise; `states_bit_read` sets it
to the state of the configured bit. -/
theorem C16_detect_presence_priority (sens : Nat → ipmi_sensor_t) (h : Nat → Nat)
    (fuel : Nat) (w : World) (p : Nat) (force : Bool) (ent : ipmi_entity_t) :
    (deref w p = some ent → force = false → ent.presence_possibly_changed = false →
        ent_detect_presence sens fuel w p force = some (none, w))
    ∧ (deref w p = some ent → (force = true ∨ ent.presence_possibly_changed = true) →
        (deref (detect_base w p ent) p = some { ent with presence_possibly_changed := false }
          ∧ (∀ q, q ≠ p → deref (detect_base w p ent) q = deref w q)
          ∧ (∀ x ∈ (detect_base w p ent).trace.requests,
              x ∈ w.trace.requests ∨ x.cb = .check_power ∨ x.cb = .check_requester))
        ∧ (∀ s, ent.presence_sensor = some s →
            ∃ w1, ent_detect_presence sens fuel w p force = some (none, w1)
              ∧ (∀ q, deref w1 q = deref (detect_base w p ent) q)
              ∧ (∀ x ∈ w1.trace.requests, x ∈ (detect_base w p ent).trace.requests
                  ∨ x = { req := .states_get s, cb := .states_read, ent := p })
              ∧ issued (detect_base w p ent) w1
                  { req := .states_get s, cb := .states_read, ent := p }
              ∧ w1 = { detect_base w p ent with trace := { (detect_base w p ent).trace with
                          requests := w1.trace.requests,
                          request_rvs := w1.trace.request_rvs } })
        ∧ (∀ s, ent.presence_sensor = none → ent.presence_bit_sensor = some s →
            ∃ w1, ent_detect_presence sens fuel w p force = some (none, w1)
              ∧ (∀ q, deref w1 q = deref (detect_base w p ent) q)
              ∧ (∀ x ∈ w1.trace.requests, x ∈ (detect_base w p ent).trace.requests
                  ∨ x = { req := .states_get s, cb := .states_bit_read, ent := p })
              ∧ issued (detect_base w p ent) w1
                  { req := .states_get s, cb := .states_bit_read, ent := p }
              ∧ w1 = { detect_base w p ent with trace := { (detect_base w p ent).trace with
                          requests := w1.trace.requests,
                          request_rvs := w1.trace.request_rvs } })
        ∧ (ent.presence_sensor = none → ent.presence_bit_sensor = none →
            ent.frudev_present = true → ent.frudev_active = true →
            ent_detect_presence sens fuel w p force
                = (presence_changed fuel (detect_base w p ent) p true none).map
                    (fun w3 => (none, w3))
            ∧ (edges_ok w → ranked w h → h p < fuel →
                ∃ w3, ent_detect_presence sens fuel w p force = some (none, w3)
                  ∧ present_at w3 p = some true
                  ∧ hot_swap_only (detect_base w p ent) w3))
        ∧ (ent.presence_sensor = none → ent.presence_bit_sensor = none →
            (ent.frudev_present && ent.frudev_active) = false → ent.sensors ≠ [] →
            (take_alloc (detect_base w p ent)).1 = true →
            ent_detect_presence sens fuel w p force
                = (let sent := (iterated_sensors sens ent).foldl
                      (fun (acc : Int × World) s => sensor_detect_send acc.2 p s acc.1)
                      (0, (take_alloc (detect_base w p ent)).2)
                   if sent.1 == 0 then
                     (presence_parent_handler fuel sent.2 none p none).map (fun w4 => (none, w4))
                   else
                     some (some { ent_id := ipmi_entity_convert_to_id ent,
                                  sensor_try_count := sent.1, present := false,
                                  start_presence_event_count := ent.presence_event_count },
                           sent.2))
            ∧ ∃ info w1 added, ent_detect_presence sens fuel w p force = some (info, w1)
                ∧ (∀ q, deref w1 q = deref (detect_base w p ent) q)
                ∧ w1.trace.requests = (detect_base w p ent).trace.requests ++ added
                ∧ (∀ x ∈ added, ∃ s ∈ ent.sensors, (sens s).has_mc = true
                    ∧ (x = { req := .reading_get s, cb := .detect_reading_read, ent := p }
                      ∨ x = { req := .states_get s, cb := .detect_states_read, ent := p }))
                ∧ info = (if added = [] then none
                    else some { ent_id := ipmi_entity_convert_to_id ent,
                                sensor_try_count := (added.length : Int), present := false,
                                start_presence_event_count := ent.presence_event_count })
                ∧ ((detect_base w p ent).trace.request_rvs = [] →
                    added = (ent.sensors.filter (fun s => (sens s).has_mc)).map (fun s =>
                      { req := .reading_get s, cb := .detect_reading_read, ent := p })))
        ∧ (ent.presence_sensor = none → ent.presence_bit_sensor = none →
            (ent.frudev_present && ent.frudev_active) = false → ent.sensors ≠ [] →
            (take_alloc (detect_base w p ent)).1 = false →
            ∃ w1, ent_detect_presence sens fuel w p force = some (none, w1)
              ∧ (∀ q, deref w1 q = deref (detect_base w p ent) q)
              ∧ w1.trace = (detect_base w p ent).trace)
        ∧ (ent.presence_sensor = none → ent.presence_bit_sensor = none →
            (ent.frudev_present && ent.frudev_active) = false → ent.sensors = [] →
            ent_detect_presence sens fuel w p force
                = (presence_parent_handler fuel (detect_base w p ent) none p none).map
                    (fun w3 => (none, w3))
            ∧ (edges_ok w → ranked w h → h p < fuel →
                ∃ w3, ent_detect_presence sens fuel w p force = some (none, w3)
                  ∧ present_at w3 p = some (any_present w ent.child_entities)
                  ∧ (∀ c ∈ ent.child_entities, present_at w3 c = present_at w c)
                  ∧ hot_swap_only (detect_base w p ent) w3)))
    ∧ (∀ (s : Nat) (states : ipmi_states_t),
        states_read sens fuel w p s 0 states
            = presence_changed fuel w p
                (if (0 : Int) ∈ (sens s).readable then ipmi_is_state_set states 0
                 else !ipmi_is_state_set states 1) none
        ∧ (deref w p = some ent → edges_ok w → ranked w h → h p < fuel →
            ∃ w1, states_read sens fuel w p s 0 states = some w1
              ∧ present_at w1 p
                  = some (if (0 : Int) ∈ (sens s).readable then ipmi_is_state_set states 0
                          else !ipmi_is_state_set states 1)))
    ∧ (∀ (states : ipmi_states_t), deref w p = some ent →
        states_bit_read fuel w p 0 states
            = presence_changed fuel w p (ipmi_is_state_set states ent.presence_bit_offset)
                none
        ∧ (edges_ok w → ranked w h → h p < fuel →
            ∃ w1, states_bit_read fuel w p 0 states = some w1
              ∧ present_at w1 p
                  = some (ipmi_is_state_set states ent.presence_bit_offset))) := by
  have hcas : ∀ (w0 : World) (v : Bool) (e0 : ipmi_entity_t), deref w0 p = some e0 →
      edges_ok w0 → ranked w0 h → h p < fuel →
      ∃ w1, presence_changed fuel w0 p v none = some w1 ∧ present_at w1 p = some v
        ∧ (∀ q, q ≠ p → h p ≤ h q → present_at w1 q = present_at w0 q) := by
    intro w0 v e0 hd0 he0 hr0 hf0
    obtain ⟨w1, hres, _, hdyn, _, hpres, _, _⟩ := cascade_ok h fuel w0 p v none he0 hr0 hf0
    refine ⟨w1, hres, ?_, fun q hq hh => present_of_dyn _ _ q (hdyn q hq hh)⟩
    rw [hpres, hd0]
    rfl
  refine ⟨?_, ?_, ?_, ?_⟩
  · intro hd hf hp
    unfold ent_detect_presence
    simp [hd, hf, hp]
  · intro hd hgo
    have hcond : (!force && !ent.presence_possibly_changed) = false := by
      rcases hgo with h | h <;> simp [h]
    have hunf : ent_detect_presence sens fuel w p force
        = (match ent.presence_sensor, ent.presence_bit_sensor with
          | some s, _ =>
            some (none, (send_request (detect_base w p ent)
              { req := .states_get s, cb := .states_read, ent := p }).2)
          | none, some s =>
            some (none, (send_request (detect_base w p ent)
              { req := .states_get s, cb := .states_bit_read, ent := p }).2)
          | none, none =>
            if ent.frudev_present && ent.frudev_active then
              (presence_changed fuel (detect_base w p ent) p ent.frudev_active none).map
                (fun w3 => (none, w3))
            else if ent.sensors.length != 0 then
              match take_alloc (detect_base w p ent) with
              | (false, w3) => some (none, w3)
              | (true, w3) =>
                let sent := (iterated_sensors sens ent).foldl
                  (fun (acc : Int × World) s => sensor_detect_send acc.2 p s acc.1) (0, w3)
                if sent.1 == 0 then
                  (presence_parent_handler fuel sent.2 none p none).map (fun w4 => (none, w4))
                else
                  some (some { ent_id := ipmi_entity_convert_to_id ent,
                               sensor_try_count := sent.1, present := false,
                               start_presence_event_count := ent.presence_event_count },
                        sent.2)
            else (presence_parent_handler fuel (detect_base w p ent) none p none).map
              (fun w3 => (none, w3))) := by
      unfold ent_detect_presence detect_base
      simp only [hd, hcond]
      rfl
    have hbase := detect_base_facts w p ent hd
    have hshape := detect_base_shape w p ent hd
    refine ⟨hbase, ?_, ?_, ?_, ?_, ?_, ?_⟩
    · intro s hs
      refine ⟨_, ?_, fun q => deref_send_request _ _ q, fun x hx =>
        send_request_requests _ _ x hx, send_request_issued _ _, send_request_frame _ _⟩
      rw [hunf, hs]
    · intro s hs hb
      refine ⟨_, ?_, fun q => deref_send_request _ _ q, fun x hx =>
        send_request_requests _ _ x hx, send_request_issued _ _, send_request_frame _ _⟩
      rw [hunf, hs, hb]
    · intro hs hb h1 h2
      have heq : ent_detect_presence sens fuel w p force
          = (presence_changed fuel (detect_base w p ent) p true none).map
              (fun w3 => (none, w3)) := by
        rw [hunf, hs, hb]
        simp [h1, h2]
      refine ⟨heq, fun he hr hf => ?_⟩
      obtain ⟨w3, hres, hpres, _⟩ := hcas (detect_base w p ent) true _ hbase.1
        (edges_ok_of_same_shape w _ hshape he) (ranked_of_same_shape w _ h hshape hr) hf
      refine ⟨w3, ?_, hpres, hot_swap_only_presence_changed _ _ _ _ _ _ hres⟩
      rw [heq, hres]
      rfl
    · intro hs hb hfr hsens halloc
      have hlen : (ent.sensors.length != 0) = true := by
        cases hl : ent.sensors with
        | nil => exact absurd hl hsens
        | cons a l => rfl
      have heq : ent_detect_presence sens fuel w p force
          = (let sent := (iterated_sensors sens ent).foldl
                (fun (acc : Int × World) s => sensor_detect_send acc.2 p s acc.1)
                (0, (take_alloc (detect_base w p ent)).2)
             if sent.1 == 0 then
               (presence_parent_handler fuel sent.2 none p none).map (fun w4 => (none, w4))
             else
               some (some { ent_id := ipmi_entity_convert_to_id ent,
                            sensor_try_count := sent.1, present := false,
                            start_presence_event_count := ent.presence_event_count },
                     sent.2)) := by
        rw [hunf, hs, hb]
        simp only [hfr, hlen]
        cases ha : take_alloc (detect_base w p ent) with
        | mk b w3 =>
          rw [ha] at halloc
          simp only at halloc
          subst halloc
          rfl
      refine ⟨heq, ?_⟩
      obtain ⟨added, k1, k2, k3, k4, _⟩ := detect_send_fold p (iterated_sensors sens ent) 0
        (take_alloc (detect_base w p ent)).2
      have k5 := (detect_send_fold p (iterated_sensors sens ent) 0
        (take_alloc (detect_base w p ent)).2).choose_spec.2.2.2.2
      have hder : ∀ q, deref ((iterated_sensors sens ent).foldl
          (fun (acc : Int × World) s => sensor_detect_send acc.2 p s acc.1)
          (0, (take_alloc (detect_base w p ent)).2)).2 q = deref (detect_base w p ent) q := by
        intro q
        rw [k5]
        exact deref_take_alloc _ q
      rw [take_alloc_trace] at k1 k4
      have hmem : ∀ x ∈ added, ∃ s ∈ ent.sensors, (sens s).has_mc = true
          ∧ (x = { req := .reading_get s, cb := .detect_reading_read, ent := p }
            ∨ x = { req := .states_get s, cb := .detect_states_read, ent := p }) := by
        intro x hx
        obtain ⟨s, hs1, hx1⟩ := k3 x hx
        unfold iterated_sensors at hs1
        rw [List.mem_filter] at hs1
        exact ⟨s, hs1.1, hs1.2, hx1⟩
      by_cases hz : added = []
      · have h0 : ((iterated_sensors sens ent).foldl
            (fun (acc : Int × World) s => sensor_detect_send acc.2 p s acc.1)
            (0, (take_alloc (detect_base w p ent)).2)).1 = 0 := by
          rw [k2, hz]; rfl
        refine ⟨none, _, added, ?_, hder, k1, hmem, by rw [if_pos hz], fun hr => (k4 hr).1⟩
        rw [heq]
        simp only [h0]
        unfold presence_parent_handler presence_parent_with
        rw [hder p, hbase.1]
        simp [hlen]
      · have h0 : (((iterated_sensors sens ent).foldl
            (fun (acc : Int × World) s => sensor_detect_send acc.2 p s acc.1)
            (0, (take_alloc (detect_base w p ent)).2)).1 == 0) = false := by
          rw [k2]
          have : 0 < added.length := List.length_pos.mpr hz
          simp only [beq_eq_false_iff_ne]
          omega
        have hk : ((iterated_sensors sens ent).foldl
            (fun (acc : Int × World) s => sensor_detect_send acc.2 p s acc.1)
            (0, (take_alloc (detect_base w p ent)).2)).1 = (added.length : Int) := by
          rw [k2]; omega
        refine ⟨some { ent_id := ipmi_entity_convert_to_id ent,
                       sensor_try_count := (added.length : Int), present := false,
                       start_presence_event_count := ent.presence_event_count },
          _, added, ?_, hder, k1, hmem, by rw [if_neg hz], fun hr => (k4 hr).1⟩
        rw [heq]
        simp only [h0]
        rw [hk]
        rfl
    · intro hs hb hfr hsens halloc
      have hlen : (ent.sensors.length != 0) = true := by
        cases hl : ent.sensors with
        | nil => exact absurd hl hsens
        | cons a l => rfl
      refine ⟨(take_alloc (detect_base w p ent)).2, ?_, fun q => deref_take_alloc _ q,
        take_alloc_trace _⟩
      rw [hunf, hs, hb]
      simp only [hfr, hlen]
      cases ha : take_alloc (detect_base w p ent) with
      | mk b w3 =>
        rw [ha] at halloc
        simp only at halloc
        subst halloc
        rfl
    · intro hs hb hfr hsens
      have heq : ent_detect_presence sens fuel w p force
          = (presence_parent_handler fuel (detect_base w p ent) none p none).map
              (fun w3 => (none, w3)) := by
        rw [hunf, hs, hb]
        simp [hfr, hsens]
      refine ⟨heq, fun he hr hf => ?_⟩
      have he1 := edges_ok_of_same_shape w _ hshape he
      have hr1 := ranked_of_same_shape w _ h hshape hr
      have hcs : ∀ c ∈ ent.child_entities,
          ∃ x, deref (detect_base w p ent) c = some x ∧ p ∈ x.parent_entities :=
        (he1 p _ hbase.1).1
      obtain ⟨w3, hres, hpres, hkeep⟩ := hcas (detect_base w p ent)
        (any_present (detect_base w p ent) ent.child_entities) _ hbase.1 he1 hr1 hf
      have hany : any_present (detect_base w p ent) ent.child_entities
          = any_present w ent.child_entities :=
        any_present_congr _ _ _ (fun c _ => detect_base_present w p ent hd c)
      have hpar : presence_parent_handler fuel (detect_base w p ent) none p none
          = some w3 := by
        unfold presence_parent_handler presence_parent_with
        rw [hbase.1]
        simp only [hsens, List.length_nil, bne_self_eq_false, Bool.false_eq_true, if_false]
        rw [children_present_eq (detect_base w p ent) p ent.child_entities hcs false]
        simp only [Bool.false_or, Option.isSome_none, Bool.and_false, Bool.false_eq_true,
          if_false]
        exact hres
      refine ⟨w3, ?_, ?_, ?_, hot_swap_only_presence_changed _ _ _ _ _ _ hres⟩
      · rw [heq, hpar]
        rfl
      · rw [hpres, hany]
      · intro c hc
        obtain ⟨x, hx, hpx⟩ := hcs c hc
        have hlt : h p < h c := hr1 c x hx p hpx
        rw [hkeep c (ne_of_height_lt h p c hlt) (Nat.le_of_lt hlt)]
        exact detect_base_present w p ent hd c
  · intro s states
    have heq : states_read sens fuel w p s 0 states
        = presence_changed fuel w p
            (if (0 : Int) ∈ (sens s).readable then ipmi_is_state_set states 0
             else !ipmi_is_state_set states 1) none := by
      unfold states_read
      by_cases h : (0 : Int) ∈ (sens s).readable <;> simp [h]
    refine ⟨heq, fun hd he hr hf => ?_⟩
    obtain ⟨w1, hres, hpres, _⟩ := hcas w _ ent hd he hr hf
    exact ⟨w1, heq.trans hres, hpres⟩
  · intro states hd
    have heq : states_bit_read fuel w p 0 states
        = presence_changed fuel w p (ipmi_is_state_set states ent.presence_bit_offset)
            none := by
      unfold states_bit_read
      simp [hd]
    refine ⟨heq, fun he hr hf => ?_⟩
    obtain ⟨w1, hres, hpres, _⟩ := hcas w _ ent hd he hr hf
    exact ⟨w1, heq.trans hres, hpres⟩

set_option maxRecDepth 100000 in
/-- Witness for C16, one state for each source.  Entity 7.1 of `watched`
has the presence sensor 60, the ordinary sensor 50 and two children;
forced detection makes its one request, the state query of sensor 60, and
leaves everything else as in `detect_base`.  Entity 7.1 of
`monitored_family` has an active FRU device monitor and ends present.
Entity 7.1 of `sensed_family` has the ordinary sensor 50, whose reading is
asked for, and the detection record counts one query.  Entity 7.1 of
`family` has no sensor and no FRU device monitor; forced detection
aggregates its children. -/
theorem C16_detect_presence_priority_witness :
    deref watched 0 = some watched_ent
    ∧ watched_ent.presence_sensor = some 60
    ∧ watched_ent.sensors = [61, 60, 50]
    ∧ next_rv (detect_base watched 0 watched_ent) = 0
    ∧ (∃ w1, ent_detect_presence mixed_sensors 2 watched 0 true = some (none, w1)
        ∧ (∀ q, deref w1 q = deref (detect_base watched 0 watched_ent) q)
        ∧ (∀ x ∈ w1.trace.requests, x ∈ (detect_base watched 0 watched_ent).trace.requests
            ∨ x = { req := .states_get 60, cb := .states_read, ent := 0 })
        ∧ issued (detect_base watched 0 watched_ent) w1
            { req := .states_get 60, cb := .states_read, ent := 0 }
        ∧ w1 = { detect_base watched 0 watched_ent with
                  trace := { (detect_base watched 0 watched_ent).trace with
                    requests := w1.trace.requests, request_rvs := w1.trace.request_rvs } })
    ∧ present_at monitored_family 0 = some false
    ∧ (∃ w3, ent_detect_presence plain_sensors 2 monitored_family 0 true = some (none, w3)
        ∧ present_at w3 0 = some true
        ∧ hot_swap_only
            (detect_base monitored_family 0 ((deref monitored_family 0).getD entity_1_1)) w3)
    ∧ (∃ info w1 added, ent_detect_presence plain_sensors 2 sensed_family 0 true
          = some (info, w1)
        ∧ added = [{ req := .reading_get 50, cb := .detect_reading_read, ent := 0 }]
        ∧ w1.trace.requests
            = (detect_base sensed_family 0
                ((deref sensed_family 0).getD entity_1_1)).trace.requests ++ added
        ∧ info.map (fun i => i.sensor_try_count) = some 1)
    ∧ deref family 0 = some family_parent
    ∧ family_parent.child_entities = [1, 2]
    ∧ (∃ w3, ent_detect_presence mixed_sensors 2 family 0 true = some (none, w3)
        ∧ present_at w3 0 = some (any_present family family_parent.child_entities)
        ∧ (∀ c ∈ family_parent.child_entities, present_at w3 c = present_at family c)
        ∧ hot_swap_only (detect_base family 0 family_parent) w3) :=
  ⟨by decide, by decide, by decide, by decide,
    ((C16_detect_presence_priority mixed_sensors family_height 2 watched 0 true watched_ent).2.1
      (by decide) (Or.inl rfl)).2.1 60 (by decide),
    by decide,
    (((C16_detect_presence_priority plain_sensors family_height 2 monitored_family 0 true
        ((deref monitored_family 0).getD entity_1_1)).2.1
      (by decide) (Or.inl rfl)).2.2.2.1 (by decide) (by decide) (by decide) (by decide)).2
      (edges_ok_of_check monitored_family (by decide))
      (ranked_of_check monitored_family family_height (by decide)) (by decide),
    (match (((C16_detect_presence_priority plain_sensors family_height 2 sensed_family 0 true
        ((deref sensed_family 0).getD entity_1_1)).2.1
      (by decide) (Or.inl rfl)).2.2.2.2.1 (by decide) (by decide) (by decide) (by decide)
      (by decide)).2 with
     | ⟨info, w1, added, h1, _, h3, _, h5, h6⟩ =>
       have ha : added = [{ req := .reading_get 50, cb := .detect_reading_read, ent := 0 }] :=
         h6 (by decide)
       ⟨info, w1, added, h1, ha, h3, by rw [h5, ha]; rfl⟩),
    by decide, by decide,
    (((C16_detect_presence_priority mixed_sensors family_height 2 family 0 true family_parent).2.1
      (by decide) (Or.inl rfl)).2.2.2.2.2.2 (by decide) (by decide) (by decide) (by decide)).2
      (edges_ok_of_check family (by decide)) (ranked_of_check family family_height (by decide))
      (by decide)⟩

/-- C17 (the code departs from the claim): entity 7.1 has the ordinary
sensor 50, no presence sensor, no presence-bit sensor and no FRU device
monitor, and its child 5.1 is present.  Forced detection sends one query,
to sensor 50.  The query completes without error and without the sensor
reporting itself scanning, so `sensor_read_handler` calls
`presence_parent_handler` for the entity; that function returns at once,
because the entity has a sensor.  The entity stays not present and its
presence handlers are not called, where the claim has it present, the
logical OR of the presence of its children being true. -/
theorem C17_no_child_aggregation_after_queries :
    guarded_detect.map (fun r => r.1.map (fun i => i.sensor_try_count)) = some (some 1)
    ∧ guarded_detect.map (fun r => r.2.trace.requests)
        = some [{ req := .reading_get 50, cb := .detect_reading_read, ent := 0 }]
    ∧ guarded_detect.map (fun r => [sensors_at r.2 0, children_at r.2 0])
        = some [some [50], some [1, 2]]
    ∧ guarded_detect.map (fun r => [present_at r.2 0, present_at r.2 1, present_at r.2 2])
        = some [some false, some true, some false]
    ∧ guarded_done.map (fun r => r.1.isNone) = some true
    ∧ guarded_done.map (fun r => [present_at r.2 0, present_at r.2 1, present_at r.2 2])
        = some [some false, some true, some false]
    ∧ guarded_done.map (fun r => count_at r.2 0) = some (some 0)
    ∧ guarded_done.map (fun r => r.2.trace.presence_calls) = some [(1, true)] := by
  decide

/-- C18: in a state whose edges join live entities and are recorded on
both sides, and whose containment graph has no cycle (`h` is a height),
`presence_changed` changes the presence flag of the entity `ent` at `x` to
`v`, with a recursion budget above the height of `x`.  The call returns;
`x` has the flag `v`; every parent of `x` keeps its children and sensors;
a parent without sensors ends with a presence flag equal to the logical
OR of the flags of its children, and a parent with a sensor keeps its
presence flag and its presence event count. -/
theorem C18_parents_after_presence_change (h : Nat → Nat) (fuel : Nat) (w : World)
    (x : Nat) (v : Bool) (ev : Option Nat) (ent : ipmi_entity_t)
    (he : edges_ok w) (hr : ranked w h) (hf : h x < fuel)
    (hd : deref w x = some ent) (hv : v ≠ ent.present) :
    ∃ w1, presence_changed fuel w x v ev = some w1
      ∧ present_at w1 x = some v
      ∧ ∀ q ∈ ent.parent_entities, ∀ e, deref w q = some e →
          ∃ e1, deref w1 q = some e1
            ∧ e1.child_entities = e.child_entities ∧ e1.sensors = e.sensors
            ∧ (e.sensors = [] → e1.present = any_present w1 e1.child_entities)
            ∧ (e.sensors ≠ [] → e1.present = e.present
                ∧ e1.presence_event_count = e.presence_event_count) := by
  obtain ⟨w1, hres, hsh, _, hsen, hpres, _, hagg⟩ := cascade_ok h fuel w x v ev he hr hf
  refine ⟨w1, hres, ?_, ?_⟩
  · rw [hpres, hd]
    rfl
  · intro q hq e hdq
    obtain ⟨e1, hd1, hc1, _, hs1⟩ := same_shape_deref w w1 hsh q e hdq
    refine ⟨e1, hd1, hc1, hs1, ?_, ?_⟩
    · intro hs
      exact hagg ent hd hv q hq e1 hd1 (by rw [hs1]; exact hs)
    · intro hs
      have hne : q ≠ x := ne_of_height_lt h q x (hr x ent hd q hq) |>.symm
      have hdy := hsen q e hne hdq hs
      unfold dyn_at at hdy
      rw [hd1, hdq] at hdy
      simp only [Option.map_some', Option.some.injEq, Prod.mk.injEq] at hdy
      exact hdy

/-- Witness for C18: in the state `family` the parent 7.1 has no sensor
and the two children 5.1 and 5.2, none present.  When 5.1 is reported
present the parent becomes present; when 5.1 and then 5.2 are reported
absent, the presence handlers of the parent are called with `present`
false once. -/
theorem C18_parents_after_presence_change_witness :
    deref family 1 = some family_child
    ∧ family_child.parent_entities = [0] ∧ family_child.present = false
    ∧ deref family 0 = some family_parent
    ∧ family_parent.sensors = [] ∧ family_parent.child_entities = [1, 2]
    ∧ (∃ w1, presence_changed 2 family 1 true none = some w1
        ∧ present_at w1 1 = some true
        ∧ ∀ q ∈ family_child.parent_entities, ∀ e, deref family q = some e →
            ∃ e1, deref w1 q = some e1
              ∧ e1.child_entities = e.child_entities ∧ e1.sensors = e.sensors
              ∧ (e.sensors = [] → e1.present = any_present w1 e1.child_entities)
              ∧ (e.sensors ≠ [] → e1.present = e.present
                  ∧ e1.presence_event_count = e.presence_event_count))
    ∧ family_present.map (fun w => [present_at w 0, present_at w 1, present_at w 2])
        = some [some true, some true, some false]
    ∧ family_absent.map (fun w => [present_at w 0, present_at w 1, present_at w 2])
        = some [some false, some false, some false]
    ∧ family_absent.map (fun w => w.trace.presence_calls)
        = some [(1, true), (0, true), (1, false), (0, false)] :=
  ⟨by decide, by decide, by decide, by decide, by decide, by decide,
    C18_parents_after_presence_change family_height 2 family 1 true none family_child
      (edges_ok_of_check family (by decide)) (ranked_of_check family family_height (by decide))
      (by decide) (by decide) (by decide),
    by decide, by decide, by decide⟩

/-- C19 (the code departs from the claim): entity 7.1 has the ordinary
sensor 50 and no child.  Forced detection sends a query to the sensor and
records the presence event count; the sensor is removed from the entity
before the answer arrives.  When the query completes without the sensor
reporting itself scanning, `sensor_read_handler` calls
`presence_parent_handler(NULL, ent, &count)`; the entity has no sensor and
no present child, so the guard reads `presence_event_count` through the
NULL first argument.  The call has no result, whatever the recursion
budget.  The calls from `presence_changed` and from the detection itself
pass NULL as `cb_data`, so on those paths the counts are never
compared. -/
theorem C19_guard_reads_null_entity :
    orphan_detect.map (fun r =>
          r.1.map (fun i => [i.sensor_try_count, i.start_presence_event_count]))
        = some (some [1, 0])
    ∧ orphan_detect.map (fun r => [sensors_at r.2 0, children_at r.2 0])
        = some [some [], some []]
    ∧ orphan_detect.map (fun r => (present_at r.2 0, count_at r.2 0))
        = some (some false, some 0)
    ∧ ∀ fuel, orphan_done fuel = none := by
  refine ⟨by decide, by decide, by decide, fun fuel => rfl⟩

/-- C20: the entity at `p` is as `entity_add` creates it.  After any
sequence of `ipmi_entity_add_sensor` and `ipmi_entity_remove_sensor` calls
on it, whatever the sensor layer says about the sensors, the entity does
not have both a presence sensor and a presence-bit sensor installed. -/
theorem C20_presence_roles_exclusive (sens : Nat → ipmi_sensor_t) (w0 w : World)
    (seq : Nat) (dn : ipmi_device_num_t) (id inst : Int) (out data : Nat) (p : Nat)
    (ops : List sensor_op)
    (hnew : deref w p = some (new_entity w0 seq dn id inst out data)) :
    both_installed (sensor_run sens p w ops) p = false := by
  apply sensor_run_not_both
  unfold both_installed
  rw [roles_of_deref w p _ hnew]
  rfl

/-- Witness for C20: entity 1.1 of `one_pinned` gets the presence-bit
sensor 61, then the presence sensor 60, which takes the place of 61; when
60 is removed, 61 is installed again. -/
theorem C20_presence_roles_exclusive_witness :
    deref one_pinned 0 = some (new_entity (World.empty 1) 1 ⟨0, 0⟩ 1 1 0 0)
    ∧ roles (sensor_run mixed_sensors 0 one_pinned [.add 61]) 0 = some (none, some 61)
    ∧ roles (sensor_run mixed_sensors 0 one_pinned [.add 61, .add 60]) 0
        = some (some 60, none)
    ∧ roles (sensor_run mixed_sensors 0 one_pinned [.add 61, .add 60, .remove 60]) 0
        = some (none, some 61)
    ∧ both_installed
        (sensor_run mixed_sensors 0 one_pinned [.add 61, .add 60, .remove 60]) 0 = false :=
  ⟨by decide, by decide, by decide, by decide,
    C20_presence_roles_exclusive mixed_sensors (World.empty 1) one_pinned 1 ⟨0, 0⟩ 1 1 0 0 0
      [.add 61, .add 60, .remove 60] (by decide)⟩

/-- C21 (the code departs from the claim): entity 1.1 uses the built-in
table, has the power control 30, and its auto-activation delay was set to
`IPMI_TIMEOUT_NOW`.  The test of `handle_hot_swap_presence` compares the
timer function `hot_swap_act_timeout`, not the delay of the entity, with
`IPMI_TIMEOUT_NOW`, so it never holds for an entity with a power control:
when the presence becomes true the power control is queried and the
hot-swap state stays NotPresent, where the claim has it Active at once
and no query.  Without a power control the state becomes Active. -/
theorem C21_zero_delay_queries_power :
    devices_at powered_now 0 = some (some 30, none, none)
    ∧ (deref powered_now 0).map (fun e => e.hot_swap_act_timeout) = some IPMI_TIMEOUT_NOW
    ∧ table_at powered_now 0 = some (1, internal_hs_cb)
    ∧ hs_state_at powered_now 0 = some IPMI_HOT_SWAP_NOT_PRESENT
    ∧ (presence_changed 1 powered_now 0 true none).map (fun w => present_at w 0)
        = some (some true)
    ∧ (presence_changed 1 powered_now 0 true none).map (fun w => hs_state_at w 0)
        = some (some IPMI_HOT_SWAP_NOT_PRESENT)
    ∧ (presence_changed 1 powered_now 0 true none).map (fun w => w.trace.requests)
        = some (powered_now.trace.requests
            ++ [{ req := .control_get_val 30, cb := .power_checked, ent := 0 }])
    ∧ (presence_changed 1 swap_base 0 true none).map (fun w => hs_state_at w 0)
        = some (some IPMI_HOT_SWAP_ACTIVE) := by
  decide

/-- C22 (the code departs from the claim): entity 1.1 uses the built-in
table, is active, and has the requester 63, which requests when its state
bit 3 is clear (requesting value 0).  A query of the requester answered
with the bit clear moves the state to DeactivationRequested: the machine
takes the clear bit for a request.  The event handler takes an event for
a request only when the requesting value is not 0 and the event is an
assertion, so for this entity no event is one: in state Active the
deassertion and the assertion at offset 3 both leave the state Active, and
in state DeactivationRequested both move it to Active. -/
theorem C22_requesting_value_zero_never_requests :
    devices_at polar_active 0 = some (none, some 63, none)
    ∧ (deref polar_active 0).map (fun e => [e.hot_swap_offset, e.hot_swap_requesting_val])
        = some [3, 0]
    ∧ table_at polar_active 0 = some (1, internal_hs_cb)
    ∧ hs_state_at polar_active 0 = some IPMI_HOT_SWAP_ACTIVE
    ∧ hs_state_at (hot_swap_requester_changed polar_active 0 IPMI_DEASSERTION 3).2 0
        = some IPMI_HOT_SWAP_ACTIVE
    ∧ hs_state_at (hot_swap_requester_changed polar_active 0 IPMI_ASSERTION 3).2 0
        = some IPMI_HOT_SWAP_ACTIVE
    ∧ hs_state_at polar_requested 0 = some IPMI_HOT_SWAP_DEACTIVATION_REQUESTED
    ∧ hs_state_at (hot_swap_requester_changed polar_requested 0 IPMI_DEASSERTION 3).2 0
        = some IPMI_HOT_SWAP_ACTIVE
    ∧ hs_state_at (hot_swap_requester_changed polar_requested 0 IPMI_ASSERTION 3).2 0
        = some IPMI_HOT_SWAP_ACTIVE := by
  decide

/-- C23: `ent` is the entity at `p`.  In the state ActivationRequested
with the power control `power` installed, `e_activate`, that is
`hot_swap_act`, asks the control layer to write 1 to the power control
and makes no other request, provided the callback record that a
completion function of the user needs can be allocated; it returns what
the control layer returns; if the write is accepted the hot-swap state
becomes ActivationInProgress, otherwise it stays as it is.  The
completion of the write without error, `hot_swap_power_on` or
`hot_swap_power_on_cb`, moves the state to Active, whatever happened in
between.  In every other state the call returns EAGAIN, which is not 0,
and changes nothing.  In ActivationRequested without a power control it
returns ENOSYS and changes nothing.  When the callback record cannot be
allocated the call returns ENOMEM, makes no request and keeps the
state. -/
theorem C23_user_activate (w : World) (p handler : Nat) (ent : ipmi_entity_t)
    (hd : deref w p = some ent) :
    (∀ power, ent.hot_swap_state = IPMI_HOT_SWAP_ACTIVATION_REQUESTED →
        ent.hot_swap_power = some power → (handler = 0 ∨ (take_alloc w).1 = true) →
        (e_activate w p handler).1 = next_rv w
        ∧ issued w (e_activate w p handler).2
            { req := .control_set_val power 1,
              cb := if handler = 0 then .hot_swap_power_on else .hot_swap_power_on_cb handler,
              ent := p }
        ∧ (next_rv w = 0 →
            hs_state_at (e_activate w p handler).2 p
              = some IPMI_HOT_SWAP_ACTIVATION_IN_PROGRESS)
        ∧ (next_rv w ≠ 0 → hs_state_at (e_activate w p handler).2 p = hs_state_at w p))
    ∧ (∀ w1 e1, deref w1 p = some e1 →
        hs_state_at (hot_swap_power_on w1 p 0) p = some IPMI_HOT_SWAP_ACTIVE
        ∧ hs_state_at (hot_swap_power_on_cb w1 p handler 0) p = some IPMI_HOT_SWAP_ACTIVE)
    ∧ (ent.hot_swap_state ≠ IPMI_HOT_SWAP_ACTIVATION_REQUESTED →
        e_activate w p handler = (EAGAIN, w) ∧ EAGAIN ≠ 0)
    ∧ (ent.hot_swap_state = IPMI_HOT_SWAP_ACTIVATION_REQUESTED → ent.hot_swap_power = none →
        e_activate w p handler = (ENOSYS, w))
    ∧ (∀ power, ent.hot_swap_state = IPMI_HOT_SWAP_ACTIVATION_REQUESTED →
        ent.hot_swap_power = some power → handler ≠ 0 → (take_alloc w).1 = false →
        (e_activate w p handler).1 = ENOMEM
        ∧ silent w (e_activate w p handler).2
        ∧ hs_state_at (e_activate w p handler).2 p = hs_state_at w p) := by
  refine ⟨?_, ?_, ?_, ?_, ?_⟩
  · intro power hs hp ha
    have hw : hot_swap_act w p handler = _ := hot_swap_act_write w p handler power ent hd hs hp ha
    have hd0 : deref (if handler = 0 then w else (take_alloc w).2) p = some ent := by
      split
      · exact hd
      · exact (deref_take_alloc w p).trans hd
    have hsil : silent w (if handler = 0 then w else (take_alloc w).2) := by
      split
      · exact silent_refl w
      · exact silent_take_alloc w
    have hrv : next_rv (if handler = 0 then w else (take_alloc w).2) = next_rv w := by
      split
      · rfl
      · exact next_rv_take_alloc w
    unfold e_activate
    rw [hw]
    refine ⟨?_, ?_, ?_, ?_⟩
    · rw [power_write_fst, hrv]
    · exact issued_of_silent_left hsil (power_write_issued _ p power 1 _ _ ent hd0 rfl)
    · intro h0
      exact timed_state (power_write_accepted _ p power 1 _ _ ent hd0 (hrv.trans h0))
    · intro h0
      unfold hs_state_at
      rw [power_write_rejected _ p power 1 _ _ ent hd0 (by rw [hrv]; exact h0), hd]
  · intro w1 e1 hd1
    exact ⟨hot_swap_power_on_state w1 p e1 hd1, hot_swap_power_on_cb_state w1 p handler e1 hd1⟩
  · intro hs
    exact ⟨hot_swap_act_eagain w p handler ent hd hs, by decide⟩
  · intro hs hp
    exact hot_swap_act_enosys w p handler ent hd hs hp
  · intro power hs hp h0 ha
    unfold e_activate
    rw [hot_swap_act_enomem w p handler power ent hd hs hp h0 ha]
    refine ⟨rfl, silent_take_alloc w, ?_⟩
    unfold hs_state_at
    rw [deref_take_alloc]

/-- Witness for C23: entity 1.1 of `bay_requested` is in the state
ActivationRequested and has the power control 30; `e_activate` without a
completion function returns 0, requests the write of 1 to the control and
leaves the entity in ActivationInProgress. -/
theorem C23_user_activate_witness :
    deref bay_requested 0 = some bay_requested_ent
    ∧ bay_requested_ent.hot_swap_state = IPMI_HOT_SWAP_ACTIVATION_REQUESTED
    ∧ bay_requested_ent.hot_swap_power = some 30
    ∧ next_rv bay_requested = 0
    ∧ (e_activate bay_requested 0 0).1 = next_rv bay_requested
    ∧ issued bay_requested (e_activate bay_requested 0 0).2
        { req := .control_set_val 30 1,
          cb := if (0 : Nat) = 0 then .hot_swap_power_on else .hot_swap_power_on_cb 0,
          ent := 0 }
    ∧ hs_state_at (e_activate bay_requested 0 0).2 0
        = some IPMI_HOT_SWAP_ACTIVATION_IN_PROGRESS :=
  ⟨by decide, by decide, by decide, by decide,
    ((C23_user_activate bay_requested 0 0 bay_requested_ent (by decide)).1 30 (by decide)
      (by decide) (Or.inl rfl)).1,
    ((C23_user_activate bay_requested 0 0 bay_requested_ent (by decide)).1 30 (by decide)
      (by decide) (Or.inl rfl)).2.1,
    ((C23_user_activate bay_requested 0 0 bay_requested_ent (by decide)).1 30 (by decide)
      (by decide) (Or.inl rfl)).2.2.1 (by decide)⟩

/-- C24 (counterexample to the claim as stated): entity 1.1 has the
indicator 31 installed and is not present.  `set_hot_swap_state` to
ActivationInProgress, and likewise to DeactivationInProgress, changes the
hot-swap state and makes no request: the indicator is not written, where
the claim has the active value, respectively the request-deactivate
value, written. -/
theorem C24_no_indicator_write_in_progress :
    devices_at lit 0 = some (none, none, some 31)
    ∧ hs_state_at lit 0 = some IPMI_HOT_SWAP_NOT_PRESENT
    ∧ hs_state_at (set_hot_swap_state lit 0 IPMI_HOT_SWAP_ACTIVATION_IN_PROGRESS).2 0
        = some IPMI_HOT_SWAP_ACTIVATION_IN_PROGRESS
    ∧ (set_hot_swap_state lit 0 IPMI_HOT_SWAP_ACTIVATION_IN_PROGRESS).2.trace.requests
        = lit.trace.requests
    ∧ hs_state_at (set_hot_swap_state lit 0 IPMI_HOT_SWAP_DEACTIVATION_IN_PROGRESS).2 0
        = some IPMI_HOT_SWAP_DEACTIVATION_IN_PROGRESS
    ∧ (set_hot_swap_state lit 0 IPMI_HOT_SWAP_DEACTIVATION_IN_PROGRESS).2.trace.requests
        = lit.trace.requests := by
  decide

/-- C24 (amended): the entity `ent` at `p` has the indicator `ind`
installed.  `set_hot_swap_state` to the state `s` leaves the entity in
that state.  For Inactive, ActivationRequested, Active and
DeactivationRequested it makes one request, the write of the inactive,
request-activate, active, respectively request-deactivate value of the
entity to the indicator, completed by `indicator_change` (the request is
recorded if the control layer accepts it; a refusal changes nothing
else); for ActivationInProgress, DeactivationInProgress, NotPresent and
OutOfCon it makes no request. -/
theorem C24_indicator_written_by_state (w : World) (p ind : Nat) (s : ipmi_hot_swap_states)
    (ent : ipmi_entity_t) (hd : deref w p = some ent)
    (hi : ent.hot_swap_indicator = some ind) :
    hs_state_at (set_hot_swap_state w p s).2 p = some s
    ∧ (s = IPMI_HOT_SWAP_INACTIVE →
        issued w (set_hot_swap_state w p s).2
          { req := .control_set_val ind ent.hot_swap_ind_inact, cb := .indicator_change,
            ent := p })
    ∧ (s = IPMI_HOT_SWAP_ACTIVATION_REQUESTED →
        issued w (set_hot_swap_state w p s).2
          { req := .control_set_val ind ent.hot_swap_ind_req_act, cb := .indicator_change,
            ent := p })
    ∧ (s = IPMI_HOT_SWAP_ACTIVE →
        issued w (set_hot_swap_state w p s).2
          { req := .control_set_val ind ent.hot_swap_ind_act, cb := .indicator_change,
            ent := p })
    ∧ (s = IPMI_HOT_SWAP_DEACTIVATION_REQUESTED →
        issued w (set_hot_swap_state w p s).2
          { req := .control_set_val ind ent.hot_swap_ind_req_deact, cb := .indicator_change,
            ent := p })
    ∧ (s = IPMI_HOT_SWAP_ACTIVATION_IN_PROGRESS ∨ s = IPMI_HOT_SWAP_DEACTIVATION_IN_PROGRESS
        ∨ s = IPMI_HOT_SWAP_NOT_PRESENT ∨ s = IPMI_HOT_SWAP_OUT_OF_CON →
        silent w (set_hot_swap_state w p s).2) := by
  refine ⟨timed_state (timed_set_hot_swap_state w p s ent hd), ?_, ?_, ?_, ?_, ?_⟩
  · intro hs
    exact set_hot_swap_state_issued w p s ent _ ind hd (by rw [hs]; rfl) hi
  · intro hs
    exact set_hot_swap_state_issued w p s ent _ ind hd (by rw [hs]; rfl) hi
  · intro hs
    exact set_hot_swap_state_issued w p s ent _ ind hd (by rw [hs]; rfl) hi
  · intro hs
    exact set_hot_swap_state_issued w p s ent _ ind hd (by rw [hs]; rfl) hi
  · intro hs
    refine set_hot_swap_state_silent w p s ent hd (Or.inl ?_)
    rcases hs with h | h | h | h <;> rw [h] <;> rfl

/-- Witness for C24: entity 1.1 of `lit` has the indicator 31, whose
active value is 2; `set_hot_swap_state` to Active leaves the entity
active and requests the write of 2 to the indicator. -/
theorem C24_indicator_written_by_state_witness :
    deref lit 0 = some lit_ent
    ∧ lit_ent.hot_swap_indicator = some 31
    ∧ lit_ent.hot_swap_ind_act = 2
    ∧ hs_state_at (set_hot_swap_state lit 0 IPMI_HOT_SWAP_ACTIVE).2 0
        = some IPMI_HOT_SWAP_ACTIVE
    ∧ issued lit (set_hot_swap_state lit 0 IPMI_HOT_SWAP_ACTIVE).2
        { req := .control_set_val 31 lit_ent.hot_swap_ind_act, cb := .indicator_change,
          ent := 0 } :=
  ⟨by decide, by decide, by decide,
    (C24_indicator_written_by_state lit 0 31 IPMI_HOT_SWAP_ACTIVE lit_ent (by decide)
      (by decide)).1,
    (C24_indicator_written_by_state lit 0 31 IPMI_HOT_SWAP_ACTIVE lit_ent (by decide)
      (by decide)).2.2.2.1 rfl⟩

/-- C25 (counterexample to the claim as stated): entity 1.1 is as
`ipmi_entity_add` made it: not hot-swappable and with an empty table.
Attaching the hot-swap power control 30, the hot-swap indicator 31 or the
hot-swap requester 62 installs the device and leaves the entity not
hot-swappable with an empty table, where the claim has the built-in table
installed. -/
theorem C25_table_not_installed_by_devices :
    table_at one_pinned 0 = some (0, {})
    ∧ devices_at (ipmi_entity_add_control swap_controls one_pinned 0 30) 0
        = some (some 30, none, none)
    ∧ table_at (ipmi_entity_add_control swap_controls one_pinned 0 30) 0 = some (0, {})
    ∧ devices_at (ipmi_entity_add_control swap_controls one_pinned 0 31) 0
        = some (none, none, some 31)
    ∧ table_at (ipmi_entity_add_control swap_controls one_pinned 0 31) 0 = some (0, {})
    ∧ devices_at (ipmi_entity_add_sensor swap_sensors one_pinned 0 62) 0
        = some (none, some 62, none)
    ∧ table_at (ipmi_entity_add_sensor swap_sensors one_pinned 0 62) 0 = some (0, {}) := by
  decide

/-- C25 (amended): `ent` is the entity at `p`.  A sensor attached with
`ipmi_entity_add_sensor` that takes a presence role (a presence sensor
when the entity has none, or a presence-bit sensor when the entity has
neither) makes the entity hot-swappable with the built-in table if the
table of the entity has no `get_hot_swap_state` function, and leaves the
flag and the table as they are if it has one.  Every other sensor leaves
the flag and the table as they are, and so does every control attached
with `ipmi_entity_add_control`; this holds also when the sensor becomes
the hot-swap requester and when the control becomes the hot-swap power
control or the hot-swap indicator. -/
theorem C25_table_installed_by_presence_roles (sens : Nat → ipmi_sensor_t)
    (ctl : Nat → ipmi_control_t) (w : World) (p sensor control : Nat) (ent : ipmi_entity_t)
    (hd : deref w p = some ent) :
    (((is_presence_sensor (sens sensor) = true ∧ ent.presence_sensor = none)
        ∨ ((is_presence_bit_sensor (sens sensor)).isSome = true ∧ ent.presence_sensor = none
            ∧ ent.presence_bit_sensor = none)) →
      (ent.hs_cb.get_hot_swap_state = 0 →
        table_at (ipmi_entity_add_sensor sens w p sensor) p = some (1, internal_hs_cb))
      ∧ (ent.hs_cb.get_hot_swap_state ≠ 0 →
        table_at (ipmi_entity_add_sensor sens w p sensor) p = table_at w p))
    ∧ (¬ ((is_presence_sensor (sens sensor) = true ∧ ent.presence_sensor = none)
        ∨ ((is_presence_bit_sensor (sens sensor)).isSome = true ∧ ent.presence_sensor = none
            ∧ ent.presence_bit_sensor = none)) →
      table_at (ipmi_entity_add_sensor sens w p sensor) p = table_at w p)
    ∧ (is_hot_swap_requester (sens sensor) = true → ent.hot_swap_requester = none →
        (sens sensor).add_handler_rv = 0 →
        (deref (ipmi_entity_add_sensor sens w p sensor) p).map (fun e => e.hot_swap_requester)
          = some (some sensor))
    ∧ table_at (ipmi_entity_add_control ctl w p control) p = table_at w p
    ∧ (is_hot_swap_power (ctl control) = true → (ctl control).add_handler_rv = 0 →
        (deref (ipmi_entity_add_control ctl w p control) p).map (fun e => e.hot_swap_power)
          = some (some control))
    ∧ (is_hot_swap_indicator (ctl control) = true →
        (deref (ipmi_entity_add_control ctl w p control) p).map (fun e => e.hot_swap_indicator)
          = some (some control)) := by
  have ht : table_at w p = some (ent.hot_swappable, ent.hs_cb) := by
    unfold table_at
    rw [hd]
    rfl
  have hc : ((is_presence_sensor (sens sensor) && ent.presence_sensor.isNone)
            || ((is_presence_bit_sensor (sens sensor)).isSome
                && ent.presence_sensor.isNone && ent.presence_bit_sensor.isNone)) = true
      ↔ ((is_presence_sensor (sens sensor) = true ∧ ent.presence_sensor = none)
        ∨ ((is_presence_bit_sensor (sens sensor)).isSome = true ∧ ent.presence_sensor = none
            ∧ ent.presence_bit_sensor = none)) := by
    simp only [Bool.or_eq_true, Bool.and_eq_true, Option.isNone_iff_eq_none, and_assoc]
  refine ⟨?_, ?_, requester_add_sensor sens w p sensor ent hd,
    table_at_add_control ctl w p control, (devices_add_control ctl w p control ent hd).1,
    (devices_add_control ctl w p control ent hd).2⟩
  · intro h
    rw [table_at_add_sensor sens w p sensor ent hd, if_pos (hc.mpr h), ht]
    constructor
    · intro hg
      rw [if_pos hg]
    · intro hg
      rw [if_neg hg]
  · intro h
    rw [table_at_add_sensor sens w p sensor ent hd, if_neg (fun hx => h (hc.mp hx)), ht]

/-- Witness for C25: entity 1.1 of `one_pinned` has no presence sensor
and an empty table; attaching the presence sensor 60 makes it
hot-swappable with the built-in table. -/
theorem C25_table_installed_by_presence_roles_witness :
    deref one_pinned 0 = some pinned_ent
    ∧ is_presence_sensor (swap_sensors 60) = true
    ∧ pinned_ent.presence_sensor = none
    ∧ pinned_ent.hs_cb.get_hot_swap_state = 0
    ∧ table_at (ipmi_entity_add_sensor swap_sensors one_pinned 0 60) 0
        = some (1, internal_hs_cb) :=
  ⟨by decide, by decide, by decide, by decide,
    ((C25_table_installed_by_presence_roles swap_sensors swap_controls one_pinned 0 60 30
      pinned_ent (by decide)).1 (Or.inl ⟨by decide, by decide⟩)).1 (by decide)⟩

/-- C26: the entity `ent` at `p` uses the built-in table, has the power
control `power` and a requester sensor and is in the state NotPresent;
its activation delay is arbitrary.  Every request is accepted and every
allocation succeeds.  When the presence becomes true the machine queries
the power control and stays in NotPresent; the answer that the power is
off moves it to Inactive and makes it query the requester; the deassertion of the requester at the
hot-swap offset moves it to ActivationRequested; `ipmi_entity_activate`
(with or without a completion function of the user) returns 0, writes 1
to the power control and moves it to ActivationInProgress; the completion
of the write without error moves it to Active.  The rounds of the
hot-swap handlers made on the way are these four changes and no
other. -/
theorem C26_power_and_requester_scenario (w : World) (p handler power requester : Nat)
    (ent : ipmi_entity_t) (hd : deref w p = some ent)
    (hp : ent.hot_swap_power = some power) (hr : ent.hot_swap_requester = some requester)
    (hs : ent.hot_swap_state = IPMI_HOT_SWAP_NOT_PRESENT)
    (hsw : ent.hot_swappable ≠ 0) (htab : ent.hs_cb = internal_hs_cb)
    (hrv : w.trace.request_rvs = []) (ha : w.allocs = []) :
    let w1 := (handle_hot_swap_presence w p true).2
    let w2 := power_checked w1 p 0 0
    let w3 := (hot_swap_requester_changed w2 p .IPMI_DEASSERTION ent.hot_swap_offset).2
    hs_state_at w1 p = some IPMI_HOT_SWAP_NOT_PRESENT
    ∧ w1.trace.requests
        = w.trace.requests ++ [{ req := .control_get_val power, cb := .power_checked, ent := p }]
    ∧ w1.trace.hot_swap_calls = w.trace.hot_swap_calls
    ∧ hs_state_at w2 p = some IPMI_HOT_SWAP_INACTIVE
    ∧ { req := .states_get requester, cb := .requester_checked, ent := p } ∈ w2.trace.requests
    ∧ hs_state_at w3 p = some IPMI_HOT_SWAP_ACTIVATION_REQUESTED
    ∧ ∃ w4, ipmi_entity_activate w3 p handler = some (0, w4)
        ∧ hs_state_at w4 p = some IPMI_HOT_SWAP_ACTIVATION_IN_PROGRESS
        ∧ { req := .control_set_val power 1,
            cb := if handler = 0 then .hot_swap_power_on else .hot_swap_power_on_cb handler,
            ent := p } ∈ w4.trace.requests
        ∧ hs_state_at (if handler = 0 then hot_swap_power_on w4 p 0
              else hot_swap_power_on_cb w4 p handler 0) p = some IPMI_HOT_SWAP_ACTIVE
        ∧ (if handler = 0 then hot_swap_power_on w4 p 0
              else hot_swap_power_on_cb w4 p handler 0).trace.hot_swap_calls
            = w.trace.hot_swap_calls
              ++ [(p, IPMI_HOT_SWAP_NOT_PRESENT, IPMI_HOT_SWAP_INACTIVE),
                  (p, IPMI_HOT_SWAP_INACTIVE, IPMI_HOT_SWAP_ACTIVATION_REQUESTED),
                  (p, IPMI_HOT_SWAP_ACTIVATION_REQUESTED, IPMI_HOT_SWAP_ACTIVATION_IN_PROGRESS),
                  (p, IPMI_HOT_SWAP_ACTIVATION_IN_PROGRESS, IPMI_HOT_SWAP_ACTIVE)] := by
  intro w1 w2 w3
  have h0 : stage w w p ent IPMI_HOT_SWAP_NOT_PRESENT [] := by
    refine ⟨?_, hrv, ha, (List.append_nil _).symm⟩
    rw [← hs]
    exact timed_of_deref hd
  have h1 := stage_handle_hot_swap_presence h0 power hp
  have h2 := stage_power_checked_off h1.1 (by decide) requester hr
  have h3 := stage_requester_deasserted h2.1
  obtain ⟨w4, e4, h4, hreq⟩ := stage_activate h3 handler power hp hsw htab
  have h5 := stage_power_on h4 handler (by decide)
  refine ⟨stage_state h1.1, h1.2, ?_, stage_state h2.1, h2.2, stage_state h3, w4, e4,
    stage_state h4, hreq, stage_state h5, ?_⟩
  · rw [h1.1.2.2.2, List.append_nil]
  · rw [h5.2.2.2]
    simp

/-- Witness for C26: entity 1.1 of `bay` has the power control 30 and the
requester 62, uses the built-in table and is not present; the scenario
with a completion function of the user ends in the state Active after the
four changes of state. -/
theorem C26_power_and_requester_scenario_witness :
    deref bay 0 = some bay_ent
    ∧ bay_ent.hot_swap_power = some 30 ∧ bay_ent.hot_swap_requester = some 62
    ∧ bay_ent.hot_swap_state = IPMI_HOT_SWAP_NOT_PRESENT
    ∧ bay_ent.hot_swappable ≠ 0 ∧ bay_ent.hs_cb = internal_hs_cb
    ∧ bay.trace.request_rvs = [] ∧ bay.allocs = []
    ∧ hs_state_at (handle_hot_swap_presence bay 0 true).2 0 = some IPMI_HOT_SWAP_NOT_PRESENT
    ∧ (handle_hot_swap_presence bay 0 true).2.trace.requests
        = bay.trace.requests ++ [{ req := .control_get_val 30, cb := .power_checked, ent := 0 }]
    ∧ (handle_hot_swap_presence bay 0 true).2.trace.hot_swap_calls = bay.trace.hot_swap_calls
    ∧ hs_state_at (power_checked (handle_hot_swap_presence bay 0 true).2 0 0 0) 0
        = some IPMI_HOT_SWAP_INACTIVE :=
  ⟨by decide, by decide, by decide, by decide, by decide, by decide, by decide, by decide,
    (C26_power_and_requester_scenario bay 0 77 30 62 bay_ent (by decide) (by decide)
      (by decide) (by decide) (by decide) (by decide) (by decide) (by decide)).1,
    (C26_power_and_requester_scenario bay 0 77 30 62 bay_ent (by decide) (by decide)
      (by decide) (by decide) (by decide) (by decide) (by decide) (by decide)).2.1,
    (C26_power_and_requester_scenario bay 0 77 30 62 bay_ent (by decide) (by decide)
      (by decide) (by decide) (by decide) (by decide) (by decide) (by decide)).2.2.1,
    (C26_power_and_requester_scenario bay 0 77 30 62 bay_ent (by decide) (by decide)
      (by decide) (by decide) (by decide) (by decide) (by decide) (by decide)).2.2.2.1⟩

/-- C27 (the code departs from the claim): entity 1.1 is hot-swappable
and uses the built-in table, which has no function for
`set_activation_requested`.  `ipmi_entity_set_activation_requested` tests
the entry `activate`, which is there, and then calls through the NULL
entry `set_activation_requested`: the call has no result, where the claim
has ENOSYS returned.  With the table `no_activate_cb` of a user, which
has a function for `set_activation_requested` and none for `activate`,
the call returns ENOSYS without calling the function. -/
theorem C27_set_activation_requested_calls_null :
    table_at swap_base 0 = some (1, internal_hs_cb)
    ∧ internal_hs_cb.activate = e_activate_addr
    ∧ internal_hs_cb.set_activation_requested = 0
    ∧ ipmi_entity_set_activation_requested swap_base 0 = none
    ∧ table_at user_table 0 = some (1, no_activate_cb)
    ∧ no_activate_cb.set_activation_requested = 106
    ∧ (ipmi_entity_set_activation_requested user_table 0).map (fun r => r.1) = some ENOSYS
    ∧ (ipmi_entity_set_activation_requested user_table 0).map
        (fun r => r.2.trace.external_calls) = some [] := by
  decide

/-- C28: for every string layer and every record, decoding the record as
a generic locator record, encoding the payload with `gdlr_output` and
decoding the result again gives the same access address, slave address,
channel, LUN, private bus id, address span, device type and modifier,
entity id and instance, OEM byte and device number (and the same record
type and output function); and for the FRU locator kind, with
`decode_frudlr` and `frudlr_output`, the same access address, channel,
LUN, private bus id, FRU device id, logical-FRU flag, device type and
modifier, entity id and instance, OEM byte and device number. -/
theorem C28_locator_round_trip (str : device_string_t) (r : ipmi_sdr_t) :
    (let i := decode_gdlr str r
     let j := decode_gdlr str (gdlr_output str i)
     j.access_address = i.access_address ∧ j.slave_address = i.slave_address
     ∧ j.channel = i.channel ∧ j.lun = i.lun ∧ j.private_bus_id = i.private_bus_id
     ∧ j.address_span = i.address_span
     ∧ j.device_type = i.device_type ∧ j.device_type_modifier = i.device_type_modifier
     ∧ j.entity_id = i.entity_id ∧ j.entity_instance = i.entity_instance
     ∧ j.oem = i.oem ∧ j.device_num = i.device_num
     ∧ j.type = i.type ∧ j.output_handler = i.output_handler)
    ∧ (let i := decode_frudlr str r
       let j := decode_frudlr str (frudlr_output str i)
       j.access_address = i.access_address ∧ j.channel = i.channel ∧ j.lun = i.lun
       ∧ j.private_bus_id = i.private_bus_id
       ∧ j.fru_device_id = i.fru_device_id ∧ j.is_logical_fru = i.is_logical_fru
       ∧ j.device_type = i.device_type ∧ j.device_type_modifier = i.device_type_modifier
       ∧ j.entity_id = i.entity_id ∧ j.entity_instance = i.entity_instance
       ∧ j.oem = i.oem ∧ j.device_num = i.device_num
       ∧ j.type = i.type ∧ j.output_handler = i.output_handler) :=
  ⟨gdlr_roundtrip str r, frudlr_roundtrip str r⟩

/-- C29 (the code departs from the claim): `mc_record` is a record of
version 1.5 with the system power notification flag and seven device
capabilities.  `mcdlr_output` joins the shifted flags with the logical
operator, so the bytes 2 and 3 of the record it builds are both 1; the
second decoding has none of the power and initialisation flags, global
initialisation 1, and of the capabilities only the sensor device. -/
theorem C29_mc_flags_lost (str : device_string_t) :
    mc_record.major_version = 1 ∧ mc_record.minor_version = 5
    ∧ mc_flags (decode_mcdlr str mc_record) = [1, 0, 0, 0, 0, 1, 0, 1, 1, 1, 1, 1, 1]
    ∧ sdr_data (mcdlr_output str (decode_mcdlr str mc_record)) 2 = 1
    ∧ sdr_data (mcdlr_output str (decode_mcdlr str mc_record)) 3 = 1
    ∧ mc_flags (decode_mcdlr str (mcdlr_output str (decode_mcdlr str mc_record)))
        = [0, 0, 0, 0, 1, 0, 0, 0, 0, 0, 0, 0, 1] :=
  ⟨rfl, rfl, rfl, rfl, rfl, mc_record_twice str⟩

/-- C30 (the code departs from the claim): `mc_record_v10` is a
management controller locator record of version 1.0 with entity instance
0x60.  A record of that version has no channel byte, and the channel of
the payload is 0; the device number is computed from byte 1 all the same,
which in this version holds the power notification and initialisation
flags: its channel is 3, not the channel of the payload. -/
theorem C30_mc_v10_device_channel (str : device_string_t) :
    mc_record_v10.major_version = 1 ∧ mc_record_v10.minor_version = 0
    ∧ (decode_mcdlr str mc_record_v10).type = IPMI_ENTITY_MC
    ∧ (decode_mcdlr str mc_record_v10).entity_instance = 0x60
    ∧ (decode_mcdlr str mc_record_v10).channel = 0
    ∧ (decode_mcdlr str mc_record_v10).slave_address = 0x20
    ∧ (decode_mcdlr str mc_record_v10).device_num = { channel := 3, address := 0x20 } :=
  ⟨rfl, rfl, rfl, rfl, rfl, rfl, rfl⟩

/-- C31: `ent` is the entity at `p`, it has no queued operation and no
edge, and its count of running timers is the number of its timers that are
flagged running.  `destroy_entity` is called; the timers whose stop fails
stay armed and their handlers fire later, in the order `order`.  While a
handler is still to fire the entity is allocated, flagged destroyed, and
its count of running timers is the number of handlers still to fire; this
holds right after `destroy_entity` when a stop failed.  After the last
handler the memory of the entity is released; when no stop failed it is
released by `destroy_entity` itself. -/
theorem C31_deferred_final_destroy (w : World) (p : Nat) (ent : ipmi_entity_t)
    (order : List Bool) (hd : deref w p = some ent)
    (hq : ent.waitq_in_progress = false) (hc : ent.child_entities = [])
    (hp : ent.parent_entities = [])
    (hn : ent.running_timer_count = timers_running ent)
    (ho : order.Perm (armed_after_destroy w ent)) :
    (∀ k, k < order.length →
      ∃ e, (fire_timers p (order.take k) (destroy_entity w p)).bind (fun w1 => deref w1 p)
          = some e
        ∧ e.destroyed = true ∧ e.running_timer_count = order.length - k)
    ∧ (fire_timers p order (destroy_entity w p)).map (fun w1 => deref w1 p) = some none := by
  have hlen := ho.length_eq
  have hle := armed_length_le w ent
  obtain ⟨h0, h1⟩ := destroy_entity_pending w p ent hd hq hc hp hn
  cases order with
  | nil =>
    refine ⟨fun k hk => absurd hk (Nat.not_lt_zero k), ?_⟩
    simp only [fire_timers, Option.map_some']
    rw [h0 hlen.symm]
  | cons act rest =>
    have hne : (armed_after_destroy w ent).length ≠ 0 := by
      rw [← hlen]
      simp
    have hpend := h1 hne
    rw [← hlen] at hpend
    exact fire_timers_pending p (act :: rest) _ (by simp) (by omega) hpend

set_option maxRecDepth 100000 in
/-- Witness for C31: in the state `twice_armed` both timers of entity 1.1
are running and neither can be stopped.  After `destroy_entity` the entity
is allocated with a count of 2, after the handler of the deactivation
timer with a count of 1, and the handler of the activation timer releases
it. -/
theorem C31_deferred_final_destroy_witness :
    deref twice_armed 0 = some twice_armed_ent
    ∧ armed_after_destroy twice_armed twice_armed_ent = [true, false]
    ∧ ((∀ k, k < [false, true].length →
        ∃ e, (fire_timers 0 ([false, true].take k) (destroy_entity twice_armed 0)).bind
            (fun w1 => deref w1 0) = some e
          ∧ e.destroyed = true ∧ e.running_timer_count = [false, true].length - k)
      ∧ (fire_timers 0 [false, true] (destroy_entity twice_armed 0)).map
          (fun w1 => deref w1 0) = some none)
    ∧ (deref (destroy_entity twice_armed 0) 0).map (fun e => e.running_timer_count) = some 2
    ∧ ((hot_swap_deact_timeout (destroy_entity twice_armed 0) 0).bind
        (fun w1 => deref w1 0)).map (fun e => e.running_timer_count) = some 1 :=
  ⟨by decide, by decide,
    C31_deferred_final_destroy twice_armed 0 twice_armed_ent [false, true] (by decide)
      (by decide) (by decide) (by decide) (by decide) (by decide),
    by decide, by decide⟩

/-- C32: `ent` is the entity at `p`, it is not destroyed, and the lookup
by its key is safe (`lookup_safe`: it yields no entity, or the entity
itself, which is not removable, or an entity with another sequence number
that is not removable).  If the hot-swap state is not ActivationRequested,
the handler of the activation timer returns, and the state it leaves
differs from the state before only in the entity at `p`, where the count
of running timers is one less and the flag of the activation timer is
clear: the hot-swap state is the same, no request is made and no handler
is called.  The same holds for the handler of the deactivation timer when
the hot-swap state is not DeactivationRequested. -/
theorem C32_stale_timer_changes_nothing (w : World) (p : Nat) (ent : ipmi_entity_t)
    (hd : deref w p = some ent) (hl : ent.destroyed = false)
    (hfind : lookup_safe w p ent = true) :
    (ent.hot_swap_state ≠ IPMI_HOT_SWAP_ACTIVATION_REQUESTED →
      hot_swap_act_timeout w p = some { w with heap := w.heap.set p (some
        { ent with running_timer_count := u32_dec ent.running_timer_count,
                   hot_swap_act_timer_running := false }) })
    ∧ (ent.hot_swap_state ≠ IPMI_HOT_SWAP_DEACTIVATION_REQUESTED →
      hot_swap_deact_timeout w p = some { w with heap := w.heap.set p (some
        { ent with running_timer_count := u32_dec ent.running_timer_count,
                   hot_swap_deact_timer_running := false }) }) := by
  have hfind2 : ∀ q e, search_entities w (search_info_of ent.info.device_num
      (ent.info.entity_id : Int) (ent.info.entity_instance : Int)) = some q →
      deref w q = some e →
        (cleanup_ready e = false ∨ e.usecount ≠ 0) ∧ (e.seq = ent.seq → q = p) := by
    intro q e hs he
    unfold lookup_safe at hfind
    rw [hs] at hfind
    simp only [he, Bool.and_eq_true, Bool.or_eq_true, Bool.not_eq_true', bne_iff_ne, ne_eq,
      beq_iff_eq] at hfind
    refine ⟨hfind.1, fun h => ?_⟩
    rcases hfind.2 with h2 | h2
    · exact absurd h h2
    · exact h2
  constructor
  · intro hs
    have h1 := deref_modify_same w p (fun e =>
      { e with running_timer_count := u32_dec e.running_timer_count,
               hot_swap_act_timer_running := false }) ent hd
    have := timeout_idle w p ent (fun e =>
      { e with running_timer_count := u32_dec e.running_timer_count,
               hot_swap_act_timer_running := false })
      (fun w0 q => some (hot_swap_act_cb w0 q)) hd
      (fun e => clear_act_keeps e _ false)
      (fun w2 e2 hd2 hs2 =>
        congrArg some (hot_swap_act_idle w2 p e2 hd2 (by rw [hs2]; exact hs)))
      hfind2
    refine Eq.trans ?_ (congrArg some (modify_eq_set w p (fun e =>
      { e with running_timer_count := u32_dec e.running_timer_count,
               hot_swap_act_timer_running := false }) ent hd))
    unfold hot_swap_act_timeout
    simp only [h1, hl, Bool.false_eq_true, if_false]
    exact this
  · intro hs
    have h1 := deref_modify_same w p (fun e =>
      { e with running_timer_count := u32_dec e.running_timer_count,
               hot_swap_deact_timer_running := false }) ent hd
    have := timeout_idle w p ent (fun e =>
      { e with running_timer_count := u32_dec e.running_timer_count,
               hot_swap_deact_timer_running := false })
      (fun w0 q => some (hot_swap_deact_cb w0 q)) hd
      (fun e => clear_deact_keeps e _ false)
      (fun w2 e2 hd2 hs2 =>
        congrArg some (hot_swap_deact_idle w2 p e2 hd2 (by rw [hs2]; exact hs)))
      hfind2
    refine Eq.trans ?_ (congrArg some (modify_eq_set w p (fun e =>
      { e with running_timer_count := u32_dec e.running_timer_count,
               hot_swap_deact_timer_running := false }) ent hd))
    unfold hot_swap_deact_timeout
    simp only [h1, hl, Bool.false_eq_true, if_false]
    exact this

set_option maxRecDepth 100000 in
/-- Witness for C32: in the state `stale` entity 1.1 is active and its
activation timer, started in ActivationRequested, is still running.  When
the timer fires the entity stays active, the count of running timers goes
from 1 to 0, the flag is cleared, and the logs of requests, of rounds of
hot-swap handlers and of calls of user functions are as before. -/
theorem C32_stale_timer_changes_nothing_witness :
    deref stale 0 = some stale_ent ∧ stale_ent.destroyed = false
    ∧ lookup_safe stale 0 stale_ent = true
    ∧ stale_ent.hot_swap_state = IPMI_HOT_SWAP_ACTIVE
    ∧ (stale_ent.hot_swap_act_timer_running, stale_ent.running_timer_count) = (true, 1)
    ∧ ((stale_ent.hot_swap_state ≠ IPMI_HOT_SWAP_ACTIVATION_REQUESTED →
        hot_swap_act_timeout stale 0 = some { stale with heap := stale.heap.set 0 (some
          { stale_ent with running_timer_count := u32_dec stale_ent.running_timer_count,
                           hot_swap_act_timer_running := false }) })
      ∧ (stale_ent.hot_swap_state ≠ IPMI_HOT_SWAP_DEACTIVATION_REQUESTED →
        hot_swap_deact_timeout stale 0 = some { stale with heap := stale.heap.set 0 (some
          { stale_ent with running_timer_count := u32_dec stale_ent.running_timer_count,
                           hot_swap_deact_timer_running := false }) }))
    ∧ (hot_swap_act_timeout stale 0).map (fun w1 =>
        (hs_state_at w1 0, (deref w1 0).map (fun e =>
          (e.hot_swap_act_timer_running, e.running_timer_count)),
          decide (w1.trace = stale.trace)))
        = some (some IPMI_HOT_SWAP_ACTIVE, some (false, 0), true) :=
  ⟨by decide, by decide, by decide, by decide, by decide,
    C32_stale_timer_changes_nothing stale 0 stale_ent (by decide) (by decide) (by decide),
    by decide⟩

/-- C33: when the resolution and the pre-allocation of a scan succeed
(`scan_prepare` hands the size of the pool, the two scan states and the
state of the registry to the commit), the pool holds at least two entries
for every `add_child` call the commit loop over the new records makes;
that loop, which has no result when it is to take an entry from a pool of
fewer than two, has a result, and what it leaves of the pool is the size
less two entries per call; and the scan ends with the notifications of
that result. -/
theorem C33_entry_pool_suffices (w : World) (mc : Nat) (c : Nat → Nat → Int)
    (env : Nat → Nat → mc_reply_t) (dlrs : List dlr_info_t)
    (x : Nat × entity_sdr_info_t × entity_sdr_info_t × World)
    (h : scan_prepare w mc c dlrs = .ok x) :
    2 * commit_adds (x.2.1.dlrs.zip x.2.1.found) ≤ x.1
    ∧ ∃ rv w6,
        commit_new env (x.2.1.dlrs.zip x.2.1.found) 0 x.1
          (commit_old (x.2.2.1.dlrs.zip x.2.2.1.found) x.2.2.2)
          = some (rv, x.1 - 2 * commit_adds (x.2.1.dlrs.zip x.2.1.found), w6)
        ∧ ipmi_entity_scan_sdrs w mc c env dlrs
          = (notify_new x.2.1.found w6).map (fun w7 =>
              (rv, _ipmi_set_sdr_entities
                (put_entities (put_entities w7 x.2.1.found) x.2.2.1.found) mc
                { found := cleanup_sdr_info x.2.1.found, dlrs := dlrs })) := by
  obtain ⟨h1, h2⟩ := scan_of_prepare_ok w mc c env dlrs x h
  obtain ⟨rv, w6, h3⟩ := commit_new_total env (x.2.1.dlrs.zip x.2.1.found) 0 x.1
    (commit_old (x.2.2.1.dlrs.zip x.2.2.1.found) x.2.2.2) h1
  refine ⟨h1, rv, w6, h3, ?_⟩
  rw [h2, h3]
  simp only
  cases notify_new x.2.1.found w6 <;> rfl

set_option maxRecDepth 100000 in
/-- Witness for C33: the first scan, by the empty registry, of a directory
with two association records of 8.1 that list 5.1 and 5.2 and the locator
record of 7.1.  The pool holds four entries, the commit makes two
`add_child` calls and uses the pool up. -/
theorem C33_entry_pool_suffices_witness :
    scan_prepare (World.empty 1) 5 (fun _ _ => 1)
        [list_ear 8 1 5 1, list_ear 8 1 5 2, generic_dlr 7 1] = .ok stocked
    ∧ stocked.1 = 4
    ∧ commit_adds (stocked.2.1.dlrs.zip stocked.2.1.found) = 2
    ∧ (2 * commit_adds (stocked.2.1.dlrs.zip stocked.2.1.found) ≤ stocked.1
      ∧ ∃ rv w6,
          commit_new mc_env_ok (stocked.2.1.dlrs.zip stocked.2.1.found) 0 stocked.1
            (commit_old (stocked.2.2.1.dlrs.zip stocked.2.2.1.found) stocked.2.2.2)
            = some (rv, stocked.1 - 2 * commit_adds (stocked.2.1.dlrs.zip stocked.2.1.found), w6)
          ∧ ipmi_entity_scan_sdrs (World.empty 1) 5 (fun _ _ => 1) mc_env_ok
              [list_ear 8 1 5 1, list_ear 8 1 5 2, generic_dlr 7 1]
            = (notify_new stocked.2.1.found w6).map (fun w7 =>
                (rv, _ipmi_set_sdr_entities
                  (put_entities (put_entities w7 stocked.2.1.found) stocked.2.2.1.found) 5
                  { found := cleanup_sdr_info stocked.2.1.found,
                    dlrs := [list_ear 8 1 5 1, list_ear 8 1 5 2, generic_dlr 7 1] }))) :=
  ⟨by rfl, by decide, by decide,
    C33_entry_pool_suffices (World.empty 1) 5 (fun _ _ => 1) mc_env_ok
      [list_ear 8 1 5 1, list_ear 8 1 5 2, generic_dlr 7 1] stocked (by rfl)⟩

set_option maxRecDepth 100000 in
/-- C34 (the code departs from the claim): the empty registry scans a
directory with the locator record of 7.1 followed by two association
records of 7.1, which list 5.1 and 5.2.  The call returns 0; 5.1 is a child
of 7.1, but 5.2, created at address 2, is no child of 7.1 and is deleted
again before the call returns.  With the directory that lists 4.1 under
3.1, then holds the locator record of 7.1 and then lists 5.1 under 7.1, the
call returns 0 and 5.1 is a child of 3.1 and not of 7.1.  A directory with
the locator record and one association record of 7.1 gives the edge in
both directions. -/
theorem C34_later_association_children_lost :
    crowded_scan.map (fun r => (r.1, r.2.entities)) = some (0, [0, 1])
    ∧ crowded_scan.map (fun r => [key_at r.2 0, key_at r.2 1, key_at r.2 2])
        = some [some [0, 0, 7, 1], some [0, 0, 5, 1], none]
    ∧ crowded_scan.map (fun r => (children_at r.2 0, parents_at r.2 1))
        = some (some [1], some [0])
    ∧ crowded_scan.map (fun r => r.2.events.filter (fun x => decide (x.2 = 2)))
        = some [(IPMI_ADDED, 2), (IPMI_CHANGED, 2), (IPMI_DELETED, 2)]
    ∧ misfiled_scan.map (fun r => (r.1, r.2.entities)) = some (0, [0, 1, 2, 3])
    ∧ misfiled_scan.map (fun r => [key_at r.2 0, key_at r.2 1, key_at r.2 2, key_at r.2 3])
        = some [some [0, 0, 3, 1], some [0, 0, 4, 1], some [0, 0, 7, 1], some [0, 0, 5, 1]]
    ∧ misfiled_scan.map (fun r => (children_at r.2 2, parents_at r.2 3, children_at r.2 0))
        = some (some [], some [0], some [1, 3])
    ∧ paired_scan.map (fun r => (r.1, children_at r.2 0, parents_at r.2 1, key_at r.2 1))
        = some (0, some [1], some [0], some [0, 0, 5, 1]) := by
  decide

set_option maxRecDepth 100000 in
/-- C35 (the code departs from the claim): the scan of a directory whose
only record has entity id 0 has no result, for every comparison and every
management controller layer: `fill_in_entities` leaves the slot without
entity and not found, the commit loop skips it, and the notification loop
calls `call_entity_update_handlers` on the NULL entity.  The same holds
when a locator record of 7.1 follows the record. -/
theorem C35_null_subject_notified :
    (∀ (c : Nat → Nat → Int) (env : Nat → Nat → mc_reply_t),
      ipmi_entity_scan_sdrs (World.empty 1) 5 c env [generic_dlr 0 1] = none)
    ∧ (∀ (c : Nat → Nat → Int) (env : Nat → Nat → mc_reply_t),
      ipmi_entity_scan_sdrs (World.empty 1) 5 c env [generic_dlr 0 1, generic_dlr 7 1] = none)
    ∧ anonymous_found.map (fun f => (f.found, f.ent)) = [(false, none), (false, some 0)]
    ∧ (∀ (env : Nat → Nat → mc_reply_t) (w : World),
        (commit_new env ([generic_dlr 0 1].zip (anonymous_found.take 1)) 0 0 w).map
          (fun r => r.2.2) = some w)
    ∧ (∀ w : World, notify_new anonymous_found w = none) := by
  refine ⟨?_, ?_, by decide, ?_, ?_⟩
  · intro c env
    unfold ipmi_entity_scan_sdrs
    simp only [match_loop_empty_old]
    rfl
  · intro c env
    unfold ipmi_entity_scan_sdrs
    simp only [match_loop_empty_old]
    rfl
  · intro env w
    rfl
  · intro w
    rfl

set_option maxRecDepth 100000 in
/-- C36 (the code departs from the claim): entity 7.1 is in the registry
with usecount 1.  The scan of a directory with three association records
of 7.1 returns 0 and gives 7.1 its three children, and 7.1 is left with
usecount 2.  When the allocation of the third child fails, the scan
returns ENOMEM, 7.1 has no child, and 7.1 is left with usecount 2 as well.
The scan of a directory with one association record of 7.1 leaves the
usecount at 1. -/
theorem C36_found_slot_pin_leaks :
    usecount_at keeper 0 = some 1
    ∧ key_at keeper 0 = some [0, 0, 7, 1]
    ∧ tripled_scan.map (fun r => (r.1, r.2.entities)) = some (0, [0, 1, 2, 3])
    ∧ tripled_scan.map (fun r => (children_at r.2 0, key_at r.2 0))
        = some (some [1, 3, 2], some [0, 0, 7, 1])
    ∧ tripled_scan.map (fun r => usecount_at r.2 0) = some (some 2)
    ∧ tripled_scan.map (fun r => [usecount_at r.2 1, usecount_at r.2 2, usecount_at r.2 3])
        = some [some 0, some 0, some 0]
    ∧ (fill_in_entities keeper
        { found := [found_zero, found_zero, found_zero], dlrs := tripled_dlrs }).2.1.found.map
          (fun f => (f.found, f.ent, f.cent))
        = [(false, some 0, [1, 3]), (false, some 0, [2]), (true, some 0, [])]
    ∧ tripled_starved.map (fun r => (r.1, r.2.entities, children_at r.2 0))
        = some (ENOMEM, [0], some [])
    ∧ tripled_starved.map (fun r => usecount_at r.2 0) = some (some 2)
    ∧ single_scan.map (fun r => (r.1, usecount_at r.2 0, children_at r.2 0))
        = some (0, some 1, some [1]) := by
  decide

/-- C37: the state `w` is reached from a state `w0` with symmetric parent
and child sets by a sequence of the operations `entity_add`,
`_ipmi_entity_get`, `_ipmi_entity_put`, `ipmi_entity_add_child` on two
addresses that hold entities, `ipmi_entity_remove_child`,
`ipmi_entity_scan_sdrs` and `ipmi_sdr_entity_destroy`.  Then `c` occurs in
the child set of `p` as many times as `p` occurs in the parent set of
`c`. -/
theorem C37_edges_symmetric (w0 : World) (ops : List family_op) (w : World)
    (h0 : symmetric w0) (hrun : family_run w0 ops = some w) (p c : Nat) :
    (child_list w p).count c = (parent_list w c).count p :=
  family_run_symmetric ops w0 w h0 hrun p c

set_option maxRecDepth 100000 in
/-- Witness for C37: the operations `kin_ops` on the empty registry.  After
the first scan 7.1 has the children 5.1 and 5.2, after the second scan
5.1 has the child 7.1 and 7.1 has none, and after the destruction of the
scan state no edge is left; the sets are symmetric in the final state. -/
theorem C37_edges_symmetric_witness :
    symmetric (World.empty 1)
    ∧ family_run (World.empty 1) kin_ops = some kin_end
    ∧ (∀ p c, (child_list kin_end p).count c = (parent_list kin_end c).count p)
    ∧ [child_list kin_mid 0, parent_list kin_mid 1, parent_list kin_mid 2]
        = [[1, 2], [0], [0]]
    ∧ [child_list kin_late 0, child_list kin_late 1, parent_list kin_late 0,
        parent_list kin_late 1] = [[], [0], [1], []]
    ∧ [child_list kin_end 0, child_list kin_end 1, parent_list kin_end 0,
        parent_list kin_end 1] = [[], [], [], []] :=
  ⟨symmetric_empty 1, by rfl,
    C37_edges_symmetric (World.empty 1) kin_ops kin_end (symmetric_empty 1) (by rfl),
    by decide, by decide, by decide⟩

set_option maxRecDepth 100000 in
/-- C38 (the code departs from the claim): `event_is_request` is the test
of `hot_swap_requester_changed` and `poll_is_request` the test of
`requester_checked`.  For the requesting value 1 the two agree on every
event: the event is taken for a request exactly when the bit after it is
set.  For the requesting value 0 they differ on every entity: after a
deassertion the bit is clear, which the poll takes for a request and the
event handler does not; the event handler takes no event for a request.
On the inactive entity 1.1 with the requester 63 (requesting value 0) the
deassertion at offset 3 moves the state to ActivationRequested, while the
poll answered with the bit clear leaves it Inactive; the assertion and
the poll answered with the bit set both move it to
ActivationRequested. -/
theorem C38_event_never_requests_for_value_zero :
    (∀ (ent : ipmi_entity_t) (dir : ipmi_event_dir_e),
      event_is_request { ent with hot_swap_requesting_val := 1 } dir
        = poll_is_request { ent with hot_swap_requesting_val := 1 }
            (states_after ent.hot_swap_offset dir))
    ∧ (∀ (ent : ipmi_entity_t) (dir : ipmi_event_dir_e),
      event_is_request { ent with hot_swap_requesting_val := 0 } dir = false)
    ∧ (∀ ent : ipmi_entity_t,
      poll_is_request { ent with hot_swap_requesting_val := 0 }
        (states_after ent.hot_swap_offset IPMI_DEASSERTION) = true)
    ∧ (deref polar_inactive 0).map (fun e => [e.hot_swap_offset, e.hot_swap_requesting_val])
        = some [3, 0]
    ∧ table_at polar_inactive 0 = some (1, internal_hs_cb)
    ∧ hs_state_at polar_inactive 0 = some IPMI_HOT_SWAP_INACTIVE
    ∧ hs_state_at (hot_swap_requester_changed polar_inactive 0 IPMI_DEASSERTION 3).2 0
        = some IPMI_HOT_SWAP_ACTIVATION_REQUESTED
    ∧ hs_state_at (requester_checked polar_inactive 0 0 (states_after 3 IPMI_DEASSERTION)) 0
        = some IPMI_HOT_SWAP_INACTIVE
    ∧ hs_state_at (hot_swap_requester_changed polar_inactive 0 IPMI_ASSERTION 3).2 0
        = some IPMI_HOT_SWAP_ACTIVATION_REQUESTED
    ∧ hs_state_at (requester_checked polar_inactive 0 0 (states_after 3 IPMI_ASSERTION)) 0
        = some IPMI_HOT_SWAP_ACTIVATION_REQUESTED := by
  refine ⟨?_, ?_, ?_, by decide, by decide, by decide, by decide, by decide, by decide,
    by decide⟩
  · intro ent dir
    cases dir <;>
      simp [event_is_request, poll_is_request, states_after, state_is, ipmi_is_state_set]
  · intro ent dir
    simp [event_is_request]
  · intro ent
    simp [poll_is_request, states_after, state_is, ipmi_is_state_set]

set_option maxRecDepth 100000 in
/-- C39 (the code departs from the claim): entity 1.1 uses the built-in
table, has the power control 30 and the requester 62, is not present and
in NotPresent.  The reply to the power query that attaching the control
sent (`power_checked`) moves it to Active or Inactive.
`ipmi_entity_check_hot_swap_state` sends a power query; its reply
(`check_power`) sends a requester query, and the reply to that
(`check_requester`) moves the entity to Active, DeactivationRequested,
ActivationRequested or Inactive.  Without a power control the check
queries the requester and the reply moves the entity to Active.  The
entity is not present all along.  A value event of the power control, an
event of the requester and the reply to a requester query sent by
`power_checked` leave the state of every entity that is in NotPresent and
not present as it is. -/
theorem C39_replies_move_absent_entity :
    devices_at bay 0 = some (some 30, some 62, none)
    ∧ table_at bay 0 = some (1, internal_hs_cb)
    ∧ (hs_state_at bay 0, present_at bay 0) = (some IPMI_HOT_SWAP_NOT_PRESENT, some false)
    ∧ ({ req := .control_get_val 30, cb := .power_checked, ent := 0 } : request_t)
        ∈ bay.trace.requests
    ∧ (hs_state_at (power_checked bay 0 0 1) 0, present_at (power_checked bay 0 0 1) 0)
        = (some IPMI_HOT_SWAP_ACTIVE, some false)
    ∧ (hs_state_at (power_checked bay 0 0 0) 0, present_at (power_checked bay 0 0 0) 0)
        = (some IPMI_HOT_SWAP_INACTIVE, some false)
    ∧ ipmi_entity_check_hot_swap_state bay 0
        = (0, { bay with trace := { bay.trace with requests := bay.trace.requests
            ++ [{ req := .control_get_val 30, cb := .check_power, ent := 0 }] } })
    ∧ (check_power bay_checked 0 0 1).trace.requests = bay_checked.trace.requests
        ++ [{ req := .states_get 62, cb := .check_requester, ent := 0 }]
    ∧ [check_requester (check_power bay_checked 0 0 1) 0 0 1 {},
        check_requester (check_power bay_checked 0 0 1) 0 0 1 { set := [3] },
        check_requester (check_power bay_checked 0 0 0) 0 0 0 {},
        check_requester (check_power bay_checked 0 0 0) 0 0 0 { set := [3] }].map
          (fun w => (hs_state_at w 0, present_at w 0))
        = [(some IPMI_HOT_SWAP_ACTIVE, some false),
            (some IPMI_HOT_SWAP_DEACTIVATION_REQUESTED, some false),
            (some IPMI_HOT_SWAP_ACTIVATION_REQUESTED, some false),
            (some IPMI_HOT_SWAP_INACTIVE, some false)]
    ∧ (hs_state_at socket 0, present_at socket 0) = (some IPMI_HOT_SWAP_NOT_PRESENT, some false)
    ∧ (ipmi_entity_check_hot_swap_state socket 0).2.trace.requests = socket.trace.requests
        ++ [{ req := .states_get 62, cb := .check_requester, ent := 0 }]
    ∧ (hs_state_at (check_requester (ipmi_entity_check_hot_swap_state socket 0).2 0 0 1 {}) 0,
        present_at (check_requester (ipmi_entity_check_hot_swap_state socket 0).2 0 0 1 {}) 0)
        = (some IPMI_HOT_SWAP_ACTIVE, some false)
    ∧ (∀ (w : World) (p : Nat) (ent : ipmi_entity_t) (valid_val val : Int),
        deref w p = some { ent with present := false } →
          hot_swap_power_changed w p valid_val val = (0, w))
    ∧ (∀ (w : World) (p : Nat) (ent : ipmi_entity_t) (dir : ipmi_event_dir_e) (offset : Int),
        deref w p = some { ent with hot_swap_state := IPMI_HOT_SWAP_NOT_PRESENT } →
          hot_swap_requester_changed w p dir offset = (0, w))
    ∧ (∀ (w : World) (p : Nat) (ent : ipmi_entity_t) (err : Nat) (states : ipmi_states_t),
        deref w p = some { ent with hot_swap_state := IPMI_HOT_SWAP_NOT_PRESENT } →
          requester_checked w p err states = w) := by
  refine ⟨by decide, by decide, by decide, by decide, by decide, by decide, by decide,
    by decide, by decide, by decide, by decide, by decide, ?_, ?_, ?_⟩
  · intro w p ent valid_val val hd
    unfold hot_swap_power_changed
    rw [hd]
    simp
  · intro w p ent dir offset hd
    unfold hot_swap_requester_changed
    rw [hd]
    simp only
    split
    · rfl
    · split <;> rfl
  · intro w p ent err states hd
    unfold requester_checked
    rw [hd]
    simp only
    split
    · rfl
    · split <;> rfl

set_option maxRecDepth 100000 in
/-- C40 (the code departs from the claim): for an entity whose id is of
type ASCII and a buffer of length 0, `ipmi_entity_get_id` returns -1 and
its only write is a NUL at index -1, the byte before the buffer.  For a
buffer length of at least 1 and an id length within `int` every write is
inside the buffer, the value returned is not negative and not larger than
the id length or the buffer length, and for an id of type ASCII the last
write is a NUL at the index returned.  For an id of another type and a
buffer length of 0 nothing is written and 0 is returned. -/
theorem C40_zero_length_writes_before_buffer :
    (∀ ent : ipmi_entity_t,
      ipmi_entity_get_id
        { ent with info := { ent.info with id_type := IPMI_ASCII_STR } } 0 = (-1, [(-1, 0)]))
    ∧ ipmi_entity_get_id named_ent 0 = (-1, [(-1, 0)])
    ∧ ipmi_entity_get_id named_ent 2 = (1, [(0, 97), (1, 98), (1, 0)])
    ∧ ipmi_entity_get_id named_ent 3 = (2, [(0, 97), (1, 98), (2, 0)])
    ∧ (∀ (ent : ipmi_entity_t) (length : Int), 1 ≤ length → length < 2147483648 →
        ent.info.id_len < 2147483648 →
        (∀ x ∈ (ipmi_entity_get_id ent length).2, 0 ≤ x.1 ∧ x.1 < length)
        ∧ 0 ≤ (ipmi_entity_get_id ent length).1
        ∧ (ipmi_entity_get_id ent length).1 ≤ ent.info.id_len
        ∧ (ipmi_entity_get_id ent length).1 ≤ length
        ∧ (ent.info.id_type = IPMI_ASCII_STR →
            (ipmi_entity_get_id ent length).2.getLast?
              = some ((ipmi_entity_get_id ent length).1, 0)))
    ∧ (∀ ent : ipmi_entity_t, ent.info.id_type ≠ IPMI_ASCII_STR →
        ipmi_entity_get_id ent 0 = (0, [])) := by
  exact ⟨get_id_zero_ascii, by decide, by decide, by decide, get_id_in_bounds,
    get_id_zero_other⟩

end OpenIPMI
